import Mathlib

/-!
# Starfall Survivors (SCC-Jam-2025): the per-frame simulation of `src/main.cpp`

A shallow embedding of the simulation core of `main.cpp` and theorems about it.

Conventions of the embedding

* `float` values are elements of an arbitrary linearly ordered field `K` with a floor
  function (exact arithmetic; `K = ℚ` is used to evaluate the model, `K = ℝ` is the ideal
  reading).  `sqrtf` is a parameter of the model (`Env.sqrtf`), never assumed to be exact.
  The countdown and the reset of the fire timer round their result with `Env.fl`; `f32` is
  the rounding to binary32 on `ℚ`.
* `int` values are `Int`; loop counters and container positions are `Nat`.
* The locals of `main` that the simulation lambdas capture by reference are the fields of
  `Game`.  `std::vector` reads outside the vector are undefined behaviour in the source; the
  embedding reads a default there, and every theorem that depends on such a read carries the
  size hypothesis that excludes it.  The unit loop, the enemy loop and the rock reassignment
  are given a second time with every index checked (the functions named `...Opt`), and are
  proved to have the result of the plain ones.
* raylib's `GetRandomValue` is modelled on a raw random stream `Env.rand`; the number of
  calls made so far is the field `Game.randCalls`.
* Rendering, camera, textures and the cosmetic particle list are not part of the model.
* Of the input handling, the selection by number keys and the orders of the right mouse
  button are modelled, with their points in world coordinates; `simFrame` is the part of the
  loop body from the computation of `dt` (line 826) on.
-/

namespace Starfall

/-! ## Data model (`main.cpp` lines 11-131) -/

inductive Difficulty where
  | DIFF_CASUAL
  | DIFF_NORMAL
  | DIFF_HARD
  deriving DecidableEq, Repr

inductive UnitType where
  | UNIT_RIFLE
  | UNIT_SHOTGUN
  | UNIT_SNIPER
  | UNIT_HEAVY
  | UNIT_ROCKET
  | UNIT_HEALER
  deriving DecidableEq, Repr

inductive EnemyType where
  | ENEMY_GRUNT
  | ENEMY_FAST
  | ENEMY_TANK
  | ENEMY_SHOOTER
  | ENEMY_SIEGE
  deriving DecidableEq, Repr

/-- The `struct Unit` of the source (the texture handle is omitted). -/
structure Unit (K : Type) where
  x : Int
  y : Int
  width : Int
  height : Int
  speed : Int
  selected : Bool
  moving : Bool
  targetX : Int
  targetY : Int
  fx : K
  fy : K
  type : UnitType
  hp : Int
  maxHp : Int
  fireRate : K
  range : K
  damage : Int
  healRate : K
  showHp : Bool

/-- The `struct EnemyNPC` of the source. -/
structure EnemyNPC (K : Type) where
  x : Int
  y : Int
  width : Int
  height : Int
  hp : Int
  maxHp : Int
  showHp : Bool
  alive : Bool
  fx : K
  fy : K
  moveSpeed : K
  detectionRange : K
  attackRange : K
  shipDetectionRange : K
  attackDamage : K
  attackCooldown : K
  timeSinceLastAttack : K
  targetUnitIndex : Int
  type : EnemyType
  prioritizeShip : Bool
  avoidUnitsRange : K

/-- The `struct Bullet` of the source. -/
structure Bullet (K : Type) where
  x : K
  y : K
  vx : K
  vy : K
  speed : K
  damage : Int
  unitIndex : Int
  active : Bool

/-- The `struct Rock` of the source. -/
structure Rock where
  x : Int
  y : Int
  width : Int
  height : Int
  hp : Int
  maxHp : Int
  alive : Bool
  showHp : Bool
  scrapMin : Int
  scrapMax : Int

/-- The `struct Ship` of the source. -/
structure Ship (K : Type) where
  x : K
  y : K
  width : Int
  height : Int
  hp : Int
  maxHp : Int
  hullIntegrity : Int
  maxHullIntegrity : Int
  shielding : Int
  maxShielding : Int
  engines : Int
  maxEngines : Int
  lifeSupportSystems : Int
  maxLifeSupportSystems : Int
  isComplete : Bool

/-- The `struct UpgradeShop` of the source. -/
structure UpgradeShop where
  scrapMetal : Int
  hullUpgradeCost : Int
  shieldingUpgradeCost : Int
  engineUpgradeCost : Int
  lifeSupportUpgradeCost : Int

/-- What the model takes from outside the repository: libm's `sqrtf`, the raw random stream
behind raylib's `GetRandomValue`, and `fl`, the rounding of an arithmetic result to the
`float` format.  The model applies `fl` to the arithmetic of the fire timer (lines 884, 965
and 1031), where the rounding decides whether a unit fires in a frame; with `fl x = x` that
arithmetic is exact. -/
structure Env (K : Type) where
  sqrtf : K → K
  rand : Nat → Nat
  fl : K → K

/-- The locals of `main` that the simulation reads and writes (lines 159-161, 169, 232,
277-289, 311-322, 365-370). -/
structure Game (K : Type) where
  difficulty : Difficulty
  currentWave : Int
  enemiesAlive : Int
  units : List (Unit K)
  enemies : List (EnemyNPC K)
  bullets : List (Bullet K)
  rocks : List Rock
  playerShip : Ship K
  shop : UpgradeShop
  unitAttacking : List Bool
  unitTargetEnemy : List Int
  unitFireTimer : List K
  unitAreaAttack : List Bool
  unitAreaTargets : List (List Int)
  unitHealFraction : List K
  unitAssignedRock : List Int
  rockAssignmentDirty : Bool
  timeScale : K
  isPaused : Bool
  inIntermission : Bool
  intermissionTime : K
  randCalls : Nat

section Model

variable {K : Type} [LinearOrderedField K] [FloorRing K]

/-- `Unit u{}`: the default member initialisers of `struct Unit`. -/
def Unit.init : Unit K :=
  { x := 0, y := 0, width := 0, height := 0, speed := 0, selected := false, moving := false,
    targetX := 0, targetY := 0, fx := 0, fy := 0, type := UnitType.UNIT_RIFLE, hp := 100,
    maxHp := 100, fireRate := 1, range := 100, damage := 10, healRate := 0, showHp := false }

/-- `EnemyNPC e{}`: the default member initialisers of `struct EnemyNPC`. -/
def EnemyNPC.init : EnemyNPC K :=
  { x := 0, y := 0, width := 0, height := 0, hp := 1, maxHp := 1, showHp := false,
    alive := true, fx := 0, fy := 0, moveSpeed := 120, detectionRange := 450,
    attackRange := 100, shipDetectionRange := 12000, attackDamage := 15, attackCooldown := 2,
    timeSinceLastAttack := 0, targetUnitIndex := -1, type := EnemyType.ENEMY_GRUNT,
    prioritizeShip := false, avoidUnitsRange := 0 }

/-- `Bullet b{}`. -/
def Bullet.init : Bullet K :=
  { x := 0, y := 0, vx := 0, vy := 0, speed := 0, damage := 10, unitIndex := -1,
    active := true }

/-- `Rock r{}`. -/
def Rock.init : Rock :=
  { x := 0, y := 0, width := 0, height := 0, hp := 200, maxHp := 200, alive := true,
    showHp := false, scrapMin := 6, scrapMax := 14 }

instance : Inhabited (Unit K) := ⟨Unit.init⟩
instance : Inhabited (EnemyNPC K) := ⟨EnemyNPC.init⟩
instance : Inhabited (Bullet K) := ⟨Bullet.init⟩
instance : Inhabited Rock := ⟨Rock.init⟩

/-! ## Numeric helpers -/

/-- `lroundf` / `std::round`: round to nearest, halves away from zero. -/
def lroundf (v : K) : Int :=
  if 0 ≤ v then Int.floor (v + 1 / 2) else Int.ceil (v - 1 / 2)

/-- The conversion `(int)v` of a float: truncation towards zero. -/
def truncInt (v : K) : Int :=
  if 0 ≤ v then Int.floor v else Int.ceil v

/-- Division of two `int`s as C++ computes it: the quotient truncated towards zero. -/
def cdiv (a b : Int) : Int := Int.tdiv a b

/-- `ClampVal` (lines 133-134). -/
def ClampVal (v lo hi : Int) : Int :=
  if v < lo then lo else (if v > hi then hi else v)

/-- raylib's `GetRandomValue(min, max)` on the raw value `raw` of the random stream:
the bounds are swapped when `min > max`, the result is `raw % (|max - min| + 1) + min`. -/
def GetRandomValue (raw : Nat) (min max : Int) : Int :=
  let lo := if min > max then max else min
  let hi := if min > max then min else max
  (raw : Int) % (hi - lo + 1) + lo

/-- `MAP_WIDTH` and `MAP_HEIGHT` (lines 140-141), as the `int` the source casts them to. -/
def MAP_WIDTH : Int := 3500
def MAP_HEIGHT : Int := 3500

/-- `ATTACK_RANGE_HYST` (line 357). -/
def ATTACK_RANGE_HYST : K := 12

/-- `BULLET_SPEED` (line 358). -/
def BULLET_SPEED : K := 500

/-- `INTERMISSION_DURATION` (line 370). -/
def INTERMISSION_DURATION : K := 20

/-- The sentinel `1e9f` that starts every nearest-search. -/
def SENTINEL : K := 1000000000

/-! ## `spawnWave` (lines 233-272) -/

/-- `enemyCountScale` of the `switch (difficulty)` in `spawnWave`. -/
def enemyCountScale : Difficulty → K
  | Difficulty.DIFF_CASUAL => 3 / 4
  | Difficulty.DIFF_NORMAL => 1
  | Difficulty.DIFF_HARD => 27 / 20

/-- `enemyStatScale` of the `switch (difficulty)` in `spawnWave`. -/
def enemyStatScale : Difficulty → K
  | Difficulty.DIFF_CASUAL => 17 / 20
  | Difficulty.DIFF_NORMAL => 1
  | Difficulty.DIFF_HARD => 5 / 4

/-- `spawnCount` of `spawnWave`: `(int)std::round(baseCount * enemyCountScale)`, at least 1. -/
def spawnCount (d : Difficulty) (wave : Int) : Int :=
  let baseCount : Int := 8 + wave * 2
  let c : Int := lroundf ((baseCount : K) * (enemyCountScale d : K))
  if c < 1 then 1 else c

/-- One iteration of the spawn loop: the enemy built from the three random draws that start
at position `p` of the stream (side, coordinate along the side, archetype roll). -/
def spawnEnemy (env : Env K) (d : Difficulty) (wave : Int) (p : Nat) : EnemyNPC K :=
  let e : EnemyNPC K := { (EnemyNPC.init : EnemyNPC K) with width := 32, height := 32 }
  let margin : Int := cdiv (max e.width e.height) 2 + 2
  let side := GetRandomValue (env.rand p) 0 3
  let e : EnemyNPC K :=
    if side = 0 then
      { e with x := GetRandomValue (env.rand (p + 1)) margin (MAP_WIDTH - margin), y := margin }
    else if side = 1 then
      { e with x := GetRandomValue (env.rand (p + 1)) margin (MAP_WIDTH - margin),
               y := MAP_HEIGHT - margin }
    else if side = 2 then
      { e with x := margin, y := GetRandomValue (env.rand (p + 1)) margin (MAP_HEIGHT - margin) }
    else
      { e with x := MAP_WIDTH - margin,
               y := GetRandomValue (env.rand (p + 1)) margin (MAP_HEIGHT - margin) }
  let e : EnemyNPC K := { e with fx := (e.x : K), fy := (e.y : K) }
  let roll := GetRandomValue (env.rand (p + 2)) 0 99
  let s : K := enemyStatScale d
  let e : EnemyNPC K :=
    if roll < 50 then
      { e with type := EnemyType.ENEMY_GRUNT, moveSpeed := 110, attackRange := 65,
               attackDamage := 10, attackCooldown := 9 / 5,
               hp := truncInt (((70 + wave * 4 : Int) : K) * s),
               maxHp := truncInt (((70 + wave * 4 : Int) : K) * s) }
    else if roll < 78 then
      { e with type := EnemyType.ENEMY_FAST, moveSpeed := 180, attackRange := 45,
               attackDamage := 7, attackCooldown := 7 / 5,
               hp := truncInt (((50 + wave * 3 : Int) : K) * s),
               maxHp := truncInt (((50 + wave * 3 : Int) : K) * s) }
    else if roll < 92 then
      { e with type := EnemyType.ENEMY_TANK, moveSpeed := 75, attackRange := 80,
               attackDamage := 18, attackCooldown := 12 / 5,
               hp := truncInt (((160 + wave * 10 : Int) : K) * s),
               maxHp := truncInt (((160 + wave * 10 : Int) : K) * s) }
    else if roll < 98 then
      { e with type := EnemyType.ENEMY_SHOOTER, moveSpeed := 100, attackRange := 260,
               attackDamage := 8, attackCooldown := 19 / 10,
               hp := truncInt (((60 + wave * 5 : Int) : K) * s),
               maxHp := truncInt (((60 + wave * 5 : Int) : K) * s) }
    else
      { e with type := EnemyType.ENEMY_SIEGE, moveSpeed := 65, attackRange := 380,
               attackDamage := 10, attackCooldown := 3,
               hp := truncInt (((55 + wave * 5 : Int) : K) * s),
               maxHp := truncInt (((55 + wave * 5 : Int) : K) * s),
               prioritizeShip := true, avoidUnitsRange := 200 }
  { e with detectionRange := 380 + ((wave : Int) : K) * 10, showHp := false, alive := true }

/-- The loop `for (int i = 0; i < spawnCount; ++i)` of `spawnWave`, `n` iterations left. -/
def spawnLoop (env : Env K) (d : Difficulty) (wave : Int) : Nat → Game K → Game K
  | 0, s => s
  | n + 1, s =>
      spawnLoop env d wave n
        { s with enemies := s.enemies ++ [spawnEnemy env d wave s.randCalls],
                 randCalls := s.randCalls + 3 }

/-- The lambda `spawnWave` (lines 233-272). -/
def spawnWave (env : Env K) (wave : Int) (s : Game K) : Game K :=
  spawnLoop env s.difficulty wave (spawnCount (K := K) s.difficulty wave).toNat s

/-! ## Geometry helpers -/

/-- `ucx = u.fx + u.width/2.0f`: the x coordinate of a unit's centre. -/
def Unit.cx (u : Unit K) : K := u.fx + (u.width : K) / 2

/-- `ucy = u.fy + u.height/2.0f`: the y coordinate of a unit's centre. -/
def Unit.cy (u : Unit K) : K := u.fy + (u.height : K) / 2

/-- `sqrtf(dx*dx + dy*dy)` with `dx = (float)r.x - ucx`, `dy = (float)r.y - ucy`: the distance
from a unit's centre to a rock, as every rock search computes it. -/
def rockDist (env : Env K) (u : Unit K) (r : Rock) : K :=
  let dx : K := (r.x : K) - u.cx
  let dy : K := (r.y : K) - u.cy
  env.sqrtf (dx * dx + dy * dy)

/-- `sqrtf(dx*dx + dy*dy)` with `dx = (float)e.x - ucx`, `dy = (float)e.y - ucy`: the distance
from a unit's centre to an enemy, as every enemy search of the unit loop computes it. -/
def enemyDist (env : Env K) (u : Unit K) (e : EnemyNPC K) : K :=
  let dx : K := (e.x : K) - u.cx
  let dy : K := (e.y : K) - u.cy
  env.sqrtf (dx * dx + dy * dy)

/-- The unit at position `i` of `units`. -/
def Game.unit (s : Game K) (i : Nat) : Unit K := s.units.getD i default

/-- Writes through the reference `Unit &u = units[i]`. -/
def Game.setUnit (s : Game K) (i : Nat) (u : Unit K) : Game K :=
  { s with units := s.units.set i u }

/-! ## `recomputeRockAssignments` (lines 323-355) -/

/-- Lines 324-325: the indices of the living rocks from position `ri` on, in index order. -/
def aliveRocksFrom : List Rock → Nat → List Nat
  | [], _ => []
  | r :: rs, ri =>
      if r.alive then ri :: aliveRocksFrom rs (ri + 1) else aliveRocksFrom rs (ri + 1)

/-- The vector `aliveRocks` of `recomputeRockAssignments`. -/
def aliveRocks (rocks : List Rock) : List Nat := aliveRocksFrom rocks 0

/-- Lines 329-337: the search of round one, over the living rocks not yet `used`;
the result is `(bestR, bestD)`. -/
def nearestFreeRock (env : Env K) (rocks : List Rock) (used : List Bool) (u : Unit K)
    (alive : List Nat) : Int × K :=
  alive.foldl
    (fun best ri =>
      if used.getD ri false then best
      else
        let d := rockDist env u (rocks.getD ri default)
        if d < best.2 then ((ri : Int), d) else best)
    (-1, SENTINEL)

/-- Lines 344-351: the search of round two, over all living rocks; the result is
`(bestR, bestD)`. -/
def nearestRock (env : Env K) (rocks : List Rock) (u : Unit K) (alive : List Nat) : Int × K :=
  alive.foldl
    (fun best ri =>
      let d := rockDist env u (rocks.getD ri default)
      if d < best.2 then ((ri : Int), d) else best)
    (-1, SENTINEL)

/-- Lines 328-339: the body of the first loop over the units, on `(used, unitAssignedRock)`. -/
def assignRound1Step (env : Env K) (s : Game K) (alive : List Nat)
    (acc : List Bool × List Int) (ui : Nat) : List Bool × List Int :=
  let u := s.unit ui
  if u.type = UnitType.UNIT_HEALER then (acc.1, acc.2.set ui (-1))
  else
    let bestR := (nearestFreeRock env s.rocks acc.1 u alive).1
    if bestR ≠ -1 then (acc.1.set bestR.toNat true, acc.2.set ui bestR)
    else (acc.1, acc.2.set ui (-1))

/-- Lines 342-352: the body of the second loop over the units, on `unitAssignedRock`. -/
def assignRound2Step (env : Env K) (s : Game K) (alive : List Nat)
    (table : List Int) (ui : Nat) : List Int :=
  let u := s.unit ui
  if u.type = UnitType.UNIT_HEALER then table
  else if table.getD ui (-1) ≠ -1 then table
  else table.set ui (nearestRock env s.rocks u alive).1

/-- The first loop of `recomputeRockAssignments`: `(used, unitAssignedRock)` after it. -/
def assignRound1 (env : Env K) (s : Game K) : List Bool × List Int :=
  (List.range s.units.length).foldl (assignRound1Step env s (aliveRocks s.rocks))
    (List.replicate s.rocks.length false, s.unitAssignedRock)

/-- The lambda `recomputeRockAssignments` (lines 323-355). -/
def recomputeRockAssignments (env : Env K) (s : Game K) : Game K :=
  let table2 := (List.range s.units.length).foldl
    (assignRound2Step env s (aliveRocks s.rocks)) (assignRound1 env s).2
  { s with unitAssignedRock := table2, rockAssignmentDirty := false }

/-! ## The unit loop (lines 882-1076) -/

/-- Line 884: the fire timer of unit `i` counts down by `dt`, not below zero. -/
def tickFireTimer (env : Env K) (dt : K) (i : Nat) (s : Game K) : Game K :=
  let t := s.unitFireTimer.getD i 0
  if t > 0 then
    let t1 := env.fl (t - dt)
    { s with unitFireTimer := s.unitFireTimer.set i (if t1 < 0 then 0 else t1) }
  else s

/-- The predicate of the `remove_if` of lines 894 and 979: the index is outside the enemy list
or names a dead enemy. -/
def staleTarget (enemies : List (EnemyNPC K)) (idx : Int) : Bool :=
  decide (idx < 0) || decide (idx ≥ (enemies.length : Int)) ||
    !(enemies.getD idx.toNat default).alive

/-- Lines 896-903 and 982-989: the `used` flags, one per enemy, set for the living targets
that the other area-attacking, committed units hold. -/
def claimedByOthers (s : Game K) (i : Nat) : List Bool :=
  (List.range s.units.length).foldl
    (fun used j =>
      if j = i then used
      else if s.unitAreaAttack.getD j false && s.unitAttacking.getD j false then
        let tj := s.unitTargetEnemy.getD j (-1)
        if tj ≥ 0 ∧ tj < (s.enemies.length : Int) ∧ (s.enemies.getD tj.toNat default).alive
        then used.set tj.toNat true
        else used
      else used)
    (List.replicate s.enemies.length false)

/-- Lines 904-910: the nearest captured target that no other unit has claimed, as
`(bestI, bestD)`. -/
def nearestUnclaimed (env : Env K) (enemies : List (EnemyNPC K)) (used : List Bool)
    (u : Unit K) (list : List Int) : Int × K :=
  list.foldl
    (fun best t =>
      if t ≥ 0 ∧ t < (enemies.length : Int) ∧ used.getD t.toNat false = false then
        let d := enemyDist env u (enemies.getD t.toNat default)
        if d < best.2 then (t, d) else best
      else best)
    (-1, SENTINEL)

/-- Lines 990-996: the same search as written in the re-acquisition branch (the guard is
`!used[t]` alone). -/
def nearestUnclaimedRe (env : Env K) (enemies : List (EnemyNPC K)) (used : List Bool)
    (u : Unit K) (list : List Int) : Int × K :=
  list.foldl
    (fun best t =>
      if used.getD t.toNat false = false then
        let d := enemyDist env u (enemies.getD t.toNat default)
        if d < best.2 then (t, d) else best
      else best)
    (-1, SENTINEL)

/-- Lines 912-916 and 998-1002: the fallback search over the whole captured list. -/
def nearestCaptured (env : Env K) (enemies : List (EnemyNPC K)) (u : Unit K)
    (list : List Int) : Int × K :=
  list.foldl
    (fun best t =>
      let d := enemyDist env u (enemies.getD t.toNat default)
      if d < best.2 then (t, d) else best)
    (-1, SENTINEL)

/-- Lines 892-922: target acquisition of an area-attacking unit that holds no target. -/
def areaAcquire (env : Env K) (i : Nat) (s : Game K) : Game K :=
  let u := s.unit i
  let list := (s.unitAreaTargets.getD i []).filter (fun idx => !staleTarget s.enemies idx)
  let s : Game K := { s with unitAreaTargets := s.unitAreaTargets.set i list }
  if list ≠ [] then
    let used := claimedByOthers s i
    let bestI := (nearestUnclaimed env s.enemies used u list).1
    let bestI := if bestI = -1 then (nearestCaptured env s.enemies u list).1 else bestI
    if bestI ≠ -1 then
      { s with unitAttacking := s.unitAttacking.set i true,
               unitTargetEnemy := s.unitTargetEnemy.set i bestI }
    else s
  else
    { s with unitAreaAttack := s.unitAreaAttack.set i false }

/-- Lines 924-931: the scan over the living enemies from position `ei` on; the state is
`(nearestEnemy, nearestDist)`. -/
def scanEnemiesFrom (env : Env K) (u : Unit K) :
    List (EnemyNPC K) → Nat → Int × K → Int × K
  | [], _, best => best
  | e :: es, ei, best =>
      if e.alive = false then scanEnemiesFrom env u es (ei + 1) best
      else if enemyDist env u e < best.2 then
        scanEnemiesFrom env u es (ei + 1) ((ei : Int), enemyDist env u e)
      else scanEnemiesFrom env u es (ei + 1) best

/-- The nearest-enemy scan of lines 889-931, from `nearestEnemy = -1`, `nearestDist = 1e9f`. -/
def nearestEnemyScan (env : Env K) (u : Unit K) (enemies : List (EnemyNPC K)) : Int × K :=
  scanEnemiesFrom env u enemies 0 (-1, SENTINEL)

/-- The bullet of a fire event (lines 962-963 and 1028-1029): at the unit's centre, with
velocity `dir * BULLET_SPEED`, where `dir = (dx, dy) * inv` and `inv` is `1/dist` when
`dist > 0.0001f` and `0` otherwise. -/
def fireBullet (u : Unit K) (i : Nat) (dx dy dist : K) : Bullet K :=
  let inv : K := if dist > 1 / 10000 then 1 / dist else 0
  let dirx := dx * inv
  let diry := dy * inv
  { (Bullet.init : Bullet K) with
      x := u.cx, y := u.cy, speed := BULLET_SPEED, vx := dirx * BULLET_SPEED,
      vy := diry * BULLET_SPEED, active := true, damage := u.damage, unitIndex := (i : Int) }

/-- The goal of an approach (lines 949-956 and 1016-1022): the point at distance `range` from
the target `(tx, ty)` on the line to the unit's centre, as the top-left corner the unit is
sent to, with `moving = true`. -/
def approachGoal (u : Unit K) (tx ty dx dy dist : K) : Unit K :=
  let inv : K := if dist > 1 / 10000 then 1 / dist else 0
  let dirx := dx * inv
  let diry := dy * inv
  let desiredCX := tx - dirx * u.range
  let desiredCY := ty - diry * u.range
  { u with targetX := lroundf (desiredCX - (u.width : K) / 2),
           targetY := lroundf (desiredCY - (u.height : K) / 2),
           moving := true }

/-- Lines 938 and 942: `(i < unitAssignedRock.size()) ? unitAssignedRock[i] : -1`. -/
def assignedRockOf (i : Nat) (s : Game K) : Int :=
  if i < s.unitAssignedRock.length then s.unitAssignedRock.getD i (-1) else -1

/-- Lines 937-943: the assignment table is recomputed when it is marked dirty, and once more
when the entry of unit `i` is then still no living rock.  After this step the local
`assigned` of the source is `assignedRockOf i` of the resulting state. -/
def revalidateRock (env : Env K) (i : Nat) (s : Game K) : Game K :=
  let s0 : Game K := if s.rockAssignmentDirty then recomputeRockAssignments env s else s
  let assigned : Int := assignedRockOf i s0
  if assigned < 0 ∨ assigned ≥ (s0.rocks.length : Int) ∨
      (s0.rocks.getD assigned.toNat default).alive = false
  then recomputeRockAssignments env { s0 with rockAssignmentDirty := true }
  else s0

/-- Lines 944-969: with a rock assigned, approach it when it is farther than
`range + ATTACK_RANGE_HYST`, otherwise stop and fire at it when the fire timer has run out. -/
def mineStep (env : Env K) (i : Nat) (s1 : Game K) : Game K :=
  let assigned1 : Int := assignedRockOf i s1
  if assigned1 ≠ -1 then
    let u := s1.unit i
    let rock := s1.rocks.getD assigned1.toNat default
    let dxr : K := (rock.x : K) - u.cx
    let dyr : K := (rock.y : K) - u.cy
    let distR : K := env.sqrtf (dxr * dxr + dyr * dyr)
    if distR > u.range + ATTACK_RANGE_HYST then
      s1.setUnit i (approachGoal u (rock.x : K) (rock.y : K) dxr dyr distR)
    else
      let s2 : Game K :=
        if s1.unitFireTimer.getD i 0 ≤ 0 then
          { s1 with bullets := s1.bullets ++ [fireBullet u i dxr dyr distR],
                    unitFireTimer := s1.unitFireTimer.set i (env.fl (1 / u.fireRate)) }
        else s1
      s2.setUnit i { u with moving := false }
  else s1

/-- Lines 937-969: the mining fallback of a unit that found no enemy in range. -/
def mine (env : Env K) (i : Nat) (s : Game K) : Game K :=
  mineStep env i (revalidateRock env i s)

/-- Lines 923-971: the nearest-enemy scan of a unit that is neither area-attacking nor
committed, the commitment when the nearest enemy is in range, and the mining fallback. -/
def scanOrMine (env : Env K) (i : Nat) (s : Game K) : Game K :=
  let u := s.unit i
  let best := nearestEnemyScan env u s.enemies
  if best.1 ≥ 0 ∧ best.2 ≤ u.range then
    { s with unitAttacking := s.unitAttacking.set i true,
             unitTargetEnemy := s.unitTargetEnemy.set i best.1,
             units := s.units.set i { u with moving := false } }
  else mine env i s

/-- Lines 886-972: the acquisition step of a unit that is not a healer and holds no target. -/
def acquire (env : Env K) (i : Nat) (s : Game K) : Game K :=
  let s1 : Game K := if s.unitAreaAttack.getD i false then areaAcquire env i s else s
  if s1.unitAreaAttack.getD i false = false ∧ s1.unitAttacking.getD i false = false then
    scanOrMine env i s1
  else s1

/-- Lines 978-1006: a unit in area-attack mode that has lost its target prunes its captured
list and commits to the nearest captured target that no other unit has claimed, or to the
nearest one when all are claimed; without a captured target left it leaves area-attack
mode. -/
def reacquire (env : Env K) (i : Nat) (s : Game K) : Game K :=
  let u := s.unit i
  let list := (s.unitAreaTargets.getD i []).filter (fun idx => !staleTarget s.enemies idx)
  let s : Game K := { s with unitAreaTargets := s.unitAreaTargets.set i list }
  if list ≠ [] then
    let used := claimedByOthers s i
    let bestI := (nearestUnclaimedRe env s.enemies used u list).1
    let bestI := if bestI = -1 then (nearestCaptured env s.enemies u list).1 else bestI
    if bestI ≠ -1 then
      { s with unitAttacking := s.unitAttacking.set i true,
               unitTargetEnemy := s.unitTargetEnemy.set i bestI }
    else { s with unitAreaAttack := s.unitAreaAttack.set i false }
  else { s with unitAreaAttack := s.unitAreaAttack.set i false }

/-- Lines 976-1007: the committed target is lost (out of range of the list, or dead): the
commitment is cleared and an area-attacking unit looks for another captured target. -/
def targetLost (env : Env K) (i : Nat) (s : Game K) : Game K :=
  let s : Game K :=
    { s with unitAttacking := s.unitAttacking.set i false,
             unitTargetEnemy := s.unitTargetEnemy.set i (-1),
             units := s.units.set i { s.unit i with moving := false } }
  if s.unitAreaAttack.getD i false then reacquire env i s else s

/-- Lines 1008-1034: the committed target `ti` is alive: approach it when it is farther than
`range + ATTACK_RANGE_HYST`, otherwise stop and fire when the fire timer has run out. -/
def approachOrFire (env : Env K) (i : Nat) (ti : Int) (s : Game K) : Game K :=
  let u := s.unit i
  let e := s.enemies.getD ti.toNat default
  let ecx : K := (e.x : K)
  let ecy : K := (e.y : K)
  let dx := ecx - u.cx
  let dy := ecy - u.cy
  let distToEnemy := env.sqrtf (dx * dx + dy * dy)
  if distToEnemy > u.range + ATTACK_RANGE_HYST then
    s.setUnit i (approachGoal u ecx ecy dx dy distToEnemy)
  else
    let s1 : Game K := s.setUnit i { u with moving := false }
    if s1.unitFireTimer.getD i 0 ≤ 0 then
      { s1 with bullets := s1.bullets ++ [fireBullet u i dx dy distToEnemy],
                unitFireTimer := s1.unitFireTimer.set i (env.fl (1 / u.fireRate)) }
    else s1

/-- Lines 973-1035: the engagement step of a committed unit. -/
def engage (env : Env K) (i : Nat) (s : Game K) : Game K :=
  let ti := s.unitTargetEnemy.getD i (-1)
  if ti < 0 ∨ ti ≥ (s.enemies.length : Int) ∨ (s.enemies.getD ti.toNat default).alive = false
  then targetLost env i s
  else approachOrFire env i ti s

/-- Lines 1038-1048: the healer's search for the nearest wounded non-healer ally, from
position `j` on; the state is `(bestIdx, bestDist)`. -/
def woundedAllyFrom (env : Env K) (i : Nat) (u : Unit K) :
    List (Unit K) → Nat → Int × K → Int × K
  | [], _, best => best
  | ally :: rest, j, best =>
      if j = i then woundedAllyFrom env i u rest (j + 1) best
      else if ally.type = UnitType.UNIT_HEALER then woundedAllyFrom env i u rest (j + 1) best
      else if ally.hp ≥ ally.maxHp then woundedAllyFrom env i u rest (j + 1) best
      else
        let dx := ally.cx - u.cx
        let dy := ally.cy - u.cy
        let d := env.sqrtf (dx * dx + dy * dy)
        if d < best.2 then woundedAllyFrom env i u rest (j + 1) ((j : Int), d)
        else woundedAllyFrom env i u rest (j + 1) best

/-- Lines 1037-1066: a healer walks towards the nearest wounded ally within `MEDIC_SEARCH`
and never holds a combat target. -/
def healerSeek (env : Env K) (i : Nat) (s : Game K) : Game K :=
  let u := s.unit i
  let best := woundedAllyFrom env i u s.units 0 (-1, SENTINEL)
  let s1 : Game K :=
    if best.1 ≠ -1 ∧ best.2 ≤ 1000 then
      let ally := s.unit best.1.toNat
      let acx := ally.cx
      let acy := ally.cy
      let dx := acx - u.cx
      let dy := acy - u.cy
      let len := env.sqrtf (dx * dx + dy * dy)
      let stopDist : K := u.range * (17 / 20)
      if len > stopDist then
        let inv : K := if len > 1 / 10000 then 1 / len else 0
        let tx := acx - dx * inv * stopDist
        let ty := acy - dy * inv * stopDist
        s.setUnit i { u with targetX := lroundf (tx - (u.width : K) / 2),
                             targetY := lroundf (ty - (u.height : K) / 2),
                             moving := true }
      else s.setUnit i { u with moving := false }
    else s
  { s1 with unitAttacking := s1.unitAttacking.set i false,
            unitTargetEnemy := s1.unitTargetEnemy.set i (-1) }

/-- Lines 1068-1075: the steering step of unit `i` and the integer position derived from the
continuous one. -/
def steer (env : Env K) (dt : K) (i : Nat) (s : Game K) : Game K :=
  let u := s.unit i
  let u1 : Unit K :=
    if u.moving then
      let dx : K := (u.targetX : K) - u.fx
      let dy : K := (u.targetY : K) - u.fy
      let dist := env.sqrtf (dx * dx + dy * dy)
      let step : K := (u.speed : K) * dt
      if dist ≤ step ∨ dist < 1 / 2 then
        { u with fx := (u.targetX : K), fy := (u.targetY : K), moving := false }
      else if dist > 0 then
        { u with fx := u.fx + (dx / dist) * step, fy := u.fy + (dy / dist) * step }
      else u
    else u
  s.setUnit i { u1 with x := lroundf u1.fx, y := lroundf u1.fy }

/-- Lines 973-1075: the second half of the loop body for unit `i`: the engagement step, the
healer's walk and the steering step. -/
def unitEngageAndMove (env : Env K) (dt : K) (i : Nat) (s2 : Game K) : Game K :=
  let s3 := if s2.unitAttacking.getD i false then engage env i s2 else s2
  let s4 := if (s3.unit i).type = UnitType.UNIT_HEALER then healerSeek env i s3 else s3
  steer env dt i s4

/-- The body of the unit loop (lines 883-1075) for unit `i`: the fire timer, the acquisition
step of an uncommitted non-healer, then `unitEngageAndMove`. -/
def unitUpdate (env : Env K) (dt : K) (i : Nat) (s : Game K) : Game K :=
  let s1 := tickFireTimer env dt i s
  let s2 :=
    if s1.unitAttacking.getD i false = false ∧ (s1.unit i).type ≠ UnitType.UNIT_HEALER
    then acquire env i s1 else s1
  unitEngageAndMove env dt i s2

/-- The unit loop of lines 882-1076. -/
def unitPass (env : Env K) (dt : K) (s : Game K) : Game K :=
  (List.range s.units.length).foldl (fun acc i => unitUpdate env dt i acc) s

/-! ## The healer loop (lines 1078-1110) -/

/-- Lines 1094-1095: `factor = (maxRange - dist) / maxRange`, raised to 0 when negative. -/
def healFactor (maxRange dist : K) : K :=
  if (maxRange - dist) / maxRange < 0 then 0 else (maxRange - dist) / maxRange

/-- Lines 1085-1108: healer `i` heals ally `j` in proportion to its closeness; whole hit
points are taken out of the ally's accumulated fraction. -/
def healAlly (env : Env K) (dt : K) (i j : Nat) (s : Game K) : Game K :=
  let healer := s.unit i
  if i = j then s
  else
    let ally := s.unit j
    if ally.hp ≥ ally.maxHp then s
    else
      let dx := ally.cx - healer.cx
      let dy := ally.cy - healer.cy
      let dist := env.sqrtf (dx * dx + dy * dy)
      let maxRange := healer.range
      if dist > maxRange then s
      else
        let factor : K := healFactor maxRange dist
        let frameHeal : K := healer.healRate * factor * dt
        if frameHeal ≤ 0 then s
        else
          let frac : K := s.unitHealFraction.getD j 0 + frameHeal
          let whole : Int := truncInt frac
          if whole > 0 then
            let hp1 := ally.hp + whole
            let frac1 : K := frac - (whole : K)
            let hp2 := if hp1 > ally.maxHp then ally.maxHp else hp1
            let frac2 : K := if hp1 > ally.maxHp then 0 else frac1
            let show2 := if hp2 < ally.maxHp then true else ally.showHp
            { s with unitHealFraction := s.unitHealFraction.set j frac2,
                     units := s.units.set j { ally with hp := hp2, showHp := show2 } }
          else
            { s with unitHealFraction := s.unitHealFraction.set j frac }

/-- The body of the outer healer loop (lines 1079-1109) for unit `i`. -/
def healerUpdate (env : Env K) (dt : K) (i : Nat) (s : Game K) : Game K :=
  let healer := s.unit i
  if healer.type ≠ UnitType.UNIT_HEALER ∨ healer.healRate ≤ 0 then s
  else (List.range s.units.length).foldl (fun acc j => healAlly env dt i j acc) s

/-- The healer loop of lines 1078-1110. -/
def healerPass (env : Env K) (dt : K) (s : Game K) : Game K :=
  (List.range s.units.length).foldl (fun acc i => healerUpdate env dt i acc) s

/-! ## The enemy loop (lines 1112-1188) -/

/-- Lines 1123-1131: the enemy's scan for the closest unit, from position `j` on; the state
is `(closestUnit, closestDist)`. -/
def closestUnitFrom (env : Env K) (ex ey : K) :
    List (Unit K) → Nat → Int × K → Int × K
  | [], _, best => best
  | unit :: rest, j, best =>
      let dx := unit.cx - ex
      let dy := unit.cy - ey
      let dist := env.sqrtf (dx * dx + dy * dy)
      if dist < best.2 then closestUnitFrom env ex ey rest (j + 1) ((j : Int), dist)
      else closestUnitFrom env ex ey rest (j + 1) best

/-- Lines 1155-1160 and 1167-1172: the enemy moves by `moveSpeed * dt` along the direction
`(dx, dy) / len`, provided `len > 0.001f`. -/
def enemyMove (env : Env K) (dt : K) (enemy : EnemyNPC K) (dx dy : K) : EnemyNPC K :=
  let len := env.sqrtf (dx * dx + dy * dy)
  if len > 1 / 1000 then
    let step := enemy.moveSpeed * dt
    let nx := dx / len
    let ny := dy / len
    let fx1 := enemy.fx + nx * step
    let fy1 := enemy.fy + ny * step
    { enemy with fx := fx1, fy := fy1, x := lroundf fx1, y := lroundf fy1 }
  else enemy

/-- Line 1142: `engagingUnit`. -/
def engagingUnit (enemy : EnemyNPC K) (closestUnit : Int) (closestDist distToShip : K) : Bool :=
  !decide (distToShip ≤ enemy.attackRange + 10) && !enemy.prioritizeShip &&
    (decide (closestUnit ≥ 0) && decide (closestDist ≤ enemy.detectionRange))

/-- Line 1143: `engagingShip`. -/
def engagingShip (enemy : EnemyNPC K) (closestUnit : Int) (closestDist distToShip : K) : Bool :=
  decide (distToShip ≤ enemy.attackRange + 10) || enemy.prioritizeShip ||
    (!engagingUnit enemy closestUnit closestDist distToShip &&
      decide (distToShip ≤ enemy.shipDetectionRange))

/-- Lines 1149-1174: the enemy backs away from the closest unit when that unit is inside its
avoidance radius, otherwise it approaches its target when the target is out of attack range,
otherwise it stays. -/
def enemyAdvance (env : Env K) (dt : K) (enemy : EnemyNPC K) (closestUnit : Int)
    (closestDist : K) (cu : Unit K) (tx ty distToTarget : K) : EnemyNPC K :=
  if enemy.avoidUnitsRange > 0 ∧ closestUnit ≥ 0 ∧ closestDist < enemy.avoidUnitsRange then
    enemyMove env dt enemy (enemy.fx - cu.cx) (enemy.fy - cu.cy)
  else if distToTarget > enemy.attackRange then
    enemyMove env dt enemy (tx - enemy.fx) (ty - enemy.fy)
  else enemy

/-- Lines 1177-1184: the attack lands on the closest unit when the enemy engages a unit, and
otherwise on the ship; the hp that is hit is floored at 0. -/
def enemyStrike (eUnit eShip : Bool) (closestUnit : Int) (attackDamage : K) (s : Game K) :
    Game K :=
  if eUnit then
    let cu := s.unit closestUnit.toNat
    let hp1 := cu.hp - truncInt attackDamage
    let hp2 := if hp1 < 0 then 0 else hp1
    let show2 := if hp2 < cu.maxHp then true else cu.showHp
    s.setUnit closestUnit.toNat { cu with hp := hp2, showHp := show2 }
  else if eShip then
    let hp1 := s.playerShip.hp - truncInt attackDamage
    { s with playerShip := { s.playerShip with hp := if hp1 < 0 then 0 else hp1 } }
  else s

/-- The body of the enemy loop (lines 1113-1187) for the enemy at position `i`. -/
def enemyUpdate (env : Env K) (dt : K) (i : Nat) (s : Game K) : Game K :=
  let enemy0 := s.enemies.getD i default
  if enemy0.alive = false then s
  else
    let enemy : EnemyNPC K :=
      { enemy0 with timeSinceLastAttack := enemy0.timeSinceLastAttack + dt }
    let enemyCX := enemy.fx
    let enemyCY := enemy.fy
    let closest := closestUnitFrom env enemyCX enemyCY s.units 0 (-1, SENTINEL)
    let closestUnit := closest.1
    let closestDist := closest.2
    let shipCX := s.playerShip.x
    let shipCY := s.playerShip.y
    let dxs := shipCX - enemyCX
    let dys := shipCY - enemyCY
    let distToShip := env.sqrtf (dxs * dxs + dys * dys)
    let eUnit := engagingUnit enemy closestUnit closestDist distToShip
    let eShip := engagingShip enemy closestUnit closestDist distToShip
    if eUnit || eShip then
      let cu := s.unit closestUnit.toNat
      let tx := if eUnit then cu.cx else shipCX
      let ty := if eUnit then cu.cy else shipCY
      let distToTarget := if eUnit then closestDist else distToShip
      let enemy1 := enemyAdvance env dt enemy closestUnit closestDist cu tx ty distToTarget
      if distToTarget ≤ enemy1.attackRange ∧
          enemy1.timeSinceLastAttack ≥ enemy1.attackCooldown then
        let s1 := enemyStrike eUnit eShip closestUnit enemy1.attackDamage s
        { s1 with enemies := s1.enemies.set i { enemy1 with timeSinceLastAttack := 0 } }
      else
        { s with enemies := s.enemies.set i enemy1 }
    else
      { s with enemies := s.enemies.set i enemy }

/-- The enemy loop of lines 1112-1188. -/
def enemyPass (env : Env K) (dt : K) (s : Game K) : Game K :=
  (List.range s.enemies.length).foldl (fun acc i => enemyUpdate env dt i acc) s

/-! ## The medic overlap loop (lines 1204-1222) -/

/-- raylib's `CheckCollisionRecs` on `(x, y, width, height)` rectangles. -/
def CheckCollisionRecs (x1 y1 w1 h1 x2 y2 w2 h2 : K) : Bool :=
  decide (x1 < x2 + w2) && decide (x1 + w1 > x2) && decide (y1 < y2 + h2) &&
    decide (y1 + h1 > y2)

/-- raylib's `CheckCollisionPointRec` on a point and an `(x, y, width, height)` rectangle. -/
def CheckCollisionPointRec (px py x y w h : K) : Bool :=
  decide (px ≥ x) && decide (px < x + w) && decide (py ≥ y) && decide (py < y + h)

/-- Lines 1210-1221: medic `i` heals patient `j` when their rectangles overlap. -/
def medicHeal (dt : K) (i j : Nat) (s : Game K) : Game K :=
  let medic := s.unit i
  if i = j then s
  else
    let patient := s.unit j
    if patient.hp ≥ patient.maxHp then s
    else if CheckCollisionRecs medic.fx medic.fy (medic.width : K) (medic.height : K)
        patient.fx patient.fy (patient.width : K) (patient.height : K) then
      let hp1 := patient.hp + truncInt (medic.healRate * dt * 2)
      s.setUnit j { patient with hp := if hp1 > patient.maxHp then patient.maxHp else hp1 }
    else s

/-- The body of the outer medic loop (lines 1205-1221) for unit `i`. -/
def medicUpdate (dt : K) (i : Nat) (s : Game K) : Game K :=
  let medic := s.unit i
  if medic.type ≠ UnitType.UNIT_HEALER ∨ medic.healRate ≤ 0 then s
  else (List.range s.units.length).foldl (fun acc j => medicHeal dt i j acc) s

/-- The medic loop of lines 1204-1222. -/
def medicPass (dt : K) (s : Game K) : Game K :=
  (List.range s.units.length).foldl (fun acc i => medicUpdate dt i acc) s

/-! ## Projectiles (lines 1224-1300) -/

/-- The collision test of line 1232-1233: the bullet's position against the enemy's box. -/
def bulletInEnemy (b : Bullet K) (e : EnemyNPC K) : Bool :=
  CheckCollisionPointRec b.x b.y (((e.x - cdiv e.width 2 : Int) : K))
    (((e.y - cdiv e.height 2 : Int) : K)) (e.width : K) (e.height : K)

/-- The collision test of line 1270-1271: the bullet's position against the rock's box. -/
def bulletInRock (b : Bullet K) (r : Rock) : Bool :=
  CheckCollisionPointRec b.x b.y (((r.x - cdiv r.width 2 : Int) : K))
    (((r.y - cdiv r.height 2 : Int) : K)) (r.width : K) (r.height : K)

/-- Lines 1234-1262: a bullet of damage `dmg` lands on the living enemy `e`; the result is
the enemy, the scrap balance and the number of random draws made so far. -/
def damageEnemy (env : Env K) (dmg : Int) (e : EnemyNPC K) (scrap : Int) (calls : Nat) :
    EnemyNPC K × Int × Nat :=
  let e1 : EnemyNPC K := { e with showHp := true, hp := e.hp - dmg }
  if e1.hp ≤ 0 then
    ({ e1 with alive := false }, scrap + GetRandomValue (env.rand calls) 2 5, calls + 1)
  else (e1, scrap, calls)

/-- Lines 1230-1266: the loop over the enemies for one bullet; the first living enemy whose
box holds the bullet takes the hit and ends the loop.  The last component tells whether the
bullet was consumed. -/
def hitEnemies (env : Env K) (b : Bullet K) :
    List (EnemyNPC K) → Int → Nat → List (EnemyNPC K) × Int × Nat × Bool
  | [], scrap, calls => ([], scrap, calls, false)
  | e :: es, scrap, calls =>
      if e.alive = false then
        let r := hitEnemies env b es scrap calls
        (e :: r.1, r.2.1, r.2.2.1, r.2.2.2)
      else if bulletInEnemy b e then
        let r := damageEnemy env b.damage e scrap calls
        (r.1 :: es, r.2.1, r.2.2, true)
      else
        let r := hitEnemies env b es scrap calls
        (e :: r.1, r.2.1, r.2.2.1, r.2.2.2)

/-- Lines 1272-1293: a bullet of damage `dmg` lands on the living rock `r`; the result is the
rock, the scrap balance, the number of random draws and whether the rock was destroyed. -/
def damageRock (env : Env K) (dmg : Int) (r : Rock) (scrap : Int) (calls : Nat) :
    Rock × Int × Nat × Bool :=
  let r1 : Rock := { r with showHp := true, hp := r.hp - dmg }
  if r1.hp ≤ 0 then
    ({ r1 with alive := false },
      scrap + GetRandomValue (env.rand calls) r1.scrapMin r1.scrapMax, calls + 1, true)
  else (r1, scrap, calls, false)

/-- Lines 1268-1297: the loop over the rocks for one bullet.  The last two components tell
whether a rock was destroyed and whether the bullet was consumed. -/
def hitRocks (env : Env K) (b : Bullet K) :
    List Rock → Int → Nat → List Rock × Int × Nat × Bool × Bool
  | [], scrap, calls => ([], scrap, calls, false, false)
  | r :: rs, scrap, calls =>
      if r.alive = false then
        let t := hitRocks env b rs scrap calls
        (r :: t.1, t.2.1, t.2.2.1, t.2.2.2.1, t.2.2.2.2)
      else if bulletInRock b r then
        let t := damageRock env b.damage r scrap calls
        (t.1 :: rs, t.2.1, t.2.2.1, t.2.2.2, true)
      else
        let t := hitRocks env b rs scrap calls
        (r :: t.1, t.2.1, t.2.2.1, t.2.2.2.1, t.2.2.2.2)

/-- Lines 1226-1227: the bullet moves by its velocity times `dt`. -/
def Bullet.advance (b : Bullet K) (dt : K) : Bullet K :=
  { b with x := b.x + b.vx * dt, y := b.y + b.vy * dt }

/-- The body of the bullet loop (lines 1225-1298) for the bullet at position `bi`. -/
def bulletStep (env : Env K) (dt : K) (bi : Nat) (s : Game K) : Game K :=
  let b0 := s.bullets.getD bi default
  if b0.active = false then s
  else
    let b1 : Bullet K := b0.advance dt
    if b1.x < -50 ∨ b1.y < -50 ∨ b1.x > (MAP_WIDTH : K) + 50 ∨ b1.y > (MAP_HEIGHT : K) + 50 then
      { s with bullets := s.bullets.set bi { b1 with active := false } }
    else
      let he := hitEnemies env b1 s.enemies s.shop.scrapMetal s.randCalls
      if he.2.2.2 then
        { s with enemies := he.1, shop := { s.shop with scrapMetal := he.2.1 },
                 randCalls := he.2.2.1,
                 bullets := s.bullets.set bi { b1 with active := false } }
      else
        let hr := hitRocks env b1 s.rocks s.shop.scrapMetal s.randCalls
        { s with rocks := hr.1, shop := { s.shop with scrapMetal := hr.2.1 },
                 randCalls := hr.2.2.1,
                 rockAssignmentDirty := if hr.2.2.2.1 then true else s.rockAssignmentDirty,
                 bullets := s.bullets.set bi { b1 with active := hr.2.2.2.2 = false } }

/-- The bullet loop of lines 1224-1299, before the purge of line 1300. -/
def bulletLoop (env : Env K) (dt : K) (s : Game K) : Game K :=
  (List.range s.bullets.length).foldl (fun acc bi => bulletStep env dt bi acc) s

/-- Lines 1224-1300: the bullet loop, then the purge of the inactive bullets. -/
def bulletPass (env : Env K) (dt : K) (s : Game K) : Game K :=
  let s1 := bulletLoop env dt s
  { s1 with bullets := s1.bullets.filter (fun b => b.active) }

/-! ## Wave director (lines 461-467 and 826-880) -/

/-- The lambda `startNextWave` (lines 461-467). -/
def startNextWave (env : Env K) (s : Game K) : Game K :=
  let s1 : Game K :=
    { s with inIntermission := false, intermissionTime := 0, currentWave := s.currentWave + 1 }
  let s2 := spawnWave env s1.currentWave s1
  { s2 with enemiesAlive := (s2.enemies.length : Int) }

/-- `rewardScale` of the `switch (difficulty)` at lines 844-848. -/
def rewardScale : Difficulty → K
  | Difficulty.DIFF_CASUAL => 23 / 20
  | Difficulty.DIFF_NORMAL => 1
  | Difficulty.DIFF_HARD => 17 / 20

/-- Lines 851-857: a fresh rock from the three random draws that start at position `p`. -/
def spawnRock (env : Env K) (ship : Ship K) (p : Nat) : Rock :=
  let margin : Int := 200
  let rx := GetRandomValue (env.rand p) margin (MAP_WIDTH - margin)
  let ry := GetRandomValue (env.rand (p + 1)) margin (MAP_HEIGHT - margin)
  let dx : K := (rx : K) - ship.x
  let dy : K := (ry : K) - ship.y
  let rx1 := if dx * dx + dy * dy < 400 * 400 then rx + 400 else rx
  let hp := GetRandomValue (env.rand (p + 2)) 160 260
  { (Rock.init : Rock) with
      width := 48, height := 48, x := rx1, y := ry, hp := hp, maxHp := hp, scrapMin := 10,
      scrapMax := 20, alive := true, showHp := false }

/-- Lines 836-867: the wave-clear transition. -/
def waveClear (env : Env K) (s : Game K) : Game K :=
  let units1 := s.units.map (fun u =>
    { u with hp := ClampVal (u.hp + truncInt ((u.maxHp : K) * (2 / 5))) 0 u.maxHp })
  let ship1 : Ship K :=
    { s.playerShip with
        hp := ClampVal (s.playerShip.hp + truncInt ((s.playerShip.maxHp : K) * (1 / 4))) 0
                s.playerShip.maxHp }
  let rewardBase : Int := 12 + s.currentWave * 2
  let reward : Int := lroundf ((rewardBase : K) * (rewardScale s.difficulty : K))
  let p := s.randCalls
  let newRocks : List Rock :=
    [spawnRock env ship1 p, spawnRock env ship1 (p + 3), spawnRock env ship1 (p + 6),
     spawnRock env ship1 (p + 9)]
  let n := s.units.length
  { s with enemies := [], units := units1, playerShip := ship1,
           shop := { s.shop with scrapMetal := s.shop.scrapMetal + reward },
           rocks := s.rocks ++ newRocks, randCalls := p + 12,
           inIntermission := true, intermissionTime := INTERMISSION_DURATION,
           unitAttacking := (List.range n).foldl (fun t ui => t.set ui false) s.unitAttacking,
           unitTargetEnemy := (List.range n).foldl (fun t ui => t.set ui (-1)) s.unitTargetEnemy,
           unitAreaAttack := (List.range n).foldl (fun t ui => t.set ui false) s.unitAreaAttack,
           unitAreaTargets := (List.range n).foldl (fun t ui => t.set ui []) s.unitAreaTargets }

/-- Lines 831-869: the count of the living enemies and the wave-clear check. -/
def waveClearCheck (env : Env K) (s : Game K) : Game K :=
  if s.isPaused = false ∧ s.playerShip.hp > 0 ∧ s.playerShip.isComplete = false then
    let aliveCount : Int := ((s.enemies.filter (fun e => e.alive)).length : Int)
    let s1 : Game K := { s with enemiesAlive := aliveCount }
    if aliveCount = 0 ∧ s1.inIntermission = false then waveClear env s1 else s1
  else s

/-- What one frame reads from outside the simulation: `GetFrameTime()`, whether Enter was
pressed, and whether the "Start Next Wave" button of the intermission panel was clicked. -/
structure FrameInput (K : Type) where
  frameTime : K
  enterPressed : Bool
  nextWaveClicked : Bool

/-- Lines 871-880: the intermission countdown and the advance to the next wave. -/
def intermissionTick (env : Env K) (inp : FrameInput K) (s : Game K) : Game K :=
  if s.inIntermission = true ∧ s.playerShip.hp > 0 ∧ s.playerShip.isComplete = false then
    if inp.enterPressed then startNextWave env s
    else if s.isPaused = false then
      let s1 : Game K :=
        { s with intermissionTime := s.intermissionTime - inp.frameTime * s.timeScale }
      if s1.intermissionTime ≤ 0 then startNextWave env s1 else s1
    else s
  else s

/-- Lines 826-829: the effective `dt` of the frame. -/
def effectiveDt (inp : FrameInput K) (s : Game K) : K :=
  let dt : K := if s.isPaused then 0 else inp.frameTime * s.timeScale
  if s.playerShip.hp ≤ 0 ∨ s.playerShip.isComplete = true then 0 else dt

/-- Lines 1525-1553: the button of the intermission panel. -/
def intermissionButton (env : Env K) (inp : FrameInput K) (s : Game K) : Game K :=
  if s.inIntermission = true ∧ s.playerShip.hp > 0 ∧ s.playerShip.isComplete = false then
    if inp.nextWaveClicked then startNextWave env s else s
  else s

/-! ## Selection and orders (lines 604-617 and 721-822)

The screen-to-world transform of the camera is outside the model: the orders take their
points in world coordinates. -/

/-- Lines 604-617: the number key of unit `i` (the keys 1 to 9 stand for `i = 0, ..., 8`)
pressed, with or without Ctrl: a non-healer unit `i` is toggled (Ctrl) or becomes the only
selected unit. -/
def selectKey (i : Nat) (ctrl : Bool) (s : Game K) : Game K :=
  if i < s.units.length ∧ (s.unit i).type ≠ UnitType.UNIT_HEALER then
    if ctrl then s.setUnit i { s.unit i with selected := !(s.unit i).selected }
    else
      let units1 := s.units.map (fun u => { u with selected := false })
      { s with units := units1.set i { units1.getD i default with selected := true } }
  else s

/-- Line 728: the indices of the selected units. -/
def selectedUnits (units : List (Unit K)) : List Nat :=
  (List.range units.length).filter (fun i => (units.getD i default).selected)

/-- Line 728 and line 800: the mean of `x + width/2.0f` and of `y + height/2.0f` over the
units of `selIdx`. -/
def selCenter (units : List (Unit K)) (selIdx : List Nat) : K × K :=
  let sx := (selIdx.map (fun i =>
    ((units.getD i default).x : K) + ((units.getD i default).width : K) / 2)).sum
  let sy := (selIdx.map (fun i =>
    ((units.getD i default).y : K) + ((units.getD i default).height : K) / 2)).sum
  (sx / (selIdx.length : K), sy / (selIdx.length : K))

/-- Lines 731-735: the living enemies whose box meets the rectangle `(l, t, w, h)`. -/
def capturedEnemies (l t w h : K) (enemies : List (EnemyNPC K)) : List Int :=
  ((List.range enemies.length).filter (fun i =>
    let e := enemies.getD i default
    e.alive && CheckCollisionRecs l t w h (((e.x - cdiv e.width 2 : Int) : K))
      (((e.y - cdiv e.height 2 : Int) : K)) (e.width : K) (e.height : K))).map
    (fun i => (i : Int))

/-- Lines 751-756: the nearest living captured enemy that this order has not handed out yet,
as `(bestI, bestD)`. -/
def nearestFreeCaptured (env : Env K) (enemies : List (EnemyNPC K)) (assigned : List Int)
    (u : Unit K) (captured : List Int) : Int × K :=
  captured.foldl
    (fun best t =>
      if t ∈ assigned then best
      else if t < 0 ∨ t ≥ (enemies.length : Int) ∨
          (enemies.getD t.toNat default).alive = false then best
      else
        let d := enemyDist env u (enemies.getD t.toNat default)
        if d < best.2 then (t, d) else best)
    (-1, SENTINEL)

/-- Lines 746-758: the first round of the distribution; the second component is the vector
`assigned`. -/
def distributeFirst (env : Env K) (captured : List Int) (selIdx : List Nat) (s : Game K) :
    Game K × List Int :=
  selIdx.foldl
    (fun acc idx =>
      if (acc.1.unit idx).type = UnitType.UNIT_HEALER then acc
      else
        let bestI := (nearestFreeCaptured env acc.1.enemies acc.2 (acc.1.unit idx) captured).1
        if bestI ≠ -1 then
          ({ acc.1 with unitAttacking := acc.1.unitAttacking.set idx true,
                        unitTargetEnemy := acc.1.unitTargetEnemy.set idx bestI },
            acc.2 ++ [bestI])
        else acc)
    (s, [])

/-- Lines 765-769: the nearest living captured enemy, as `(bestI, bestD)`. -/
def nearestLivingCaptured (env : Env K) (enemies : List (EnemyNPC K)) (u : Unit K)
    (captured : List Int) : Int × K :=
  captured.foldl
    (fun best t =>
      if t < 0 ∨ t ≥ (enemies.length : Int) ∨
          (enemies.getD t.toNat default).alive = false then best
      else
        let d := enemyDist env u (enemies.getD t.toNat default)
        if d < best.2 then (t, d) else best)
    (-1, SENTINEL)

/-- Lines 759-772: the second round of the distribution, for the units the first round left
without a target. -/
def distributeRest (env : Env K) (captured : List Int) (selIdx : List Nat) (s : Game K) :
    Game K :=
  selIdx.foldl
    (fun acc idx =>
      if (acc.unit idx).type = UnitType.UNIT_HEALER then acc
      else if acc.unitAttacking.getD idx false then acc
      else
        let bestI := (nearestLivingCaptured env acc.enemies (acc.unit idx) captured).1
        if bestI ≠ -1 then
          { acc with unitAttacking := acc.unitAttacking.set idx true,
                     unitTargetEnemy := acc.unitTargetEnemy.set idx bestI }
        else acc)
    s

/-- Lines 775-783 and 810-817: every unit of `selIdx` is sent to the point `(cx, cy)`, shifted
by its offset from the centre of the selection. -/
def formationMove (selIdx : List Nat) (cx cy : K) (centre : K × K) (units : List (Unit K)) :
    List (Unit K) :=
  selIdx.foldl
    (fun us idx =>
      let u := us.getD idx default
      let offX := ((u.x : K) + (u.width : K) / 2) - centre.1
      let offY := ((u.y : K) + (u.height : K) / 2) - centre.2
      let tcx := cx + offX
      let tcy := cy + offY
      us.set idx
        { u with targetX := lroundf (tcx - (u.width : K) / 2),
                 targetY := lroundf (tcy - (u.height : K) / 2), moving := true })
    units

/-- Lines 722-784: the area order given by a right drag from `(wsx, wsy)` to `(wex, wey)`:
every selected unit is put in area-attack mode with the captured enemies as its list, the
non-healers are distributed over the captured enemies, and all are sent to the rectangle. -/
def areaOrder (env : Env K) (wsx wsy wex wey : K) (s : Game K) : Game K :=
  let l := min wsx wex
  let r := max wsx wex
  let t := min wsy wey
  let b := max wsy wey
  let selIdx := selectedUnits s.units
  if selIdx = [] then s
  else
    let captured := capturedEnemies l t (r - l) (b - t) s.enemies
    let centre := selCenter s.units selIdx
    let s1 : Game K :=
      selIdx.foldl
        (fun acc idx =>
          { acc with unitAreaAttack := acc.unitAreaAttack.set idx true,
                     unitAreaTargets := acc.unitAreaTargets.set idx captured,
                     unitAttacking := acc.unitAttacking.set idx false,
                     unitTargetEnemy := acc.unitTargetEnemy.set idx (-1) })
        s
    let s2 : Game K :=
      if captured ≠ [] then
        distributeRest env captured selIdx (distributeFirst env captured selIdx s1).1
      else s1
    { s2 with units :=
        formationMove selIdx (l + (r - l) * (1 / 2)) (t + (b - t) * (1 / 2)) centre s2.units }

/-- Lines 787-792: the last non-healer unit whose rectangle holds the point, or `-1`. -/
def unitUnder (mx my : K) (units : List (Unit K)) : Int :=
  (List.range units.length).foldl
    (fun hit i =>
      let u := units.getD i default
      if u.type ≠ UnitType.UNIT_HEALER ∧
          CheckCollisionPointRec mx my (u.x : K) (u.y : K) (u.width : K) (u.height : K) = true
      then (i : Int) else hit)
    (-1)

/-- Lines 796-801: the last living enemy whose box holds the point, or `-1`. -/
def enemyUnder (mx my : K) (enemies : List (EnemyNPC K)) : Int :=
  (List.range enemies.length).foldl
    (fun hit i =>
      let e := enemies.getD i default
      if e.alive = true ∧
          CheckCollisionPointRec mx my (((e.x - cdiv e.width 2 : Int) : K))
            (((e.y - cdiv e.height 2 : Int) : K)) (e.width : K) (e.height : K) = true
      then (i : Int) else hit)
    (-1)

/-- Lines 785-820: a right click at the world point `(mx, my)`: on a non-healer unit it
selects that unit; otherwise it orders the selected non-healers to attack the enemy under the
point, or to move to the point when there is none.  Both orders end area-attack mode. -/
def rightClick (mx my : K) (s : Game K) : Game K :=
  let hitUnit := unitUnder mx my s.units
  if hitUnit ≠ -1 then
    { s with units :=
        (List.range s.units.length).map (fun i =>
          { s.units.getD i default with selected := decide ((i : Int) = hitUnit) }) }
  else
    let clickedEnemy := enemyUnder mx my s.enemies
    let selIdx := (selectedUnits s.units).filter
      (fun i => decide ((s.unit i).type ≠ UnitType.UNIT_HEALER))
    if selIdx = [] then s
    else if clickedEnemy ≠ -1 then
      selIdx.foldl
        (fun acc idx =>
          { acc with unitAreaAttack := acc.unitAreaAttack.set idx false,
                     unitAreaTargets := acc.unitAreaTargets.set idx [],
                     unitAttacking := acc.unitAttacking.set idx true,
                     unitTargetEnemy := acc.unitTargetEnemy.set idx clickedEnemy })
        s
    else
      let centre := selCenter s.units selIdx
      let s1 : Game K :=
        selIdx.foldl
          (fun acc idx =>
            { acc with unitAreaAttack := acc.unitAreaAttack.set idx false,
                       unitAreaTargets := acc.unitAreaTargets.set idx [],
                       unitAttacking := acc.unitAttacking.set idx false,
                       unitTargetEnemy := acc.unitTargetEnemy.set idx (-1) })
          s
      { s1 with units := formationMove selIdx mx my centre s1.units }

/-- Lines 882-1340: the unit, healer, enemy and medic loops, the projectiles and the refresh
mark of line 1340, all with the frame time `dt`. -/
def simPasses (env : Env K) (dt : K) (s2 : Game K) : Game K :=
  let s3 := unitPass env dt s2
  let s4 := healerPass env dt s3
  let s5 := enemyPass env dt s4
  let s6 := medicPass dt s5
  let s7 := bulletPass env dt s6
  { s7 with rockAssignmentDirty := true }

/-- One frame of the simulation, from line 826 to the end of the loop body: the effective
`dt`, the wave director, the loops of `simPasses` and the intermission button. -/
def simFrame (env : Env K) (inp : FrameInput K) (s : Game K) : Game K :=
  let dt := effectiveDt inp s
  let s1 := waveClearCheck env s
  let s2 := intermissionTick env inp s1
  intermissionButton env inp (simPasses env dt s2)

/-! ## Vocabulary of the statements -/

/-- The number of living enemies of a list. -/
def livingEnemies (l : List (EnemyNPC K)) : Int :=
  ((l.filter (fun e => e.alive)).length : Int)

/-- The least scrap the living rocks of a list can still yield: for each living rock the
smaller of `scrapMin` and `scrapMax`. -/
def rockScrapLow (l : List Rock) : Int :=
  (l.map (fun r => if r.alive then min r.scrapMin r.scrapMax else 0)).sum

/-- The most scrap the living rocks of a list can still yield: for each living rock the
larger of `scrapMin` and `scrapMax`. -/
def rockScrapHigh (l : List Rock) : Int :=
  (l.map (fun r => if r.alive then max r.scrapMin r.scrapMax else 0)).sum

/-- How an enemy `e` may have changed into `e1` over projectile hits: a dead enemy is left as
it is, a dead enemy was alive or dead before (never revived), an enemy that died has
`hp ≤ 0`, and an enemy that was hit and still lives has `hp > 0`. -/
def KilledAtMostOnce (e e1 : EnemyNPC K) : Prop :=
  (e.alive = false → e1 = e) ∧ (e1.alive = true → e.alive = true) ∧
    (e.alive = true → e1.alive = false → e1.hp ≤ 0) ∧
    (e1.alive = true → e1 ≠ e → 0 < e1.hp)

/-- The projectile phase took `s` to `s1` with every kill paid exactly once: enemy by enemy
`KilledAtMostOnce`, and the scrap gained lies between 2 and 5 per enemy killed plus, for
every rock destroyed, an amount within that rock's yield. -/
def KillsPaidOnce (s s1 : Game K) : Prop :=
  List.Forall₂ KilledAtMostOnce s.enemies s1.enemies ∧
    s.shop.scrapMetal + 2 * livingEnemies s.enemies + rockScrapLow s.rocks
      ≤ s1.shop.scrapMetal + 2 * livingEnemies s1.enemies + rockScrapLow s1.rocks ∧
    s1.shop.scrapMetal + 5 * livingEnemies s1.enemies + rockScrapHigh s1.rocks
      ≤ s.shop.scrapMetal + 5 * livingEnemies s.enemies + rockScrapHigh s.rocks

/-- A value of `unitAssignedRock` that is safe to use: `-1` or the index of a living rock. -/
def ValidRock (rocks : List Rock) (v : Int) : Prop :=
  v = -1 ∨ ∃ ri : Nat, v = (ri : Int) ∧ ri < rocks.length ∧ (rocks.getD ri default).alive = true

/-- The number of units that are not healers. -/
def nonHealerCount (units : List (Unit K)) : Nat :=
  (units.filter (fun u => decide (u.type ≠ UnitType.UNIT_HEALER))).length

/-- The number of living rocks. -/
def livingRockCount (rocks : List Rock) : Nat :=
  (rocks.filter (fun r => r.alive)).length

/-- The enemy at position `k` is the first living enemy at minimal computed distance from
the centre of `u`: it is alive, no living enemy is nearer, and every living enemy before it
in the list is strictly farther. -/
def FirstNearestEnemy (env : Env K) (u : Unit K) (enemies : List (EnemyNPC K)) (k : Nat) :
    Prop :=
  ∃ e, enemies[k]? = some e ∧ e.alive = true ∧
    (∀ (j : Nat) (e1 : EnemyNPC K), enemies[j]? = some e1 → e1.alive = true →
      enemyDist env u e ≤ enemyDist env u e1) ∧
    (∀ (j : Nat) (e1 : EnemyNPC K), j < k → enemies[j]? = some e1 → e1.alive = true →
      enemyDist env u e < enemyDist env u e1)

/-- Unit `i` is a non-healer committed to a living enemy whose computed distance from the
unit's centre is at most `range + ATTACK_RANGE_HYST`. -/
def InFireBand (env : Env K) (i : Nat) (s : Game K) : Prop :=
  i < s.units.length ∧ s.unitAttacking.getD i false = true ∧
    (s.unit i).type ≠ UnitType.UNIT_HEALER ∧
    0 ≤ s.unitTargetEnemy.getD i (-1) ∧
    s.unitTargetEnemy.getD i (-1) < (s.enemies.length : Int) ∧
    (s.enemies.getD (s.unitTargetEnemy.getD i (-1)).toNat default).alive = true ∧
    enemyDist env (s.unit i) (s.enemies.getD (s.unitTargetEnemy.getD i (-1)).toNat default)
      ≤ (s.unit i).range + ATTACK_RANGE_HYST

/-- What the collision loop does to an enemy whose box holds a bullet of damage `dmg`
(lines 1231 and 1234-1262): a dead enemy is skipped, a living one takes the hit.  The state
is the enemy, the scrap balance and the number of random draws. -/
def hitIfAlive (env : Env K) (dmg : Int) (st : EnemyNPC K × Int × Nat) :
    EnemyNPC K × Int × Nat :=
  if st.1.alive = false then st else damageEnemy env dmg st.1 st.2.1 st.2.2

/-- The part of the state that the unit, healer and medic loops never write: difficulty, wave
number, enemy count, enemies, rocks, ship, shop, time scale, pause flag, intermission flag
and countdown, and the number of random draws. -/
def Game.directorView (s : Game K) :
    Difficulty × Int × Int × List (EnemyNPC K) × List Rock × Ship K × UpgradeShop × K × Bool ×
      Bool × K × Nat :=
  (s.difficulty, s.currentWave, s.enemiesAlive, s.enemies, s.rocks, s.playerShip, s.shop,
    s.timeScale, s.isPaused, s.inIntermission, s.intermissionTime, s.randCalls)

/-- A step of the unit, healer or medic loop took `s` to `s1`: the director's view is the
same and the old bullets are still there, unchanged and in order, before any new ones. -/
def UnitLoopFrame (s s1 : Game K) : Prop :=
  s1.directorView = s.directorView ∧ ∃ fired, s1.bullets = s.bullets ++ fired

/-- How the enemy loop or the projectile loop may have changed the enemy `e` into `e1` in a
frame of frame time `dt`: the attack damage is the same and, when `dt = 0`, so is the
continuous position, while each integer coordinate is the old one or the rounding of the
continuous one. -/
def EnemyStays (dt : K) (e e1 : EnemyNPC K) : Prop :=
  e1.attackDamage = e.attackDamage ∧
    (dt = 0 → e1.fx = e.fx ∧ e1.fy = e.fy ∧ (e1.x = e.x ∨ e1.x = lroundf e.fx) ∧
      (e1.y = e.y ∨ e1.y = lroundf e.fy))

/-- A step of the enemy loop with frame time `dt` took `s` to `s1`: wave number, intermission
flag, completion flag and bullets are the same, the enemies changed within `EnemyStays` and,
when no enemy has a negative attack damage, a ship with `hp ≤ 0` still has `hp ≤ 0` (and
`hp = 0` stays `0`). -/
def EnemyLoopFrame (dt : K) (s s1 : Game K) : Prop :=
  s1.currentWave = s.currentWave ∧ s1.inIntermission = s.inIntermission ∧
    s1.playerShip.isComplete = s.playerShip.isComplete ∧ s1.bullets = s.bullets ∧
    List.Forall₂ (EnemyStays dt) s.enemies s1.enemies ∧
    ((∀ e ∈ s.enemies, (0 : K) ≤ e.attackDamage) → s.playerShip.hp ≤ 0 →
      s1.playerShip.hp ≤ 0 ∧ (s.playerShip.hp = 0 → s1.playerShip.hp = 0))

/-- What one step of the projectile loop may do to a projectile when `dt = 0`: nothing, or
switch it off. -/
def BulletKept (b b1 : Bullet K) : Prop :=
  b1 = b ∨ b1 = { b with active := false }

/-- A step of the projectile loop with frame time `dt` took `s` to `s1`: wave number,
intermission flag and ship are the same, the enemies changed within `EnemyStays` and, when
`dt = 0`, the projectiles within `BulletKept`. -/
def BulletLoopFrame (dt : K) (s s1 : Game K) : Prop :=
  s1.currentWave = s.currentWave ∧ s1.inIntermission = s.inIntermission ∧
    s1.playerShip = s.playerShip ∧
    List.Forall₂ (EnemyStays dt) s.enemies s1.enemies ∧
    (dt = 0 → List.Forall₂ BulletKept s.bullets s1.bullets)

/-- Unit `i` is in area-attack mode and committed to a target. -/
def AreaCommitted (s : Game K) (i : Nat) : Prop :=
  s.unitAreaAttack.getD i false = true ∧ s.unitAttacking.getD i false = true

/-- The number of units in area-attack mode, whichever order put them there. -/
def areaUnitCount (s : Game K) : Nat :=
  (List.range s.units.length).countP (fun j => s.unitAreaAttack.getD j false)

/-- The captured list of unit `i` without the entries that `remove_if` erases (lines 894 and
979): the living enemies that are left of the captured set. -/
def livingTargets (s : Game K) (i : Nat) : List Int :=
  (s.unitAreaTargets.getD i []).filter (fun idx => !staleTarget s.enemies idx)

/-- The number of different living enemies in the captured list of unit `i`. -/
def livingCaptured (s : Game K) (i : Nat) : Nat :=
  (livingTargets s i).dedup.length

/-- No unit other than `k` that is in area-attack mode and committed holds the enemy `t`. -/
def UnclaimedFor (s : Game K) (k : Nat) (t : Int) : Prop :=
  ∀ j, j < s.units.length → j ≠ k → AreaCommitted s j → s.unitTargetEnemy.getD j (-1) ≠ t

/-- The step from `s` to `s1` only wrote what belongs to unit `k`: the unit list and the
target table keep their lengths, and the unit and the entries of the tables `unitAttacking`,
`unitTargetEnemy`, `unitAreaAttack` and `unitAreaTargets` of every other unit are the same. -/
def OnlyUnit (k : Nat) (s s1 : Game K) : Prop :=
  s1.units.length = s.units.length ∧
  s1.unitTargetEnemy.length = s.unitTargetEnemy.length ∧
  ∀ j, j ≠ k →
    s1.units.getD j default = s.units.getD j default ∧
    s1.unitAttacking.getD j false = s.unitAttacking.getD j false ∧
    s1.unitTargetEnemy.getD j (-1) = s.unitTargetEnemy.getD j (-1) ∧
    s1.unitAreaAttack.getD j false = s.unitAreaAttack.getD j false ∧
    s1.unitAreaTargets.getD j [] = s.unitAreaTargets.getD j []

/-- What a step of the update of unit `k` may do to the area-attack bookkeeping of `k`: the
enemies are the same, the step is `OnlyUnit k`, it does not switch area-attack mode on, it
only erases dead or invalid entries of the captured list, and if `k` is in area-attack mode
and committed afterwards, then either it was so before, with the same target, or its target
is held by no other committed unit in area-attack mode. -/
def AreaStep (k : Nat) (s s1 : Game K) : Prop :=
  s1.enemies = s.enemies ∧ OnlyUnit k s s1 ∧
  (s1.unitAreaAttack.getD k false = true → s.unitAreaAttack.getD k false = true) ∧
  livingTargets s1 k = livingTargets s k ∧
  (AreaCommitted s1 k →
    (AreaCommitted s k ∧ s1.unitTargetEnemy.getD k (-1) = s.unitTargetEnemy.getD k (-1)) ∨
    UnclaimedFor s k (s1.unitTargetEnemy.getD k (-1)))

/-- What the acquisition of unit `k` needs to find an unclaimed target: an entry of its own in
the target table, at least as many different living captured enemies as there are units in
area-attack mode, and every living enemy nearer than the sentinel `1e9`. -/
def AreaReady (env : Env K) (k : Nat) (s : Game K) : Prop :=
  k < s.units.length ∧ k < s.unitTargetEnemy.length ∧
  areaUnitCount s ≤ livingCaptured s k ∧
  ∀ e ∈ s.enemies, e.alive = true → enemyDist env (s.unit k) e < SENTINEL

/-- The step from `s` to `s1` left the centre of unit `k` where it was. -/
def KeepsCentre (k : Nat) (s s1 : Game K) : Prop :=
  (s1.unit k).cx = (s.unit k).cx ∧ (s1.unit k).cy = (s.unit k).cy

/-- The part of `AreaStep` that every step of the update of unit `k` has, whatever the state:
the enemies are the same, the step is `OnlyUnit k`, it does not switch area-attack mode on,
and it only erases dead or invalid entries of the captured list. -/
def AreaFrame (k : Nat) (s s1 : Game K) : Prop :=
  s1.enemies = s.enemies ∧ OnlyUnit k s s1 ∧
  (s1.unitAreaAttack.getD k false = true → s.unitAreaAttack.getD k false = true) ∧
  livingTargets s1 k = livingTargets s k

/-- If the units `i` and `j` are both in area-attack mode and committed to one enemy in `s1`,
then they were so already in `s`, with that same enemy. -/
def SharedBefore (s s1 : Game K) (i j : Nat) : Prop :=
  AreaCommitted s1 i → AreaCommitted s1 j →
    s1.unitTargetEnemy.getD i (-1) = s1.unitTargetEnemy.getD j (-1) →
    AreaCommitted s i ∧ AreaCommitted s j ∧
      s.unitTargetEnemy.getD i (-1) = s.unitTargetEnemy.getD j (-1) ∧
      s1.unitTargetEnemy.getD i (-1) = s.unitTargetEnemy.getD i (-1)

/-- The wave-clear transition is due in state `s`: the game is not paused and not over (ship
alive and not complete), no enemy is alive and no intermission is running. -/
def WaveClearTriggers (s : Game K) : Prop :=
  s.isPaused = false ∧ s.playerShip.hp > 0 ∧ s.playerShip.isComplete = false ∧
    (∀ e ∈ s.enemies, e.alive = false) ∧ s.inIntermission = false

/-! ## Upgrade purchases (lines 649-669) -/

/-- `IsKeyPressed` of the purchase keys H, U, E and L in one frame. -/
structure PurchaseKeys where
  hull : Bool
  shielding : Bool
  engines : Bool
  lifeSupport : Bool

/-- Lines 649-652: the body of the purchase of a hull upgrade, key H pressed. -/
def buyHull (s : Game K) : Game K :=
  if s.shop.scrapMetal ≥ s.shop.hullUpgradeCost ∧
      s.playerShip.hullIntegrity < s.playerShip.maxHullIntegrity then
    { s with
        shop := { s.shop with scrapMetal := s.shop.scrapMetal - s.shop.hullUpgradeCost },
        playerShip := { s.playerShip with hullIntegrity := s.playerShip.hullIntegrity + 8 } }
  else s

/-- Lines 653-656: the purchase of a shielding upgrade, key U pressed. -/
def buyShielding (s : Game K) : Game K :=
  if s.shop.scrapMetal ≥ s.shop.shieldingUpgradeCost ∧
      s.playerShip.shielding < s.playerShip.maxShielding then
    { s with
        shop := { s.shop with scrapMetal := s.shop.scrapMetal - s.shop.shieldingUpgradeCost },
        playerShip := { s.playerShip with shielding := s.playerShip.shielding + 5 } }
  else s

/-- Lines 657-660: the purchase of an engine upgrade, key E pressed. -/
def buyEngines (s : Game K) : Game K :=
  if s.shop.scrapMetal ≥ s.shop.engineUpgradeCost ∧
      s.playerShip.engines < s.playerShip.maxEngines then
    { s with
        shop := { s.shop with scrapMetal := s.shop.scrapMetal - s.shop.engineUpgradeCost },
        playerShip := { s.playerShip with engines := s.playerShip.engines + 3 } }
  else s

/-- Lines 661-664: the purchase of a life-support upgrade, key L pressed. -/
def buyLifeSupport (s : Game K) : Game K :=
  if s.shop.scrapMetal ≥ s.shop.lifeSupportUpgradeCost ∧
      s.playerShip.lifeSupportSystems < s.playerShip.maxLifeSupportSystems then
    { s with
        shop := { s.shop with scrapMetal := s.shop.scrapMetal - s.shop.lifeSupportUpgradeCost },
        playerShip :=
          { s.playerShip with lifeSupportSystems := s.playerShip.lifeSupportSystems + 3 } }
  else s

/-- Lines 666-669: `isComplete` is recomputed from the four levels. -/
def refreshComplete (s : Game K) : Game K :=
  { s with
      playerShip :=
        { s.playerShip with
            isComplete :=
              decide (s.playerShip.hullIntegrity ≥ s.playerShip.maxHullIntegrity) &&
              decide (s.playerShip.shielding ≥ s.playerShip.maxShielding) &&
              decide (s.playerShip.engines ≥ s.playerShip.maxEngines) &&
              decide (s.playerShip.lifeSupportSystems ≥ s.playerShip.maxLifeSupportSystems) } }

/-- Lines 649-669: the four purchase keys of one frame, in the order of the source, and the
refresh of `isComplete`. -/
def purchases (keys : PurchaseKeys) (s : Game K) : Game K :=
  let s1 := if keys.hull then buyHull s else s
  let s2 := if keys.shielding then buyShielding s1 else s1
  let s3 := if keys.engines then buyEngines s2 else s2
  let s4 := if keys.lifeSupport then buyLifeSupport s3 else s3
  refreshComplete s4

/-- One iteration of the main loop as far as the scrap balance goes: the purchases of lines
649-669, then the simulation from line 826 on. -/
def playFrame (env : Env K) (s : Game K) (step : PurchaseKeys × FrameInput K) : Game K :=
  simFrame env step.2 (purchases step.1 s)

/-- A run of the main loop over the inputs of successive frames. -/
def playFrames (env : Env K) (steps : List (PurchaseKeys × FrameInput K)) (s : Game K) :
    Game K :=
  steps.foldl (playFrame env) s

/-- What the scrap balance rests on: it is not negative, no rock has a negative yield bound
and the wave number is not negative. -/
def ScrapSafe (s : Game K) : Prop :=
  0 ≤ s.shop.scrapMetal ∧ (∀ r ∈ s.rocks, 0 ≤ r.scrapMin ∧ 0 ≤ r.scrapMax) ∧ 0 ≤ s.currentWave

/-- Enemy `k` is the lowest-index living enemy of `es` whose box contains the position of the
bullet `b`. -/
def FirstEnemyHit (b : Bullet K) (es : List (EnemyNPC K)) (k : Nat) : Prop :=
  k < es.length ∧
    ((es.getD k default).alive = true ∧ bulletInEnemy b (es.getD k default) = true) ∧
    ∀ j, j < k →
      ¬ ((es.getD j default).alive = true ∧ bulletInEnemy b (es.getD j default) = true)

/-- No living enemy of `es` has the position of the bullet `b` in its box. -/
def NoEnemyHit (b : Bullet K) (es : List (EnemyNPC K)) : Prop :=
  ∀ e ∈ es, ¬ (e.alive = true ∧ bulletInEnemy b e = true)

/-- Rock `k` is the lowest-index living rock of `rs` whose box contains the position of the
bullet `b`. -/
def FirstRockHit (b : Bullet K) (rs : List Rock) (k : Nat) : Prop :=
  k < rs.length ∧
    ((rs.getD k default).alive = true ∧ bulletInRock b (rs.getD k default) = true) ∧
    ∀ j, j < k →
      ¬ ((rs.getD j default).alive = true ∧ bulletInRock b (rs.getD j default) = true)

/-- No living rock of `rs` has the position of the bullet `b` in its box. -/
def NoRockHit (b : Bullet K) (rs : List Rock) : Prop :=
  ∀ r ∈ rs, ¬ (r.alive = true ∧ bulletInRock b r = true)

/-- The bullet `b`, moved by `dt`, is still inside the margin of 50 around the map (the
negation of the test of line 1228). -/
def BulletInBounds (b : Bullet K) (dt : K) : Prop :=
  ¬ ((b.advance dt).x < -50 ∨ (b.advance dt).y < -50 ∨ (b.advance dt).x > (MAP_WIDTH : K) + 50 ∨
      (b.advance dt).y > (MAP_HEIGHT : K) + 50)

/-- The `dist` of line 1070: the distance from the continuous position of `u` to its target
point, as the steering step computes it. -/
def steerDist (env : Env K) (u : Unit K) : K :=
  env.sqrtf (((u.targetX : K) - u.fx) * ((u.targetX : K) - u.fx)
    + ((u.targetY : K) - u.fy) * ((u.targetY : K) - u.fy))

/-- The `step` of line 1071: what the unit covers in a frame of frame time `dt`. -/
def steerStep (dt : K) (u : Unit K) : K := (u.speed : K) * dt

/-- The square of the distance from the continuous position of `u` to the point `(tx, ty)`. -/
def sqDistTo (u : Unit K) (tx ty : Int) : K :=
  ((tx : K) - u.fx) * ((tx : K) - u.fx) + ((ty : K) - u.fy) * ((ty : K) - u.fy)

/-! ## The enemy's decision, by name

The values that `enemyUpdate` binds on lines 1118-1148, as functions of the enemy and the
state, and the decision table in the words of the specification. -/

/-- The `dist` of line 1129: the distance from the point `(ex, ey)` to the centre of
`unit`. -/
def unitDistFrom (env : Env K) (ex ey : K) (unit : Unit K) : K :=
  env.sqrtf ((unit.cx - ex) * (unit.cx - ex) + (unit.cy - ey) * (unit.cy - ey))

/-- Lines 1118-1131: `(closestUnit, closestDist)` of the enemy `e`. -/
def enemyClosest (env : Env K) (e : EnemyNPC K) (s : Game K) : Int × K :=
  closestUnitFrom env e.fx e.fy s.units 0 (-1, SENTINEL)

/-- Lines 1133-1138: `distToShip` of the enemy `e`. -/
def enemyShipDist (env : Env K) (e : EnemyNPC K) (s : Game K) : K :=
  env.sqrtf ((s.playerShip.x - e.fx) * (s.playerShip.x - e.fx)
    + (s.playerShip.y - e.fy) * (s.playerShip.y - e.fy))

/-- Line 1142: the flag `engagingUnit` of the enemy `e` in the state `s`. -/
def enemyEngagesUnit (env : Env K) (e : EnemyNPC K) (s : Game K) : Bool :=
  engagingUnit e (enemyClosest env e s).1 (enemyClosest env e s).2 (enemyShipDist env e s)

/-- Line 1143: the flag `engagingShip` of the enemy `e` in the state `s`. -/
def enemyEngagesShip (env : Env K) (e : EnemyNPC K) (s : Game K) : Bool :=
  engagingShip e (enemyClosest env e s).1 (enemyClosest env e s).2 (enemyShipDist env e s)

/-- Line 1148: `distToTarget` of the enemy `e`: the distance to the closest unit when the
enemy engages a unit, the distance to the ship otherwise.  It is measured at the start of
the enemy's update, before the enemy moves. -/
def enemyTargetDist (env : Env K) (e : EnemyNPC K) (s : Game K) : K :=
  if enemyEngagesUnit env e s then (enemyClosest env e s).2 else enemyShipDist env e s

/-- The specification's "a unit exists within detection range": some unit's centre is at
most `detectionRange` away from the enemy. -/
def SpecUnitInDetection (env : Env K) (e : EnemyNPC K) (s : Game K) : Prop :=
  ∃ u ∈ s.units, unitDistFrom env e.fx e.fy u ≤ e.detectionRange

/-- The specification's first row: the enemy targets the objective when the objective is
within `attackRange + 10`, or the enemy always prioritizes the objective, or no unit is
within detection range and the objective is within the objective-detection radius. -/
def SpecTargetsObjective (env : Env K) (e : EnemyNPC K) (s : Game K) : Prop :=
  enemyShipDist env e s ≤ e.attackRange + 10 ∨ e.prioritizeShip = true ∨
    (¬ SpecUnitInDetection env e s ∧ enemyShipDist env e s ≤ e.shipDetectionRange)

/-- The specification's second row: the enemy targets the nearest unit when a unit exists
within detection range and neither of the first two conditions of the first row holds. -/
def SpecTargetsUnit (env : Env K) (e : EnemyNPC K) (s : Game K) : Prop :=
  SpecUnitInDetection env e s ∧ ¬ enemyShipDist env e s ≤ e.attackRange + 10 ∧
    ¬ e.prioritizeShip = true

/-- Unit `k` is the nearest unit of the enemy `e`: no unit is closer and every unit before
it in the list is farther away. -/
def NearestUnit (env : Env K) (e : EnemyNPC K) (s : Game K) (k : Nat) : Prop :=
  k < s.units.length ∧
    (∀ u ∈ s.units, unitDistFrom env e.fx e.fy (s.unit k) ≤ unitDistFrom env e.fx e.fy u) ∧
    ∀ m, m < k → unitDistFrom env e.fx e.fy (s.unit k) < unitDistFrom env e.fx e.fy (s.unit m)

/-- The test of lines 1145 and 1176 for the enemy `e` in a frame of frame time `dt`: the
enemy has a target, the target is within attack range (by `distToTarget`, the distance
measured at the start of the enemy's update) and the attack timer, `dt` added, has reached
the cooldown. -/
def EnemyAttacks (env : Env K) (dt : K) (e : EnemyNPC K) (s : Game K) : Prop :=
  (enemyEngagesUnit env e s = true ∨ enemyEngagesShip env e s = true) ∧
    enemyTargetDist env e s ≤ e.attackRange ∧
    e.timeSinceLastAttack + dt ≥ e.attackCooldown

/-- What the unit loop leaves alone in a unit: hit points, maximal hit points, fire rate,
heal rate and type. -/
def KeepsStats (u u1 : Unit K) : Prop :=
  u1.hp = u.hp ∧ u1.maxHp = u.maxHp ∧ u1.fireRate = u.fireRate ∧ u1.healRate = u.healRate ∧
    u1.type = u.type

/-- A step of the unit loop from `s` to `s1` that does not fire: every unit keeps its
statistics, the bullets and the fire timers are the same. -/
def QuietStep (s s1 : Game K) : Prop :=
  List.Forall₂ KeepsStats s.units s1.units ∧ s1.bullets = s.bullets ∧
    s1.unitFireTimer = s.unitFireTimer

/-- A step of the update of unit `i` from `s` to `s1` that fires at most once: every unit
keeps its statistics, and either the bullets and the fire timers are the same, or one bullet
of unit `i` is appended, the fire timer of unit `i` was `≤ 0` and is now the rounded
`1 / fireRate`. -/
def FireStep (env : Env K) (i : Nat) (s s1 : Game K) : Prop :=
  List.Forall₂ KeepsStats s.units s1.units ∧
    ((s1.bullets = s.bullets ∧ s1.unitFireTimer = s.unitFireTimer) ∨
      ∃ b : Bullet K, b.unitIndex = (i : Int) ∧ s1.bullets = s.bullets ++ [b] ∧
        s.unitFireTimer.getD i 0 ≤ 0 ∧
        s1.unitFireTimer = s.unitFireTimer.set i (env.fl (1 / (s.unit i).fireRate)))

/-- Every unit and the ship have `0 ≤ hp ≤ maxHp`. -/
def HpBounded (s : Game K) : Prop :=
  (∀ u ∈ s.units, 0 ≤ u.hp ∧ u.hp ≤ u.maxHp) ∧
    0 ≤ s.playerShip.hp ∧ s.playerShip.hp ≤ s.playerShip.maxHp

/-! ## Fire events of a run of frames -/

/-- Line 884 on the value `t` of a fire timer: it counts down by `dt`, not below zero, when it
is positive, and is left alone otherwise. -/
def tickValue (env : Env K) (dt t : K) : K :=
  if t > 0 then (if env.fl (t - dt) < 0 then 0 else env.fl (t - dt)) else t

/-- The state in which the unit loop of the frame starts: after the wave director
(lines 826-880). -/
def beforeUnits (env : Env K) (inp : FrameInput K) (s : Game K) : Game K :=
  intermissionTick env inp (waveClearCheck env s)

/-- The bullets that the unit loop of the frame appends to the bullet list. -/
def firedInFrame (env : Env K) (inp : FrameInput K) (s : Game K) : List (Bullet K) :=
  (unitPass env (effectiveDt inp s) (beforeUnits env inp s)).bullets.drop
    (beforeUnits env inp s).bullets.length

/-- The number of bullets that unit `i` fires in the frame. -/
def shotsInFrame (env : Env K) (inp : FrameInput K) (s : Game K) (i : Nat) : Nat :=
  (firedInFrame env inp s).countP (fun b => decide (b.unitIndex = (i : Int)))

/-- The state after the frames of the inputs `inps`, in order. -/
def runFrames (env : Env K) (inps : List (FrameInput K)) (s : Game K) : Game K :=
  inps.foldl (fun acc inp => simFrame env inp acc) s

/-- The state in which frame `n` of the run starts (frames are counted from 0). -/
def frameState (env : Env K) (inps : List (FrameInput K)) (s : Game K) (n : Nat) : Game K :=
  runFrames env (inps.take n) s

/-- The input of frame `n` of the run; past the end of the inputs, a frame of no duration. -/
def frameInput (inps : List (FrameInput K)) (n : Nat) : FrameInput K :=
  inps.getD n { frameTime := 0, enterPressed := false, nextWaveClicked := false }

/-- The effective `dt` of frame `n` of the run. -/
def frameDt (env : Env K) (inps : List (FrameInput K)) (s : Game K) (n : Nat) : K :=
  effectiveDt (frameInput inps n) (frameState env inps s n)

/-- Unit `i` fires in frame `n` of the run. -/
def FiresAt (env : Env K) (inps : List (FrameInput K)) (s : Game K) (i n : Nat) : Prop :=
  0 < shotsInFrame env (frameInput inps n) (frameState env inps s n) i

/-- The sum of the effective `dt` of the frames `k + 1, ..., m` of the run. -/
def dtBetween (env : Env K) (inps : List (FrameInput K)) (s : Game K) (k m : Nat) : K :=
  ((List.range (m - k)).map (fun j => frameDt env inps s (k + 1 + j))).sum

/-- A step from `s` to `s1` that leaves the fire timers, the number of units and the fire
rate of every unit alone. -/
def RateFrame (s s1 : Game K) : Prop :=
  s1.unitFireTimer = s.unitFireTimer ∧ s1.units.length = s.units.length ∧
    ∀ i, (s1.unit i).fireRate = (s.unit i).fireRate

/-! ## Runs of purchases and the upgrade tracks -/

/-- A run of purchase frames alone: the keys of successive frames, lines 649-669 each. -/
def purchaseRun (ks : List PurchaseKeys) (s : Game K) : Game K :=
  ks.foldl (fun acc k => purchases k acc) s

/-- The upgrade tracks of a ship: the four levels with their maxima, and the completion
flag. -/
def Ship.tracks (p : Ship K) : Int × Int × Int × Int × Int × Int × Int × Int × Bool :=
  (p.hullIntegrity, p.maxHullIntegrity, p.shielding, p.maxShielding, p.engines, p.maxEngines,
    p.lifeSupportSystems, p.maxLifeSupportSystems, p.isComplete)

/-- The upgrade tracks of a new game (the member initialisers of lines 112-122 and the
resets of lines 379-383): every level 0, the maxima 100, 50, 25 and 25, the completion flag
false. -/
def NewTracks (s : Game K) : Prop :=
  s.playerShip.tracks = (0, 100, 0, 50, 0, 25, 0, 25, false)

/-- What purchases keep of the levels of a new game: the maxima 100, 50, 25 and 25, and
every level a multiple of its increment (8, 5, 3, 3) between 0 and the first such multiple at
or past the maximum (104, 50, 27 and 27). -/
def LevelsReached (p : Ship K) : Prop :=
  (p.maxHullIntegrity = 100 ∧ p.maxShielding = 50 ∧ p.maxEngines = 25 ∧
    p.maxLifeSupportSystems = 25) ∧
  (8 ∣ p.hullIntegrity ∧ 0 ≤ p.hullIntegrity ∧ p.hullIntegrity ≤ 104) ∧
  (5 ∣ p.shielding ∧ 0 ≤ p.shielding ∧ p.shielding ≤ 50) ∧
  (3 ∣ p.engines ∧ 0 ≤ p.engines ∧ p.engines ≤ 27) ∧
  (3 ∣ p.lifeSupportSystems ∧ 0 ≤ p.lifeSupportSystems ∧ p.lifeSupportSystems ≤ 27)

/-- The completion flag is the test of line 666: every level is at or past its maximum. -/
def FlagIsTest (p : Ship K) : Prop :=
  p.isComplete = true ↔
    p.hullIntegrity ≥ p.maxHullIntegrity ∧ p.shielding ≥ p.maxShielding ∧
      p.engines ≥ p.maxEngines ∧ p.lifeSupportSystems ≥ p.maxLifeSupportSystems

/-- The invariant of the upgrade tracks: `LevelsReached` and `FlagIsTest`. -/
def TracksReached (s : Game K) : Prop :=
  LevelsReached s.playerShip ∧ FlagIsTest s.playerShip

/-- What the ship of a game that started as a new game satisfies after purchases: each level
is at most the first multiple of its increment at or past its maximum (104, 50, 27, 27), the
completion flag is true exactly when every level is at or past its maximum (100, 50, 25,
25), and that is exactly when the levels are 104, 50, 27 and 27. -/
def TracksWithinReach (p : Ship K) : Prop :=
  (p.hullIntegrity ≤ 104 ∧ p.shielding ≤ 50 ∧ p.engines ≤ 27 ∧ p.lifeSupportSystems ≤ 27) ∧
  (p.isComplete = true ↔
    p.hullIntegrity ≥ 100 ∧ p.shielding ≥ 50 ∧ p.engines ≥ 25 ∧ p.lifeSupportSystems ≥ 25) ∧
  (p.isComplete = true ↔
    p.hullIntegrity = 104 ∧ p.shielding = 50 ∧ p.engines = 27 ∧ p.lifeSupportSystems = 27)

/-- The test of line 1149: the enemy `e` has an avoidance radius and its closest unit is
inside it. -/
def EnemyAvoids (env : Env K) (e : EnemyNPC K) (s : Game K) : Prop :=
  e.avoidUnitsRange > 0 ∧ (enemyClosest env e s).1 ≥ 0 ∧
    (enemyClosest env e s).2 < e.avoidUnitsRange

/-- The target point `(tx, ty)` of lines 1146-1147: the centre of the closest unit when the
enemy engages a unit, the ship otherwise. -/
def enemyTargetPoint (env : Env K) (e : EnemyNPC K) (s : Game K) : K × K :=
  if enemyEngagesUnit env e s then
    ((s.unit (enemyClosest env e s).1.toNat).cx, (s.unit (enemyClosest env e s).1.toNat).cy)
  else (s.playerShip.x, s.playerShip.y)

/-- The `len` of lines 1153 and 1165: the length of `(dx, dy)` as the code computes it. -/
def moveLen (env : Env K) (dx dy : K) : K := env.sqrtf (dx * dx + dy * dy)

/-! ## The goal of an approach, once reached -/

/-- The unit once the steering step has snapped it onto its goal (lines 1072 and 1074):
`fx`, `fy` are the goal, `moving` is false and `x`, `y` are the roundings of `fx`, `fy`. -/
def arrived (u : Unit K) : Unit K :=
  { u with fx := (u.targetX : K), fy := (u.targetY : K), moving := false,
           x := lroundf ((u.targetX : K)), y := lroundf ((u.targetY : K)) }

/-- The `dx*dx + dy*dy` of lines 946 and 1013: the square of the distance from the centre of
`u` to the point `(tx, ty)`. -/
def sqDistCentre (u : Unit K) (tx ty : K) : K :=
  (tx - u.cx) * (tx - u.cx) + (ty - u.cy) * (ty - u.cy)

/-- Lines 1023-1033, the branch of the engagement step that stops and fires: the unit stops,
and it fires at the enemy `ti` when its fire timer has run out. -/
def stopAndFire (env : Env K) (i : Nat) (ti : Int) (s : Game K) : Game K :=
  let u := s.unit i
  let e := s.enemies.getD ti.toNat default
  let dx := (e.x : K) - u.cx
  let dy := (e.y : K) - u.cy
  let distToEnemy := env.sqrtf (dx * dx + dy * dy)
  let s1 : Game K := s.setUnit i { u with moving := false }
  if s1.unitFireTimer.getD i 0 ≤ 0 then
    { s1 with bullets := s1.bullets ++ [fireBullet u i dx dy distToEnemy],
              unitFireTimer := s1.unitFireTimer.set i (env.fl (1 / u.fireRate)) }
  else s1

/-- Lines 957-967, the branch of the mining step that stops and fires: the unit fires at its
assigned rock when its fire timer has run out, and stops. -/
def stopAndMine (env : Env K) (i : Nat) (s1 : Game K) : Game K :=
  let u := s1.unit i
  let rock := s1.rocks.getD (assignedRockOf i s1).toNat default
  let dxr : K := (rock.x : K) - u.cx
  let dyr : K := (rock.y : K) - u.cy
  let distR : K := env.sqrtf (dxr * dxr + dyr * dyr)
  let s2 : Game K :=
    if s1.unitFireTimer.getD i 0 ≤ 0 then
      { s1 with bullets := s1.bullets ++ [fireBullet u i dxr dyr distR],
                unitFireTimer := s1.unitFireTimer.set i (env.fl (1 / u.fireRate)) }
    else s1
  s2.setUnit i { u with moving := false }

/-! ## Divisions by a distance, checked

Each function of the model that divides by a distance is written once more with every such
division checked: the checked division has no result when its divisor is not above the
bound that the specification gives for that site. -/

/-- The checked division `a / d`: it has a result only when `d > eps`. -/
def checkedDiv (eps a d : K) : Option K :=
  if d > eps then some (a / d) else none

/-- The function `fireBullet` (lines 962-963 and 1028-1029) with `1.0f / dist` checked
against `0.0001`. -/
def fireBulletChecked (u : Unit K) (i : Nat) (dx dy dist : K) : Option (Bullet K) := do
  let inv : K ← if dist > 1 / 10000 then checkedDiv (1 / 10000) 1 dist else some 0
  let dirx := dx * inv
  let diry := dy * inv
  pure { (Bullet.init : Bullet K) with
      x := u.cx, y := u.cy, speed := BULLET_SPEED, vx := dirx * BULLET_SPEED,
      vy := diry * BULLET_SPEED, active := true, damage := u.damage, unitIndex := (i : Int) }

/-- The function `approachGoal` (lines 949-956 and 1016-1022) with `1.0f / dist` checked
against `0.0001`. -/
def approachGoalChecked (u : Unit K) (tx ty dx dy dist : K) : Option (Unit K) := do
  let inv : K ← if dist > 1 / 10000 then checkedDiv (1 / 10000) 1 dist else some 0
  let dirx := dx * inv
  let diry := dy * inv
  let desiredCX := tx - dirx * u.range
  let desiredCY := ty - diry * u.range
  pure { u with targetX := lroundf (desiredCX - (u.width : K) / 2),
                targetY := lroundf (desiredCY - (u.height : K) / 2),
                moving := true }

/-- The function `healerSeek` (lines 1037-1066) with `1.0f/len` checked against `0.0001`. -/
def healerSeekChecked (env : Env K) (i : Nat) (s : Game K) : Option (Game K) := do
  let u := s.unit i
  let best := woundedAllyFrom env i u s.units 0 (-1, SENTINEL)
  let s1 : Game K ←
    if best.1 ≠ -1 ∧ best.2 ≤ 1000 then
      let ally := s.unit best.1.toNat
      let acx := ally.cx
      let acy := ally.cy
      let dx := acx - u.cx
      let dy := acy - u.cy
      let len := env.sqrtf (dx * dx + dy * dy)
      let stopDist : K := u.range * (17 / 20)
      if len > stopDist then do
        let inv : K ← if len > 1 / 10000 then checkedDiv (1 / 10000) 1 len else some 0
        let tx := acx - dx * inv * stopDist
        let ty := acy - dy * inv * stopDist
        pure (s.setUnit i { u with targetX := lroundf (tx - (u.width : K) / 2),
                                   targetY := lroundf (ty - (u.height : K) / 2),
                                   moving := true })
      else some (s.setUnit i { u with moving := false })
    else some s
  pure { s1 with unitAttacking := s1.unitAttacking.set i false,
                 unitTargetEnemy := s1.unitTargetEnemy.set i (-1) }

/-- The function `steer` (lines 1068-1075) with `dx/dist` and `dy/dist` checked against
`0`. -/
def steerChecked (env : Env K) (dt : K) (i : Nat) (s : Game K) : Option (Game K) := do
  let u := s.unit i
  let u1 : Unit K ←
    if u.moving then
      let dx : K := (u.targetX : K) - u.fx
      let dy : K := (u.targetY : K) - u.fy
      let dist := env.sqrtf (dx * dx + dy * dy)
      let step : K := (u.speed : K) * dt
      if dist ≤ step ∨ dist < 1 / 2 then
        some { u with fx := (u.targetX : K), fy := (u.targetY : K), moving := false }
      else if dist > 0 then do
        let qx ← checkedDiv 0 dx dist
        let qy ← checkedDiv 0 dy dist
        pure { u with fx := u.fx + qx * step, fy := u.fy + qy * step }
      else some u
    else some u
  pure (s.setUnit i { u1 with x := lroundf u1.fx, y := lroundf u1.fy })

/-- The function `enemyMove` (lines 1155-1160 and 1167-1172) with `dx / len` and `dy / len`
checked against `0.001`. -/
def enemyMoveChecked (env : Env K) (dt : K) (enemy : EnemyNPC K) (dx dy : K) :
    Option (EnemyNPC K) :=
  let len := env.sqrtf (dx * dx + dy * dy)
  if len > 1 / 1000 then do
    let step := enemy.moveSpeed * dt
    let nx ← checkedDiv (1 / 1000) dx len
    let ny ← checkedDiv (1 / 1000) dy len
    let fx1 := enemy.fx + nx * step
    let fy1 := enemy.fy + ny * step
    pure { enemy with fx := fx1, fy := fy1, x := lroundf fx1, y := lroundf fy1 }
  else some enemy

/-! ## The commitment of a unit -/

/-- The committed target of unit `i` is an index into the enemy list, of a living enemy. -/
def TargetValid (s : Game K) (i : Nat) : Prop :=
  0 ≤ s.unitTargetEnemy.getD i (-1) ∧
  s.unitTargetEnemy.getD i (-1) < (s.enemies.length : Int) ∧
  (s.enemies.getD (s.unitTargetEnemy.getD i (-1)).toNat default).alive = true

/-- Unit `i` is attacking, with a valid target. -/
def Committed (s : Game K) (i : Nat) : Prop :=
  s.unitAttacking.getD i false = true ∧ TargetValid s i

/-- Unit `i` is not attacking and its target entry is `-1`. -/
def Uncommitted (s : Game K) (i : Nat) : Prop :=
  s.unitAttacking.getD i false = false ∧ s.unitTargetEnemy.getD i (-1) = -1

/-- The step from `s` to `s1` left the attacking flag and the target entry of unit `i` as
they were. -/
def SameCommit (i : Nat) (s s1 : Game K) : Prop :=
  s1.unitAttacking.getD i false = s.unitAttacking.getD i false ∧
  s1.unitTargetEnemy.getD i (-1) = s.unitTargetEnemy.getD i (-1)

/-- The step from `s` to `s1` left the enemies and the lengths of the tables `unitAttacking`
and `unitTargetEnemy` as they were. -/
def CommitFrame (s s1 : Game K) : Prop :=
  s1.enemies = s.enemies ∧ s1.unitAttacking.length = s.unitAttacking.length ∧
  s1.unitTargetEnemy.length = s.unitTargetEnemy.length

/-- Line 976: the commitment of unit `i` is dropped: `unitAttacking[i] = false`,
`unitTargetEnemy[i] = -1`, `u.moving = false`. -/
def clearCommit (i : Nat) (s : Game K) : Game K :=
  { s with unitAttacking := s.unitAttacking.set i false,
           unitTargetEnemy := s.unitTargetEnemy.set i (-1),
           units := s.units.set i { s.unit i with moving := false } }

/-- Lines 893-894 and 978-979: the captured list of unit `i` after the `remove_if` that
erases its dead and invalid entries. -/
def pruneCaptured (i : Nat) (s : Game K) : Game K :=
  { s with unitAreaTargets := s.unitAreaTargets.set i (livingTargets s i) }

/-! ## Acquisition in area-attack mode -/

/-- Lines 893-894 and 920: the captured list of unit `i` is pruned and found empty, and the
unit leaves area-attack mode. -/
def leaveArea (i : Nat) (s : Game K) : Game K :=
  { pruneCaptured i s with unitAreaAttack := s.unitAreaAttack.set i false }

/-- The state at the end of the acquisition step of unit `i` in a frame of frame time `dt`
that starts in `s` (lines 884-972). -/
def acquired (env : Env K) (dt : K) (i : Nat) (s : Game K) : Game K :=
  acquire env i (tickFireTimer env dt i s)

/-- The enemy `t` is, by the distance that the unit loop computes, no farther from unit `i`
than the enemy `t1`. -/
def NoFarther (env : Env K) (s : Game K) (i : Nat) (t t1 : Int) : Prop :=
  enemyDist env (s.unit i) (s.enemies.getD t.toNat default)
    ≤ enemyDist env (s.unit i) (s.enemies.getD t1.toNat default)

/-! ## Checked indexing -/

/-- The element `v[idx]` of a vector with the index checked: there is none when `idx` is
negative or not below the size. -/
def vecAt {α : Type} (l : List α) (idx : Int) : Option α :=
  if idx < 0 then none else l[idx.toNat]?

/-- The sizes of the unit list and of the seven per-unit tables. -/
def tableSizes (s : Game K) : List Nat :=
  [s.units.length, s.unitAttacking.length, s.unitTargetEnemy.length, s.unitFireTimer.length,
   s.unitAreaAttack.length, s.unitAreaTargets.length, s.unitHealFraction.length,
   s.unitAssignedRock.length]

/-- Every per-unit table has one entry per unit, as lines 311-321 and 416-422 size them. -/
def Sized (s : Game K) : Prop :=
  tableSizes s = List.replicate 8 s.units.length

/-- One step of play from `s` to `s1`: a frame of the simulation, the purchases of a frame, a
number key, a right click or an area order. -/
def PlayStep (env : Env K) (s s1 : Game K) : Prop :=
  (∃ inp : FrameInput K, s1 = simFrame env inp s) ∨
  (∃ keys : PurchaseKeys, s1 = purchases keys s) ∨
  (∃ (i : Nat) (ctrl : Bool), s1 = selectKey i ctrl s) ∨
  (∃ mx my : K, s1 = rightClick mx my s) ∨
  (∃ wsx wsy wex wey : K, s1 = areaOrder env wsx wsy wex wey s)

/-! ## The passes with every index checked

The unit loop, the enemy loop and `recomputeRockAssignments` written once more, each `v[e]`
of the source as a checked read `vecAt` or a checked write `vecSet`, in the order and under
the guards of the source: a function has a result only when no index that it dereferences
is out of bounds.  A loop `for (j = 0; j < v.size(); ++j)` over the elements `v[j]` is the
recursion over the elements of `v`, as in the model; the references `Unit &u = units[i]` and
`EnemyNPC &enemy = enemies[i]` are checked where they are bound. -/

/-- The write `v[idx] = x` with the index checked: there is no result when `idx` is negative
or not below the size. -/
def vecSet {α : Type} (l : List α) (idx : Int) (x : α) : Option (List α) :=
  if idx < 0 ∨ idx ≥ (l.length : Int) then none else some (l.set idx.toNat x)

/-- Lines 329-337 with `used[ri]` and `rocks[ri]` checked. -/
def nearestFreeRockOpt (env : Env K) (rocks : List Rock) (used : List Bool) (u : Unit K)
    (alive : List Nat) : Option (Int × K) :=
  alive.foldlM
    (fun (best : Int × K) (ri : Nat) => do
      let taken ← vecAt used (ri : Int)
      if taken then pure best
      else do
        let r ← vecAt rocks (ri : Int)
        let d := rockDist env u r
        pure (if d < best.2 then ((ri : Int), d) else best))
    (-1, SENTINEL)

/-- Lines 344-351 with `rocks[ri]` checked. -/
def nearestRockOpt (env : Env K) (rocks : List Rock) (u : Unit K) (alive : List Nat) :
    Option (Int × K) :=
  alive.foldlM
    (fun (best : Int × K) (ri : Nat) => do
      let r ← vecAt rocks (ri : Int)
      let d := rockDist env u r
      pure (if d < best.2 then ((ri : Int), d) else best))
    (-1, SENTINEL)

/-- Lines 328-339 with `units[ui]`, `unitAssignedRock[ui]` and `used[bestR]` checked. -/
def assignRound1StepOpt (env : Env K) (s : Game K) (alive : List Nat)
    (acc : List Bool × List Int) (ui : Nat) : Option (List Bool × List Int) := do
  let u ← vecAt s.units (ui : Int)
  if u.type = UnitType.UNIT_HEALER then do
    let table ← vecSet acc.2 (ui : Int) (-1)
    pure (acc.1, table)
  else do
    let best ← nearestFreeRockOpt env s.rocks acc.1 u alive
    if best.1 ≠ -1 then do
      let table ← vecSet acc.2 (ui : Int) best.1
      let used ← vecSet acc.1 best.1 true
      pure (used, table)
    else do
      let table ← vecSet acc.2 (ui : Int) (-1)
      pure (acc.1, table)

/-- Lines 342-352 with `units[ui]` and `unitAssignedRock[ui]` checked. -/
def assignRound2StepOpt (env : Env K) (s : Game K) (alive : List Nat)
    (table : List Int) (ui : Nat) : Option (List Int) := do
  let u ← vecAt s.units (ui : Int)
  if u.type = UnitType.UNIT_HEALER then pure table
  else do
    let cur ← vecAt table (ui : Int)
    if cur ≠ -1 then pure table
    else do
      let best ← nearestRockOpt env s.rocks u alive
      vecSet table (ui : Int) best.1

/-- The lambda `recomputeRockAssignments` (lines 323-355) with every index checked. -/
def recomputeRockAssignmentsOpt (env : Env K) (s : Game K) : Option (Game K) := do
  let round1 ← (List.range s.units.length).foldlM
    (assignRound1StepOpt env s (aliveRocks s.rocks))
    (List.replicate s.rocks.length false, s.unitAssignedRock)
  let table2 ← (List.range s.units.length).foldlM
    (assignRound2StepOpt env s (aliveRocks s.rocks)) round1.2
  pure { s with unitAssignedRock := table2, rockAssignmentDirty := false }

/-- Line 884 with `unitFireTimer[i]` checked. -/
def tickFireTimerOpt (env : Env K) (dt : K) (i : Nat) (s : Game K) : Option (Game K) := do
  let t ← vecAt s.unitFireTimer (i : Int)
  if t > 0 then do
    let t1 := env.fl (t - dt)
    let table ← vecSet s.unitFireTimer (i : Int) (if t1 < 0 then 0 else t1)
    pure { s with unitFireTimer := table }
  else pure s

/-- The predicate of the `remove_if` of lines 894 and 979,
`idx < 0 || idx >= (int)enemies.size() || !enemies[idx].alive`, with `enemies[idx]` checked:
it is read only when the two comparisons before it are false. -/
def staleTargetOpt (enemies : List (EnemyNPC K)) (idx : Int) : Option Bool :=
  if idx < 0 ∨ idx ≥ (enemies.length : Int) then some true
  else do
    let e ← vecAt enemies idx
    pure (!e.alive)

/-- The `erase(remove_if(...))` of lines 894 and 979 over a captured list. -/
def pruneTargetsOpt (enemies : List (EnemyNPC K)) : List Int → Option (List Int)
  | [] => some []
  | idx :: rest => do
    let stale ← staleTargetOpt enemies idx
    let rest1 ← pruneTargetsOpt enemies rest
    pure (if stale then rest1 else idx :: rest1)

/-- Lines 896-903 and 982-989 with `unitAreaAttack[j]`, `unitAttacking[j]`,
`unitTargetEnemy[j]`, `enemies[tj]` and `used[tj]` checked. -/
def claimedByOthersOpt (s : Game K) (i : Nat) : Option (List Bool) :=
  (List.range s.units.length).foldlM
    (fun (used : List Bool) (j : Nat) =>
      if j = i then pure used
      else do
        let area ← vecAt s.unitAreaAttack (j : Int)
        if area then do
          let attacking ← vecAt s.unitAttacking (j : Int)
          if attacking then do
            let tj ← vecAt s.unitTargetEnemy (j : Int)
            if tj ≥ 0 ∧ tj < (s.enemies.length : Int) then do
              let e ← vecAt s.enemies tj
              if e.alive then vecSet used tj true else pure used
            else pure used
          else pure used
        else pure used)
    (List.replicate s.enemies.length false)

/-- Lines 904-910 with `used[t]` and `enemies[t]` checked, under the guard of line 906. -/
def nearestUnclaimedOpt (env : Env K) (enemies : List (EnemyNPC K)) (used : List Bool)
    (u : Unit K) (list : List Int) : Option (Int × K) :=
  list.foldlM
    (fun (best : Int × K) (t : Int) =>
      if t ≥ 0 ∧ t < (enemies.length : Int) then do
        let taken ← vecAt used t
        if taken = false then do
          let e ← vecAt enemies t
          let d := enemyDist env u e
          pure (if d < best.2 then (t, d) else best)
        else pure best
      else pure best)
    (-1, SENTINEL)

/-- Lines 990-996 with `used[t]` and `enemies[t]` checked; the source has no guard on `t`
here. -/
def nearestUnclaimedReOpt (env : Env K) (enemies : List (EnemyNPC K)) (used : List Bool)
    (u : Unit K) (list : List Int) : Option (Int × K) :=
  list.foldlM
    (fun (best : Int × K) (t : Int) => do
      let taken ← vecAt used t
      if taken = false then do
        let e ← vecAt enemies t
        let d := enemyDist env u e
        pure (if d < best.2 then (t, d) else best)
      else pure best)
    (-1, SENTINEL)

/-- Lines 912-916 and 998-1002 with `enemies[t]` checked; the source has no guard on `t`
here. -/
def nearestCapturedOpt (env : Env K) (enemies : List (EnemyNPC K)) (u : Unit K)
    (list : List Int) : Option (Int × K) :=
  list.foldlM
    (fun (best : Int × K) (t : Int) => do
      let e ← vecAt enemies t
      let d := enemyDist env u e
      pure (if d < best.2 then (t, d) else best))
    (-1, SENTINEL)

/-- Lines 892-922 with every index checked. -/
def areaAcquireOpt (env : Env K) (i : Nat) (s : Game K) : Option (Game K) := do
  let u := s.unit i
  let list0 ← vecAt s.unitAreaTargets (i : Int)
  let list ← pruneTargetsOpt s.enemies list0
  let targets ← vecSet s.unitAreaTargets (i : Int) list
  let s1 : Game K := { s with unitAreaTargets := targets }
  if list ≠ [] then do
    let used ← claimedByOthersOpt s1 i
    let best ← nearestUnclaimedOpt env s1.enemies used u list
    let bestI ←
      (if best.1 = -1 then (nearestCapturedOpt env s1.enemies u list).map Prod.fst
       else pure best.1)
    if bestI ≠ -1 then do
      let attacking ← vecSet s1.unitAttacking (i : Int) true
      let target ← vecSet s1.unitTargetEnemy (i : Int) bestI
      pure { s1 with unitAttacking := attacking, unitTargetEnemy := target }
    else pure s1
  else do
    let area ← vecSet s1.unitAreaAttack (i : Int) false
    pure { s1 with unitAreaAttack := area }

/-- Lines 938 and 942, `(i < unitAssignedRock.size()) ? unitAssignedRock[i] : -1`, with the
read checked. -/
def assignedRockOfOpt (i : Nat) (s : Game K) : Option Int :=
  if i < s.unitAssignedRock.length then vecAt s.unitAssignedRock (i : Int) else some (-1)

/-- Lines 937-943 with every index checked: `rocks[assigned]` is read only when the two
comparisons before it are false. -/
def revalidateRockOpt (env : Env K) (i : Nat) (s : Game K) : Option (Game K) := do
  let s0 ← (if s.rockAssignmentDirty then recomputeRockAssignmentsOpt env s else pure s)
  let assigned ← assignedRockOfOpt i s0
  let stale ←
    (if assigned < 0 ∨ assigned ≥ (s0.rocks.length : Int) then pure true
     else (vecAt s0.rocks assigned).map (fun r => !r.alive))
  if stale then recomputeRockAssignmentsOpt env { s0 with rockAssignmentDirty := true }
  else pure s0

/-- Lines 944-969 with every index checked: `rocks[assigned]` is read under the guard
`assigned != -1` of line 944, and mining is skipped without it. -/
def mineStepOpt (env : Env K) (i : Nat) (s1 : Game K) : Option (Game K) := do
  let assigned1 ← assignedRockOfOpt i s1
  if assigned1 ≠ -1 then do
    let u := s1.unit i
    let rock ← vecAt s1.rocks assigned1
    let dxr : K := (rock.x : K) - u.cx
    let dyr : K := (rock.y : K) - u.cy
    let distR : K := env.sqrtf (dxr * dxr + dyr * dyr)
    if distR > u.range + ATTACK_RANGE_HYST then
      pure (s1.setUnit i (approachGoal u (rock.x : K) (rock.y : K) dxr dyr distR))
    else do
      let timer ← vecAt s1.unitFireTimer (i : Int)
      let s2 : Game K ←
        (if timer ≤ 0 then do
           let table ← vecSet s1.unitFireTimer (i : Int) (env.fl (1 / u.fireRate))
           pure { s1 with bullets := s1.bullets ++ [fireBullet u i dxr dyr distR],
                          unitFireTimer := table }
         else pure s1)
      pure (s2.setUnit i { u with moving := false })
  else pure s1

/-- Lines 937-969 with every index checked. -/
def mineOpt (env : Env K) (i : Nat) (s : Game K) : Option (Game K) := do
  let s1 ← revalidateRockOpt env i s
  mineStepOpt env i s1

/-- Lines 923-971 with every index checked. -/
def scanOrMineOpt (env : Env K) (i : Nat) (s : Game K) : Option (Game K) := do
  let u := s.unit i
  let best := nearestEnemyScan env u s.enemies
  if best.1 ≥ 0 ∧ best.2 ≤ u.range then do
    let attacking ← vecSet s.unitAttacking (i : Int) true
    let target ← vecSet s.unitTargetEnemy (i : Int) best.1
    pure { s with unitAttacking := attacking, unitTargetEnemy := target,
                  units := s.units.set i { u with moving := false } }
  else mineOpt env i s

/-- Lines 886-972 with every index checked; `!unitAreaAttack[i] && !unitAttacking[i]` reads
its second table only when the first test holds. -/
def acquireOpt (env : Env K) (i : Nat) (s : Game K) : Option (Game K) := do
  let area ← vecAt s.unitAreaAttack (i : Int)
  let s1 ← (if area then areaAcquireOpt env i s else pure s)
  let area1 ← vecAt s1.unitAreaAttack (i : Int)
  if area1 = false then do
    let attacking1 ← vecAt s1.unitAttacking (i : Int)
    if attacking1 = false then scanOrMineOpt env i s1 else pure s1
  else pure s1

/-- Lines 978-1006 with every index checked. -/
def reacquireOpt (env : Env K) (i : Nat) (s : Game K) : Option (Game K) := do
  let u := s.unit i
  let list0 ← vecAt s.unitAreaTargets (i : Int)
  let list ← pruneTargetsOpt s.enemies list0
  let targets ← vecSet s.unitAreaTargets (i : Int) list
  let s1 : Game K := { s with unitAreaTargets := targets }
  if list ≠ [] then do
    let used ← claimedByOthersOpt s1 i
    let best ← nearestUnclaimedReOpt env s1.enemies used u list
    let bestI ←
      (if best.1 = -1 then (nearestCapturedOpt env s1.enemies u list).map Prod.fst
       else pure best.1)
    if bestI ≠ -1 then do
      let attacking ← vecSet s1.unitAttacking (i : Int) true
      let target ← vecSet s1.unitTargetEnemy (i : Int) bestI
      pure { s1 with unitAttacking := attacking, unitTargetEnemy := target }
    else do
      let area ← vecSet s1.unitAreaAttack (i : Int) false
      pure { s1 with unitAreaAttack := area }
  else do
    let area ← vecSet s1.unitAreaAttack (i : Int) false
    pure { s1 with unitAreaAttack := area }

/-- Lines 976-1007 with every index checked. -/
def targetLostOpt (env : Env K) (i : Nat) (s : Game K) : Option (Game K) := do
  let attacking ← vecSet s.unitAttacking (i : Int) false
  let target ← vecSet s.unitTargetEnemy (i : Int) (-1)
  let s1 : Game K :=
    { s with unitAttacking := attacking, unitTargetEnemy := target,
             units := s.units.set i { s.unit i with moving := false } }
  let area ← vecAt s1.unitAreaAttack (i : Int)
  if area then reacquireOpt env i s1 else pure s1

/-- Lines 1008-1034 with `enemies[ti]` and `unitFireTimer[i]` checked. -/
def approachOrFireOpt (env : Env K) (i : Nat) (ti : Int) (s : Game K) : Option (Game K) := do
  let u := s.unit i
  let e ← vecAt s.enemies ti
  let ecx : K := (e.x : K)
  let ecy : K := (e.y : K)
  let dx := ecx - u.cx
  let dy := ecy - u.cy
  let distToEnemy := env.sqrtf (dx * dx + dy * dy)
  if distToEnemy > u.range + ATTACK_RANGE_HYST then
    pure (s.setUnit i (approachGoal u ecx ecy dx dy distToEnemy))
  else do
    let s1 : Game K := s.setUnit i { u with moving := false }
    let timer ← vecAt s1.unitFireTimer (i : Int)
    if timer ≤ 0 then do
      let table ← vecSet s1.unitFireTimer (i : Int) (env.fl (1 / u.fireRate))
      pure { s1 with bullets := s1.bullets ++ [fireBullet u i dx dy distToEnemy],
                     unitFireTimer := table }
    else pure s1

/-- Lines 973-1035 with every index checked: `enemies[ti]` is read only when `ti` has passed
the two comparisons of line 975. -/
def engageOpt (env : Env K) (i : Nat) (s : Game K) : Option (Game K) := do
  let ti ← vecAt s.unitTargetEnemy (i : Int)
  if ti < 0 ∨ ti ≥ (s.enemies.length : Int) then targetLostOpt env i s
  else do
    let e ← vecAt s.enemies ti
    if e.alive = false then targetLostOpt env i s else approachOrFireOpt env i ti s

/-- Lines 1037-1066 with `units[bestIdx]`, `unitAttacking[i]` and `unitTargetEnemy[i]`
checked. -/
def healerSeekOpt (env : Env K) (i : Nat) (s : Game K) : Option (Game K) := do
  let u := s.unit i
  let best := woundedAllyFrom env i u s.units 0 (-1, SENTINEL)
  let s1 : Game K ←
    (if best.1 ≠ -1 ∧ best.2 ≤ 1000 then do
       let ally ← vecAt s.units best.1
       let acx := ally.cx
       let acy := ally.cy
       let dx := acx - u.cx
       let dy := acy - u.cy
       let len := env.sqrtf (dx * dx + dy * dy)
       let stopDist : K := u.range * (17 / 20)
       if len > stopDist then
         let inv : K := if len > 1 / 10000 then 1 / len else 0
         let tx := acx - dx * inv * stopDist
         let ty := acy - dy * inv * stopDist
         pure (s.setUnit i { u with targetX := lroundf (tx - (u.width : K) / 2),
                                    targetY := lroundf (ty - (u.height : K) / 2),
                                    moving := true })
       else pure (s.setUnit i { u with moving := false })
     else pure s)
  let attacking ← vecSet s1.unitAttacking (i : Int) false
  let target ← vecSet s1.unitTargetEnemy (i : Int) (-1)
  pure { s1 with unitAttacking := attacking, unitTargetEnemy := target }

/-- The body of the unit loop (lines 883-1075) with every index checked; the steering step
(lines 1068-1075) works on the reference `u` alone. -/
def unitUpdateOpt (env : Env K) (dt : K) (i : Nat) (s : Game K) : Option (Game K) := do
  let _ ← vecAt s.units (i : Int)
  let s1 ← tickFireTimerOpt env dt i s
  let attacking ← vecAt s1.unitAttacking (i : Int)
  let s2 ←
    (if attacking = false ∧ (s1.unit i).type ≠ UnitType.UNIT_HEALER then acquireOpt env i s1
     else pure s1)
  let attacking2 ← vecAt s2.unitAttacking (i : Int)
  let s3 ← (if attacking2 then engageOpt env i s2 else pure s2)
  let s4 ←
    (if (s3.unit i).type = UnitType.UNIT_HEALER then healerSeekOpt env i s3 else pure s3)
  pure (steer env dt i s4)

/-- The unit loop of lines 882-1076 with every index checked. -/
def unitPassOpt (env : Env K) (dt : K) (s : Game K) : Option (Game K) :=
  (List.range s.units.length).foldlM (fun (acc : Game K) (i : Nat) => unitUpdateOpt env dt i acc) s

/-- Lines 1149-1174 with `units[closestUnit]` checked: it is read in the avoidance branch
alone, under `closestUnit >= 0`. -/
def enemyAdvanceOpt (env : Env K) (dt : K) (enemy : EnemyNPC K) (closestUnit : Int)
    (closestDist : K) (units : List (Unit K)) (tx ty distToTarget : K) :
    Option (EnemyNPC K) :=
  if enemy.avoidUnitsRange > 0 ∧ closestUnit ≥ 0 ∧ closestDist < enemy.avoidUnitsRange then do
    let cu ← vecAt units closestUnit
    pure (enemyMove env dt enemy (enemy.fx - cu.cx) (enemy.fy - cu.cy))
  else if distToTarget > enemy.attackRange then
    pure (enemyMove env dt enemy (tx - enemy.fx) (ty - enemy.fy))
  else pure enemy

/-- Lines 1177-1184 with `units[closestUnit]` checked: it is read and written only when the
enemy engages a unit. -/
def enemyStrikeOpt (eUnit eShip : Bool) (closestUnit : Int) (attackDamage : K) (s : Game K) :
    Option (Game K) :=
  if eUnit then do
    let cu ← vecAt s.units closestUnit
    let hp1 := cu.hp - truncInt attackDamage
    let hp2 := if hp1 < 0 then 0 else hp1
    let show2 := if hp2 < cu.maxHp then true else cu.showHp
    let units ← vecSet s.units closestUnit { cu with hp := hp2, showHp := show2 }
    pure { s with units := units }
  else if eShip then
    let hp1 := s.playerShip.hp - truncInt attackDamage
    pure { s with playerShip := { s.playerShip with hp := if hp1 < 0 then 0 else hp1 } }
  else pure s

/-- The body of the enemy loop (lines 1113-1187) with every index checked:
`units[closestUnit]` is read for the target point only when the enemy engages a unit. -/
def enemyUpdateOpt (env : Env K) (dt : K) (i : Nat) (s : Game K) : Option (Game K) := do
  let enemy0 ← vecAt s.enemies (i : Int)
  if enemy0.alive = false then pure s
  else do
    let enemy : EnemyNPC K :=
      { enemy0 with timeSinceLastAttack := enemy0.timeSinceLastAttack + dt }
    let enemyCX := enemy.fx
    let enemyCY := enemy.fy
    let closest := closestUnitFrom env enemyCX enemyCY s.units 0 (-1, SENTINEL)
    let closestUnit := closest.1
    let closestDist := closest.2
    let shipCX := s.playerShip.x
    let shipCY := s.playerShip.y
    let dxs := shipCX - enemyCX
    let dys := shipCY - enemyCY
    let distToShip := env.sqrtf (dxs * dxs + dys * dys)
    let eUnit := engagingUnit enemy closestUnit closestDist distToShip
    let eShip := engagingShip enemy closestUnit closestDist distToShip
    if eUnit || eShip then do
      let tx ← (if eUnit then (vecAt s.units closestUnit).map Unit.cx else pure shipCX)
      let ty ← (if eUnit then (vecAt s.units closestUnit).map Unit.cy else pure shipCY)
      let distToTarget := if eUnit then closestDist else distToShip
      let enemy1 ←
        enemyAdvanceOpt env dt enemy closestUnit closestDist s.units tx ty distToTarget
      if distToTarget ≤ enemy1.attackRange ∧
          enemy1.timeSinceLastAttack ≥ enemy1.attackCooldown then do
        let s1 ← enemyStrikeOpt eUnit eShip closestUnit enemy1.attackDamage s
        let enemies ← vecSet s1.enemies (i : Int) { enemy1 with timeSinceLastAttack := 0 }
        pure { s1 with enemies := enemies }
      else do
        let enemies ← vecSet s.enemies (i : Int) enemy1
        pure { s with enemies := enemies }
    else do
      let enemies ← vecSet s.enemies (i : Int) enemy
      pure { s with enemies := enemies }

/-- The enemy loop of lines 1112-1188 with every index checked. -/
def enemyPassOpt (env : Env K) (dt : K) (s : Game K) : Option (Game K) :=
  (List.range s.enemies.length).foldlM
    (fun (acc : Game K) (i : Nat) => enemyUpdateOpt env dt i acc) s

end Model

/-! ## A concrete instance for evaluating the model

`K = ℚ`, with a square root that is exact on the squares of rationals. -/

/-- The integer square root of `n` by upward search: the largest `r` (reached within `fuel`
steps from the start value) with `r * r ≤ n`. -/
def isqrtAux : Nat → Nat → Nat → Nat
  | 0, _, r => r
  | fuel + 1, n, r => if (r + 1) * (r + 1) ≤ n then isqrtAux fuel n (r + 1) else r

/-- A square root on `ℚ`: the integer square roots of numerator and denominator.  It is
exact on every square of a rational whose root has numerator and denominator up to 5000. -/
def qsqrt (q : ℚ) : ℚ :=
  (isqrtAux 5000 q.num.toNat 0 : ℚ) / (isqrtAux 5000 q.den 0 : ℚ)

/-- The evaluation environment: `qsqrt` for `sqrtf` and the random stream `0, 1, 2, ...`. -/
def evalEnv : Env ℚ := { sqrtf := qsqrt, rand := fun n => n, fl := fun x => x }

/-- A unit of type `t` whose centre is at `(cx, cy)`, 45 wide and 75 high, with the rifle
statistics of lines 188-191 (hp 220, fire rate 2.5, range 140, damage 18). -/
def demoUnit (t : UnitType) (cx cy : ℚ) : Unit ℚ :=
  { (Unit.init : Unit ℚ) with
      width := 45, height := 75, speed := 200, fx := cx - 45 / 2, fy := cy - 75 / 2,
      x := lroundf (cx - 45 / 2), y := lroundf (cy - 75 / 2), type := t, hp := 220,
      maxHp := 220, fireRate := 5 / 2, range := 140, damage := 18, showHp := true }

/-- A living rock at `(x, y)` with 200 hit points. -/
def demoRock (x y : Int) (alive : Bool) : Rock :=
  { (Rock.init : Rock) with x := x, y := y, width := 48, height := 48, alive := alive }

/-- The ship as `startNewGame` places it (lines 373-383). -/
def demoShip : Ship ℚ :=
  { x := 1750, y := 1750, width := 120, height := 180, hp := 200, maxHp := 200,
    hullIntegrity := 0, maxHullIntegrity := 100, shielding := 0, maxShielding := 50,
    engines := 0, maxEngines := 25, lifeSupportSystems := 0, maxLifeSupportSystems := 25,
    isComplete := false }

/-- A game on Normal in wave 1 with the given units, enemies and rocks, the per-unit tables
in their initial state (lines 311-322), no bullets and no scrap. -/
def demoGame (units : List (Unit ℚ)) (enemies : List (EnemyNPC ℚ)) (rocks : List Rock) :
    Game ℚ :=
  { difficulty := Difficulty.DIFF_NORMAL, currentWave := 1,
    enemiesAlive := (enemies.length : Int), units := units, enemies := enemies, bullets := [],
    rocks := rocks, playerShip := demoShip,
    shop := { scrapMetal := 0, hullUpgradeCost := 10, shieldingUpgradeCost := 15,
              engineUpgradeCost := 20, lifeSupportUpgradeCost := 25 },
    unitAttacking := List.replicate units.length false,
    unitTargetEnemy := List.replicate units.length (-1),
    unitFireTimer := List.replicate units.length 0,
    unitAreaAttack := List.replicate units.length false,
    unitAreaTargets := List.replicate units.length [],
    unitHealFraction := List.replicate units.length 0,
    unitAssignedRock := List.replicate units.length (-1),
    rockAssignmentDirty := true, timeScale := 1, isPaused := false, inIntermission := false,
    intermissionTime := 0, randCalls := 0 }

/-- Two riflemen and a healer around the origin, and three rocks of which the middle one is
already destroyed. -/
def miningGame : Game ℚ :=
  demoGame
    [demoUnit UnitType.UNIT_RIFLE 0 0, demoUnit UnitType.UNIT_HEALER 50 0,
     demoUnit UnitType.UNIT_SHOTGUN 100 0]
    []
    [demoRock 300 400 true, demoRock 10 0 false, demoRock 100 300 true]

/-- A living enemy at `(x, y)` with `hp` hit points, 32 by 32, and the default statistics of
`struct EnemyNPC` (attack range 100, cooldown 2, damage 15). -/
def demoEnemy (x y hp : Int) : EnemyNPC ℚ :=
  { (EnemyNPC.init : EnemyNPC ℚ) with
      x := x, y := y, fx := (x : ℚ), fy := (y : ℚ), width := 32, height := 32, hp := hp,
      maxHp := hp }

/-- A rifleman with its centre at the origin, committed to an enemy 146 away: six beyond its
range of 140, inside the hysteresis band. -/
def bandGame : Game ℚ :=
  { demoGame [demoUnit UnitType.UNIT_RIFLE 0 0] [demoEnemy 146 0 70] [] with
      unitAttacking := [true], unitTargetEnemy := [0] }

/-- An idle rifleman at the origin with three living enemies: one 300 away and two at the
same distance 100, of which the one at position 1 comes first in the list. -/
def scanGame : Game ℚ :=
  demoGame [demoUnit UnitType.UNIT_RIFLE 0 0]
    [demoEnemy 0 300 70, demoEnemy 100 0 70, demoEnemy (-100) 0 70] []

/-- The end-to-end scenario: a rifleman (range 140, fire rate 2.5, damage 18) with its centre
at the origin, committed to an enemy with 70 hit points that sits at distance 100. -/
def duelGame : Game ℚ :=
  { demoGame [demoUnit UnitType.UNIT_RIFLE 0 0] [demoEnemy 100 0 70] [] with
      unitAttacking := [true], unitTargetEnemy := [0] }

/-- Frames of 0.2 seconds with no key or button pressed. -/
def duelInput : FrameInput ℚ :=
  { frameTime := 1 / 5, enterPressed := false, nextWaveClicked := false }

/-- The scenario after `n` frames. -/
def duelAfter (n : Nat) : Game ℚ := Nat.iterate (simFrame evalEnv duelInput) n duelGame

/-- The input of a frame of 0.2 seconds in which Enter is pressed and the "Start Next Wave"
button is clicked. -/
def advanceInput : FrameInput ℚ :=
  { frameTime := 1 / 5, enterPressed := true, nextWaveClicked := true }

/-- A won game in its intermission: every upgrade track at its maximum, the completion flag
set, the ship at full hp, and one tenth of a second left on the intermission timer. -/
def wonGame : Game ℚ :=
  { demoGame [demoUnit UnitType.UNIT_RIFLE 0 0] [] [] with
      playerShip :=
        { demoShip with
            hullIntegrity := 100, shielding := 50, engines := 25, lifeSupportSystems := 25,
            isComplete := true },
      inIntermission := true, intermissionTime := 1 / 10 }

/-- A lost game (ship hp 0) in which things still happen.  Unit 0 is a healer on its way, a
quarter of a pixel from its goal.  Unit 1 is a rifleman committed to enemy 0, which stands on
it and whose attack cooldown of 2 seconds has elapsed.  Unit 2 is an idle rifleman standing on
the only rock. -/
def frozenGame : Game ℚ :=
  { demoGame
      [{ demoUnit UnitType.UNIT_HEALER (1000 + 1 / 4) (1 / 2) with
           moving := true, targetX := 978, targetY := -37 },
       demoUnit UnitType.UNIT_RIFLE 0 0,
       demoUnit UnitType.UNIT_RIFLE 0 500]
      [{ demoEnemy 0 0 70 with timeSinceLastAttack := 2 }]
      [demoRock 0 500 true] with
      playerShip := { demoShip with hp := 0 },
      unitAttacking := [false, true, false], unitTargetEnemy := [-1, 0, -1] }

/-- The lost game `frozenGame` during an intermission with one tenth of a second left. -/
def lostGame : Game ℚ :=
  { frozenGame with inIntermission := true, intermissionTime := 1 / 10 }

/-- Frames of 0.1 seconds with no key or button pressed. -/
def tenthInput : FrameInput ℚ :=
  { frameTime := 1 / 10, enterPressed := false, nextWaveClicked := false }

/-- Three riflemen A, B, D with their centres at x = 0, 90 and 200 on the line y = 0, and
three enemies on that line: enemy 0 at x = 50 with 18 hit points, enemy 1 at x = 130 and
enemy 2 at x = 100 with 500 hit points each. -/
def squadGame : Game ℚ :=
  demoGame
    [demoUnit UnitType.UNIT_RIFLE 0 0, demoUnit UnitType.UNIT_RIFLE 90 0,
     demoUnit UnitType.UNIT_RIFLE 200 0]
    [demoEnemy 50 0 18, demoEnemy 130 0 500, demoEnemy 100 0 500] []

/-- The player selects D (key 3) and drags an area order over enemy 1 alone, then selects A
and B (key 1, Ctrl + key 2) and drags an area order over all three enemies. -/
def squadOrdered : Game ℚ :=
  areaOrder evalEnv 40 (-10) 140 10
    (selectKey 1 true (selectKey 0 false
      (areaOrder evalEnv 120 (-10) 140 10 (selectKey 2 false squadGame))))

/-- Two frames later: A has shot enemy 0 and has looked for another target. -/
def squadAfterKill : Game ℚ :=
  simFrame evalEnv tenthInput (simFrame evalEnv tenthInput squadOrdered)

/-- The player then selects D (key 3) and sends it away with a right click on open ground;
one more frame passes. -/
def squadAlone : Game ℚ :=
  simFrame evalEnv tenthInput (rightClick 600 600 (selectKey 2 false squadAfterKill))

/-- The unit loop of the second frame after the two orders of `squadOrdered`: the state right
after the pass in which A, whose target died in the first frame, looks for another one. -/
def squadSecondPass : Game ℚ :=
  unitPass evalEnv (1 / 10) (simFrame evalEnv tenthInput squadOrdered)

/-- The state after D has been sent away (key 3, right click on open ground), two frames
after the orders. -/
def squadWithoutD : Game ℚ :=
  rightClick 600 600 (selectKey 2 false squadAfterKill)

/-- A squad of two: A and B are selected (key 1, Ctrl + key 2) and ordered onto the three
enemies, and one frame passes, in which A kills enemy 0. -/
def pairAfterShot : Game ℚ :=
  simFrame evalEnv tenthInput
    (areaOrder evalEnv 40 (-10) 140 10 (selectKey 1 true (selectKey 0 false squadGame)))

/-- A cleared wave: wave 1 on Normal, a rifleman with 100 of 220 hit points that still holds
its dead target 0 in area-attack mode, a healer at full health, one dead enemy, one rock, and
a ship with 120 of 200 hit points. -/
def clearedGame : Game ℚ :=
  { demoGame
      [{ demoUnit UnitType.UNIT_RIFLE 0 0 with hp := 100 }, demoUnit UnitType.UNIT_HEALER 300 0]
      [{ demoEnemy 50 0 0 with alive := false }]
      [demoRock 400 400 true] with
      playerShip := { demoShip with hp := 120 },
      unitAttacking := [true, false], unitTargetEnemy := [0, -1],
      unitAreaAttack := [true, false], unitAreaTargets := [[0], []] }

/-- The cleared wave of `clearedGame` with 30 scrap in the shop. -/
def shopGame : Game ℚ :=
  { clearedGame with shop := { clearedGame.shop with scrapMetal := 30 } }

/-- The keys H, U and E pressed in one frame, L not. -/
def shopKeys : PurchaseKeys :=
  { hull := true, shielding := true, engines := true, lifeSupport := false }

/-- A volley in flight: a dead enemy and a living one at `(100, 0)`, a third enemy at
`(110, 0)`, a rock at `(100, 0)`, and two projectiles of damage 18: one at `(80, 0)` flying
right at speed 200, one at rest at `(1000, 1000)`. -/
def volleyGame : Game ℚ :=
  { demoGame [demoUnit UnitType.UNIT_RIFLE 0 0]
      [{ demoEnemy 100 0 0 with alive := false }, demoEnemy 100 0 70, demoEnemy 110 0 70]
      [demoRock 100 0 true] with
      bullets :=
        [{ x := 80, y := 0, vx := 200, vy := 0, speed := 200, damage := 18, unitIndex := 0,
           active := true },
         { x := 1000, y := 1000, vx := 0, vy := 0, speed := 0, damage := 18, unitIndex := 0,
           active := true }] }

/-- A rifleman whose continuous position is the origin, on its way to the point `(30, 40)`,
which is 50 away. -/
def marchGame : Game ℚ :=
  demoGame
    [{ demoUnit UnitType.UNIT_RIFLE (45 / 2) (75 / 2) with
         moving := true, targetX := 30, targetY := 40 }] [] []

/-- The duel with the enemy's attack timer at 1.9 s of its cooldown of 2 s: the rifleman is
exactly at the enemy's attack range of 100. -/
def strikeGame : Game ℚ :=
  { duelGame with enemies := [{ demoEnemy 100 0 70 with timeSinceLastAttack := 19 / 10 }] }

/-- Three frames of 0.2 s with no key or button pressed. -/
def duelInputs : List (FrameInput ℚ) := [duelInput, duelInput, duelInput]

/-- A new game's ship and shop with 130 scrap earned. -/
def richGame : Game ℚ :=
  { demoGame [] [] [] with
      shop := { scrapMetal := 130, hullUpgradeCost := 10, shieldingUpgradeCost := 15,
                engineUpgradeCost := 20, lifeSupportUpgradeCost := 25 } }

/-- The key H alone. -/
def hullKey : PurchaseKeys :=
  { hull := true, shielding := false, engines := false, lifeSupport := false }

/-- An enemy alone on the map at `(550, 1250)`, which is 1300 away from the ship at the
centre `(1750, 1750)`, and no unit. -/
def farEnemyGame : Game ℚ := demoGame [] [demoEnemy 550 1250 70] []

/-- A siege enemy (statistics of lines 261-266: speed 65, attack range 380, damage 10,
cooldown 3, ship priority, avoidance radius 200) at `(1450, 1750)`, 300 from the ship, with
its attack timer at 2.9 s and a rifleman 100 to its left. -/
def kiteGame : Game ℚ :=
  demoGame [demoUnit UnitType.UNIT_RIFLE 1350 1750]
    [{ demoEnemy 1450 1750 55 with
         type := EnemyType.ENEMY_SIEGE, moveSpeed := 65, attackRange := 380,
         attackDamage := 10, attackCooldown := 3, prioritizeShip := true,
         avoidUnitsRange := 200, timeSinceLastAttack := 29 / 10 }] []

/-- A fast enemy (statistics of lines 249-252: speed 180, attack range 45, damage 7,
cooldown 1.4) at `(60, 0)` and a rifleman with its centre at the origin. -/
def rushGame : Game ℚ :=
  demoGame [demoUnit UnitType.UNIT_RIFLE 0 0]
    [{ demoEnemy 60 0 50 with
         type := EnemyType.ENEMY_FAST, moveSpeed := 180, attackRange := 45,
         attackDamage := 7, attackCooldown := 7 / 5 }] []

/-- A rifle unit 40 wide and 60 high with its centre at the origin. -/
def goalUnit : Unit ℚ :=
  { demoUnit UnitType.UNIT_RIFLE 0 0 with
      width := 40, height := 60, fx := -20, fy := -30, x := -20, y := -30 }

/-- The unit `goalUnit`, committed to an enemy at `(200, 0)`, 60 beyond its range of 140, and
assigned to a living rock at `(0, 300)`. -/
def goalGame : Game ℚ :=
  { demoGame [goalUnit] [demoEnemy 200 0 70] [demoRock 0 300 true] with
      unitAttacking := [true], unitTargetEnemy := [0], unitAssignedRock := [0],
      rockAssignmentDirty := false }

/-- The state `goalGame` with its unit on the goal of its approach to the enemy. -/
def goalReached : Game ℚ :=
  goalGame.setUnit 0 (arrived ((approachOrFire evalEnv 0 0 goalGame).unit 0))

/-- The state `goalGame` with its unit on the goal of its approach to the rock. -/
def goalMined : Game ℚ :=
  goalGame.setUnit 0 (arrived ((mineStep evalEnv 0 goalGame).unit 0))

/-- A rifleman committed to an enemy that is dead, with a living enemy 100 away. -/
def staleGame : Game ℚ :=
  { demoGame [demoUnit UnitType.UNIT_RIFLE 0 0]
      [{ demoEnemy 50 0 0 with alive := false }, demoEnemy 100 0 70] [] with
      unitAttacking := [true], unitTargetEnemy := [0] }

/-- Two riflemen in area-attack mode with the captured enemies 0 (at distance 100 from the
first) and 1 (at distance 60): the second rifleman is committed to enemy 1, the first holds
no target. -/
def claimGame : Game ℚ :=
  { demoGame [demoUnit UnitType.UNIT_RIFLE 0 0, demoUnit UnitType.UNIT_RIFLE 0 50]
      [demoEnemy 100 0 70, demoEnemy 60 0 70] [] with
      unitAttacking := [false, true], unitTargetEnemy := [-1, 1],
      unitAreaAttack := [true, true], unitAreaTargets := [[0, 1], [0, 1]] }

/-- A rifleman with its centre at the origin that holds a move order to `(-500, -500)`, no
enemies, and a living rock at `(300, 400)`, 500 away. -/
def orderedGame : Game ℚ :=
  demoGame
    [{ demoUnit UnitType.UNIT_RIFLE 0 0 with moving := true, targetX := -500, targetY := -500 }]
    [] [demoRock 300 400 true]

/-- The spacing of the binary32 values around `x > 0`, searched from `q`: the power of two `q`
with `2^23 * q ≤ x < 2^24 * q`, and `2^-149` (the spacing of the subnormal values) for every
`x` below `2^-126`. -/
def f32Quantum : Nat → ℚ → ℚ → ℚ
  | 0, _, q => q
  | fuel + 1, x, q =>
    if 16777216 * q ≤ x then f32Quantum fuel x (2 * q)
    else if x < 8388608 * q ∧ 1 / 2 ^ 149 < q then f32Quantum fuel x (q / 2)
    else q

/-- The integer nearest to `y`, the even one of the two when `y` is half-way. -/
def roundHalfEven (y : ℚ) : Int :=
  if y - ⌊y⌋ < 1 / 2 then ⌊y⌋
  else if 1 / 2 < y - ⌊y⌋ then ⌊y⌋ + 1
  else if ⌊y⌋ % 2 = 0 then ⌊y⌋ else ⌊y⌋ + 1

/-- Rounding of `x ≥ 0` to binary32 (round to nearest, ties to even, 24 significant bits,
subnormal values included).  The search for the spacing covers every magnitude below
`2^128`, the finite range of the format; a value beyond the reach of the search is returned
as it is. -/
def f32Abs (x : ℚ) : ℚ :=
  let q := f32Quantum 400 x 1
  if 8388608 * q ≤ x ∨ q ≤ 1 / 2 ^ 149 then (roundHalfEven (x / q) : ℚ) * q else x

/-- Rounding to binary32 of the result of a `float` operation. -/
def f32 (x : ℚ) : ℚ :=
  if x < 0 then - f32Abs (- x) else f32Abs x

/-- The evaluation environment with the arithmetic of the fire timer in binary32. -/
def f32Env : Env ℚ := { sqrtf := qsqrt, rand := fun n => n, fl := f32 }

/-- A frame of 0.08 s (12.5 frames per second): `GetFrameTime` returns `0.08f`, which is
`5368709 / 2^26`. -/
def slowInput : FrameInput ℚ :=
  { frameTime := 5368709 / 67108864, enterPressed := false, nextWaveClicked := false }

/-- Six frames of `0.08f` seconds with no key or button pressed. -/
def slowInputs : List (FrameInput ℚ) := List.replicate 6 slowInput

/-- The siege enemy of `kiteGame` at `(1371, 1750)`, 379 from the ship and so one inside its
attack range of 380, with its attack timer at 2.9 s and a rifleman 100 to its right, between
it and the ship. -/
def retreatGame : Game ℚ :=
  demoGame [demoUnit UnitType.UNIT_RIFLE 1471 1750]
    [{ demoEnemy 1371 1750 55 with
         type := EnemyType.ENEMY_SIEGE, moveSpeed := 65, attackRange := 380,
         attackDamage := 10, attackCooldown := 3, prioritizeShip := true,
         avoidUnitsRange := 200, timeSinceLastAttack := 29 / 10 }] []

/-! # Theorems -/

section Theorems

set_option linter.unusedSectionVars false

variable {K : Type} [LinearOrderedField K] [FloorRing K]

/-! ## Wave spawning -/

theorem spawnLoop_enemies (env : Env K) (d : Difficulty) (w : Int) (n : Nat) (s : Game K) :
    ∃ new : List (EnemyNPC K),
      (spawnLoop env d w n s).enemies = s.enemies ++ new ∧ new.length = n := by
  induction n generalizing s with
  | zero => exact ⟨[], by simp [spawnLoop]⟩
  | succ n ih =>
    obtain ⟨new, h1, h2⟩ := ih
      { s with enemies := s.enemies ++ [spawnEnemy env d w s.randCalls],
               randCalls := s.randCalls + 3 }
    refine ⟨spawnEnemy env d w s.randCalls :: new, ?_, by simp [h2]⟩
    simp only [spawnLoop, h1]
    simp

theorem spawnCount_eq (d : Difficulty) (w : Int) :
    spawnCount (K := K) d w
      = max 1 (lroundf (((8 + 2 * w : Int) : K) * (enemyCountScale d : K))) := by
  unfold spawnCount
  have h : (8 + w * 2 : Int) = 8 + 2 * w := by ring
  simp only [h]
  split_ifs with hc
  · exact (max_eq_left (le_of_lt hc)).symm
  · exact (max_eq_right (not_lt.mp hc)).symm

theorem spawnCount_normal_one : spawnCount (K := K) Difficulty.DIFF_NORMAL 1 = 10 := by
  have h : lroundf (((8 + 1 * 2 : Int) : K) * (enemyCountScale Difficulty.DIFF_NORMAL : K))
      = 10 := by
    unfold lroundf enemyCountScale
    rw [if_pos (by norm_num)]
    rw [Int.floor_eq_iff]
    constructor <;> norm_num
  unfold spawnCount
  simp only [h]
  decide

theorem spawnCount_hard_five : spawnCount (K := K) Difficulty.DIFF_HARD 5 = 24 := by
  have h : lroundf (((8 + 5 * 2 : Int) : K) * (enemyCountScale Difficulty.DIFF_HARD : K))
      = 24 := by
    unfold lroundf enemyCountScale
    rw [if_pos (by norm_num)]
    rw [Int.floor_eq_iff]
    constructor <;> norm_num
  unfold spawnCount
  simp only [h]
  decide

/-- C1: `spawnWave w` keeps the enemies already in the list and appends exactly
`max 1 (round ((8 + 2*w) * c))` new ones, where `c` is 0.75, 1.0 or 1.35 for Casual, Normal
or Hard; wave 1 on Normal appends 10 enemies and wave 5 on Hard appends 24. -/
theorem spawnWave_appends_count (env : Env K) (w : Int) (s : Game K) :
    (∃ new : List (EnemyNPC K),
        (spawnWave env w s).enemies = s.enemies ++ new ∧
        (new.length : Int)
          = max 1 (lroundf (((8 + 2 * w : Int) : K) * (enemyCountScale s.difficulty : K)))) ∧
    ((enemyCountScale Difficulty.DIFF_CASUAL : K) = 3 / 4 ∧
      (enemyCountScale Difficulty.DIFF_NORMAL : K) = 1 ∧
      (enemyCountScale Difficulty.DIFF_HARD : K) = 27 / 20) ∧
    (spawnWave env 1 { s with difficulty := Difficulty.DIFF_NORMAL }).enemies.length
      = s.enemies.length + 10 ∧
    (spawnWave env 5 { s with difficulty := Difficulty.DIFF_HARD }).enemies.length
      = s.enemies.length + 24 := by
  refine ⟨?_, ⟨rfl, rfl, rfl⟩, ?_, ?_⟩
  · obtain ⟨new, h1, h2⟩ :=
      spawnLoop_enemies env s.difficulty w (spawnCount (K := K) s.difficulty w).toNat s
    refine ⟨new, h1, ?_⟩
    rw [h2, ← spawnCount_eq]
    apply Int.toNat_of_nonneg
    rw [spawnCount_eq]
    exact le_trans (by decide) (le_max_left _ _)
  · obtain ⟨new, h1, h2⟩ :=
      spawnLoop_enemies env Difficulty.DIFF_NORMAL 1
        (spawnCount (K := K) Difficulty.DIFF_NORMAL 1).toNat
        { s with difficulty := Difficulty.DIFF_NORMAL }
    show (spawnLoop env Difficulty.DIFF_NORMAL 1
        (spawnCount (K := K) Difficulty.DIFF_NORMAL 1).toNat
        { s with difficulty := Difficulty.DIFF_NORMAL }).enemies.length = s.enemies.length + 10
    rw [h1, List.length_append, h2, spawnCount_normal_one]
    rfl
  · obtain ⟨new, h1, h2⟩ :=
      spawnLoop_enemies env Difficulty.DIFF_HARD 5
        (spawnCount (K := K) Difficulty.DIFF_HARD 5).toNat
        { s with difficulty := Difficulty.DIFF_HARD }
    show (spawnLoop env Difficulty.DIFF_HARD 5
        (spawnCount (K := K) Difficulty.DIFF_HARD 5).toNat
        { s with difficulty := Difficulty.DIFF_HARD }).enemies.length = s.enemies.length + 24
    rw [h1, List.length_append, h2, spawnCount_hard_five]
    rfl

/-! ## Generic loop lemmas -/

/-- Invariant rule for the counted loops of the model: `P k acc` after `k` iterations. -/
theorem foldl_range_invariant {σ : Type} (P : Nat → σ → Prop) (f : σ → Nat → σ) (n : Nat)
    (init : σ) (h0 : P 0 init)
    (hstep : ∀ i acc, i < n → P i acc → P (i + 1) (f acc i)) :
    P n ((List.range n).foldl f init) := by
  have key : ∀ m, m ≤ n → P m ((List.range m).foldl f init) := by
    intro m
    induction m with
    | zero => intro _; simpa using h0
    | succ m ih =>
      intro hm
      rw [List.range_succ, List.foldl_append]
      exact hstep m _ (by omega) (ih (by omega))
  exact key n le_rfl

/-- A property preserved by every iteration holds after the loop. -/
theorem foldl_preserves {σ α : Type} (P : σ → Prop) (f : σ → α → σ) (l : List α) (init : σ)
    (h0 : P init) (hstep : ∀ acc a, P acc → P (f acc a)) : P (l.foldl f init) := by
  induction l generalizing init with
  | nil => simpa using h0
  | cons a l ih => exact ih _ (hstep _ _ h0)

/-! ## Random draws -/

theorem GetRandomValue_bounds (raw : Nat) (lo hi : Int) :
    min lo hi ≤ GetRandomValue raw lo hi ∧ GetRandomValue raw lo hi ≤ max lo hi := by
  unfold GetRandomValue
  by_cases h : lo > hi
  · simp only [h, if_true]
    have h1 : (0 : Int) < lo - hi + 1 := by omega
    have h2 := Int.emod_nonneg (raw : Int) (ne_of_gt h1)
    have h3 := Int.emod_lt_of_pos (raw : Int) h1
    rw [min_eq_right (le_of_lt h), max_eq_left (le_of_lt h)]
    constructor <;> omega
  · simp only [h, if_false]
    have h1 : (0 : Int) < hi - lo + 1 := by omega
    have h2 := Int.emod_nonneg (raw : Int) (ne_of_gt h1)
    have h3 := Int.emod_lt_of_pos (raw : Int) h1
    rw [min_eq_left (not_lt.mp h), max_eq_right (not_lt.mp h)]
    constructor <;> omega

theorem GetRandomValue_two_five (raw : Nat) :
    2 ≤ GetRandomValue raw 2 5 ∧ GetRandomValue raw 2 5 ≤ 5 := by
  have h := GetRandomValue_bounds raw 2 5
  simpa using h

/-! ## Projectile phase: every kill is paid once -/

theorem KilledAtMostOnce.refl_kill (e : EnemyNPC K) : KilledAtMostOnce e e := by
  refine ⟨fun _ => rfl, fun h => h, ?_, ?_⟩
  · intro h1 h2
    rw [h1] at h2
    cases h2
  · intro _ h
    exact absurd rfl h

theorem KilledAtMostOnce.trans_kill {a b c : EnemyNPC K} (h1 : KilledAtMostOnce a b)
    (h2 : KilledAtMostOnce b c) : KilledAtMostOnce a c := by
  obtain ⟨a1, a2, a3, a4⟩ := h1
  obtain ⟨b1, b2, b3, b4⟩ := h2
  refine ⟨?_, ?_, ?_, ?_⟩
  · intro h
    have hb : b = a := a1 h
    have hb2 : b.alive = false := by rw [hb]; exact h
    rw [b1 hb2, hb]
  · intro h; exact a2 (b2 h)
  · intro ha hc
    by_cases hb : b.alive = true
    · exact b3 hb hc
    · have hb2 : b.alive = false := by simpa using hb
      rw [b1 hb2]
      exact a3 ha hb2
  · intro hc hne
    by_cases hcb : c = b
    · subst hcb
      exact a4 hc hne
    · exact b4 hc hcb

theorem forall₂_KilledAtMostOnce_refl (l : List (EnemyNPC K)) :
    List.Forall₂ KilledAtMostOnce l l :=
  List.forall₂_same.2 fun e _ => KilledAtMostOnce.refl_kill e

theorem forall₂_KilledAtMostOnce_trans {l1 l2 l3 : List (EnemyNPC K)}
    (h1 : List.Forall₂ KilledAtMostOnce l1 l2) (h2 : List.Forall₂ KilledAtMostOnce l2 l3) :
    List.Forall₂ KilledAtMostOnce l1 l3 := by
  induction h1 generalizing l3 with
  | nil => cases h2; exact List.Forall₂.nil
  | cons hab _ ih =>
    cases h2 with
    | cons hbc hrest => exact List.Forall₂.cons (hab.trans_kill hbc) (ih hrest)

theorem livingEnemies_cons (e : EnemyNPC K) (l : List (EnemyNPC K)) :
    livingEnemies (e :: l) = (if e.alive then 1 else 0) + livingEnemies l := by
  unfold livingEnemies
  by_cases h : e.alive = true
  · simp [List.filter_cons, h]; ring
  · simp [List.filter_cons, h]

theorem damageEnemy_kill (env : Env K) (dmg : Int) (e : EnemyNPC K) (scrap : Int)
    (calls : Nat) (h : e.hp - dmg ≤ 0) :
    damageEnemy env dmg e scrap calls
      = ({ e with showHp := true, hp := e.hp - dmg, alive := false },
          scrap + GetRandomValue (env.rand calls) 2 5, calls + 1) := by
  unfold damageEnemy
  dsimp only
  rw [if_pos h]

theorem damageEnemy_survive (env : Env K) (dmg : Int) (e : EnemyNPC K) (scrap : Int)
    (calls : Nat) (h : ¬ e.hp - dmg ≤ 0) :
    damageEnemy env dmg e scrap calls
      = ({ e with showHp := true, hp := e.hp - dmg }, scrap, calls) := by
  unfold damageEnemy
  dsimp only
  rw [if_neg h]

theorem damageEnemy_spec (env : Env K) (dmg : Int) (e : EnemyNPC K) (scrap : Int)
    (calls : Nat) (he : e.alive = true) :
    KilledAtMostOnce e (damageEnemy env dmg e scrap calls).1 ∧
    (((damageEnemy env dmg e scrap calls).1.alive = true ∧
        (damageEnemy env dmg e scrap calls).2.1 = scrap) ∨
     ((damageEnemy env dmg e scrap calls).1.alive = false ∧
        scrap + 2 ≤ (damageEnemy env dmg e scrap calls).2.1 ∧
        (damageEnemy env dmg e scrap calls).2.1 ≤ scrap + 5)) := by
  by_cases h : e.hp - dmg ≤ 0
  · rw [damageEnemy_kill env dmg e scrap calls h]
    have hb := GetRandomValue_two_five (env.rand calls)
    refine ⟨⟨?_, ?_, ?_, ?_⟩, Or.inr ⟨rfl, ?_, ?_⟩⟩
    · intro h0; rw [he] at h0; cases h0
    · intro _; exact he
    · intro _ _; exact h
    · intro h0; cases h0
    · show scrap + 2 ≤ scrap + GetRandomValue (env.rand calls) 2 5
      omega
    · show scrap + GetRandomValue (env.rand calls) 2 5 ≤ scrap + 5
      omega
  · rw [damageEnemy_survive env dmg e scrap calls h]
    refine ⟨⟨?_, ?_, ?_, ?_⟩, Or.inl ⟨he, rfl⟩⟩
    · intro h0; rw [he] at h0; cases h0
    · intro _; exact he
    · intro _ h0
      have h1 : e.alive = false := h0
      rw [he] at h1
      cases h1
    · intro _ _; exact not_le.mp h

theorem hitEnemies_cons_dead (env : Env K) (b : Bullet K) (e : EnemyNPC K)
    (es : List (EnemyNPC K)) (scrap : Int) (calls : Nat) (h : e.alive = false) :
    hitEnemies env b (e :: es) scrap calls
      = (e :: (hitEnemies env b es scrap calls).1, (hitEnemies env b es scrap calls).2.1,
          (hitEnemies env b es scrap calls).2.2.1, (hitEnemies env b es scrap calls).2.2.2) := by
  rw [hitEnemies, if_pos h]

theorem hitEnemies_cons_hit (env : Env K) (b : Bullet K) (e : EnemyNPC K)
    (es : List (EnemyNPC K)) (scrap : Int) (calls : Nat) (h : e.alive = true)
    (hb : bulletInEnemy b e = true) :
    hitEnemies env b (e :: es) scrap calls
      = ((damageEnemy env b.damage e scrap calls).1 :: es,
          (damageEnemy env b.damage e scrap calls).2.1,
          (damageEnemy env b.damage e scrap calls).2.2, true) := by
  rw [hitEnemies, if_neg (by simp [h]), if_pos hb]

theorem hitEnemies_cons_miss (env : Env K) (b : Bullet K) (e : EnemyNPC K)
    (es : List (EnemyNPC K)) (scrap : Int) (calls : Nat) (h : e.alive = true)
    (hb : ¬ bulletInEnemy b e = true) :
    hitEnemies env b (e :: es) scrap calls
      = (e :: (hitEnemies env b es scrap calls).1, (hitEnemies env b es scrap calls).2.1,
          (hitEnemies env b es scrap calls).2.2.1, (hitEnemies env b es scrap calls).2.2.2) := by
  rw [hitEnemies, if_neg (by simp [h]), if_neg hb]

theorem hitEnemies_spec (env : Env K) (b : Bullet K) (es : List (EnemyNPC K)) (scrap : Int)
    (calls : Nat) :
    List.Forall₂ KilledAtMostOnce es (hitEnemies env b es scrap calls).1 ∧
    scrap + 2 * livingEnemies es
      ≤ (hitEnemies env b es scrap calls).2.1
          + 2 * livingEnemies (hitEnemies env b es scrap calls).1 ∧
    (hitEnemies env b es scrap calls).2.1
        + 5 * livingEnemies (hitEnemies env b es scrap calls).1
      ≤ scrap + 5 * livingEnemies es := by
  induction es with
  | nil => simp [hitEnemies, livingEnemies]
  | cons e es ih =>
    obtain ⟨ih1, ih2, ih3⟩ := ih
    by_cases ha : e.alive = false
    · rw [hitEnemies_cons_dead env b e es scrap calls ha]
      refine ⟨List.Forall₂.cons (KilledAtMostOnce.refl_kill e) ih1, ?_, ?_⟩
      · dsimp only
        rw [livingEnemies_cons, livingEnemies_cons]; omega
      · dsimp only
        rw [livingEnemies_cons, livingEnemies_cons]; omega
    · have ha1 : e.alive = true := by simpa using ha
      by_cases hb : bulletInEnemy b e = true
      · rw [hitEnemies_cons_hit env b e es scrap calls ha1 hb]
        obtain ⟨hk, hcase⟩ := damageEnemy_spec env b.damage e scrap calls ha1
        refine ⟨List.Forall₂.cons hk (forall₂_KilledAtMostOnce_refl es), ?_, ?_⟩
        · dsimp only
          rw [livingEnemies_cons, livingEnemies_cons]
          rcases hcase with ⟨h1, h2⟩ | ⟨h1, h2, h3⟩
          · rw [h1, ha1, h2]
          · rw [h1, ha1]; simp; omega
        · dsimp only
          rw [livingEnemies_cons, livingEnemies_cons]
          rcases hcase with ⟨h1, h2⟩ | ⟨h1, h2, h3⟩
          · rw [h1, ha1, h2]
          · rw [h1, ha1]; simp; omega
      · rw [hitEnemies_cons_miss env b e es scrap calls ha1 hb]
        refine ⟨List.Forall₂.cons (KilledAtMostOnce.refl_kill e) ih1, ?_, ?_⟩
        · dsimp only
          rw [livingEnemies_cons, livingEnemies_cons]; omega
        · dsimp only
          rw [livingEnemies_cons, livingEnemies_cons]; omega

theorem rockScrapLow_cons (r : Rock) (l : List Rock) :
    rockScrapLow (r :: l)
      = (if r.alive then min r.scrapMin r.scrapMax else 0) + rockScrapLow l := by
  simp [rockScrapLow]

theorem rockScrapHigh_cons (r : Rock) (l : List Rock) :
    rockScrapHigh (r :: l)
      = (if r.alive then max r.scrapMin r.scrapMax else 0) + rockScrapHigh l := by
  simp [rockScrapHigh]

theorem damageRock_kill (env : Env K) (dmg : Int) (r : Rock) (scrap : Int) (calls : Nat)
    (h : r.hp - dmg ≤ 0) :
    damageRock env dmg r scrap calls
      = ({ r with showHp := true, hp := r.hp - dmg, alive := false },
          scrap + GetRandomValue (env.rand calls) r.scrapMin r.scrapMax, calls + 1, true) := by
  unfold damageRock
  dsimp only
  rw [if_pos h]

theorem damageRock_survive (env : Env K) (dmg : Int) (r : Rock) (scrap : Int) (calls : Nat)
    (h : ¬ r.hp - dmg ≤ 0) :
    damageRock env dmg r scrap calls
      = ({ r with showHp := true, hp := r.hp - dmg }, scrap, calls, false) := by
  unfold damageRock
  dsimp only
  rw [if_neg h]

theorem hitRocks_cons_dead (env : Env K) (b : Bullet K) (r : Rock) (rs : List Rock)
    (scrap : Int) (calls : Nat) (h : r.alive = false) :
    hitRocks env b (r :: rs) scrap calls
      = (r :: (hitRocks env b rs scrap calls).1, (hitRocks env b rs scrap calls).2.1,
          (hitRocks env b rs scrap calls).2.2.1, (hitRocks env b rs scrap calls).2.2.2.1,
          (hitRocks env b rs scrap calls).2.2.2.2) := by
  rw [hitRocks, if_pos h]

theorem hitRocks_cons_hit (env : Env K) (b : Bullet K) (r : Rock) (rs : List Rock)
    (scrap : Int) (calls : Nat) (h : r.alive = true) (hb : bulletInRock b r = true) :
    hitRocks env b (r :: rs) scrap calls
      = ((damageRock env b.damage r scrap calls).1 :: rs,
          (damageRock env b.damage r scrap calls).2.1,
          (damageRock env b.damage r scrap calls).2.2.1,
          (damageRock env b.damage r scrap calls).2.2.2, true) := by
  rw [hitRocks, if_neg (by simp [h]), if_pos hb]

theorem hitRocks_cons_miss (env : Env K) (b : Bullet K) (r : Rock) (rs : List Rock)
    (scrap : Int) (calls : Nat) (h : r.alive = true) (hb : ¬ bulletInRock b r = true) :
    hitRocks env b (r :: rs) scrap calls
      = (r :: (hitRocks env b rs scrap calls).1, (hitRocks env b rs scrap calls).2.1,
          (hitRocks env b rs scrap calls).2.2.1, (hitRocks env b rs scrap calls).2.2.2.1,
          (hitRocks env b rs scrap calls).2.2.2.2) := by
  rw [hitRocks, if_neg (by simp [h]), if_neg hb]

theorem hitRocks_spec (env : Env K) (b : Bullet K) (rs : List Rock) (scrap : Int)
    (calls : Nat) :
    scrap + rockScrapLow rs
      ≤ (hitRocks env b rs scrap calls).2.1 + rockScrapLow (hitRocks env b rs scrap calls).1 ∧
    (hitRocks env b rs scrap calls).2.1 + rockScrapHigh (hitRocks env b rs scrap calls).1
      ≤ scrap + rockScrapHigh rs := by
  induction rs with
  | nil => simp [hitRocks]
  | cons r rs ih =>
    obtain ⟨ih1, ih2⟩ := ih
    by_cases ha : r.alive = false
    · rw [hitRocks_cons_dead env b r rs scrap calls ha]
      dsimp only
      rw [rockScrapLow_cons, rockScrapLow_cons, rockScrapHigh_cons, rockScrapHigh_cons]
      constructor <;> omega
    · have ha1 : r.alive = true := by simpa using ha
      by_cases hb : bulletInRock b r = true
      · rw [hitRocks_cons_hit env b r rs scrap calls ha1 hb]
        dsimp only
        rw [rockScrapLow_cons, rockScrapLow_cons, rockScrapHigh_cons, rockScrapHigh_cons]
        by_cases hk : r.hp - b.damage ≤ 0
        · rw [damageRock_kill env b.damage r scrap calls hk]
          have hg := GetRandomValue_bounds (env.rand calls) r.scrapMin r.scrapMax
          simp only [ha1, if_true]
          constructor <;> simp <;> omega
        · rw [damageRock_survive env b.damage r scrap calls hk]
          simp only [ha1, if_true]
          constructor <;> omega
      · rw [hitRocks_cons_miss env b r rs scrap calls ha1 hb]
        dsimp only
        rw [rockScrapLow_cons, rockScrapLow_cons, rockScrapHigh_cons, rockScrapHigh_cons]
        constructor <;> omega

theorem KillsPaidOnce.refl_paid (s : Game K) : KillsPaidOnce s s :=
  ⟨forall₂_KilledAtMostOnce_refl s.enemies, le_refl _, le_refl _⟩

theorem KillsPaidOnce.trans_paid {s1 s2 s3 : Game K} (h1 : KillsPaidOnce s1 s2)
    (h2 : KillsPaidOnce s2 s3) : KillsPaidOnce s1 s3 :=
  ⟨forall₂_KilledAtMostOnce_trans h1.1 h2.1, le_trans h1.2.1 h2.2.1, le_trans h2.2.2 h1.2.2⟩

theorem bulletStep_killsPaidOnce (env : Env K) (dt : K) (bi : Nat) (s : Game K) :
    KillsPaidOnce s (bulletStep env dt bi s) := by
  unfold bulletStep
  dsimp only
  split_ifs with h1 h2 h3
  · exact KillsPaidOnce.refl_paid s
  · exact ⟨forall₂_KilledAtMostOnce_refl s.enemies, le_refl _, le_refl _⟩
  · obtain ⟨he1, he2, he3⟩ := hitEnemies_spec env ((s.bullets.getD bi default).advance dt)
      s.enemies s.shop.scrapMetal s.randCalls
    refine ⟨he1, ?_, ?_⟩
    · dsimp only; omega
    · dsimp only; omega
  · obtain ⟨hr1, hr2⟩ := hitRocks_spec env ((s.bullets.getD bi default).advance dt)
      s.rocks s.shop.scrapMetal s.randCalls
    refine ⟨forall₂_KilledAtMostOnce_refl s.enemies, ?_, ?_⟩
    · dsimp only; omega
    · dsimp only; omega
  · obtain ⟨hr1, hr2⟩ := hitRocks_spec env ((s.bullets.getD bi default).advance dt)
      s.rocks s.shop.scrapMetal s.randCalls
    refine ⟨forall₂_KilledAtMostOnce_refl s.enemies, ?_, ?_⟩
    · dsimp only; omega
    · dsimp only; omega

theorem livingEnemies_le_of_forall₂ {l1 l2 : List (EnemyNPC K)}
    (h : List.Forall₂ KilledAtMostOnce l1 l2) : livingEnemies l2 ≤ livingEnemies l1 := by
  induction h with
  | nil => exact le_refl _
  | @cons a b l1 l2 hab _ ih =>
    rw [livingEnemies_cons, livingEnemies_cons]
    by_cases hb : b.alive = true
    · rw [hb, hab.2.1 hb]
      simp only [if_true]
      omega
    · have hb2 : b.alive = false := by simpa using hb
      rw [hb2]
      by_cases ha : a.alive = true
      · rw [ha]; simp only [if_true]; simp; omega
      · have ha2 : a.alive = false := by simpa using ha
        rw [ha2]; simp; omega

theorem bulletLoop_killsPaidOnce (env : Env K) (dt : K) (s : Game K) :
    KillsPaidOnce s (bulletLoop env dt s) := by
  unfold bulletLoop
  exact foldl_preserves (fun acc => KillsPaidOnce s acc) _ _ s (KillsPaidOnce.refl_paid s)
    (fun acc bi h => h.trans_paid (bulletStep_killsPaidOnce env dt bi acc))

/-- C2: in the projectile phase a dead enemy is never touched again (not damaged, not
revived), an enemy alive before the phase is dead after it exactly when a hit of the phase
left it with `hp ≤ 0`, and the scrap gained by the phase is one reward in [2,5] for every
enemy that died in it (plus, for every rock destroyed, one amount within that rock's yield):
so no kill is paid twice, however many projectiles overlap the enemy. -/
theorem bulletPass_kill_paid_once (env : Env K) (dt : K) (s : Game K) :
    (bulletPass env dt s).enemies.length = s.enemies.length ∧
    (∀ (i : Nat) (e e1 : EnemyNPC K),
        s.enemies[i]? = some e → (bulletPass env dt s).enemies[i]? = some e1 →
        (e.alive = false → e1 = e) ∧
        (e.alive = true → (e1.alive = false ↔ (e1 ≠ e ∧ e1.hp ≤ 0)))) ∧
    2 * (livingEnemies s.enemies - livingEnemies (bulletPass env dt s).enemies)
        + (rockScrapLow s.rocks - rockScrapLow (bulletPass env dt s).rocks)
      ≤ (bulletPass env dt s).shop.scrapMetal - s.shop.scrapMetal ∧
    (bulletPass env dt s).shop.scrapMetal - s.shop.scrapMetal
      ≤ 5 * (livingEnemies s.enemies - livingEnemies (bulletPass env dt s).enemies)
        + (rockScrapHigh s.rocks - rockScrapHigh (bulletPass env dt s).rocks) ∧
    livingEnemies (bulletPass env dt s).enemies ≤ livingEnemies s.enemies := by
  have h : KillsPaidOnce s (bulletPass env dt s) := by
    have h0 := bulletLoop_killsPaidOnce env dt s
    exact h0
  obtain ⟨hf, hlo, hhi⟩ := h
  refine ⟨hf.length_eq.symm, ?_, by omega, by omega, ?_⟩
  · intro i e e1 h1 h2
    have hi1 : i < s.enemies.length := by
      rcases Nat.lt_or_ge i s.enemies.length with h | h
      · exact h
      · rw [List.getElem?_eq_none h] at h1; cases h1
    have hi2 : i < (bulletPass env dt s).enemies.length := by rw [← hf.length_eq]; exact hi1
    have hk := List.Forall₂.get hf hi1 hi2
    rw [List.getElem?_eq_getElem hi1] at h1
    rw [List.getElem?_eq_getElem hi2] at h2
    simp only [List.get_eq_getElem] at hk
    have e1' : s.enemies[i] = e := Option.some.inj h1
    have e2' : (bulletPass env dt s).enemies[i] = e1 := Option.some.inj h2
    rw [e1', e2'] at hk
    obtain ⟨k1, k2, k3, k4⟩ := hk
    refine ⟨k1, fun ha => ⟨fun hd => ⟨?_, k3 ha hd⟩, fun ⟨hne, hhp⟩ => ?_⟩⟩
    · intro heq
      rw [heq, ha] at hd
      cases hd
    · by_contra hcon
      have hal : e1.alive = true := by simpa using hcon
      have := k4 hal hne
      omega
  · exact livingEnemies_le_of_forall₂ hf

/-! ## Rock assignment -/

theorem foldl_preserves_mem {σ α : Type} (P : σ → Prop) (f : σ → α → σ) (l : List α)
    (init : σ) (h0 : P init) (hstep : ∀ acc a, a ∈ l → P acc → P (f acc a)) :
    P (l.foldl f init) := by
  induction l generalizing init with
  | nil => simpa using h0
  | cons a l ih =>
    exact ih _ (hstep _ _ (List.mem_cons_self a l) h0)
      (fun acc b hb hP => hstep acc b (List.mem_cons_of_mem a hb) hP)

theorem getD_set {α : Type} (l : List α) (i j : Nat) (a d : α) :
    (l.set i a).getD j d = if i = j ∧ i < l.length then a else l.getD j d := by
  simp only [List.getD_eq_getElem?_getD, List.getElem?_set]
  by_cases h : i = j
  · subst h
    by_cases h2 : i < l.length
    · simp [h2]
    · simp only [h2, and_false, if_false, if_true]
      rw [List.getElem?_eq_none (not_lt.mp h2)]
  · simp [h]

theorem aliveRocksFrom_cons_alive (r : Rock) (rs : List Rock) (k : Nat) (h : r.alive = true) :
    aliveRocksFrom (r :: rs) k = k :: aliveRocksFrom rs (k + 1) := by
  rw [aliveRocksFrom, if_pos h]

theorem aliveRocksFrom_cons_dead (r : Rock) (rs : List Rock) (k : Nat) (h : ¬ r.alive = true) :
    aliveRocksFrom (r :: rs) k = aliveRocksFrom rs (k + 1) := by
  rw [aliveRocksFrom, if_neg h]

theorem mem_aliveRocksFrom (rocks : List Rock) (k ri : Nat) :
    ri ∈ aliveRocksFrom rocks k ↔
      k ≤ ri ∧ ri - k < rocks.length ∧ (rocks.getD (ri - k) default).alive = true := by
  induction rocks generalizing k with
  | nil => simp [aliveRocksFrom]
  | cons r rs ih =>
    have hsucc : ∀ h : k < ri, (r :: rs).getD (ri - k) default = rs.getD (ri - (k + 1)) default := by
      intro h
      have : ri - k = (ri - (k + 1)) + 1 := by omega
      rw [this, List.getD_cons_succ]
    by_cases hr : r.alive = true
    · rw [aliveRocksFrom_cons_alive r rs k hr, List.mem_cons, ih]
      constructor
      · rintro (h | ⟨h1, h2, h3⟩)
        · subst h; simp [hr]
        · refine ⟨by omega, by simp only [List.length_cons]; omega, ?_⟩
          rw [hsucc (by omega)]; exact h3
      · rintro ⟨h1, h2, h3⟩
        by_cases hk : ri = k
        · exact Or.inl hk
        · right
          rw [hsucc (by omega)] at h3
          simp only [List.length_cons] at h2
          exact ⟨by omega, by omega, h3⟩
    · rw [aliveRocksFrom_cons_dead r rs k hr, ih]
      constructor
      · rintro ⟨h1, h2, h3⟩
        refine ⟨by omega, by simp only [List.length_cons]; omega, ?_⟩
        rw [hsucc (by omega)]; exact h3
      · rintro ⟨h1, h2, h3⟩
        by_cases hk : ri = k
        · subst hk
          simp at h3
          exact absurd h3 hr
        · rw [hsucc (by omega)] at h3
          simp only [List.length_cons] at h2
          exact ⟨by omega, by omega, h3⟩

theorem mem_aliveRocks (rocks : List Rock) (ri : Nat) :
    ri ∈ aliveRocks rocks ↔ ri < rocks.length ∧ (rocks.getD ri default).alive = true := by
  unfold aliveRocks
  rw [mem_aliveRocksFrom]
  simp

theorem aliveRocksFrom_nodup (rocks : List Rock) (k : Nat) : (aliveRocksFrom rocks k).Nodup := by
  induction rocks generalizing k with
  | nil => simp [aliveRocksFrom]
  | cons r rs ih =>
    by_cases hr : r.alive = true
    · rw [aliveRocksFrom_cons_alive r rs k hr, List.nodup_cons]
      refine ⟨?_, ih (k + 1)⟩
      intro hmem
      have := (mem_aliveRocksFrom rs (k + 1) k).1 hmem
      omega
    · rw [aliveRocksFrom_cons_dead r rs k hr]
      exact ih (k + 1)

theorem aliveRocksFrom_length (rocks : List Rock) (k : Nat) :
    (aliveRocksFrom rocks k).length = livingRockCount rocks := by
  induction rocks generalizing k with
  | nil => simp [aliveRocksFrom, livingRockCount]
  | cons r rs ih =>
    by_cases hr : r.alive = true
    · rw [aliveRocksFrom_cons_alive r rs k hr]
      simp [livingRockCount, List.filter_cons, hr, ih (k + 1)]
    · rw [aliveRocksFrom_cons_dead r rs k hr]
      simp [livingRockCount, List.filter_cons, hr, ih (k + 1)]

theorem validRock_of_mem_aliveRocks (rocks : List Rock) (ri : Nat) (h : ri ∈ aliveRocks rocks) :
    ValidRock rocks (ri : Int) :=
  Or.inr ⟨ri, rfl, ((mem_aliveRocks rocks ri).1 h).1, ((mem_aliveRocks rocks ri).1 h).2⟩

theorem nearestFreeRock_result (env : Env K) (rocks : List Rock) (used : List Bool)
    (u : Unit K) (alive : List Nat) :
    (nearestFreeRock env rocks used u alive).1 = -1 ∨
      ∃ ri : Nat, (nearestFreeRock env rocks used u alive).1 = (ri : Int) ∧ ri ∈ alive ∧
        used.getD ri false = false := by
  unfold nearestFreeRock
  apply foldl_preserves_mem
    (fun best : Int × K => best.1 = -1 ∨
      ∃ ri : Nat, best.1 = (ri : Int) ∧ ri ∈ alive ∧ used.getD ri false = false)
  · exact Or.inl rfl
  · intro acc ri hri hacc
    dsimp only
    split_ifs with h1 h2
    · exact hacc
    · exact Or.inr ⟨ri, rfl, hri, by simpa using h1⟩
    · exact hacc

theorem nearestRock_result (env : Env K) (rocks : List Rock) (u : Unit K) (alive : List Nat) :
    (nearestRock env rocks u alive).1 = -1 ∨
      ∃ ri : Nat, (nearestRock env rocks u alive).1 = (ri : Int) ∧ ri ∈ alive := by
  unfold nearestRock
  apply foldl_preserves_mem
    (fun best : Int × K => best.1 = -1 ∨ ∃ ri : Nat, best.1 = (ri : Int) ∧ ri ∈ alive)
  · exact Or.inl rfl
  · intro acc ri hri hacc
    dsimp only
    split_ifs with h1
    · exact Or.inr ⟨ri, rfl, hri⟩
    · exact hacc

theorem countP_remove_one {α : Type} (l : List α) (hnd : l.Nodup) (p q : α → Bool) (a : α)
    (h : ∀ x ∈ l, x ≠ a → p x = true → q x = true) :
    List.countP p l ≤ List.countP q l + 1 := by
  induction l with
  | nil => simp
  | cons x l ih =>
    rw [List.nodup_cons] at hnd
    rw [List.countP_cons, List.countP_cons]
    by_cases hx : x = a
    · subst hx
      have hmono : List.countP p l ≤ List.countP q l :=
        List.countP_mono_left (fun y hy hpy =>
          h y (List.mem_cons_of_mem _ hy) (fun hyx => hnd.1 (hyx ▸ hy)) hpy)
      split_ifs <;> omega
    · have ih2 := ih hnd.2 (fun y hy => h y (List.mem_cons_of_mem _ hy))
      have hhead := h x (List.mem_cons_self x l) hx
      by_cases hp : p x = true
      · rw [if_pos hp, if_pos (hhead hp)]; omega
      · rw [if_neg hp]; split_ifs <;> omega

theorem nearestFreeRock_step_found (env : Env K) (rocks : List Rock) (used : List Bool)
    (u : Unit K) (l : List Nat) (best : Int × K)
    (hJ : best.1 = -1 → best.2 = SENTINEL)
    (h : best.1 ≠ -1 ∨ ∃ ri ∈ l, used.getD ri false = false ∧
        rockDist env u (rocks.getD ri default) < SENTINEL) :
    (l.foldl
      (fun best ri =>
        if used.getD ri false then best
        else
          let d := rockDist env u (rocks.getD ri default)
          if d < best.2 then ((ri : Int), d) else best)
      best).1 ≠ -1 := by
  induction l generalizing best with
  | nil =>
    rcases h with h | ⟨ri, hri, _⟩
    · simpa using h
    · cases hri
  | cons a l ih =>
    rw [List.foldl_cons]
    apply ih
    · dsimp only
      split_ifs with h1 h2
      · exact hJ
      · intro hneg
        exact hneg.elim
      · exact hJ
    · dsimp only
      rcases h with h | ⟨ri, hri, hfree, hd⟩
      · left
        split_ifs with h1 h2
        · exact h
        · show ((a : Int)) ≠ -1
          omega
        · exact h
      · rcases List.mem_cons.1 hri with hra | hrl
        · subst hra
          left
          rw [if_neg (by rw [hfree]; exact Bool.false_ne_true)]
          by_cases hb : best.1 = -1
          · rw [if_pos (by rw [hJ hb]; exact hd)]
            show ((ri : Int)) ≠ -1
            omega
          · split_ifs
            · show ((ri : Int)) ≠ -1
              omega
            · exact hb
        · right
          exact ⟨ri, hrl, hfree, hd⟩

theorem nearestFreeRock_found (env : Env K) (rocks : List Rock) (used : List Bool)
    (u : Unit K) (alive : List Nat)
    (h : ∃ ri ∈ alive, used.getD ri false = false ∧
        rockDist env u (rocks.getD ri default) < SENTINEL) :
    (nearestFreeRock env rocks used u alive).1 ≠ -1 := by
  unfold nearestFreeRock
  exact nearestFreeRock_step_found env rocks used u alive (-1, SENTINEL) (fun _ => rfl)
    (Or.inr h)

theorem assignRound1Step_healer (env : Env K) (s : Game K) (alive : List Nat)
    (acc : List Bool × List Int) (ui : Nat) (h : (s.unit ui).type = UnitType.UNIT_HEALER) :
    assignRound1Step env s alive acc ui = (acc.1, acc.2.set ui (-1)) := by
  unfold assignRound1Step
  dsimp only
  rw [if_pos h]

theorem assignRound1Step_found (env : Env K) (s : Game K) (alive : List Nat)
    (acc : List Bool × List Int) (ui : Nat) (h : (s.unit ui).type ≠ UnitType.UNIT_HEALER)
    (hb : (nearestFreeRock env s.rocks acc.1 (s.unit ui) alive).1 ≠ -1) :
    assignRound1Step env s alive acc ui
      = (acc.1.set (nearestFreeRock env s.rocks acc.1 (s.unit ui) alive).1.toNat true,
          acc.2.set ui (nearestFreeRock env s.rocks acc.1 (s.unit ui) alive).1) := by
  unfold assignRound1Step
  dsimp only
  rw [if_neg h, if_pos hb]

theorem assignRound1Step_none (env : Env K) (s : Game K) (alive : List Nat)
    (acc : List Bool × List Int) (ui : Nat) (h : (s.unit ui).type ≠ UnitType.UNIT_HEALER)
    (hb : ¬ (nearestFreeRock env s.rocks acc.1 (s.unit ui) alive).1 ≠ -1) :
    assignRound1Step env s alive acc ui = (acc.1, acc.2.set ui (-1)) := by
  unfold assignRound1Step
  dsimp only
  rw [if_neg h, if_neg hb]

theorem validRock_neg_one (rocks : List Rock) : ValidRock rocks (-1) := Or.inl rfl

theorem assignRound1Step_valid (env : Env K) (s : Game K) (acc : List Bool × List Int)
    (ui : Nat) :
    ∃ v, (assignRound1Step env s (aliveRocks s.rocks) acc ui).2 = acc.2.set ui v ∧
      ValidRock s.rocks v := by
  by_cases h : (s.unit ui).type = UnitType.UNIT_HEALER
  · rw [assignRound1Step_healer env s _ acc ui h]
    exact ⟨-1, rfl, validRock_neg_one _⟩
  · by_cases hb : (nearestFreeRock env s.rocks acc.1 (s.unit ui) (aliveRocks s.rocks)).1 ≠ -1
    · rw [assignRound1Step_found env s _ acc ui h hb]
      refine ⟨_, rfl, ?_⟩
      rcases nearestFreeRock_result env s.rocks acc.1 (s.unit ui) (aliveRocks s.rocks) with
        h1 | ⟨ri, h1, h2, _⟩
      · exact absurd h1 hb
      · rw [h1]; exact validRock_of_mem_aliveRocks _ _ h2
    · rw [assignRound1Step_none env s _ acc ui h hb]
      exact ⟨-1, rfl, validRock_neg_one _⟩

theorem assignRound2Step_valid (env : Env K) (s : Game K) (t : List Int) (ui : Nat) :
    assignRound2Step env s (aliveRocks s.rocks) t ui = t ∨
      ∃ v, assignRound2Step env s (aliveRocks s.rocks) t ui = t.set ui v ∧
        ValidRock s.rocks v := by
  unfold assignRound2Step
  dsimp only
  split_ifs with h1 h2
  · exact Or.inl rfl
  · exact Or.inl rfl
  · right
    refine ⟨_, rfl, ?_⟩
    rcases nearestRock_result env s.rocks (s.unit ui) (aliveRocks s.rocks) with h3 | ⟨ri, h3, h4⟩
    · rw [h3]; exact validRock_neg_one _
    · rw [h3]; exact validRock_of_mem_aliveRocks _ _ h4

theorem validRock_getD_set (rocks : List Rock) (t : List Int) (ui j : Nat) (v : Int)
    (hv : ValidRock rocks v) (ht : ValidRock rocks (t.getD j (-1))) :
    ValidRock rocks ((t.set ui v).getD j (-1)) := by
  rw [getD_set]
  split_ifs
  · exact hv
  · exact ht

/-- After `recomputeRockAssignments` the entry of every unit in `unitAssignedRock` is `-1` or
the index of a living rock. -/
theorem recomputeRockAssignments_valid (env : Env K) (s : Game K) (ui : Nat)
    (hui : ui < s.units.length) :
    ValidRock s.rocks ((recomputeRockAssignments env s).unitAssignedRock.getD ui (-1)) := by
  have h1 : ∀ j, j < s.units.length → ValidRock s.rocks ((assignRound1 env s).2.getD j (-1)) := by
    intro j hj
    have key := foldl_range_invariant
      (fun k (acc : List Bool × List Int) =>
        ∀ j, j < k → ValidRock s.rocks (acc.2.getD j (-1)))
      (assignRound1Step env s (aliveRocks s.rocks)) s.units.length
      (List.replicate s.rocks.length false, s.unitAssignedRock)
      (fun j hj => absurd hj (Nat.not_lt_zero j))
      (by
        intro i acc _ hv
        obtain ⟨v, hv1, hv2⟩ := assignRound1Step_valid env s acc i
        rw [hv1]
        intro j hj
        rcases Nat.lt_or_ge j i with hlt | hge
        · exact validRock_getD_set _ _ _ _ _ hv2 (hv j hlt)
        · have hji : j = i := by omega
          subst hji
          rw [getD_set]
          split_ifs with hc
          · exact hv2
          · have : ¬ j < acc.2.length := fun h => hc ⟨rfl, h⟩
            rw [List.getD_eq_default _ _ (not_lt.mp this)]
            exact validRock_neg_one _)
    exact key j hj
  have h2 := foldl_preserves
    (fun t : List Int => ∀ j, j < s.units.length → ValidRock s.rocks (t.getD j (-1)))
    (assignRound2Step env s (aliveRocks s.rocks)) (List.range s.units.length)
    (assignRound1 env s).2 h1
    (by
      intro t ui ht j hj
      rcases assignRound2Step_valid env s t ui with h | ⟨v, h, hv⟩
      · rw [h]; exact ht j hj
      · rw [h]; exact validRock_getD_set _ _ _ _ _ hv (ht j hj))
  exact h2 ui hui

theorem getD_replicate_false (n ri : Nat) : (List.replicate n false).getD ri false = false := by
  rw [List.getD_eq_getElem?_getD, List.getElem?_replicate]
  split_ifs <;> rfl

theorem nonHealerCount_drop (units : List (Unit K)) (k : Nat) (hk : k < units.length) :
    nonHealerCount (units.drop k)
      = (if (units.getD k default).type ≠ UnitType.UNIT_HEALER then 1 else 0)
        + nonHealerCount (units.drop (k + 1)) := by
  rw [List.drop_eq_getElem_cons hk, List.getD_eq_getElem _ _ hk]
  unfold nonHealerCount
  rw [List.filter_cons]
  by_cases h : units[k].type ≠ UnitType.UNIT_HEALER
  · rw [if_pos (by simpa using h), if_pos h, List.length_cons]
    omega
  · have h2 : units[k].type = UnitType.UNIT_HEALER := by simpa using h
    simp [h2]

/-- The invariant of the first loop of `recomputeRockAssignments` when there are at least as
many living rocks as non-healer units and every distance is below the sentinel: every
non-healer unit seen so far holds a living rock marked `used`, no two of them hold the same
rock, and enough unused living rocks remain for the units still to come. -/
theorem assignRound1_invariant (env : Env K) (s : Game K)
    (hlen : s.unitAssignedRock.length = s.units.length)
    (hsent : ∀ ui, ui < s.units.length → (s.unit ui).type ≠ UnitType.UNIT_HEALER →
      ∀ ri ∈ aliveRocks s.rocks, rockDist env (s.unit ui) (s.rocks.getD ri default) < SENTINEL)
    (hcount : nonHealerCount s.units ≤ livingRockCount s.rocks) :
    (∀ ui, ui < s.units.length → (s.unit ui).type ≠ UnitType.UNIT_HEALER →
      ∃ ri : Nat, (assignRound1 env s).2.getD ui (-1) = (ri : Int) ∧ ri ∈ aliveRocks s.rocks) ∧
    (∀ ui uj, ui < s.units.length → uj < s.units.length → ui ≠ uj →
      (s.unit ui).type ≠ UnitType.UNIT_HEALER → (s.unit uj).type ≠ UnitType.UNIT_HEALER →
      (assignRound1 env s).2.getD ui (-1) ≠ (assignRound1 env s).2.getD uj (-1)) := by
  have key := foldl_range_invariant
    (fun k (acc : List Bool × List Int) =>
      acc.1.length = s.rocks.length ∧ acc.2.length = s.units.length ∧
      (∀ ui, ui < k → (s.unit ui).type ≠ UnitType.UNIT_HEALER →
        ∃ ri : Nat, acc.2.getD ui (-1) = (ri : Int) ∧ ri ∈ aliveRocks s.rocks ∧
          acc.1.getD ri false = true) ∧
      (∀ ui uj, ui < k → uj < k → ui ≠ uj →
        (s.unit ui).type ≠ UnitType.UNIT_HEALER → (s.unit uj).type ≠ UnitType.UNIT_HEALER →
        acc.2.getD ui (-1) ≠ acc.2.getD uj (-1)) ∧
      nonHealerCount (s.units.drop k)
        ≤ List.countP (fun ri => !(acc.1.getD ri false)) (aliveRocks s.rocks))
    (assignRound1Step env s (aliveRocks s.rocks)) s.units.length
    (List.replicate s.rocks.length false, s.unitAssignedRock)
    (by
      refine ⟨by simp, hlen, fun ui h => absurd h (Nat.not_lt_zero ui),
        fun ui _ h => absurd h (Nat.not_lt_zero ui), ?_⟩
      have hall : List.countP (fun ri => !((List.replicate s.rocks.length false).getD ri false))
          (aliveRocks s.rocks) = (aliveRocks s.rocks).length := by
        rw [List.countP_eq_length]
        intro ri _
        rw [getD_replicate_false]
        rfl
      dsimp only
      rw [hall, List.drop_zero]
      unfold aliveRocks
      rw [aliveRocksFrom_length]
      exact hcount)
    (by
      intro k acc hk ⟨hu, ht, h3, h4, h6⟩
      by_cases hheal : (s.unit k).type = UnitType.UNIT_HEALER
      · rw [assignRound1Step_healer env s _ acc k hheal]
        refine ⟨hu, by rw [List.length_set]; exact ht, ?_, ?_, ?_⟩
        · intro ui hui hnh
          have hne : ui ≠ k := fun h => hnh (h ▸ hheal)
          obtain ⟨ri, h31, h32, h33⟩ := h3 ui (by omega) hnh
          refine ⟨ri, ?_, h32, h33⟩
          dsimp only
          rw [getD_set, if_neg (fun hc => hne hc.1.symm)]
          exact h31
        · intro ui uj hui huj hne hi hj
          have hik : ui ≠ k := fun h => hi (h ▸ hheal)
          have hjk : uj ≠ k := fun h => hj (h ▸ hheal)
          dsimp only
          rw [getD_set, if_neg (fun hc => hik hc.1.symm), getD_set,
            if_neg (fun hc => hjk hc.1.symm)]
          exact h4 ui uj (by omega) (by omega) hne hi hj
        · have hd := nonHealerCount_drop s.units k hk
          have hh : (s.units.getD k default).type = UnitType.UNIT_HEALER := hheal
          rw [hh] at hd
          simp only [ne_eq, not_true_eq_false, if_false, zero_add] at hd
          rw [← hd]
          exact h6
      · have hd := nonHealerCount_drop s.units k hk
        have hh : (s.units.getD k default).type ≠ UnitType.UNIT_HEALER := hheal
        rw [if_pos hh] at hd
        have hpos : 0 < List.countP (fun ri => !(acc.1.getD ri false)) (aliveRocks s.rocks) := by
          omega
        obtain ⟨r0, hr0, hfree0⟩ := List.countP_pos_iff.1 hpos
        have hfree0b : acc.1.getD r0 false = false := by simpa using hfree0
        have hfound := nearestFreeRock_found env s.rocks acc.1 (s.unit k) (aliveRocks s.rocks)
          ⟨r0, hr0, hfree0b, hsent k hk hheal r0 hr0⟩
        rw [assignRound1Step_found env s _ acc k hheal hfound]
        rcases nearestFreeRock_result env s.rocks acc.1 (s.unit k) (aliveRocks s.rocks) with
          hb | ⟨ri, hb, hmem, hfree⟩
        · exact absurd hb hfound
        · rw [hb]
          have hril : ri < acc.1.length := by
            rw [hu]; exact ((mem_aliveRocks s.rocks ri).1 hmem).1
          have htn : ((ri : Int)).toNat = ri := Int.toNat_natCast ri
          rw [htn]
          refine ⟨by rw [List.length_set]; exact hu, by rw [List.length_set]; exact ht,
            ?_, ?_, ?_⟩
          · intro ui hui hnh
            dsimp only
            by_cases huk : ui = k
            · subst huk
              refine ⟨ri, ?_, hmem, ?_⟩
              · rw [getD_set, if_pos ⟨rfl, by rw [ht]; exact hk⟩]
              · rw [getD_set, if_pos ⟨rfl, hril⟩]
            · obtain ⟨r, h31, h32, h33⟩ := h3 ui (by omega) hnh
              refine ⟨r, ?_, h32, ?_⟩
              · rw [getD_set, if_neg (fun hc => huk hc.1.symm)]
                exact h31
              · rw [getD_set]
                split_ifs
                · rfl
                · exact h33
          · intro ui uj hui huj hne hi hj
            dsimp only
            have hold : ∀ u1, u1 < k → (s.unit u1).type ≠ UnitType.UNIT_HEALER →
                acc.2.getD u1 (-1) ≠ (ri : Int) := by
              intro u1 hu1 hnh1 heq
              obtain ⟨r, h31, _, h33⟩ := h3 u1 hu1 hnh1
              rw [h31] at heq
              have hrr : r = ri := by exact_mod_cast heq
              rw [hrr, hfree] at h33
              cases h33
            by_cases hik : ui = k
            · subst hik
              have hjk : uj ≠ ui := fun h => hne h.symm
              rw [getD_set, if_pos ⟨rfl, by rw [ht]; exact hk⟩, getD_set,
                if_neg (fun hc => hjk hc.1.symm)]
              exact fun h => hold uj (by omega) hj h.symm
            · by_cases hjk : uj = k
              · subst hjk
                rw [getD_set, if_neg (fun hc => hik hc.1.symm), getD_set,
                  if_pos ⟨rfl, by rw [ht]; exact hk⟩]
                exact hold ui (by omega) hi
              · rw [getD_set, if_neg (fun hc => hik hc.1.symm), getD_set,
                  if_neg (fun hc => hjk hc.1.symm)]
                exact h4 ui uj (by omega) (by omega) hne hi hj
          · dsimp only
            have hrem := countP_remove_one (aliveRocks s.rocks)
              (by unfold aliveRocks; exact aliveRocksFrom_nodup s.rocks 0)
              (fun r => !(acc.1.getD r false))
              (fun r => !((acc.1.set ri true).getD r false)) ri
              (by
                intro x _ hx hp
                show (!((acc.1.set ri true).getD x false)) = true
                rw [getD_set, if_neg (fun hc => hx hc.1.symm)]
                exact hp)
            omega)
  obtain ⟨_, _, k3, k4, _⟩ := key
  refine ⟨fun ui hui hnh => ?_, k4⟩
  obtain ⟨ri, h1, h2, _⟩ := k3 ui hui hnh
  exact ⟨ri, h1, h2⟩

theorem assignRound2_noop (env : Env K) (s : Game K) (t : List Int)
    (h : ∀ ui, ui < s.units.length → (s.unit ui).type ≠ UnitType.UNIT_HEALER →
      t.getD ui (-1) ≠ -1) :
    (List.range s.units.length).foldl (assignRound2Step env s (aliveRocks s.rocks)) t = t := by
  apply foldl_range_invariant (fun _ (acc : List Int) => acc = t)
  · rfl
  · intro i acc hi hacc
    subst hacc
    unfold assignRound2Step
    dsimp only
    split_ifs with h1 h2
    · rfl
    · rfl
    · exact absurd (not_not.mp h2) (h i hi h1)

/-- C4: after `recomputeRockAssignments` the entry of every unit in `unitAssignedRock` is `-1`
or the index of a living rock; and when the living rocks are at least as many as the
non-healer units and every distance from a non-healer unit to a living rock is below the
sentinel `1e9`, every non-healer unit holds a living rock and no two distinct non-healer
units hold the same one. -/
theorem recomputeRockAssignments_exclusive (env : Env K) (s : Game K)
    (hlen : s.unitAssignedRock.length = s.units.length) :
    (∀ ui, ui < s.units.length →
      ((recomputeRockAssignments env s).unitAssignedRock.getD ui (-1) = -1 ∨
        ∃ ri : Nat, (recomputeRockAssignments env s).unitAssignedRock.getD ui (-1) = (ri : Int) ∧
          ri < s.rocks.length ∧ (s.rocks.getD ri default).alive = true)) ∧
    ((∀ ui, ui < s.units.length → (s.unit ui).type ≠ UnitType.UNIT_HEALER →
        ∀ ri, ri < s.rocks.length → (s.rocks.getD ri default).alive = true →
          rockDist env (s.unit ui) (s.rocks.getD ri default) < SENTINEL) →
      nonHealerCount s.units ≤ livingRockCount s.rocks →
      (∀ ui, ui < s.units.length → (s.unit ui).type ≠ UnitType.UNIT_HEALER →
        ∃ ri : Nat, (recomputeRockAssignments env s).unitAssignedRock.getD ui (-1) = (ri : Int) ∧
          ri < s.rocks.length ∧ (s.rocks.getD ri default).alive = true) ∧
      (∀ ui uj, ui < s.units.length → uj < s.units.length → ui ≠ uj →
        (s.unit ui).type ≠ UnitType.UNIT_HEALER → (s.unit uj).type ≠ UnitType.UNIT_HEALER →
        (recomputeRockAssignments env s).unitAssignedRock.getD ui (-1)
          ≠ (recomputeRockAssignments env s).unitAssignedRock.getD uj (-1))) := by
  refine ⟨fun ui hui => recomputeRockAssignments_valid env s ui hui, ?_⟩
  intro hsent hcount
  have hsent2 : ∀ ui, ui < s.units.length → (s.unit ui).type ≠ UnitType.UNIT_HEALER →
      ∀ ri ∈ aliveRocks s.rocks,
        rockDist env (s.unit ui) (s.rocks.getD ri default) < SENTINEL := by
    intro ui hui hnh ri hri
    have := (mem_aliveRocks s.rocks ri).1 hri
    exact hsent ui hui hnh ri this.1 this.2
  obtain ⟨h1, h2⟩ := assignRound1_invariant env s hlen hsent2 hcount
  have hnoop := assignRound2_noop env s (assignRound1 env s).2 (by
    intro ui hui hnh
    obtain ⟨ri, hri, _⟩ := h1 ui hui hnh
    rw [hri]
    omega)
  have htab : (recomputeRockAssignments env s).unitAssignedRock = (assignRound1 env s).2 := hnoop
  rw [htab]
  refine ⟨?_, h2⟩
  intro ui hui hnh
  obtain ⟨ri, hri, hmem⟩ := h1 ui hui hnh
  have := (mem_aliveRocks s.rocks ri).1 hmem
  exact ⟨ri, hri, this.1, this.2⟩

theorem assignRound1Step_shape (env : Env K) (s : Game K) (alive : List Nat)
    (used : List Bool) (ui : Nat) :
    ∃ (used1 : List Bool) (v : Int), ∀ t : List Int,
      assignRound1Step env s alive (used, t) ui = (used1, t.set ui v) := by
  unfold assignRound1Step
  dsimp only
  split_ifs with h1 h2
  · exact ⟨_, _, fun _ => rfl⟩
  · exact ⟨_, _, fun _ => rfl⟩
  · exact ⟨_, _, fun _ => rfl⟩

theorem assignRound1_fold_indep (env : Env K) (s : Game K) (alive : List Nat) (l : List Nat)
    (used : List Bool) (t t1 : List Int) (hlen : t.length = t1.length)
    (hag : ∀ j, j ∉ l → t[j]? = t1[j]?) :
    l.foldl (assignRound1Step env s alive) (used, t)
      = l.foldl (assignRound1Step env s alive) (used, t1) := by
  induction l generalizing used t t1 with
  | nil =>
    have : t = t1 := List.ext_getElem? (fun j => hag j (List.not_mem_nil j))
    rw [this]
  | cons a l ih =>
    obtain ⟨used1, v, hv⟩ := assignRound1Step_shape env s alive used a
    rw [List.foldl_cons, List.foldl_cons, hv t, hv t1]
    apply ih
    · rw [List.length_set, List.length_set]; exact hlen
    · intro j hj
      rw [List.getElem?_set, List.getElem?_set]
      by_cases haj : a = j
      · simp only [haj, if_true, hlen]
      · simp only [haj, if_false]
        exact hag j (fun hmem => by
          rcases List.mem_cons.1 hmem with h | h
          · exact haj h.symm
          · exact hj h)

theorem assignRound1Step_congr (env : Env K) (s s1 : Game K) (hu : s1.units = s.units)
    (hr : s1.rocks = s.rocks) :
    assignRound1Step env s1 = assignRound1Step env s := by
  funext alive acc ui
  unfold assignRound1Step Game.unit
  rw [hu, hr]

theorem assignRound2Step_congr (env : Env K) (s s1 : Game K) (hu : s1.units = s.units)
    (hr : s1.rocks = s.rocks) :
    assignRound2Step env s1 = assignRound2Step env s := by
  funext alive acc ui
  unfold assignRound2Step Game.unit
  rw [hu, hr]

theorem recomputeRockAssignments_outside (env : Env K) (s : Game K) :
    (recomputeRockAssignments env s).unitAssignedRock.length = s.unitAssignedRock.length ∧
    ∀ j, s.units.length ≤ j →
      (recomputeRockAssignments env s).unitAssignedRock[j]? = s.unitAssignedRock[j]? := by
  have h1 := foldl_range_invariant
    (fun _ (acc : List Bool × List Int) =>
      acc.2.length = s.unitAssignedRock.length ∧
      ∀ j, s.units.length ≤ j → acc.2[j]? = s.unitAssignedRock[j]?)
    (assignRound1Step env s (aliveRocks s.rocks)) s.units.length
    (List.replicate s.rocks.length false, s.unitAssignedRock)
    ⟨rfl, fun _ _ => rfl⟩
    (by
      intro i acc hi ⟨hl, hrest⟩
      obtain ⟨used1, v, hv⟩ := assignRound1Step_shape env s (aliveRocks s.rocks) acc.1 i
      have hv2 := hv acc.2
      rw [hv2]
      refine ⟨by rw [List.length_set]; exact hl, ?_⟩
      intro j hj
      rw [List.getElem?_set, if_neg (by omega)]
      exact hrest j hj)
  have h2 := foldl_range_invariant
    (fun _ (acc : List Int) =>
      acc.length = s.unitAssignedRock.length ∧
      ∀ j, s.units.length ≤ j → acc[j]? = s.unitAssignedRock[j]?)
    (assignRound2Step env s (aliveRocks s.rocks)) s.units.length
    (assignRound1 env s).2 h1
    (by
      intro i acc hi ⟨hl, hrest⟩
      unfold assignRound2Step
      dsimp only
      split_ifs with c1 c2
      · exact ⟨hl, hrest⟩
      · exact ⟨hl, hrest⟩
      · refine ⟨by rw [List.length_set]; exact hl, ?_⟩
        intro j hj
        rw [List.getElem?_set, if_neg (by omega)]
        exact hrest j hj)
  exact h2

/-- C5: `recomputeRockAssignments` is idempotent: whatever the assignment table held before,
a second run on the unchanged world yields the state the first run produced (the same
`unitAssignedRock` table, and the dirty flag cleared). -/
theorem recomputeRockAssignments_idempotent (env : Env K) (s : Game K) :
    recomputeRockAssignments env (recomputeRockAssignments env s)
      = recomputeRockAssignments env s ∧
    (recomputeRockAssignments env (recomputeRockAssignments env s)).unitAssignedRock
      = (recomputeRockAssignments env s).unitAssignedRock := by
  have hout := recomputeRockAssignments_outside env s
  have hu : (recomputeRockAssignments env s).units = s.units := rfl
  have hr : (recomputeRockAssignments env s).rocks = s.rocks := rfl
  have h1 : assignRound1 env (recomputeRockAssignments env s) = assignRound1 env s := by
    unfold assignRound1
    rw [hu, hr, assignRound1Step_congr env s _ hu hr]
    apply assignRound1_fold_indep
    · exact hout.1
    · intro j hj
      apply hout.2
      by_contra hlt
      exact hj (List.mem_range.2 (not_le.mp hlt))
  have key : recomputeRockAssignments env (recomputeRockAssignments env s)
      = recomputeRockAssignments env s := by
    show ({ recomputeRockAssignments env s with
        unitAssignedRock := (List.range (recomputeRockAssignments env s).units.length).foldl
          (assignRound2Step env (recomputeRockAssignments env s)
            (aliveRocks (recomputeRockAssignments env s).rocks))
          (assignRound1 env (recomputeRockAssignments env s)).2,
        rockAssignmentDirty := false } : Game K) = recomputeRockAssignments env s
    rw [h1, hu, hr, assignRound2Step_congr env s _ hu hr]
    rfl
  exact ⟨key, by rw [key]⟩

set_option maxRecDepth 100000 in
unseal Rat.add Rat.mul Rat.inv Rat.sub in
/-- Witness of C4: in `miningGame` (two riflemen, a healer, two living rocks) the table has
one entry per unit, and the two riflemen end up on different rocks. -/
theorem recomputeRockAssignments_exclusive_witness :
    miningGame.unitAssignedRock.length = miningGame.units.length ∧
    (recomputeRockAssignments evalEnv miningGame).unitAssignedRock.getD 0 (-1)
      ≠ (recomputeRockAssignments evalEnv miningGame).unitAssignedRock.getD 2 (-1) :=
  ⟨by decide,
    ((recomputeRockAssignments_exclusive evalEnv miningGame (by decide)).2
      (by decide) (by decide)).2 0 2 (by decide) (by decide) (by decide) (by decide)
      (by decide)⟩

/-! ## The nearest-enemy scan -/

theorem scanEnemiesFrom_spec (env : Env K) (u : Unit K) (es : List (EnemyNPC K)) (ei : Nat)
    (best : Int × K) :
    (scanEnemiesFrom env u es ei best = best ∧
      ∀ (j : Nat) (e : EnemyNPC K), es[j]? = some e → e.alive = true → best.2 ≤ enemyDist env u e) ∨
    (∃ k e, es[k]? = some e ∧ e.alive = true ∧
      scanEnemiesFrom env u es ei best = (((ei + k : Nat) : Int), enemyDist env u e) ∧
      enemyDist env u e < best.2 ∧
      (∀ (j : Nat) (e1 : EnemyNPC K), es[j]? = some e1 → e1.alive = true → enemyDist env u e ≤ enemyDist env u e1) ∧
      (∀ (j : Nat) (e1 : EnemyNPC K), j < k → es[j]? = some e1 → e1.alive = true →
        enemyDist env u e < enemyDist env u e1)) := by
  induction es generalizing ei best with
  | nil =>
    left
    exact ⟨rfl, fun j e h => by simp at h⟩
  | cons e0 es ih =>
    rw [scanEnemiesFrom]
    by_cases hd : e0.alive = false
    · rw [if_pos hd]
      rcases ih (ei + 1) best with ⟨h1, h2⟩ | ⟨k, e, h1, h2, h3, h4, h5, h6⟩
      · left
        refine ⟨h1, ?_⟩
        intro j e1 hj ha
        cases j with
        | zero =>
          simp at hj
          subst hj
          rw [hd] at ha
          cases ha
        | succ j => exact h2 j e1 (by simpa using hj) ha
      · right
        refine ⟨k + 1, e, by simpa using h1, h2, ?_, h4, ?_, ?_⟩
        · rw [h3]
          congr 2
          omega
        · intro j e1 hj ha
          cases j with
          | zero =>
            simp at hj
            subst hj
            rw [hd] at ha
            cases ha
          | succ j => exact h5 j e1 (by simpa using hj) ha
        · intro j e1 hjk hj ha
          cases j with
          | zero =>
            simp at hj
            subst hj
            rw [hd] at ha
            cases ha
          | succ j => exact h6 j e1 (by omega) (by simpa using hj) ha
    · have ha0 : e0.alive = true := by simpa using hd
      rw [if_neg hd]
      by_cases hlt : enemyDist env u e0 < best.2
      · rw [if_pos hlt]
        rcases ih (ei + 1) ((ei : Int), enemyDist env u e0) with
          ⟨h1, h2⟩ | ⟨k, e, h1, h2, h3, h4, h5, h6⟩
        · right
          refine ⟨0, e0, by simp, ha0, ?_, hlt, ?_, ?_⟩
          · rw [h1]
            simp
          · intro j e1 hj ha
            cases j with
            | zero =>
              simp at hj
              subst hj
              exact le_refl _
            | succ j => exact h2 j e1 (by simpa using hj) ha
          · intro j e1 hjk
            omega
        · right
          refine ⟨k + 1, e, by simpa using h1, h2, ?_, lt_trans h4 hlt, ?_, ?_⟩
          · rw [h3]
            congr 2
            omega
          · intro j e1 hj ha
            cases j with
            | zero =>
              simp at hj
              subst hj
              exact le_of_lt h4
            | succ j => exact h5 j e1 (by simpa using hj) ha
          · intro j e1 hjk hj ha
            cases j with
            | zero =>
              simp at hj
              subst hj
              exact h4
            | succ j => exact h6 j e1 (by omega) (by simpa using hj) ha
      · rw [if_neg hlt]
        rcases ih (ei + 1) best with ⟨h1, h2⟩ | ⟨k, e, h1, h2, h3, h4, h5, h6⟩
        · left
          refine ⟨h1, ?_⟩
          intro j e1 hj ha
          cases j with
          | zero =>
            simp at hj
            subst hj
            exact not_lt.mp hlt
          | succ j => exact h2 j e1 (by simpa using hj) ha
        · right
          refine ⟨k + 1, e, by simpa using h1, h2, ?_, h4, ?_, ?_⟩
          · rw [h3]
            congr 2
            omega
          · intro j e1 hj ha
            cases j with
            | zero =>
              simp at hj
              subst hj
              exact le_trans (le_of_lt h4) (not_lt.mp hlt)
            | succ j => exact h5 j e1 (by simpa using hj) ha
          · intro j e1 hjk hj ha
            cases j with
            | zero =>
              simp at hj
              subst hj
              exact lt_of_lt_of_le h4 (not_lt.mp hlt)
            | succ j => exact h6 j e1 (by omega) (by simpa using hj) ha

theorem FirstNearestEnemy.unique (env : Env K) (u : Unit K) (enemies : List (EnemyNPC K))
    (k1 k2 : Nat) (h1 : FirstNearestEnemy env u enemies k1)
    (h2 : FirstNearestEnemy env u enemies k2) : k1 = k2 := by
  obtain ⟨e1, a1, a2, a3, a4⟩ := h1
  obtain ⟨e2, b1, b2, b3, b4⟩ := h2
  rcases Nat.lt_trichotomy k1 k2 with h | h | h
  · exact absurd (b4 k1 e1 h a1 a2) (not_lt.mpr (a3 k2 e2 b1 b2))
  · exact h
  · exact absurd (a4 k2 e2 h b1 b2) (not_lt.mpr (b3 k1 e1 a1 a2))

/-- The scan of lines 889-931 returns the first living enemy at minimal distance and that
distance, or `(-1, 1e9)` when no living enemy is nearer than the sentinel. -/
theorem nearestEnemyScan_spec (env : Env K) (u : Unit K) (enemies : List (EnemyNPC K)) :
    (nearestEnemyScan env u enemies = (-1, SENTINEL) ∧
      ∀ (j : Nat) (e : EnemyNPC K), enemies[j]? = some e → e.alive = true → SENTINEL ≤ enemyDist env u e) ∨
    (∃ k e, enemies[k]? = some e ∧ FirstNearestEnemy env u enemies k ∧
      nearestEnemyScan env u enemies = ((k : Int), enemyDist env u e) ∧
      enemyDist env u e < SENTINEL) := by
  unfold nearestEnemyScan
  rcases scanEnemiesFrom_spec env u enemies 0 (-1, SENTINEL) with
    ⟨h1, h2⟩ | ⟨k, e, h1, h2, h3, h4, h5, h6⟩
  · exact Or.inl ⟨h1, h2⟩
  · right
    refine ⟨k, e, h1, ⟨e, h1, h2, h5, h6⟩, ?_, h4⟩
    rw [h3]
    simp

/-! ## Effects of the steps of the unit loop -/

theorem unit_setUnit_self (s : Game K) (i : Nat) (u : Unit K) (hi : i < s.units.length) :
    (s.setUnit i u).unit i = u := by
  unfold Game.setUnit Game.unit
  dsimp only
  rw [getD_set, if_pos ⟨rfl, hi⟩]

theorem getD_set_self {α : Type} (l : List α) (i : Nat) (a d : α) (hi : i < l.length) :
    (l.set i a).getD i d = a := by
  rw [getD_set, if_pos ⟨rfl, hi⟩]

theorem lt_length_of_getD_ne {α : Type} (l : List α) (i : Nat) (d : α) (h : l.getD i d ≠ d) :
    i < l.length := by
  by_contra hc
  exact h (List.getD_eq_default _ _ (not_lt.mp hc))

theorem tickFireTimer_eq (env : Env K) (dt : K) (i : Nat) (s : Game K) :
    tickFireTimer env dt i s = { s with unitFireTimer := (tickFireTimer env dt i s).unitFireTimer } := by
  unfold tickFireTimer
  dsimp only
  split_ifs <;> rfl

theorem approachOrFire_inBand (env : Env K) (i : Nat) (ti : Int) (s : Game K)
    (h : ¬ enemyDist env (s.unit i) (s.enemies.getD ti.toNat default)
        > (s.unit i).range + ATTACK_RANGE_HYST) :
    approachOrFire env i ti s
      = { s with
          units := s.units.set i { s.unit i with moving := false },
          bullets := (approachOrFire env i ti s).bullets,
          unitFireTimer := (approachOrFire env i ti s).unitFireTimer } := by
  unfold approachOrFire
  unfold enemyDist at h
  dsimp only at h ⊢
  rw [if_neg h]
  split_ifs <;> rfl

theorem approachOrFire_approach (env : Env K) (i : Nat) (ti : Int) (s : Game K)
    (h : enemyDist env (s.unit i) (s.enemies.getD ti.toNat default)
        > (s.unit i).range + ATTACK_RANGE_HYST) :
    approachOrFire env i ti s
      = s.setUnit i (approachGoal (s.unit i) ((s.enemies.getD ti.toNat default).x : K)
          ((s.enemies.getD ti.toNat default).y : K)
          (((s.enemies.getD ti.toNat default).x : K) - (s.unit i).cx)
          (((s.enemies.getD ti.toNat default).y : K) - (s.unit i).cy)
          (enemyDist env (s.unit i) (s.enemies.getD ti.toNat default))) := by
  unfold approachOrFire
  unfold enemyDist at h ⊢
  dsimp only at h ⊢
  rw [if_pos h]

theorem engage_alive (env : Env K) (i : Nat) (s : Game K)
    (h0 : 0 ≤ s.unitTargetEnemy.getD i (-1))
    (h1 : s.unitTargetEnemy.getD i (-1) < (s.enemies.length : Int))
    (h2 : (s.enemies.getD (s.unitTargetEnemy.getD i (-1)).toNat default).alive = true) :
    engage env i s = approachOrFire env i (s.unitTargetEnemy.getD i (-1)) s := by
  unfold engage
  dsimp only
  rw [if_neg]
  intro hc
  rcases hc with hc | hc | hc
  · omega
  · omega
  · rw [h2] at hc
    cases hc

theorem steer_eq (env : Env K) (dt : K) (i : Nat) (s : Game K) :
    steer env dt i s = { s with units := (steer env dt i s).units } := by
  unfold steer Game.setUnit
  rfl

theorem steer_unit_still (env : Env K) (dt : K) (i : Nat) (s : Game K)
    (hi : i < s.units.length) (hm : (s.unit i).moving = false) :
    (steer env dt i s).unit i
      = { s.unit i with x := lroundf (s.unit i).fx, y := lroundf (s.unit i).fy } := by
  unfold steer
  dsimp only
  rw [unit_setUnit_self _ _ _ hi]
  simp [hm]

/-- The second half of the loop body for a committed non-healer unit whose target is alive
and within `range + ATTACK_RANGE_HYST`: only the fire timer, the bullet list and the unit's
own `moving`, `x`, `y` can change. -/
theorem unitEngageAndMove_fire_branch (env : Env K) (dt : K) (i : Nat) (s : Game K)
    (hi : i < s.units.length)
    (hatt : s.unitAttacking.getD i false = true)
    (hnh : (s.unit i).type ≠ UnitType.UNIT_HEALER)
    (h0 : 0 ≤ s.unitTargetEnemy.getD i (-1))
    (h1 : s.unitTargetEnemy.getD i (-1) < (s.enemies.length : Int))
    (h2 : (s.enemies.getD (s.unitTargetEnemy.getD i (-1)).toNat default).alive = true)
    (hd : enemyDist env (s.unit i) (s.enemies.getD (s.unitTargetEnemy.getD i (-1)).toNat default)
        ≤ (s.unit i).range + ATTACK_RANGE_HYST) :
    unitEngageAndMove env dt i s
      = { s with
          units := s.units.set i
            { s.unit i with moving := false, x := lroundf (s.unit i).fx,
                            y := lroundf (s.unit i).fy },
          bullets := (unitEngageAndMove env dt i s).bullets,
          unitFireTimer := (unitEngageAndMove env dt i s).unitFireTimer } := by
  have heng : engage env i s = approachOrFire env i (s.unitTargetEnemy.getD i (-1)) s :=
    engage_alive env i s h0 h1 h2
  have hband := approachOrFire_inBand env i (s.unitTargetEnemy.getD i (-1)) s
    (not_lt.mpr hd)
  have hu3 : (approachOrFire env i (s.unitTargetEnemy.getD i (-1)) s).units
      = s.units.set i { s.unit i with moving := false } := by
    rw [hband]
  have hunit3 : (approachOrFire env i (s.unitTargetEnemy.getD i (-1)) s).unit i
      = { s.unit i with moving := false } := by
    unfold Game.unit
    rw [hu3]
    exact getD_set_self _ _ _ _ hi
  have hs3 : unitEngageAndMove env dt i s
      = steer env dt i (approachOrFire env i (s.unitTargetEnemy.getD i (-1)) s) := by
    unfold unitEngageAndMove
    dsimp only
    rw [if_pos hatt]
    rw [heng]
    rw [if_neg (show ¬ ((approachOrFire env i (s.unitTargetEnemy.getD i (-1)) s).unit i).type
      = UnitType.UNIT_HEALER from by rw [hunit3]; exact hnh)]
  have hst := steer_eq env dt i (approachOrFire env i (s.unitTargetEnemy.getD i (-1)) s)
  have hsu : (steer env dt i (approachOrFire env i (s.unitTargetEnemy.getD i (-1)) s)).units
      = s.units.set i { s.unit i with moving := false, x := lroundf (s.unit i).fx,
                                      y := lroundf (s.unit i).fy } := by
    unfold steer Game.setUnit
    dsimp only
    rw [hunit3, hu3]
    simp
  rw [hs3]
  rw [hs3] at *
  rw [hst, hsu, hband]

/-- The unit loop body for a committed non-healer unit whose target is alive and within
`range + ATTACK_RANGE_HYST`: only the fire timer, the bullet list and the unit's own
`moving`, `x`, `y` can change. -/
theorem unitUpdate_fire_branch (env : Env K) (dt : K) (i : Nat) (s : Game K)
    (hi : i < s.units.length)
    (hatt : s.unitAttacking.getD i false = true)
    (hnh : (s.unit i).type ≠ UnitType.UNIT_HEALER)
    (h0 : 0 ≤ s.unitTargetEnemy.getD i (-1))
    (h1 : s.unitTargetEnemy.getD i (-1) < (s.enemies.length : Int))
    (h2 : (s.enemies.getD (s.unitTargetEnemy.getD i (-1)).toNat default).alive = true)
    (hd : enemyDist env (s.unit i) (s.enemies.getD (s.unitTargetEnemy.getD i (-1)).toNat default)
        ≤ (s.unit i).range + ATTACK_RANGE_HYST) :
    unitUpdate env dt i s
      = { s with
          units := s.units.set i
            { s.unit i with moving := false, x := lroundf (s.unit i).fx,
                            y := lroundf (s.unit i).fy },
          bullets := (unitUpdate env dt i s).bullets,
          unitFireTimer := (unitUpdate env dt i s).unitFireTimer } := by
  have ht := tickFireTimer_eq env dt i s
  have e1 : (tickFireTimer env dt i s).unitAttacking = s.unitAttacking := by rw [ht]
  have e2 : (tickFireTimer env dt i s).units = s.units := by rw [ht]
  have e3 : (tickFireTimer env dt i s).unitTargetEnemy = s.unitTargetEnemy := by rw [ht]
  have e4 : (tickFireTimer env dt i s).enemies = s.enemies := by rw [ht]
  have e5 : (tickFireTimer env dt i s).unit i = s.unit i := by unfold Game.unit; rw [e2]
  have hstep2 : (if (tickFireTimer env dt i s).unitAttacking.getD i false = false ∧
        ((tickFireTimer env dt i s).unit i).type ≠ UnitType.UNIT_HEALER
      then acquire env i (tickFireTimer env dt i s) else tickFireTimer env dt i s)
      = tickFireTimer env dt i s := by
    rw [if_neg]
    rw [e1, hatt]
    simp
  have hs : unitUpdate env dt i s = unitEngageAndMove env dt i (tickFireTimer env dt i s) := by
    unfold unitUpdate
    dsimp only
    rw [hstep2]
  have key := unitEngageAndMove_fire_branch env dt i (tickFireTimer env dt i s)
    (by rw [e2]; exact hi) (by rw [e1]; exact hatt) (by rw [e5]; exact hnh)
    (by rw [e3]; exact h0) (by rw [e3, e4]; exact h1) (by rw [e3, e4]; exact h2)
    (by rw [e3, e4, e5]; exact hd)
  rw [hs, key]
  dsimp only
  rw [e2, e5, ht]

/-! ## Range hysteresis -/

theorem unitUpdate_keeps_fire_band (env : Env K) (dt : K) (i : Nat) (s : Game K)
    (h : InFireBand env i s) :
    InFireBand env i (unitUpdate env dt i s) ∧
    (unitUpdate env dt i s).unit i
      = { s.unit i with moving := false, x := lroundf (s.unit i).fx,
                        y := lroundf (s.unit i).fy } ∧
    (unitUpdate env dt i s).unitAttacking = s.unitAttacking ∧
    (unitUpdate env dt i s).unitTargetEnemy = s.unitTargetEnemy ∧
    (unitUpdate env dt i s).enemies = s.enemies := by
  obtain ⟨hi, hatt, hnh, h0, h1, h2, hd⟩ := h
  have key := unitUpdate_fire_branch env dt i s hi hatt hnh h0 h1 h2 hd
  have hu : (unitUpdate env dt i s).units = s.units.set i
      { s.unit i with moving := false, x := lroundf (s.unit i).fx,
                      y := lroundf (s.unit i).fy } := by rw [key]
  have ha : (unitUpdate env dt i s).unitAttacking = s.unitAttacking := by rw [key]
  have ht : (unitUpdate env dt i s).unitTargetEnemy = s.unitTargetEnemy := by rw [key]
  have he : (unitUpdate env dt i s).enemies = s.enemies := by rw [key]
  have hunit : (unitUpdate env dt i s).unit i
      = { s.unit i with moving := false, x := lroundf (s.unit i).fx,
                        y := lroundf (s.unit i).fy } := by
    unfold Game.unit
    rw [hu]
    exact getD_set_self _ _ _ _ hi
  refine ⟨⟨?_, ?_, ?_, ?_, ?_, ?_, ?_⟩, hunit, ha, ht, he⟩
  · rw [hu, List.length_set]; exact hi
  · rw [ha]; exact hatt
  · rw [hunit]; exact hnh
  · rw [ht]; exact h0
  · rw [ht, he]; exact h1
  · rw [ht, he]; exact h2
  · rw [ht, he, hunit]; exact hd

/-- C6: a non-healer unit committed to a living target at computed distance
`d ≤ range + 12` (so in particular for `range < d ≤ range + 12`, e.g. `d = range + 6`) takes
the stop-and-fire branch: over any number of consecutive updates of the unit with the target
alive and not moving, the unit's continuous position and its goal point never change, it
stays committed to the same target, `moving` is false after every update, the distance
condition of the fire branch still holds, and the next update is again the fire branch (it
only clears `moving` and re-derives the integer position). -/
theorem fire_band_is_stable (env : Env K) (i : Nat) (s : Game K) (dts : List K)
    (h : InFireBand env i s) :
    ((dts.foldl (fun acc dt => unitUpdate env dt i acc) s).unit i).fx = (s.unit i).fx ∧
    ((dts.foldl (fun acc dt => unitUpdate env dt i acc) s).unit i).fy = (s.unit i).fy ∧
    ((dts.foldl (fun acc dt => unitUpdate env dt i acc) s).unit i).targetX
      = (s.unit i).targetX ∧
    ((dts.foldl (fun acc dt => unitUpdate env dt i acc) s).unit i).targetY
      = (s.unit i).targetY ∧
    (dts ≠ [] → ((dts.foldl (fun acc dt => unitUpdate env dt i acc) s).unit i).moving = false) ∧
    (dts.foldl (fun acc dt => unitUpdate env dt i acc) s).unitAttacking.getD i false = true ∧
    (dts.foldl (fun acc dt => unitUpdate env dt i acc) s).unitTargetEnemy.getD i (-1)
      = s.unitTargetEnemy.getD i (-1) ∧
    InFireBand env i (dts.foldl (fun acc dt => unitUpdate env dt i acc) s) ∧
    (∀ dt : K,
      (unitUpdate env dt i (dts.foldl (fun acc dt => unitUpdate env dt i acc) s)).units
        = (dts.foldl (fun acc dt => unitUpdate env dt i acc) s).units.set i
            { (dts.foldl (fun acc dt => unitUpdate env dt i acc) s).unit i with
                moving := false,
                x := lroundf ((dts.foldl (fun acc dt => unitUpdate env dt i acc) s).unit i).fx,
                y := lroundf
                  ((dts.foldl (fun acc dt => unitUpdate env dt i acc) s).unit i).fy }) := by
  have main : ∀ (l : List K) (s0 : Game K), InFireBand env i s0 →
      InFireBand env i (l.foldl (fun acc dt => unitUpdate env dt i acc) s0) ∧
      ((l.foldl (fun acc dt => unitUpdate env dt i acc) s0).unit i).fx = (s0.unit i).fx ∧
      ((l.foldl (fun acc dt => unitUpdate env dt i acc) s0).unit i).fy = (s0.unit i).fy ∧
      ((l.foldl (fun acc dt => unitUpdate env dt i acc) s0).unit i).targetX
        = (s0.unit i).targetX ∧
      ((l.foldl (fun acc dt => unitUpdate env dt i acc) s0).unit i).targetY
        = (s0.unit i).targetY ∧
      (l ≠ [] →
        ((l.foldl (fun acc dt => unitUpdate env dt i acc) s0).unit i).moving = false) ∧
      (l.foldl (fun acc dt => unitUpdate env dt i acc) s0).unitAttacking = s0.unitAttacking ∧
      (l.foldl (fun acc dt => unitUpdate env dt i acc) s0).unitTargetEnemy
        = s0.unitTargetEnemy := by
    intro l
    induction l with
    | nil =>
      intro s0 h0
      exact ⟨h0, rfl, rfl, rfl, rfl, fun hne => absurd rfl hne, rfl, rfl⟩
    | cons dt l ih =>
      intro s0 h0
      obtain ⟨k1, k2, k3, k4, _⟩ := unitUpdate_keeps_fire_band env dt i s0 h0
      obtain ⟨j1, j2, j3, j4, j5, j6, j7, j8⟩ := ih (unitUpdate env dt i s0) k1
      rw [List.foldl_cons]
      refine ⟨j1, ?_, ?_, ?_, ?_, ?_, ?_, ?_⟩
      · rw [j2, k2]
      · rw [j3, k2]
      · rw [j4, k2]
      · rw [j5, k2]
      · intro _
        by_cases hl : l = []
        · subst hl
          rw [List.foldl_nil, k2]
        · exact j6 hl
      · rw [j7, k3]
      · rw [j8, k4]
  obtain ⟨m1, m2, m3, m4, m5, m6, m7, m8⟩ := main dts s h
  refine ⟨m2, m3, m4, m5, m6, ?_, ?_, m1, ?_⟩
  · rw [m7]; exact h.2.1
  · rw [m8]
  · intro dt
    obtain ⟨hi, hatt, hnh, h0, h1, h2, hd⟩ := m1
    have key := unitUpdate_fire_branch env dt i _ hi hatt hnh h0 h1 h2 hd
    rw [key]

set_option maxRecDepth 100000 in
unseal Rat.add Rat.mul Rat.inv Rat.sub in
/-- Witness of C6: in `bandGame` the rifleman (range 140) is exactly 146 = range + 6 from its
living target, and three updates at 60 frames per second leave its position unchanged. -/
theorem fire_band_is_stable_witness :
    InFireBand evalEnv 0 bandGame ∧
    enemyDist evalEnv (bandGame.unit 0) (bandGame.enemies.getD 0 default)
      = (bandGame.unit 0).range + 6 ∧
    (([1 / 60, 1 / 60, 1 / 60].foldl (fun acc dt => unitUpdate evalEnv dt 0 acc) bandGame).unit
        0).fx = (bandGame.unit 0).fx :=
  ⟨by unfold InFireBand; decide, by decide,
    (fire_band_is_stable evalEnv 0 bandGame [1 / 60, 1 / 60, 1 / 60]
      (by unfold InFireBand; decide)).1⟩

/-! ## Single-target acquisition -/

theorem unit_setUnit_type (s : Game K) (i j : Nat) (u : Unit K)
    (h : u.type = (s.unit i).type) : ((s.setUnit i u).unit j).type = (s.unit j).type := by
  unfold Game.setUnit Game.unit at *
  dsimp only
  rw [getD_set]
  split_ifs with hc
  · rw [h, hc.1]
  · rfl

theorem recomputeRockAssignments_eq (env : Env K) (s : Game K) :
    recomputeRockAssignments env s
      = { s with unitAssignedRock := (recomputeRockAssignments env s).unitAssignedRock,
                 rockAssignmentDirty := false } := rfl

theorem revalidateRock_eq (env : Env K) (i : Nat) (s : Game K) :
    revalidateRock env i s
      = { s with unitAssignedRock := (revalidateRock env i s).unitAssignedRock,
                 rockAssignmentDirty := (revalidateRock env i s).rockAssignmentDirty } := by
  unfold revalidateRock
  dsimp only
  split_ifs <;> rfl

theorem mineStep_eq (env : Env K) (i : Nat) (s : Game K) :
    ∃ u : Unit K, u.type = (s.unit i).type ∧
      (mineStep env i s = s ∨
       mineStep env i s
        = { s with units := s.units.set i u, bullets := (mineStep env i s).bullets,
                   unitFireTimer := (mineStep env i s).unitFireTimer }) := by
  unfold mineStep
  dsimp only
  split_ifs
  · exact ⟨approachGoal (s.unit i) _ _ _ _ _, rfl, Or.inr rfl⟩
  · exact ⟨{ s.unit i with moving := false }, rfl, Or.inr rfl⟩
  · exact ⟨{ s.unit i with moving := false }, rfl, Or.inr rfl⟩
  · exact ⟨s.unit i, rfl, Or.inl rfl⟩

theorem mine_frame (env : Env K) (i : Nat) (s : Game K) :
    (mine env i s).unitAttacking = s.unitAttacking ∧
    (mine env i s).unitTargetEnemy = s.unitTargetEnemy ∧
    (mine env i s).unitAreaAttack = s.unitAreaAttack ∧
    (mine env i s).enemies = s.enemies ∧
    (mine env i s).units.length = s.units.length ∧
    ((mine env i s).unit i).type = (s.unit i).type := by
  have h1 := revalidateRock_eq env i s
  have r1 : (revalidateRock env i s).unitAttacking = s.unitAttacking := by rw [h1]
  have r2 : (revalidateRock env i s).unitTargetEnemy = s.unitTargetEnemy := by rw [h1]
  have r3 : (revalidateRock env i s).unitAreaAttack = s.unitAreaAttack := by rw [h1]
  have r4 : (revalidateRock env i s).enemies = s.enemies := by rw [h1]
  have r5 : (revalidateRock env i s).units = s.units := by rw [h1]
  have r6 : (revalidateRock env i s).unit i = s.unit i := by unfold Game.unit; rw [r5]
  obtain ⟨u, hu, hcase⟩ := mineStep_eq env i (revalidateRock env i s)
  unfold mine
  rcases hcase with h | h
  · rw [h]
    exact ⟨r1, r2, r3, r4, by rw [r5], by rw [r6]⟩
  · rw [h]
    refine ⟨r1, r2, r3, r4, ?_, ?_⟩
    · dsimp only
      rw [List.length_set, r5]
    · have := unit_setUnit_type (revalidateRock env i s) i i u hu
      unfold Game.setUnit at this
      unfold Game.unit at this ⊢
      dsimp only at this ⊢
      rw [this, r5]

theorem acquire_plain (env : Env K) (i : Nat) (s : Game K)
    (harea : s.unitAreaAttack.getD i false = false)
    (hna : s.unitAttacking.getD i false = false) :
    acquire env i s = scanOrMine env i s := by
  unfold acquire
  dsimp only
  rw [if_neg (show ¬ s.unitAreaAttack.getD i false = true from by rw [harea]; simp)]
  rw [if_pos ⟨harea, hna⟩]

theorem unitEngageAndMove_idle (env : Env K) (dt : K) (i : Nat) (s : Game K)
    (hna : s.unitAttacking.getD i false = false)
    (hnh : (s.unit i).type ≠ UnitType.UNIT_HEALER) :
    unitEngageAndMove env dt i s = steer env dt i s := by
  unfold unitEngageAndMove
  dsimp only
  rw [if_neg (show ¬ s.unitAttacking.getD i false = true from by rw [hna]; simp)]
  rw [if_neg hnh]

theorem enemyDist_congr (env : Env K) (u u1 : Unit K) (e : EnemyNPC K)
    (h1 : u1.fx = u.fx) (h2 : u1.fy = u.fy) (h3 : u1.width = u.width)
    (h4 : u1.height = u.height) : enemyDist env u1 e = enemyDist env u e := by
  unfold enemyDist Unit.cx Unit.cy
  rw [h1, h2, h3, h4]

theorem getD_of_getElem? {α : Type} (l : List α) (k : Nat) (a d : α) (h : l[k]? = some a) :
    l.getD k d = a := by
  rw [List.getD_eq_getElem?_getD, h]
  rfl

theorem lt_length_of_getElem? {α : Type} (l : List α) (k : Nat) (a : α) (h : l[k]? = some a) :
    k < l.length := by
  by_contra hc
  rw [List.getElem?_eq_none (not_lt.mp hc)] at h
  cases h

/-- C10: for a non-healer unit that holds no target and is not in area-attack mode (all
living enemies being nearer than the sentinel `1e9`): when a living enemy exists, the scan
returns the first living enemy at minimal distance from the unit's centre; the unit ends its
update committed if and only if that minimal distance is at most its range, and then it is
committed to exactly that enemy with `moving = false`; a committed target is never a dead
enemy. -/
theorem unitUpdate_commits_to_first_nearest (env : Env K) (dt : K) (i : Nat) (s : Game K)
    (hi : i < s.units.length) (hA : i < s.unitAttacking.length)
    (hT : i < s.unitTargetEnemy.length)
    (hna : s.unitAttacking.getD i false = false)
    (harea : s.unitAreaAttack.getD i false = false)
    (hnh : (s.unit i).type ≠ UnitType.UNIT_HEALER)
    (hsent : ∀ e ∈ s.enemies, e.alive = true → enemyDist env (s.unit i) e < SENTINEL) :
    ((∃ e ∈ s.enemies, e.alive = true) →
      ∃ k, FirstNearestEnemy env (s.unit i) s.enemies k ∧
        nearestEnemyScan env (s.unit i) s.enemies
          = ((k : Int), enemyDist env (s.unit i) (s.enemies.getD k default))) ∧
    ((unitUpdate env dt i s).unitAttacking.getD i false = true ↔
      ∃ k, FirstNearestEnemy env (s.unit i) s.enemies k ∧
        enemyDist env (s.unit i) (s.enemies.getD k default) ≤ (s.unit i).range) ∧
    (∀ k, FirstNearestEnemy env (s.unit i) s.enemies k →
      enemyDist env (s.unit i) (s.enemies.getD k default) ≤ (s.unit i).range →
      (unitUpdate env dt i s).unitAttacking.getD i false = true ∧
      (unitUpdate env dt i s).unitTargetEnemy.getD i (-1) = (k : Int) ∧
      ((unitUpdate env dt i s).unit i).moving = false) ∧
    ((unitUpdate env dt i s).unitAttacking.getD i false = true →
      ∃ e, s.enemies[((unitUpdate env dt i s).unitTargetEnemy.getD i (-1)).toNat]? = some e ∧
        e.alive = true) := by
  -- the state after the fire timer tick
  have ht := tickFireTimer_eq env dt i s
  have e1 : (tickFireTimer env dt i s).unitAttacking = s.unitAttacking := by rw [ht]
  have e2 : (tickFireTimer env dt i s).units = s.units := by rw [ht]
  have e3 : (tickFireTimer env dt i s).unitTargetEnemy = s.unitTargetEnemy := by rw [ht]
  have e4 : (tickFireTimer env dt i s).enemies = s.enemies := by rw [ht]
  have e6 : (tickFireTimer env dt i s).unitAreaAttack = s.unitAreaAttack := by rw [ht]
  have e5 : (tickFireTimer env dt i s).unit i = s.unit i := by unfold Game.unit; rw [e2]
  have hupd : unitUpdate env dt i s
      = unitEngageAndMove env dt i (scanOrMine env i (tickFireTimer env dt i s)) := by
    unfold unitUpdate
    dsimp only
    rw [if_pos (show (tickFireTimer env dt i s).unitAttacking.getD i false = false ∧
      ((tickFireTimer env dt i s).unit i).type ≠ UnitType.UNIT_HEALER from by
        rw [e1, e5]; exact ⟨hna, hnh⟩)]
    rw [acquire_plain env i _ (by rw [e6]; exact harea) (by rw [e1]; exact hna)]
  -- the two outcomes of the scan
  have hscan := nearestEnemyScan_spec env (s.unit i) s.enemies
  -- what happens when the unit does not commit
  have hidle : ¬ ((nearestEnemyScan env (s.unit i) s.enemies).1 ≥ 0 ∧
      (nearestEnemyScan env (s.unit i) s.enemies).2 ≤ (s.unit i).range) →
      (unitUpdate env dt i s).unitAttacking.getD i false = false := by
    intro hc
    have hm : scanOrMine env i (tickFireTimer env dt i s) = mine env i (tickFireTimer env dt i s) := by
      unfold scanOrMine
      dsimp only
      rw [e5, e4, if_neg hc]
    obtain ⟨m1, _, _, _, _, m6⟩ := mine_frame env i (tickFireTimer env dt i s)
    rw [hupd, hm, unitEngageAndMove_idle env dt i _ (by rw [m1, e1]; exact hna)
      (by rw [m6, e5]; exact hnh), steer_eq]
    dsimp only
    rw [m1, e1]
    exact hna
  -- what happens when the unit commits
  have hcommit : ∀ (k : Nat) (e : EnemyNPC K), s.enemies[k]? = some e → e.alive = true →
      nearestEnemyScan env (s.unit i) s.enemies = ((k : Int), enemyDist env (s.unit i) e) →
      enemyDist env (s.unit i) e ≤ (s.unit i).range →
      (unitUpdate env dt i s).unitAttacking.getD i false = true ∧
      (unitUpdate env dt i s).unitTargetEnemy.getD i (-1) = (k : Int) ∧
      ((unitUpdate env dt i s).unit i).moving = false := by
    intro k e hk halive hres hle
    have hklt := lt_length_of_getElem? _ _ _ hk
    have hkd : s.enemies.getD k default = e := getD_of_getElem? _ _ _ _ hk
    have hm : scanOrMine env i (tickFireTimer env dt i s)
        = { tickFireTimer env dt i s with
            unitAttacking := s.unitAttacking.set i true,
            unitTargetEnemy := s.unitTargetEnemy.set i (k : Int),
            units := s.units.set i { s.unit i with moving := false } } := by
      unfold scanOrMine
      dsimp only
      rw [e5, e4, e1, e2, e3, hres]
      dsimp only
      rw [if_pos ⟨by omega, hle⟩]
    have hkey := unitEngageAndMove_fire_branch env dt i
      ({ tickFireTimer env dt i s with
          unitAttacking := s.unitAttacking.set i true,
          unitTargetEnemy := s.unitTargetEnemy.set i (k : Int),
          units := s.units.set i { s.unit i with moving := false } } : Game K)
      (by dsimp only; rw [List.length_set]; exact hi)
      (by dsimp only; exact getD_set_self _ _ _ _ hA)
      (by
        unfold Game.unit
        dsimp only
        rw [getD_set_self _ _ _ _ hi]
        exact hnh)
      (by dsimp only; rw [getD_set_self _ _ _ _ hT]; omega)
      (by dsimp only; rw [getD_set_self _ _ _ _ hT, e4]; omega)
      (by
        dsimp only
        rw [getD_set_self _ _ _ _ hT, e4, Int.toNat_natCast, hkd]
        exact halive)
      (by
        unfold Game.unit
        dsimp only
        rw [getD_set_self _ _ _ _ hT, e4, Int.toNat_natCast, hkd, getD_set_self _ _ _ _ hi]
        have hc := enemyDist_congr env (s.unit i) { s.unit i with moving := false } e
          rfl rfl rfl rfl
        unfold Game.unit at hc hle
        rw [hc]
        have h12 : (0 : K) ≤ ATTACK_RANGE_HYST := by unfold ATTACK_RANGE_HYST; norm_num
        linarith)
    rw [hupd, hm, hkey]
    dsimp only
    refine ⟨getD_set_self _ _ _ _ hA, getD_set_self _ _ _ _ hT, ?_⟩
    unfold Game.unit
    dsimp only
    rw [getD_set_self _ _ _ _ (by rw [List.length_set]; exact hi)]
  rcases hscan with ⟨hnone, hfar⟩ | ⟨k, e, hk, hfirst, hres, hlt⟩
  · -- no living enemy at all
    have hnoLiving : ∀ e ∈ s.enemies, e.alive = true → False := by
      intro e he ha
      obtain ⟨j, hj⟩ := List.getElem?_of_mem he
      exact absurd (hsent e he ha) (not_lt.mpr (hfar j e hj ha))
    have hnotFirst : ∀ k, ¬ FirstNearestEnemy env (s.unit i) s.enemies k := by
      rintro k ⟨e, hk, ha, _⟩
      exact hnoLiving e (List.mem_iff_getElem?.2 ⟨k, hk⟩) ha
    have hfalse := hidle (by
      rw [hnone]
      rintro ⟨h, _⟩
      have h3 : (0 : Int) ≤ -1 := h
      omega)
    refine ⟨?_, ?_, ?_, ?_⟩
    · rintro ⟨e, he, ha⟩
      exact (hnoLiving e he ha).elim
    · constructor
      · intro h; rw [hfalse] at h; cases h
      · rintro ⟨k, hk, _⟩; exact (hnotFirst k hk).elim
    · intro k hk; exact (hnotFirst k hk).elim
    · intro h; rw [hfalse] at h; cases h
  · -- the scan found the first nearest living enemy `k`
    have hkd : s.enemies.getD k default = e := getD_of_getElem? _ _ _ _ hk
    have halive : e.alive = true := by
      obtain ⟨e1, h1, h2, _⟩ := hfirst
      rw [hk] at h1
      cases h1
      exact h2
    refine ⟨?_, ?_, ?_, ?_⟩
    · intro _
      exact ⟨k, hfirst, by rw [hres, hkd]⟩
    · constructor
      · intro hatt
        refine ⟨k, hfirst, ?_⟩
        by_contra hgt
        have := hidle (by rw [hres]; rintro ⟨_, h⟩; exact hgt (by rw [hkd]; exact h))
        rw [this] at hatt
        cases hatt
      · rintro ⟨k1, hk1, hle⟩
        have hkk : k1 = k := FirstNearestEnemy.unique env _ _ _ _ hk1 hfirst
        subst hkk
        rw [hkd] at hle
        exact (hcommit k1 e hk halive hres hle).1
    · intro k1 hk1 hle
      have hkk : k1 = k := FirstNearestEnemy.unique env _ _ _ _ hk1 hfirst
      subst hkk
      rw [hkd] at hle
      exact hcommit k1 e hk halive hres hle
    · intro hatt
      by_cases hle : enemyDist env (s.unit i) e ≤ (s.unit i).range
      · obtain ⟨_, c2, _⟩ := hcommit k e hk halive hres hle
        rw [c2, Int.toNat_natCast]
        exact ⟨e, hk, halive⟩
      · have := hidle (by rw [hres]; rintro ⟨_, h⟩; exact hle h)
        rw [this] at hatt
        cases hatt

set_option maxRecDepth 100000 in
unseal Rat.add Rat.mul Rat.inv Rat.sub in
/-- Witness of C10: in `scanGame` the idle rifleman meets every hypothesis, the update commits
it to enemy 1 (the first of the two nearest), and the committed enemy is alive. -/
theorem unitUpdate_commits_to_first_nearest_witness :
    (unitUpdate evalEnv (1 / 60) 0 scanGame).unitTargetEnemy.getD 0 (-1) = 1 ∧
    ((unitUpdate evalEnv (1 / 60) 0 scanGame).unitAttacking.getD 0 false = true →
      ∃ e, scanGame.enemies[((unitUpdate evalEnv (1 / 60) 0 scanGame).unitTargetEnemy.getD 0
          (-1)).toNat]? = some e ∧ e.alive = true) :=
  ⟨by decide,
    (unitUpdate_commits_to_first_nearest evalEnv (1 / 60) 0 scanGame (by decide) (by decide)
      (by decide) (by decide) (by decide) (by decide) (by decide)).2.2.2⟩

/-! ## Hits needed to kill -/

theorem hitIfAlive_dead (env : Env K) (dmg : Int) (st : EnemyNPC K × Int × Nat)
    (h : st.1.alive = false) : hitIfAlive env dmg st = st := by
  unfold hitIfAlive
  rw [if_pos h]

theorem hitIfAlive_alive (env : Env K) (dmg : Int) (st : EnemyNPC K × Int × Nat)
    (h : st.1.alive = true) : hitIfAlive env dmg st = damageEnemy env dmg st.1 st.2.1 st.2.2 := by
  unfold hitIfAlive
  rw [if_neg (by rw [h]; simp)]

theorem hitEnemies_single (env : Env K) (b : Bullet K) (e : EnemyNPC K) (scrap : Int)
    (calls : Nat) (hb : bulletInEnemy b e = true) :
    (hitEnemies env b [e] scrap calls).1 = [(hitIfAlive env b.damage (e, scrap, calls)).1] ∧
    (hitEnemies env b [e] scrap calls).2.1 = (hitIfAlive env b.damage (e, scrap, calls)).2.1 ∧
    (hitEnemies env b [e] scrap calls).2.2.1
      = (hitIfAlive env b.damage (e, scrap, calls)).2.2 := by
  by_cases ha : e.alive = true
  · rw [hitEnemies_cons_hit env b e [] scrap calls ha hb, hitIfAlive_alive env _ _ ha]
    exact ⟨rfl, rfl, rfl⟩
  · have ha2 : e.alive = false := by simpa using ha
    rw [hitEnemies_cons_dead env b e [] scrap calls ha2, hitIfAlive_dead env _ _ ha2]
    exact ⟨rfl, rfl, rfl⟩

theorem landed_hits (env : Env K) (e : EnemyNPC K) (d : Int) (scrap : Int) (calls : Nat)
    (ha : e.alive = true) (hd : 0 < d) (hh : 0 < e.hp) (k : Nat) :
    ((k : Int) * d < e.hp →
      (Nat.iterate (hitIfAlive env d) k (e, scrap, calls)).1.alive = true ∧
      (Nat.iterate (hitIfAlive env d) k (e, scrap, calls)).1.hp = e.hp - (k : Int) * d ∧
      (Nat.iterate (hitIfAlive env d) k (e, scrap, calls)).2.1 = scrap) ∧
    (e.hp ≤ (k : Int) * d →
      (Nat.iterate (hitIfAlive env d) k (e, scrap, calls)).1.alive = false ∧
      scrap + 2 ≤ (Nat.iterate (hitIfAlive env d) k (e, scrap, calls)).2.1 ∧
      (Nat.iterate (hitIfAlive env d) k (e, scrap, calls)).2.1 ≤ scrap + 5) := by
  induction k with
  | zero =>
    constructor
    · intro _
      simp [ha]
    · intro h
      simp at h
      omega
  | succ k ih =>
    obtain ⟨ih1, ih2⟩ := ih
    rw [Function.iterate_succ_apply']
    have hcast : ((k + 1 : Nat) : Int) * d = (k : Int) * d + d := by push_cast; ring
    rw [hcast]
    by_cases hk : (k : Int) * d < e.hp
    · obtain ⟨a1, a2, a3⟩ := ih1 hk
      rw [hitIfAlive_alive env d _ a1]
      constructor
      · intro hlt
        rw [damageEnemy_survive env d _ _ _ (by rw [a2]; omega)]
        exact ⟨a1, by dsimp only; rw [a2]; ring, a3⟩
      · intro hge
        rw [damageEnemy_kill env d _ _ _ (by rw [a2]; omega)]
        have hb := GetRandomValue_two_five
          (env.rand (Nat.iterate (hitIfAlive env d) k (e, scrap, calls)).2.2)
        refine ⟨rfl, ?_, ?_⟩
        · dsimp only; rw [a3]; omega
        · dsimp only; rw [a3]; omega
    · obtain ⟨b1, b2, b3⟩ := ih2 (not_lt.mp hk)
      rw [hitIfAlive_dead env d _ b1]
      constructor
      · intro hlt
        omega
      · intro _
        exact ⟨b1, b2, b3⟩

set_option maxRecDepth 1000000 in
unseal Rat.add Rat.mul Rat.inv Rat.sub in
/-- C7: the collision loop applies `hitIfAlive` to an enemy whose box holds the bullet; a
living enemy with `hp = h > 0` hit `k` times with damage `d > 0` is alive exactly when
`k * d < h`, its hp is then `h - k * d` and no scrap was paid, and once it is dead exactly one
reward in [2,5] has been paid; with `h = 70` and `d = 18` the enemy has hp `70 - 18 k` and is
alive after `k ≤ 3` hits and is dead after the 4th.  End to end: the rifleman of `duelGame`
(range 140, fire rate 2.5, damage 18, enemy at distance 100 with hp 70) fires every second
frame of 0.2 s (cooldown 0.4 s); the enemy does not move, has hp 52, 34, 16 after 2, 4, 6
frames with no scrap paid, and after frame 7 (the 4th hit) it is dead with hp -2 and the
scrap balance has risen by an amount in [2,5]. -/
theorem four_hits_kill (env : Env K) :
    (∀ (b : Bullet K) (e : EnemyNPC K) (scrap : Int) (calls : Nat), bulletInEnemy b e = true →
      (hitEnemies env b [e] scrap calls).1 = [(hitIfAlive env b.damage (e, scrap, calls)).1] ∧
      (hitEnemies env b [e] scrap calls).2.1
        = (hitIfAlive env b.damage (e, scrap, calls)).2.1) ∧
    (∀ (e : EnemyNPC K) (d scrap : Int) (calls k : Nat),
      e.alive = true → 0 < d → 0 < e.hp →
      ((Nat.iterate (hitIfAlive env d) k (e, scrap, calls)).1.alive = true ↔
        (k : Int) * d < e.hp) ∧
      ((k : Int) * d < e.hp →
        (Nat.iterate (hitIfAlive env d) k (e, scrap, calls)).1.hp = e.hp - (k : Int) * d ∧
        (Nat.iterate (hitIfAlive env d) k (e, scrap, calls)).2.1 = scrap) ∧
      (e.hp ≤ (k : Int) * d →
        scrap + 2 ≤ (Nat.iterate (hitIfAlive env d) k (e, scrap, calls)).2.1 ∧
        (Nat.iterate (hitIfAlive env d) k (e, scrap, calls)).2.1 ≤ scrap + 5)) ∧
    (∀ (e : EnemyNPC K) (scrap : Int) (calls : Nat), e.alive = true → e.hp = 70 →
      (∀ k : Nat, k ≤ 3 →
        (Nat.iterate (hitIfAlive env 18) k (e, scrap, calls)).1.alive = true ∧
        (Nat.iterate (hitIfAlive env 18) k (e, scrap, calls)).1.hp = 70 - 18 * (k : Int) ∧
        (Nat.iterate (hitIfAlive env 18) k (e, scrap, calls)).2.1 = scrap) ∧
      (Nat.iterate (hitIfAlive env 18) 4 (e, scrap, calls)).1.alive = false ∧
      scrap + 2 ≤ (Nat.iterate (hitIfAlive env 18) 4 (e, scrap, calls)).2.1 ∧
      (Nat.iterate (hitIfAlive env 18) 4 (e, scrap, calls)).2.1 ≤ scrap + 5) ∧
    ((duelGame.unit 0).range = 140 ∧ (duelGame.unit 0).fireRate = 5 / 2 ∧
      (duelGame.unit 0).damage = 18 ∧
      duelGame.enemies.map (fun e => (e.hp, e.alive, e.x, e.y)) = [(70, true, 100, 0)] ∧
      enemyDist evalEnv (duelGame.unit 0) (duelGame.enemies.getD 0 default) = 100 ∧
      (duelAfter 1).unitFireTimer = [2 / 5] ∧
      (duelAfter 2).enemies.map (fun e => (e.hp, e.alive, e.x, e.y)) = [(52, true, 100, 0)] ∧
      (duelAfter 4).enemies.map (fun e => (e.hp, e.alive, e.x, e.y)) = [(34, true, 100, 0)] ∧
      (duelAfter 6).enemies.map (fun e => (e.hp, e.alive, e.x, e.y)) = [(16, true, 100, 0)] ∧
      (duelAfter 6).shop.scrapMetal = duelGame.shop.scrapMetal ∧
      (duelAfter 7).enemies.map (fun e => (e.hp, e.alive, e.x, e.y)) = [(-2, false, 100, 0)] ∧
      duelGame.shop.scrapMetal + 2 ≤ (duelAfter 7).shop.scrapMetal ∧
      (duelAfter 7).shop.scrapMetal ≤ duelGame.shop.scrapMetal + 5) := by
  refine ⟨?_, ?_, ?_, by decide, by decide, by decide, by decide, by decide, by decide,
    by decide, by decide, by decide, by decide, by decide, by decide, by decide⟩
  · intro b e scrap calls hb
    have h := hitEnemies_single env b e scrap calls hb
    exact ⟨h.1, h.2.1⟩
  · intro e d scrap calls k ha hd hh
    obtain ⟨h1, h2⟩ := landed_hits env e d scrap calls ha hd hh k
    refine ⟨⟨?_, fun h => (h1 h).1⟩, fun h => (h1 h).2, fun h => (h2 h).2⟩
    intro halive
    by_contra hge
    have := (h2 (not_lt.mp hge)).1
    rw [this] at halive
    cases halive
  · intro e scrap calls ha hhp
    refine ⟨?_, ?_⟩
    · intro k hk
      obtain ⟨h1, _⟩ := landed_hits env e 18 scrap calls ha (by norm_num) (by omega) k
      obtain ⟨a1, a2, a3⟩ := h1 (by omega)
      exact ⟨a1, by rw [a2, hhp]; ring, a3⟩
    · obtain ⟨_, h2⟩ := landed_hits env e 18 scrap calls ha (by norm_num) (by omega) 4
      exact h2 (by rw [hhp]; norm_num)

/-! ## What the unit, healer and medic loops leave alone -/

theorem UnitLoopFrame.refl_unitLoop (s : Game K) : UnitLoopFrame s s :=
  ⟨rfl, [], by simp⟩

theorem UnitLoopFrame.trans_unitLoop {s1 s2 s3 : Game K} (h1 : UnitLoopFrame s1 s2)
    (h2 : UnitLoopFrame s2 s3) : UnitLoopFrame s1 s3 := by
  obtain ⟨a1, f1, b1⟩ := h1
  obtain ⟨a2, f2, b2⟩ := h2
  exact ⟨a2.trans a1, f1 ++ f2, by rw [b2, b1, List.append_assoc]⟩

theorem UnitLoopFrame.of_eq {s s1 : Game K} (hd : s1.directorView = s.directorView)
    (hb : s1.bullets = s.bullets) : UnitLoopFrame s s1 :=
  ⟨hd, [], by rw [hb]; simp⟩

theorem tickFireTimer_frame (env : Env K) (dt : K) (i : Nat) (s : Game K) :
    UnitLoopFrame s (tickFireTimer env dt i s) := by
  rw [tickFireTimer_eq]
  exact UnitLoopFrame.of_eq rfl rfl

theorem recomputeRockAssignments_frame (env : Env K) (s : Game K) :
    UnitLoopFrame s (recomputeRockAssignments env s) :=
  UnitLoopFrame.of_eq rfl rfl

theorem revalidateRock_frame (env : Env K) (i : Nat) (s : Game K) :
    UnitLoopFrame s (revalidateRock env i s) := by
  rw [revalidateRock_eq]
  exact UnitLoopFrame.of_eq rfl rfl

theorem mineStep_frame (env : Env K) (i : Nat) (s : Game K) :
    UnitLoopFrame s (mineStep env i s) := by
  unfold mineStep
  dsimp only
  split_ifs
  · exact UnitLoopFrame.of_eq rfl rfl
  · exact ⟨rfl, _, rfl⟩
  · exact UnitLoopFrame.of_eq rfl rfl
  · exact UnitLoopFrame.refl_unitLoop s

theorem mine_unitLoopFrame (env : Env K) (i : Nat) (s : Game K) :
    UnitLoopFrame s (mine env i s) :=
  (revalidateRock_frame env i s).trans_unitLoop (mineStep_frame env i _)

theorem scanOrMine_frame (env : Env K) (i : Nat) (s : Game K) :
    UnitLoopFrame s (scanOrMine env i s) := by
  unfold scanOrMine
  dsimp only
  split_ifs
  · exact UnitLoopFrame.of_eq rfl rfl
  · exact mine_unitLoopFrame env i s

theorem areaAcquire_frame (env : Env K) (i : Nat) (s : Game K) :
    UnitLoopFrame s (areaAcquire env i s) := by
  unfold areaAcquire
  dsimp only
  split_ifs <;> exact UnitLoopFrame.of_eq rfl rfl

theorem acquire_frame (env : Env K) (i : Nat) (s : Game K) :
    UnitLoopFrame s (acquire env i s) := by
  unfold acquire
  dsimp only
  have h1 : UnitLoopFrame s
      (if s.unitAreaAttack.getD i false = true then areaAcquire env i s else s) := by
    split_ifs
    · exact areaAcquire_frame env i s
    · exact UnitLoopFrame.refl_unitLoop s
  generalize (if s.unitAreaAttack.getD i false = true then areaAcquire env i s else s) = s1
    at h1 ⊢
  split_ifs
  · exact h1.trans_unitLoop (scanOrMine_frame env i s1)
  · exact h1

theorem targetLost_frame (env : Env K) (i : Nat) (s : Game K) :
    UnitLoopFrame s (targetLost env i s) := by
  unfold targetLost reacquire
  dsimp only
  split_ifs <;> exact UnitLoopFrame.of_eq rfl rfl

theorem approachOrFire_frame (env : Env K) (i : Nat) (ti : Int) (s : Game K) :
    UnitLoopFrame s (approachOrFire env i ti s) := by
  unfold approachOrFire
  dsimp only
  split_ifs
  · exact UnitLoopFrame.of_eq rfl rfl
  · exact ⟨rfl, _, rfl⟩
  · exact UnitLoopFrame.of_eq rfl rfl

theorem engage_frame (env : Env K) (i : Nat) (s : Game K) :
    UnitLoopFrame s (engage env i s) := by
  unfold engage
  dsimp only
  split_ifs
  · exact targetLost_frame env i s
  · exact approachOrFire_frame env i _ s

theorem healerSeek_frame (env : Env K) (i : Nat) (s : Game K) :
    UnitLoopFrame s (healerSeek env i s) := by
  unfold healerSeek
  dsimp only
  split_ifs <;> exact UnitLoopFrame.of_eq rfl rfl

theorem steer_frame (env : Env K) (dt : K) (i : Nat) (s : Game K) :
    UnitLoopFrame s (steer env dt i s) := by
  rw [steer_eq]
  exact UnitLoopFrame.of_eq rfl rfl

theorem unitEngageAndMove_frame (env : Env K) (dt : K) (i : Nat) (s : Game K) :
    UnitLoopFrame s (unitEngageAndMove env dt i s) := by
  unfold unitEngageAndMove
  dsimp only
  have h3 : UnitLoopFrame s
      (if s.unitAttacking.getD i false = true then engage env i s else s) := by
    split_ifs
    · exact engage_frame env i s
    · exact UnitLoopFrame.refl_unitLoop s
  generalize (if s.unitAttacking.getD i false = true then engage env i s else s) = s3
    at h3 ⊢
  refine (h3.trans_unitLoop ?_).trans_unitLoop (steer_frame env dt i _)
  split_ifs
  · exact healerSeek_frame env i s3
  · exact UnitLoopFrame.refl_unitLoop s3

theorem unitUpdate_frame (env : Env K) (dt : K) (i : Nat) (s : Game K) :
    UnitLoopFrame s (unitUpdate env dt i s) := by
  unfold unitUpdate
  dsimp only
  have h1 := tickFireTimer_frame env dt i s
  generalize tickFireTimer env dt i s = s1 at h1 ⊢
  refine (h1.trans_unitLoop ?_).trans_unitLoop (unitEngageAndMove_frame env dt i _)
  split_ifs
  · exact acquire_frame env i s1
  · exact UnitLoopFrame.refl_unitLoop s1

theorem unitPass_frame (env : Env K) (dt : K) (s : Game K) :
    UnitLoopFrame s (unitPass env dt s) := by
  unfold unitPass
  exact foldl_preserves (fun acc => UnitLoopFrame s acc) _ _ s (UnitLoopFrame.refl_unitLoop s)
    (fun acc i h => h.trans_unitLoop (unitUpdate_frame env dt i acc))

theorem healAlly_frame (env : Env K) (dt : K) (i j : Nat) (s : Game K) :
    UnitLoopFrame s (healAlly env dt i j s) := by
  unfold healAlly
  dsimp only
  split_ifs <;> exact UnitLoopFrame.of_eq rfl rfl

theorem healerPass_frame (env : Env K) (dt : K) (s : Game K) :
    UnitLoopFrame s (healerPass env dt s) := by
  unfold healerPass
  apply foldl_preserves (fun acc => UnitLoopFrame s acc) _ _ s (UnitLoopFrame.refl_unitLoop s)
  intro acc i h
  refine h.trans_unitLoop ?_
  unfold healerUpdate
  dsimp only
  split_ifs
  · exact UnitLoopFrame.refl_unitLoop acc
  · exact foldl_preserves (fun a => UnitLoopFrame acc a) _ _ acc (UnitLoopFrame.refl_unitLoop acc)
      (fun a j h => h.trans_unitLoop (healAlly_frame env dt i j a))

theorem medicHeal_frame (dt : K) (i j : Nat) (s : Game K) :
    UnitLoopFrame s (medicHeal dt i j s) := by
  unfold medicHeal
  dsimp only
  split_ifs <;> exact UnitLoopFrame.of_eq rfl rfl

theorem medicPass_frame (dt : K) (s : Game K) : UnitLoopFrame s (medicPass dt s) := by
  unfold medicPass
  apply foldl_preserves (fun acc => UnitLoopFrame s acc) _ _ s (UnitLoopFrame.refl_unitLoop s)
  intro acc i h
  refine h.trans_unitLoop ?_
  unfold medicUpdate
  dsimp only
  split_ifs
  · exact UnitLoopFrame.refl_unitLoop acc
  · exact foldl_preserves (fun a => UnitLoopFrame acc a) _ _ acc (UnitLoopFrame.refl_unitLoop acc)
      (fun a j h => h.trans_unitLoop (medicHeal_frame dt i j a))

/-! ## What the enemy loop leaves alone -/

theorem truncInt_nonneg (v : K) (h : 0 ≤ v) : 0 ≤ truncInt v := by
  unfold truncInt
  rw [if_pos h]
  exact Int.floor_nonneg.2 h

theorem forall₂_refl_of {α : Type} (R : α → α → Prop) (hR : ∀ a, R a a) (l : List α) :
    List.Forall₂ R l l := by
  induction l with
  | nil => exact List.Forall₂.nil
  | cons a l ih => exact List.Forall₂.cons (hR a) ih

theorem forall₂_trans_of {α : Type} (R : α → α → Prop)
    (hR : ∀ a b c, R a b → R b c → R a c) {l1 l2 l3 : List α}
    (h1 : List.Forall₂ R l1 l2) (h2 : List.Forall₂ R l2 l3) : List.Forall₂ R l1 l3 := by
  induction h1 generalizing l3 with
  | nil => cases h2; exact List.Forall₂.nil
  | cons hab _ ih =>
    cases h2 with
    | cons hbc htl => exact List.Forall₂.cons (hR _ _ _ hab hbc) (ih htl)

theorem forall₂_set_of {α : Type} (R : α → α → Prop) (hR : ∀ a, R a a) (l : List α) (i : Nat)
    (a d : α) (h : R (l.getD i d) a) : List.Forall₂ R l (l.set i a) := by
  induction l generalizing i with
  | nil => exact List.Forall₂.nil
  | cons b l ih =>
    cases i with
    | zero => exact List.Forall₂.cons (by simpa using h) (forall₂_refl_of R hR l)
    | succ i => exact List.Forall₂.cons (hR b) (ih i (by simpa using h))

theorem EnemyStays.refl_stays (dt : K) (e : EnemyNPC K) : EnemyStays dt e e :=
  ⟨rfl, fun _ => ⟨rfl, rfl, Or.inl rfl, Or.inl rfl⟩⟩

theorem EnemyStays.trans_stays (dt : K) (a b c : EnemyNPC K) (h1 : EnemyStays dt a b)
    (h2 : EnemyStays dt b c) : EnemyStays dt a c := by
  obtain ⟨a1, a2⟩ := h1
  obtain ⟨b1, b2⟩ := h2
  refine ⟨b1.trans a1, ?_⟩
  intro h0
  obtain ⟨p1, p2, p3, p4⟩ := a2 h0
  obtain ⟨q1, q2, q3, q4⟩ := b2 h0
  refine ⟨q1.trans p1, q2.trans p2, ?_, ?_⟩
  · rcases q3 with q3 | q3
    · rw [q3]; exact p3
    · rw [q3, p1]; exact Or.inr rfl
  · rcases q4 with q4 | q4
    · rw [q4]; exact p4
    · rw [q4, p2]; exact Or.inr rfl

theorem enemyMove_stays (env : Env K) (dt : K) (e : EnemyNPC K) (dx dy : K) :
    EnemyStays dt e (enemyMove env dt e dx dy) := by
  unfold enemyMove
  dsimp only
  split_ifs
  · refine ⟨rfl, ?_⟩
    intro h
    subst h
    simp
  · exact EnemyStays.refl_stays dt e

theorem enemyAdvance_stays (env : Env K) (dt : K) (e : EnemyNPC K) (cuIdx : Int) (cd : K)
    (cu : Unit K) (tx ty dtt : K) :
    EnemyStays dt e (enemyAdvance env dt e cuIdx cd cu tx ty dtt) := by
  unfold enemyAdvance
  split_ifs
  · exact enemyMove_stays env dt e _ _
  · exact enemyMove_stays env dt e _ _
  · exact EnemyStays.refl_stays dt e

theorem enemyStrike_frame (eUnit eShip : Bool) (cuIdx : Int) (dmg : K) (s : Game K) :
    (enemyStrike eUnit eShip cuIdx dmg s).currentWave = s.currentWave ∧
    (enemyStrike eUnit eShip cuIdx dmg s).inIntermission = s.inIntermission ∧
    (enemyStrike eUnit eShip cuIdx dmg s).playerShip.isComplete = s.playerShip.isComplete ∧
    (enemyStrike eUnit eShip cuIdx dmg s).bullets = s.bullets ∧
    (enemyStrike eUnit eShip cuIdx dmg s).enemies = s.enemies ∧
    (0 ≤ dmg → s.playerShip.hp ≤ 0 →
      (enemyStrike eUnit eShip cuIdx dmg s).playerShip.hp ≤ 0 ∧
      (s.playerShip.hp = 0 → (enemyStrike eUnit eShip cuIdx dmg s).playerShip.hp = 0)) := by
  unfold enemyStrike
  dsimp only
  by_cases h1 : eUnit = true
  · rw [if_pos h1]
    exact ⟨rfl, rfl, rfl, rfl, rfl, fun _ h => ⟨h, fun h0 => h0⟩⟩
  · rw [if_neg h1]
    by_cases h2 : eShip = true
    · rw [if_pos h2]
      refine ⟨rfl, rfl, rfl, rfl, rfl, ?_⟩
      intro hd hhp
      have ht := truncInt_nonneg dmg hd
      dsimp only
      constructor
      · split_ifs <;> omega
      · intro h0
        split_ifs <;> omega
    · rw [if_neg h2]
      exact ⟨rfl, rfl, rfl, rfl, rfl, fun _ h => ⟨h, fun h0 => h0⟩⟩

theorem EnemyLoopFrame.refl_enemyLoop (dt : K) (s : Game K) : EnemyLoopFrame dt s s :=
  ⟨rfl, rfl, rfl, rfl, forall₂_refl_of _ (EnemyStays.refl_stays dt) _, fun _ h => ⟨h, fun h0 => h0⟩⟩

theorem forall₂_nonneg_damage (dt : K) {l1 l2 : List (EnemyNPC K)}
    (h : List.Forall₂ (EnemyStays dt) l1 l2) (hd : ∀ e ∈ l1, (0 : K) ≤ e.attackDamage) :
    ∀ e ∈ l2, (0 : K) ≤ e.attackDamage := by
  induction h with
  | nil => intro e he; cases he
  | cons hab _ ih =>
    intro e he
    rcases List.mem_cons.1 he with he | he
    · rw [he, hab.1]
      exact hd _ (List.mem_cons_self _ _)
    · exact ih (fun e1 h1 => hd e1 (List.mem_cons_of_mem _ h1)) e he

theorem EnemyLoopFrame.trans_enemyLoop {dt : K} {s1 s2 s3 : Game K} (h1 : EnemyLoopFrame dt s1 s2)
    (h2 : EnemyLoopFrame dt s2 s3) : EnemyLoopFrame dt s1 s3 := by
  obtain ⟨a1, a2, a3, a4, a5, a7⟩ := h1
  obtain ⟨b1, b2, b3, b4, b5, b7⟩ := h2
  refine ⟨b1.trans a1, b2.trans a2, b3.trans a3, b4.trans a4,
    forall₂_trans_of _ (EnemyStays.trans_stays dt) a5 b5, ?_⟩
  intro hd hhp
  obtain ⟨c1, c2⟩ := a7 hd hhp
  obtain ⟨d1, d2⟩ := b7 (forall₂_nonneg_damage dt a5 hd) c1
  exact ⟨d1, fun h0 => d2 (c2 h0)⟩

theorem enemy_set_frame (dt : K) (s : Game K) (i : Nat) (e1 : EnemyNPC K)
    (h1 : EnemyStays dt (s.enemies.getD i default) e1) :
    EnemyLoopFrame dt s { s with enemies := s.enemies.set i e1 } :=
  ⟨rfl, rfl, rfl, rfl, forall₂_set_of _ (EnemyStays.refl_stays dt) _ _ _ default h1,
    fun _ h => ⟨h, fun h0 => h0⟩⟩

theorem enemy_strike_frame (dt : K) (s : Game K) (i : Nat) (e1 : EnemyNPC K)
    (eUnit eShip : Bool) (cuIdx : Int) (dmg : K)
    (hd : dmg = (s.enemies.getD i default).attackDamage)
    (h1 : EnemyStays dt (s.enemies.getD i default) e1) :
    EnemyLoopFrame dt s
      { enemyStrike eUnit eShip cuIdx dmg s with
          enemies := (enemyStrike eUnit eShip cuIdx dmg s).enemies.set i e1 } := by
  obtain ⟨f1, f2, f3, f4, f5, f6⟩ := enemyStrike_frame eUnit eShip cuIdx dmg s
  refine ⟨f1, f2, f3, f4, ?_, ?_⟩
  · dsimp only
    rw [f5]
    exact forall₂_set_of _ (EnemyStays.refl_stays dt) _ _ _ default h1
  · intro hdm hhp
    dsimp only
    apply f6 _ hhp
    rw [hd]
    by_cases hi : i < s.enemies.length
    · apply hdm
      rw [List.getD_eq_getElem _ _ hi]
      exact List.getElem_mem hi
    · rw [List.getD_eq_default _ _ (not_lt.mp hi)]
      show (0 : K) ≤ (15 : K)
      norm_num

theorem EnemyStays.tick (dt : K) (e e1 : EnemyNPC K) (t : K)
    (h : EnemyStays dt { e with timeSinceLastAttack := t } e1) : EnemyStays dt e e1 := h

theorem EnemyStays.reset (dt : K) (e e1 : EnemyNPC K) (t : K)
    (h : EnemyStays dt e e1) : EnemyStays dt e { e1 with timeSinceLastAttack := t } := h

theorem enemyUpdate_frame (env : Env K) (dt : K) (i : Nat) (s : Game K) :
    EnemyLoopFrame dt s (enemyUpdate env dt i s) := by
  unfold enemyUpdate
  dsimp only
  by_cases hdead : (s.enemies.getD i default).alive = false
  · rw [if_pos hdead]
    exact EnemyLoopFrame.refl_enemyLoop dt s
  · rw [if_neg hdead]
    split_ifs <;>
    first
    | exact enemy_strike_frame dt s i _ _ _ _ _
        (enemyAdvance_stays _ _ _ _ _ _ _ _ _).1
        (EnemyStays.reset dt _ _ _
          (EnemyStays.tick dt _ _ _ (enemyAdvance_stays _ _ _ _ _ _ _ _ _)))
    | exact enemy_set_frame dt s i _
        (EnemyStays.tick dt _ _ _ (enemyAdvance_stays _ _ _ _ _ _ _ _ _))
    | exact enemy_set_frame dt s i _ (EnemyStays.refl_stays dt _)

theorem enemyPass_frame (env : Env K) (dt : K) (s : Game K) :
    EnemyLoopFrame dt s (enemyPass env dt s) := by
  unfold enemyPass
  exact foldl_preserves (fun acc => EnemyLoopFrame dt s acc) _ _ s (EnemyLoopFrame.refl_enemyLoop dt s)
    (fun acc i h => h.trans_enemyLoop (enemyUpdate_frame env dt i acc))

/-! ## What the projectile loop leaves alone -/

theorem Bullet.advance_zero (b : Bullet K) : b.advance 0 = b := by
  cases b
  simp [Bullet.advance]

theorem damageEnemy_stays (env : Env K) (dt : K) (dmg : Int) (e : EnemyNPC K) (scrap : Int)
    (calls : Nat) : EnemyStays dt e (damageEnemy env dmg e scrap calls).1 := by
  by_cases h : e.hp - dmg ≤ 0
  · rw [damageEnemy_kill env dmg e scrap calls h]
    exact EnemyStays.refl_stays dt e
  · rw [damageEnemy_survive env dmg e scrap calls h]
    exact EnemyStays.refl_stays dt e

theorem hitEnemies_stays (env : Env K) (dt : K) (b : Bullet K) (es : List (EnemyNPC K))
    (scrap : Int) (calls : Nat) :
    List.Forall₂ (EnemyStays dt) es (hitEnemies env b es scrap calls).1 := by
  induction es with
  | nil => simp [hitEnemies]
  | cons e es ih =>
    by_cases ha : e.alive = false
    · rw [hitEnemies_cons_dead env b e es scrap calls ha]
      exact List.Forall₂.cons (EnemyStays.refl_stays dt e) ih
    · have ha1 : e.alive = true := by simpa using ha
      by_cases hb : bulletInEnemy b e = true
      · rw [hitEnemies_cons_hit env b e es scrap calls ha1 hb]
        exact List.Forall₂.cons (damageEnemy_stays env dt _ e scrap calls)
          (forall₂_refl_of _ (EnemyStays.refl_stays dt) es)
      · rw [hitEnemies_cons_miss env b e es scrap calls ha1 hb]
        exact List.Forall₂.cons (EnemyStays.refl_stays dt e) ih

theorem BulletKept.refl_kept (b : Bullet K) : BulletKept b b := Or.inl rfl

theorem BulletKept.trans_kept (a b c : Bullet K) (h1 : BulletKept a b) (h2 : BulletKept b c) :
    BulletKept a c := by
  rcases h1 with h1 | h1 <;> rcases h2 with h2 | h2
  · exact Or.inl (h2.trans h1)
  · exact Or.inr (by rw [h2, h1])
  · exact Or.inr (by rw [h2, h1])
  · exact Or.inr (by rw [h2, h1])

theorem BulletLoopFrame.refl_bulletLoop (dt : K) (s : Game K) : BulletLoopFrame dt s s :=
  ⟨rfl, rfl, rfl, forall₂_refl_of _ (EnemyStays.refl_stays dt) _,
    fun _ => forall₂_refl_of _ BulletKept.refl_kept _⟩

theorem BulletLoopFrame.trans_bulletLoop {dt : K} {s1 s2 s3 : Game K} (h1 : BulletLoopFrame dt s1 s2)
    (h2 : BulletLoopFrame dt s2 s3) : BulletLoopFrame dt s1 s3 := by
  obtain ⟨a1, a2, a3, a4, a5⟩ := h1
  obtain ⟨b1, b2, b3, b4, b5⟩ := h2
  exact ⟨b1.trans a1, b2.trans a2, b3.trans a3, forall₂_trans_of _ (EnemyStays.trans_stays dt) a4 b4,
    fun h => forall₂_trans_of _ BulletKept.trans_kept (a5 h) (b5 h)⟩

theorem bullet_set_kept (dt : K) (bs : List (Bullet K)) (bi : Nat) (a : Bool) (h0 : dt = 0)
    (ha : a = true → (bs.getD bi default).active = true) :
    List.Forall₂ BulletKept bs
      (bs.set bi { (bs.getD bi default).advance dt with active := a }) := by
  apply forall₂_set_of _ BulletKept.refl_kept _ _ _ default
  subst h0
  rw [Bullet.advance_zero]
  cases a with
  | false => exact Or.inr rfl
  | true =>
    left
    have h := ha rfl
    generalize bs.getD bi default = b at h
    cases b
    simp only at h
    subst h
    rfl

theorem bulletStep_frame (env : Env K) (dt : K) (bi : Nat) (s : Game K) :
    BulletLoopFrame dt s (bulletStep env dt bi s) := by
  unfold bulletStep
  dsimp only
  by_cases h1 : (s.bullets.getD bi default).active = false
  · rw [if_pos h1]
    exact BulletLoopFrame.refl_bulletLoop dt s
  · rw [if_neg h1]
    have hact : (s.bullets.getD bi default).active = true := by simpa using h1
    split_ifs
    · exact ⟨rfl, rfl, rfl, forall₂_refl_of _ (EnemyStays.refl_stays dt) _,
        fun h0 => bullet_set_kept dt _ bi false h0 (fun h => by cases h)⟩
    · exact ⟨rfl, rfl, rfl, hitEnemies_stays env dt _ _ _ _,
        fun h0 => bullet_set_kept dt _ bi false h0 (fun h => by cases h)⟩
    · exact ⟨rfl, rfl, rfl, forall₂_refl_of _ (EnemyStays.refl_stays dt) _,
        fun h0 => bullet_set_kept dt _ bi _ h0 (fun _ => hact)⟩
    · exact ⟨rfl, rfl, rfl, forall₂_refl_of _ (EnemyStays.refl_stays dt) _,
        fun h0 => bullet_set_kept dt _ bi _ h0 (fun _ => hact)⟩

theorem bulletLoop_frame (env : Env K) (dt : K) (s : Game K) :
    BulletLoopFrame dt s (bulletLoop env dt s) := by
  unfold bulletLoop
  exact foldl_preserves (fun acc => BulletLoopFrame dt s acc) _ _ s (BulletLoopFrame.refl_bulletLoop dt s)
    (fun acc bi h => h.trans_bulletLoop (bulletStep_frame env dt bi acc))

theorem filter_active_sublist {l l1 : List (Bullet K)} (h : List.Forall₂ BulletKept l l1) :
    List.Sublist (l1.filter (fun b => b.active)) l := by
  induction h with
  | nil => exact List.Sublist.slnil
  | @cons a b l l1 hab _ ih =>
    rcases hab with hab | hab
    · subst hab
      by_cases hb : b.active = true
      · rw [List.filter_cons_of_pos hb]
        exact List.Sublist.cons₂ _ ih
      · rw [List.filter_cons_of_neg hb]
        exact List.Sublist.cons _ ih
    · subst hab
      rw [List.filter_cons_of_neg (by simp)]
      exact List.Sublist.cons _ ih

theorem healerPass_bullets (env : Env K) (dt : K) (s : Game K) :
    (healerPass env dt s).bullets = s.bullets := by
  unfold healerPass
  apply foldl_preserves (fun acc => acc.bullets = s.bullets) _ _ s rfl
  intro acc i h
  rw [← h]
  unfold healerUpdate
  dsimp only
  split_ifs
  · rfl
  · apply foldl_preserves (fun a => a.bullets = acc.bullets) _ _ acc rfl
    intro a j h2
    rw [← h2]
    unfold healAlly
    dsimp only
    split_ifs <;> rfl

theorem medicPass_bullets (dt : K) (s : Game K) : (medicPass dt s).bullets = s.bullets := by
  unfold medicPass
  apply foldl_preserves (fun acc => acc.bullets = s.bullets) _ _ s rfl
  intro acc i h
  rw [← h]
  unfold medicUpdate
  dsimp only
  split_ifs
  · rfl
  · apply foldl_preserves (fun a => a.bullets = acc.bullets) _ _ acc rfl
    intro a j h2
    rw [← h2]
    unfold medicHeal
    dsimp only
    split_ifs <;> rfl

/-! ## The loops of one frame together -/

theorem UnitLoopFrame.fields {s s1 : Game K} (h : UnitLoopFrame s s1) :
    s1.currentWave = s.currentWave ∧ s1.inIntermission = s.inIntermission ∧
    s1.playerShip = s.playerShip ∧ s1.enemies = s.enemies := by
  obtain ⟨h, _⟩ := h
  unfold Game.directorView at h
  simp only [Prod.mk.injEq] at h
  exact ⟨h.2.1, h.2.2.2.2.2.2.2.2.2.1, h.2.2.2.2.2.1, h.2.2.2.1⟩

theorem bulletPass_frame (env : Env K) (dt : K) (s : Game K) :
    (bulletPass env dt s).currentWave = s.currentWave ∧
    (bulletPass env dt s).inIntermission = s.inIntermission ∧
    (bulletPass env dt s).playerShip = s.playerShip ∧
    List.Forall₂ (EnemyStays dt) s.enemies (bulletPass env dt s).enemies ∧
    (dt = 0 → List.Sublist (bulletPass env dt s).bullets s.bullets) := by
  obtain ⟨h1, h2, h3, h4, h5⟩ := bulletLoop_frame env dt s
  exact ⟨h1, h2, h3, h4, fun h0 => filter_active_sublist (h5 h0)⟩

/-- What the loops of one frame leave alone, for any frame time: the wave number, the
intermission flag and the completion flag; the enemies change within `EnemyStays`; a ship
with `hp ≤ 0` keeps `hp ≤ 0` when no enemy has a negative attack damage; and with `dt = 0`
the projectiles left are projectiles of the unit loop's result, unchanged. -/
theorem simPasses_frame (env : Env K) (dt : K) (s : Game K) :
    (simPasses env dt s).currentWave = s.currentWave ∧
    (simPasses env dt s).inIntermission = s.inIntermission ∧
    (simPasses env dt s).playerShip.isComplete = s.playerShip.isComplete ∧
    List.Forall₂ (EnemyStays dt) s.enemies (simPasses env dt s).enemies ∧
    ((∀ e ∈ s.enemies, (0 : K) ≤ e.attackDamage) → s.playerShip.hp ≤ 0 →
      (simPasses env dt s).playerShip.hp ≤ 0 ∧
      (s.playerShip.hp = 0 → (simPasses env dt s).playerShip.hp = 0)) ∧
    (dt = 0 → List.Sublist (simPasses env dt s).bullets (unitPass env dt s).bullets) := by
  obtain ⟨a1, a2, a3, a4⟩ := (unitPass_frame env dt s).fields
  obtain ⟨b1, b2, b3, b4⟩ := (healerPass_frame env dt (unitPass env dt s)).fields
  have bb := healerPass_bullets env dt (unitPass env dt s)
  obtain ⟨c1, c2, c3, c4, c5, c6⟩ := enemyPass_frame env dt (healerPass env dt (unitPass env dt s))
  obtain ⟨d1, d2, d3, d4⟩ :=
    (medicPass_frame dt (enemyPass env dt (healerPass env dt (unitPass env dt s)))).fields
  have db := medicPass_bullets dt (enemyPass env dt (healerPass env dt (unitPass env dt s)))
  obtain ⟨e1, e2, e3, e4, e5⟩ := bulletPass_frame env dt
    (medicPass dt (enemyPass env dt (healerPass env dt (unitPass env dt s))))
  have hen : (healerPass env dt (unitPass env dt s)).enemies = s.enemies := b4.trans a4
  have hship : (healerPass env dt (unitPass env dt s)).playerShip = s.playerShip := b3.trans a3
  rw [hen] at c5 c6
  rw [hship] at c3 c6
  rw [d4] at e4
  rw [d3] at e3
  unfold simPasses
  dsimp only
  refine ⟨?_, ?_, ?_, ?_, ?_, ?_⟩
  · rw [e1, d1, c1, b1, a1]
  · rw [e2, d2, c2, b2, a2]
  · rw [e3, c3]
  · exact forall₂_trans_of _ (EnemyStays.trans_stays dt) c5 e4
  · intro hd hhp
    rw [e3]
    exact c6 hd hhp
  · intro h0
    have h := e5 h0
    rw [db, c4, bb] at h
    exact h

/-! ## No enemy has a negative attack damage -/

theorem spawnEnemy_damage_nonneg (env : Env K) (d : Difficulty) (w : Int) (p : Nat) :
    (0 : K) ≤ (spawnEnemy env d w p).attackDamage := by
  unfold spawnEnemy
  dsimp only
  split_ifs <;> norm_num

theorem spawnLoop_damage_nonneg (env : Env K) (d : Difficulty) (w : Int) (n : Nat)
    (s : Game K) (h : ∀ e ∈ s.enemies, (0 : K) ≤ e.attackDamage) :
    ∀ e ∈ (spawnLoop env d w n s).enemies, (0 : K) ≤ e.attackDamage := by
  induction n generalizing s with
  | zero => exact h
  | succ n ih =>
    rw [spawnLoop]
    apply ih
    intro e he
    rcases List.mem_append.1 he with he | he
    · exact h e he
    · rw [List.mem_singleton.1 he]
      exact spawnEnemy_damage_nonneg env d w _

theorem startNextWave_damage_nonneg (env : Env K) (s : Game K)
    (h : ∀ e ∈ s.enemies, (0 : K) ≤ e.attackDamage) :
    ∀ e ∈ (startNextWave env s).enemies, (0 : K) ≤ e.attackDamage := by
  unfold startNextWave spawnWave
  exact spawnLoop_damage_nonneg env _ _ _ _ h

theorem waveClearCheck_damage_nonneg (env : Env K) (s : Game K)
    (h : ∀ e ∈ s.enemies, (0 : K) ≤ e.attackDamage) :
    ∀ e ∈ (waveClearCheck env s).enemies, (0 : K) ≤ e.attackDamage := by
  unfold waveClearCheck waveClear
  dsimp only
  split_ifs
  · intro e he
    cases he
  · exact h
  · exact h

theorem intermissionTick_damage_nonneg (env : Env K) (inp : FrameInput K) (s : Game K)
    (h : ∀ e ∈ s.enemies, (0 : K) ≤ e.attackDamage) :
    ∀ e ∈ (intermissionTick env inp s).enemies, (0 : K) ≤ e.attackDamage := by
  unfold intermissionTick
  dsimp only
  split_ifs
  · exact startNextWave_damage_nonneg env s h
  · exact startNextWave_damage_nonneg env _ h
  · exact h
  · exact h
  · exact h

theorem intermissionButton_damage_nonneg (env : Env K) (inp : FrameInput K) (s : Game K)
    (h : ∀ e ∈ s.enemies, (0 : K) ≤ e.attackDamage) :
    ∀ e ∈ (intermissionButton env inp s).enemies, (0 : K) ≤ e.attackDamage := by
  unfold intermissionButton
  split_ifs
  · exact startNextWave_damage_nonneg env s h
  · exact h
  · exact h

/-- The attack damages are an invariant of the frame: `spawnWave` only creates enemies with a
positive attack damage and no loop changes the attack damage of an enemy, so a state without
negative attack damages is followed by such a state, for every input. -/
theorem simFrame_damage_nonneg (env : Env K) (inp : FrameInput K) (s : Game K)
    (h : ∀ e ∈ s.enemies, (0 : K) ≤ e.attackDamage) :
    ∀ e ∈ (simFrame env inp s).enemies, (0 : K) ≤ e.attackDamage := by
  unfold simFrame
  dsimp only
  apply intermissionButton_damage_nonneg
  have h2 := intermissionTick_damage_nonneg env inp _ (waveClearCheck_damage_nonneg env s h)
  exact forall₂_nonneg_damage _ (simPasses_frame env _ _).2.2.2.1 h2

/-! ## Terminal states -/

theorem effectiveDt_terminal (inp : FrameInput K) (s : Game K)
    (h : s.playerShip.hp ≤ 0 ∨ s.playerShip.isComplete = true) : effectiveDt inp s = 0 := by
  unfold effectiveDt
  dsimp only
  rw [if_pos h]

theorem terminal_guard (s : Game K) (b : Bool)
    (h : s.playerShip.hp ≤ 0 ∨ s.playerShip.isComplete = true) :
    ¬ (b = true ∧ s.playerShip.hp > 0 ∧ s.playerShip.isComplete = false) := by
  rintro ⟨_, h1, h2⟩
  rcases h with h | h
  · omega
  · rw [h] at h2
    cases h2

theorem waveClearCheck_terminal (env : Env K) (s : Game K)
    (h : s.playerShip.hp ≤ 0 ∨ s.playerShip.isComplete = true) : waveClearCheck env s = s := by
  unfold waveClearCheck
  rw [if_neg]
  rintro ⟨_, h1, h2⟩
  exact terminal_guard s true h ⟨rfl, h1, h2⟩

theorem intermissionTick_terminal (env : Env K) (inp : FrameInput K) (s : Game K)
    (h : s.playerShip.hp ≤ 0 ∨ s.playerShip.isComplete = true) :
    intermissionTick env inp s = s := by
  unfold intermissionTick
  rw [if_neg (terminal_guard s _ h)]

theorem intermissionButton_terminal (env : Env K) (inp : FrameInput K) (s : Game K)
    (h : s.playerShip.hp ≤ 0 ∨ s.playerShip.isComplete = true) :
    intermissionButton env inp s = s := by
  unfold intermissionButton
  rw [if_neg (terminal_guard s _ h)]

/-- The terminal condition still holds after the loops of the frame: the completion flag is
not written, and a ship with `hp ≤ 0` keeps `hp ≤ 0` as long as no enemy has a negative
attack damage. -/
theorem simPasses_terminal (env : Env K) (dt : K) (s : Game K)
    (h : s.playerShip.hp ≤ 0 ∨ s.playerShip.isComplete = true)
    (hd : s.playerShip.isComplete = false → ∀ e ∈ s.enemies, (0 : K) ≤ e.attackDamage) :
    (simPasses env dt s).playerShip.hp ≤ 0 ∨
      (simPasses env dt s).playerShip.isComplete = true := by
  obtain ⟨_, _, f3, _, f5, _⟩ := simPasses_frame env dt s
  by_cases hc : s.playerShip.isComplete = true
  · exact Or.inr (f3.trans hc)
  · have hc1 : s.playerShip.isComplete = false := by simpa using hc
    rcases h with h | h
    · exact Or.inl (f5 (hd hc1) h).1
    · exact absurd h hc

theorem simFrame_terminal (env : Env K) (inp : FrameInput K) (s : Game K)
    (h : s.playerShip.hp ≤ 0 ∨ s.playerShip.isComplete = true)
    (hd : s.playerShip.isComplete = false → ∀ e ∈ s.enemies, (0 : K) ≤ e.attackDamage) :
    simFrame env inp s = simPasses env 0 s := by
  unfold simFrame
  dsimp only
  rw [effectiveDt_terminal inp s h, waveClearCheck_terminal env s h,
    intermissionTick_terminal env inp s h,
    intermissionButton_terminal env inp _ (simPasses_terminal env 0 s h hd)]

/-- C9: in a frame that starts with the ship's `hp ≤ 0` or with the completion flag true, the
effective `dt` is 0 whatever the frame time, the time scale and the pause flag are, the
wave-clear check and the intermission countdown (Enter key and timer expiry) leave the state
as it is, the "Start Next Wave" button does nothing either, so the frame is just the loops run
with `dt = 0`, and `currentWave` and the intermission flag are the same after the frame.  The
attack damages the code gives to enemies are positive; the statement asks, when the ship is
not complete, that none is negative. -/
theorem terminal_frame_keeps_wave (env : Env K) (inp : FrameInput K) (s : Game K)
    (h : s.playerShip.hp ≤ 0 ∨ s.playerShip.isComplete = true)
    (hd : s.playerShip.isComplete = false → ∀ e ∈ s.enemies, (0 : K) ≤ e.attackDamage) :
    effectiveDt inp s = 0 ∧
    waveClearCheck env s = s ∧
    intermissionTick env inp s = s ∧
    intermissionButton env inp (simPasses env 0 s) = simPasses env 0 s ∧
    simFrame env inp s = simPasses env 0 s ∧
    (simFrame env inp s).currentWave = s.currentWave ∧
    (simFrame env inp s).inIntermission = s.inIntermission := by
  have hf := simFrame_terminal env inp s h hd
  obtain ⟨f1, f2, _⟩ := simPasses_frame env 0 s
  refine ⟨effectiveDt_terminal inp s h, waveClearCheck_terminal env s h,
    intermissionTick_terminal env inp s h,
    intermissionButton_terminal env inp _ (simPasses_terminal env 0 s h hd), hf, ?_, ?_⟩
  · rw [hf, f1]
  · rw [hf, f2]

set_option maxRecDepth 1000000 in
unseal Rat.add Rat.mul Rat.inv Rat.sub in
/-- Witness of C9: a frame of 0.2 seconds in which Enter is pressed and the button is clicked,
during an intermission with 0.1 seconds left, neither advances the wave of the lost game
`lostGame` (ship hp 0) nor that of the won game `wonGame` (completion flag set). -/
theorem terminal_frame_keeps_wave_witness :
    (lostGame.playerShip.hp ≤ 0 ∧
      (simFrame evalEnv advanceInput lostGame).currentWave = lostGame.currentWave ∧
      (simFrame evalEnv advanceInput lostGame).inIntermission = lostGame.inIntermission) ∧
    (wonGame.playerShip.isComplete = true ∧
      (simFrame evalEnv advanceInput wonGame).currentWave = wonGame.currentWave ∧
      (simFrame evalEnv advanceInput wonGame).inIntermission = wonGame.inIntermission) :=
  ⟨⟨by decide,
      (terminal_frame_keeps_wave evalEnv advanceInput lostGame (Or.inl (by decide))
        (fun _ => by decide)).2.2.2.2.2⟩,
    ⟨by decide,
      (terminal_frame_keeps_wave evalEnv advanceInput wonGame (Or.inr (by decide))
        (fun _ => by decide)).2.2.2.2.2⟩⟩

/-! ## The frame of a lost game -/

theorem forall₂_stays_positions {l l1 : List (EnemyNPC K)}
    (h : List.Forall₂ (EnemyStays (0 : K)) l l1) :
    l1.map (fun e => (e.fx, e.fy)) = l.map (fun e => (e.fx, e.fy)) ∧
    ((∀ e ∈ l, e.x = lroundf e.fx ∧ e.y = lroundf e.fy) →
      l1.map (fun e => (e.x, e.y)) = l.map (fun e => (e.x, e.y))) := by
  induction h with
  | nil => exact ⟨rfl, fun _ => rfl⟩
  | @cons a b l l1 hab _ ih =>
    obtain ⟨_, hp⟩ := hab
    obtain ⟨p1, p2, p3, p4⟩ := hp rfl
    obtain ⟨ih1, ih2⟩ := ih
    constructor
    · rw [List.map_cons, List.map_cons, ih1, p1, p2]
    · intro hs
      obtain ⟨sx, sy⟩ := hs a (List.mem_cons_self _ _)
      have hx : b.x = a.x := by
        rcases p3 with p3 | p3
        · exact p3
        · rw [p3, ← sx]
      have hy : b.y = a.y := by
        rcases p4 with p4 | p4
        · exact p4
        · rw [p4, ← sy]
      rw [List.map_cons, List.map_cons, ih2 (fun e he => hs e (List.mem_cons_of_mem _ he)),
        hx, hy]

set_option maxRecDepth 1000000 in
unseal Rat.add Rat.mul Rat.inv Rat.sub in
/-- Counterexample to C8 as stated: in the lost game `frozenGame` (ship hp 0) one frame moves
the healer from x = 977.75 onto its goal at x = 978, lets the enemy take 15 hp from the
rifleman it stands on, and lets the two projectiles fired in the frame take 18 hp from the
enemy and 18 hp from the rock. -/
theorem terminal_frame_still_acts :
    frozenGame.playerShip.hp ≤ 0 ∧
    (frozenGame.units.map (fun u => u.fx),
        (simFrame evalEnv duelInput frozenGame).units.map (fun u => u.fx))
      = ([3911 / 4, -45 / 2, -45 / 2], [978, -45 / 2, -45 / 2]) ∧
    (frozenGame.units.map (fun u => u.hp),
        (simFrame evalEnv duelInput frozenGame).units.map (fun u => u.hp))
      = ([220, 220, 220], [220, 205, 220]) ∧
    (frozenGame.enemies.map (fun e => e.hp),
        (simFrame evalEnv duelInput frozenGame).enemies.map (fun e => e.hp))
      = ([70], [52]) ∧
    (frozenGame.rocks.map (fun r => r.hp),
        (simFrame evalEnv duelInput frozenGame).rocks.map (fun r => r.hp))
      = ([200], [182]) :=
  ⟨by decide, by decide, by decide, by decide, by decide⟩

/-- C8, amended: in a state with the ship's `hp ≤ 0` in which no enemy has a negative attack
damage, one frame, for every frame time, time scale and pause flag, runs with the effective
`dt = 0` and leaves the wave number unchanged, the ship's hp at `≤ 0` (a ship hp of 0 stays
0), every enemy's continuous position unchanged, every enemy's integer position unchanged
when the integer positions are the rounded continuous ones, and every projectile in place:
the projectiles after the frame are projectiles of the list left by the unit loop, which is
the old list followed by the projectiles fired in this frame.  Unit positions and the hp of
units, enemies and rocks are not in the statement; they can change. -/
theorem terminal_frame_freeze (env : Env K) (inp : FrameInput K) (s : Game K)
    (h : s.playerShip.hp ≤ 0) (hd : ∀ e ∈ s.enemies, (0 : K) ≤ e.attackDamage) :
    effectiveDt inp s = 0 ∧
    (simFrame env inp s).currentWave = s.currentWave ∧
    (simFrame env inp s).playerShip.hp ≤ 0 ∧
    (s.playerShip.hp = 0 → (simFrame env inp s).playerShip.hp = 0) ∧
    (simFrame env inp s).enemies.map (fun e => (e.fx, e.fy))
      = s.enemies.map (fun e => (e.fx, e.fy)) ∧
    ((∀ e ∈ s.enemies, e.x = lroundf e.fx ∧ e.y = lroundf e.fy) →
      (simFrame env inp s).enemies.map (fun e => (e.x, e.y))
        = s.enemies.map (fun e => (e.x, e.y))) ∧
    List.Sublist (simFrame env inp s).bullets (unitPass env 0 s).bullets ∧
    (∃ fired, (unitPass env 0 s).bullets = s.bullets ++ fired) := by
  have hf := simFrame_terminal env inp s (Or.inl h) (fun _ => hd)
  obtain ⟨f1, _, _, f4, f5, f6⟩ := simPasses_frame env 0 s
  obtain ⟨g1, g2⟩ := f5 hd h
  obtain ⟨p1, p2⟩ := forall₂_stays_positions f4
  rw [hf]
  exact ⟨effectiveDt_terminal inp s (Or.inl h), f1, g1, g2, p1, p2, f6 rfl,
    (unitPass_frame env 0 s).2⟩

set_option maxRecDepth 1000000 in
unseal Rat.add Rat.mul Rat.inv Rat.sub in
/-- Witness of the amended C8: `frozenGame` has ship hp 0 and one enemy of attack damage 15;
after the frame the wave is still 1, the ship's hp still 0 and the enemy still at its place,
and the unit loop has fired two projectiles. -/
theorem terminal_frame_freeze_witness :
    frozenGame.playerShip.hp ≤ 0 ∧
    (∀ e ∈ frozenGame.enemies, (0 : ℚ) ≤ e.attackDamage) ∧
    (unitPass evalEnv 0 frozenGame).bullets.length = 2 ∧
    (simFrame evalEnv duelInput frozenGame).currentWave = frozenGame.currentWave ∧
    (simFrame evalEnv duelInput frozenGame).playerShip.hp ≤ 0 ∧
    (frozenGame.playerShip.hp = 0 → (simFrame evalEnv duelInput frozenGame).playerShip.hp = 0) ∧
    (simFrame evalEnv duelInput frozenGame).enemies.map (fun e => (e.fx, e.fy))
      = frozenGame.enemies.map (fun e => (e.fx, e.fy)) :=
  have key := terminal_frame_freeze evalEnv duelInput frozenGame (by decide) (by decide)
  ⟨by decide, by decide, by decide, key.2.1, key.2.2.1, key.2.2.2.1, key.2.2.2.2.1⟩

/-! ## Area-attack bookkeeping in the unit loop -/

theorem getD_set_ne {α : Type} (l : List α) (i j : Nat) (a d : α) (h : j ≠ i) :
    (l.set i a).getD j d = l.getD j d := by
  rw [getD_set, if_neg]
  rintro ⟨h1, _⟩
  exact h h1.symm

theorem OnlyUnit.refl_only (k : Nat) (s : Game K) : OnlyUnit k s s :=
  ⟨rfl, rfl, fun _ _ => ⟨rfl, rfl, rfl, rfl, rfl⟩⟩

theorem OnlyUnit.trans_only {k : Nat} {s1 s2 s3 : Game K} (h1 : OnlyUnit k s1 s2)
    (h2 : OnlyUnit k s2 s3) : OnlyUnit k s1 s3 := by
  obtain ⟨a1, a2, a3⟩ := h1
  obtain ⟨b1, b2, b3⟩ := h2
  refine ⟨b1.trans a1, b2.trans a2, fun j hj => ?_⟩
  obtain ⟨c1, c2, c3, c4, c5⟩ := a3 j hj
  obtain ⟨d1, d2, d3, d4, d5⟩ := b3 j hj
  exact ⟨d1.trans c1, d2.trans c2, d3.trans c3, d4.trans c4, d5.trans c5⟩

/-- A step that writes each of the five lists at position `k` at most is `OnlyUnit k`. -/
theorem OnlyUnit.of_set_only {k : Nat} {s s1 : Game K}
    (hu : s1.units = s.units ∨ ∃ u, s1.units = s.units.set k u)
    (hA : s1.unitAttacking = s.unitAttacking ∨ ∃ a, s1.unitAttacking = s.unitAttacking.set k a)
    (hT : s1.unitTargetEnemy = s.unitTargetEnemy ∨
      ∃ t, s1.unitTargetEnemy = s.unitTargetEnemy.set k t)
    (hF : s1.unitAreaAttack = s.unitAreaAttack ∨
      ∃ a, s1.unitAreaAttack = s.unitAreaAttack.set k a)
    (hL : s1.unitAreaTargets = s.unitAreaTargets ∨
      ∃ l, s1.unitAreaTargets = s.unitAreaTargets.set k l) : OnlyUnit k s s1 := by
  refine ⟨?_, ?_, fun j hj => ⟨?_, ?_, ?_, ?_, ?_⟩⟩
  · rcases hu with h | ⟨u, h⟩ <;> rw [h]
    exact List.length_set _ _ _
  · rcases hT with h | ⟨u, h⟩ <;> rw [h]
    exact List.length_set _ _ _
  · rcases hu with h | ⟨u, h⟩ <;> rw [h]
    exact getD_set_ne _ _ _ _ _ hj
  · rcases hA with h | ⟨u, h⟩ <;> rw [h]
    exact getD_set_ne _ _ _ _ _ hj
  · rcases hT with h | ⟨u, h⟩ <;> rw [h]
    exact getD_set_ne _ _ _ _ _ hj
  · rcases hF with h | ⟨u, h⟩ <;> rw [h]
    exact getD_set_ne _ _ _ _ _ hj
  · rcases hL with h | ⟨u, h⟩ <;> rw [h]
    exact getD_set_ne _ _ _ _ _ hj

theorem KeepsCentre.refl_centre (k : Nat) (s : Game K) : KeepsCentre k s s := ⟨rfl, rfl⟩

theorem KeepsCentre.trans_centre {k : Nat} {s1 s2 s3 : Game K} (h1 : KeepsCentre k s1 s2)
    (h2 : KeepsCentre k s2 s3) : KeepsCentre k s1 s3 :=
  ⟨h2.1.trans h1.1, h2.2.trans h1.2⟩

/-- Writing at position `k` a unit with the centre of the unit that was there keeps the
centre of unit `k`. -/
theorem KeepsCentre.of_set_centre {k : Nat} {s s1 : Game K}
    (hu : s1.units = s.units ∨
      ∃ u : Unit K, s1.units = s.units.set k u ∧ u.cx = (s.unit k).cx ∧ u.cy = (s.unit k).cy) :
    KeepsCentre k s s1 := by
  unfold KeepsCentre Game.unit
  rcases hu with h | ⟨u, h, hx, hy⟩
  · rw [h]
    exact ⟨rfl, rfl⟩
  · rw [h, getD_set]
    split_ifs
    · exact ⟨hx, hy⟩
    · exact ⟨rfl, rfl⟩

theorem UnclaimedFor.of_onlyUnit {k : Nat} {s s1 : Game K} {t : Int} (h : OnlyUnit k s s1)
    (hu : UnclaimedFor s1 k t) : UnclaimedFor s k t := by
  intro j hj hjk hc
  obtain ⟨h1, _, h3⟩ := h
  obtain ⟨_, c2, c3, c4, _⟩ := h3 j hjk
  have := hu j (by rw [h1]; exact hj) hjk ⟨by rw [c4]; exact hc.1, by rw [c2]; exact hc.2⟩
  rw [c3] at this
  exact this

theorem AreaStep.refl_step (k : Nat) (s : Game K) : AreaStep k s s :=
  ⟨rfl, OnlyUnit.refl_only k s, fun h => h, rfl, fun h => Or.inl ⟨h, rfl⟩⟩

theorem AreaStep.trans_step {k : Nat} {s1 s2 s3 : Game K} (h1 : AreaStep k s1 s2)
    (h2 : AreaStep k s2 s3) : AreaStep k s1 s3 := by
  obtain ⟨a1, a2, a3, a4, a5⟩ := h1
  obtain ⟨b1, b2, b3, b4, b5⟩ := h2
  refine ⟨b1.trans a1, a2.trans_only b2, fun h => a3 (b3 h), b4.trans a4, ?_⟩
  intro hc
  rcases b5 hc with ⟨hc2, ht⟩ | hfresh
  · rcases a5 hc2 with ⟨hc1, ht1⟩ | hfresh
    · exact Or.inl ⟨hc1, ht.trans ht1⟩
    · exact Or.inr (by rw [ht]; exact hfresh)
  · exact Or.inr (UnclaimedFor.of_onlyUnit a2 hfresh)

/-- A step that leaves the enemies and the four tables as they are, and writes the unit list
at position `k` at most, is an `AreaStep k`. -/
theorem AreaStep.of_tables {k : Nat} {s s1 : Game K} (he : s1.enemies = s.enemies)
    (hu : s1.units = s.units ∨ ∃ u, s1.units = s.units.set k u)
    (hA : s1.unitAttacking = s.unitAttacking) (hT : s1.unitTargetEnemy = s.unitTargetEnemy)
    (hF : s1.unitAreaAttack = s.unitAreaAttack)
    (hL : s1.unitAreaTargets = s.unitAreaTargets) : AreaStep k s s1 := by
  refine ⟨he, OnlyUnit.of_set_only hu (Or.inl hA) (Or.inl hT) (Or.inl hF) (Or.inl hL), ?_, ?_, ?_⟩
  · rw [hF]
    exact fun h => h
  · unfold livingTargets
    rw [hL, he]
  · intro hc
    unfold AreaCommitted at hc ⊢
    rw [hF, hA] at hc
    rw [hT]
    exact Or.inl ⟨hc, rfl⟩

/-- A step after which unit `k` is not committed, or not in area-attack mode, is an
`AreaStep k` as soon as it is `OnlyUnit k`, keeps the enemies, does not switch area-attack
mode on and only prunes the captured list. -/
theorem AreaStep.of_uncommitted {k : Nat} {s s1 : Game K} (he : s1.enemies = s.enemies)
    (ho : OnlyUnit k s s1)
    (hF : s1.unitAreaAttack.getD k false = true → s.unitAreaAttack.getD k false = true)
    (hL : livingTargets s1 k = livingTargets s k) (hn : ¬ AreaCommitted s1 k) :
    AreaStep k s s1 :=
  ⟨he, ho, hF, hL, fun hc => absurd hc hn⟩

theorem tickFireTimer_areaStep (env : Env K) (dt : K) (k : Nat) (s : Game K) :
    AreaStep k s (tickFireTimer env dt k s) ∧ KeepsCentre k s (tickFireTimer env dt k s) := by
  rw [tickFireTimer_eq]
  exact ⟨AreaStep.of_tables rfl (Or.inl rfl) rfl rfl rfl rfl, KeepsCentre.of_set_centre (Or.inl rfl)⟩

theorem revalidateRock_areaStep (env : Env K) (k : Nat) (s : Game K) :
    AreaStep k s (revalidateRock env k s) ∧ KeepsCentre k s (revalidateRock env k s) := by
  rw [revalidateRock_eq]
  exact ⟨AreaStep.of_tables rfl (Or.inl rfl) rfl rfl rfl rfl, KeepsCentre.of_set_centre (Or.inl rfl)⟩

theorem mineStep_areaStep (env : Env K) (k : Nat) (s : Game K) :
    AreaStep k s (mineStep env k s) ∧ KeepsCentre k s (mineStep env k s) := by
  unfold mineStep
  dsimp only
  split_ifs
  · exact ⟨AreaStep.of_tables rfl (Or.inr ⟨_, rfl⟩) rfl rfl rfl rfl,
      KeepsCentre.of_set_centre (Or.inr ⟨_, rfl, rfl, rfl⟩)⟩
  · exact ⟨AreaStep.of_tables rfl (Or.inr ⟨_, rfl⟩) rfl rfl rfl rfl,
      KeepsCentre.of_set_centre (Or.inr ⟨_, rfl, rfl, rfl⟩)⟩
  · exact ⟨AreaStep.of_tables rfl (Or.inr ⟨_, rfl⟩) rfl rfl rfl rfl,
      KeepsCentre.of_set_centre (Or.inr ⟨_, rfl, rfl, rfl⟩)⟩
  · exact ⟨AreaStep.refl_step k s, KeepsCentre.refl_centre k s⟩

theorem mine_areaStep (env : Env K) (k : Nat) (s : Game K) :
    AreaStep k s (mine env k s) ∧ KeepsCentre k s (mine env k s) := by
  obtain ⟨a1, a2⟩ := revalidateRock_areaStep env k s
  obtain ⟨b1, b2⟩ := mineStep_areaStep env k (revalidateRock env k s)
  exact ⟨a1.trans_step b1, a2.trans_centre b2⟩

theorem scanOrMine_areaStep (env : Env K) (k : Nat) (s : Game K)
    (hF : s.unitAreaAttack.getD k false = false) :
    AreaStep k s (scanOrMine env k s) ∧ KeepsCentre k s (scanOrMine env k s) := by
  unfold scanOrMine
  dsimp only
  split_ifs
  · refine ⟨AreaStep.of_uncommitted rfl
      (OnlyUnit.of_set_only (Or.inr ⟨_, rfl⟩) (Or.inr ⟨_, rfl⟩) (Or.inr ⟨_, rfl⟩) (Or.inl rfl)
        (Or.inl rfl)) (fun h => h) rfl ?_, KeepsCentre.of_set_centre (Or.inr ⟨_, rfl, rfl, rfl⟩)⟩
    rintro ⟨h1, _⟩
    rw [hF] at h1
    cases h1
  · exact mine_areaStep env k s

theorem approachOrFire_areaStep (env : Env K) (k : Nat) (ti : Int) (s : Game K) :
    AreaStep k s (approachOrFire env k ti s) ∧ KeepsCentre k s (approachOrFire env k ti s) := by
  unfold approachOrFire
  dsimp only
  split_ifs
  · exact ⟨AreaStep.of_tables rfl (Or.inr ⟨_, rfl⟩) rfl rfl rfl rfl,
      KeepsCentre.of_set_centre (Or.inr ⟨_, rfl, rfl, rfl⟩)⟩
  · exact ⟨AreaStep.of_tables rfl (Or.inr ⟨_, rfl⟩) rfl rfl rfl rfl,
      KeepsCentre.of_set_centre (Or.inr ⟨_, rfl, rfl, rfl⟩)⟩
  · exact ⟨AreaStep.of_tables rfl (Or.inr ⟨_, rfl⟩) rfl rfl rfl rfl,
      KeepsCentre.of_set_centre (Or.inr ⟨_, rfl, rfl, rfl⟩)⟩

theorem getD_set_false (l : List Bool) (k : Nat) : (l.set k false).getD k false = false := by
  rw [getD_set]
  split_ifs with h
  · rfl
  · exact List.getD_eq_default _ _ (by
      by_contra hc
      exact h ⟨rfl, not_le.mp hc⟩)

theorem healerSeek_areaStep (env : Env K) (k : Nat) (s : Game K) :
    AreaStep k s (healerSeek env k s) := by
  have hn : ∀ s1 : Game K, ¬ AreaCommitted
      { s1 with unitAttacking := s1.unitAttacking.set k false,
                unitTargetEnemy := s1.unitTargetEnemy.set k (-1) } k := by
    rintro s1 ⟨_, h2⟩
    rw [getD_set_false] at h2
    cases h2
  unfold healerSeek
  dsimp only
  split_ifs <;>
  first
  | exact AreaStep.of_uncommitted rfl
      (OnlyUnit.of_set_only (Or.inr ⟨_, rfl⟩) (Or.inr ⟨_, rfl⟩) (Or.inr ⟨_, rfl⟩) (Or.inl rfl)
        (Or.inl rfl)) (fun h => h) rfl (hn _)
  | exact AreaStep.of_uncommitted rfl
      (OnlyUnit.of_set_only (Or.inl rfl) (Or.inr ⟨_, rfl⟩) (Or.inr ⟨_, rfl⟩) (Or.inl rfl)
        (Or.inl rfl)) (fun h => h) rfl (hn _)

theorem steer_areaStep (env : Env K) (dt : K) (k : Nat) (s : Game K) :
    AreaStep k s (steer env dt k s) := by
  unfold steer Game.setUnit
  exact AreaStep.of_tables rfl (Or.inr ⟨_, rfl⟩) rfl rfl rfl rfl

/-- The search loops of the area acquisition: a loop that replaces `(bestI, bestD)` by
`(t, d t)` when `t` passes the guard `c` and `d t < bestD`.  When no candidate is `-1`, the
result is the start value or a candidate of the list, and it is not `-1` as soon as the start
value is not `-1` or some candidate is nearer than the sentinel. -/
theorem nearest_fold_spec (c : Int → Prop) [DecidablePred c] (d : Int → K) (list : List Int)
    (best : Int × K) (hP : best.1 = -1 → best.2 = SENTINEL)
    (hne : ∀ t ∈ list, c t → t ≠ -1) :
    (list.foldl (fun (b : Int × K) t => if c t then (if d t < b.2 then (t, d t) else b) else b)
        best = best ∨
      ((list.foldl (fun (b : Int × K) t => if c t then (if d t < b.2 then (t, d t) else b)
          else b) best).1 ∈ list ∧
        c (list.foldl (fun (b : Int × K) t => if c t then (if d t < b.2 then (t, d t) else b)
          else b) best).1)) ∧
    (best.1 ≠ -1 →
      (list.foldl (fun (b : Int × K) t => if c t then (if d t < b.2 then (t, d t) else b)
        else b) best).1 ≠ -1) ∧
    ((∃ t ∈ list, c t ∧ d t < SENTINEL) →
      (list.foldl (fun (b : Int × K) t => if c t then (if d t < b.2 then (t, d t) else b)
        else b) best).1 ≠ -1) := by
  induction list generalizing best with
  | nil =>
    refine ⟨Or.inl rfl, fun h => h, ?_⟩
    rintro ⟨t, ht, _⟩
    cases ht
  | cons t list ih =>
    have hne1 : ∀ t1 ∈ list, c t1 → t1 ≠ -1 := fun t1 h1 => hne t1 (List.mem_cons_of_mem _ h1)
    rw [List.foldl_cons]
    by_cases hc : c t
    · by_cases hd : d t < best.2
      · rw [if_pos hc, if_pos hd]
        have htne : t ≠ -1 := hne t (List.mem_cons_self _ _) hc
        obtain ⟨i1, i2, _⟩ := ih (t, d t) (fun h => absurd h htne) hne1
        refine ⟨Or.inr ?_, fun _ => i2 htne, fun _ => i2 htne⟩
        rcases i1 with i1 | ⟨i1, i1c⟩
        · rw [i1]
          exact ⟨List.mem_cons_self _ _, hc⟩
        · exact ⟨List.mem_cons_of_mem _ i1, i1c⟩
      · rw [if_pos hc, if_neg hd]
        obtain ⟨i1, i2, i3⟩ := ih best hP hne1
        refine ⟨?_, i2, ?_⟩
        · rcases i1 with i1 | ⟨i1, i1c⟩
          · exact Or.inl i1
          · exact Or.inr ⟨List.mem_cons_of_mem _ i1, i1c⟩
        · rintro ⟨t0, ht0, hc0, hd0⟩
          rcases List.mem_cons.1 ht0 with h0 | h0
          · subst h0
            apply i2
            intro hb
            rw [hP hb] at hd
            exact hd hd0
          · exact i3 ⟨t0, h0, hc0, hd0⟩
    · rw [if_neg hc]
      obtain ⟨i1, i2, i3⟩ := ih best hP hne1
      refine ⟨?_, i2, ?_⟩
      · rcases i1 with i1 | ⟨i1, i1c⟩
        · exact Or.inl i1
        · exact Or.inr ⟨List.mem_cons_of_mem _ i1, i1c⟩
      · rintro ⟨t0, ht0, hc0, hd0⟩
        rcases List.mem_cons.1 ht0 with h0 | h0
        · subst h0
          exact absurd hc0 hc
        · exact i3 ⟨t0, h0, hc0, hd0⟩

theorem nearestUnclaimed_spec (env : Env K) (enemies : List (EnemyNPC K)) (used : List Bool)
    (u : Unit K) (list : List Int)
    (hvalid : ∀ t ∈ list, 0 ≤ t ∧ t < (enemies.length : Int))
    (hsent : ∀ t ∈ list, enemyDist env u (enemies.getD t.toNat default) < SENTINEL)
    (hex : ∃ t ∈ list, used.getD t.toNat false = false) :
    (nearestUnclaimed env enemies used u list).1 ≠ -1 ∧
    (nearestUnclaimed env enemies used u list).1 ∈ list ∧
    used.getD (nearestUnclaimed env enemies used u list).1.toNat false = false := by
  obtain ⟨h1, _, h3⟩ := nearest_fold_spec
    (fun t => t ≥ 0 ∧ t < (enemies.length : Int) ∧ used.getD t.toNat false = false)
    (fun t => enemyDist env u (enemies.getD t.toNat default)) list (-1, SENTINEL)
    (fun _ => rfl) (fun t _ hc => by have := hc.1; omega)
  have hne : (nearestUnclaimed env enemies used u list).1 ≠ -1 := by
    obtain ⟨t, ht, hu⟩ := hex
    exact h3 ⟨t, ht, ⟨(hvalid t ht).1, (hvalid t ht).2, hu⟩, hsent t ht⟩
  refine ⟨hne, ?_⟩
  rcases h1 with h1 | ⟨h1, h1c⟩
  · exact absurd (congrArg Prod.fst h1) hne
  · exact ⟨h1, h1c.2.2⟩

theorem nearestUnclaimedRe_spec (env : Env K) (enemies : List (EnemyNPC K)) (used : List Bool)
    (u : Unit K) (list : List Int)
    (hvalid : ∀ t ∈ list, 0 ≤ t ∧ t < (enemies.length : Int))
    (hsent : ∀ t ∈ list, enemyDist env u (enemies.getD t.toNat default) < SENTINEL)
    (hex : ∃ t ∈ list, used.getD t.toNat false = false) :
    (nearestUnclaimedRe env enemies used u list).1 ≠ -1 ∧
    (nearestUnclaimedRe env enemies used u list).1 ∈ list ∧
    used.getD (nearestUnclaimedRe env enemies used u list).1.toNat false = false := by
  obtain ⟨h1, _, h3⟩ := nearest_fold_spec
    (fun t => t ∈ list ∧ used.getD t.toNat false = false)
    (fun t => enemyDist env u (enemies.getD t.toNat default)) list (-1, SENTINEL)
    (fun _ => rfl) (fun t _ hc => by have := (hvalid t hc.1).1; omega)
  have hfold : nearestUnclaimedRe env enemies used u list
      = list.foldl (fun (b : Int × K) t =>
          if t ∈ list ∧ used.getD t.toNat false = false then
            (if enemyDist env u (enemies.getD t.toNat default) < b.2 then
              (t, enemyDist env u (enemies.getD t.toNat default)) else b)
          else b) (-1, SENTINEL) := by
    unfold nearestUnclaimedRe
    apply List.foldl_ext
    intro b t ht
    by_cases hu : used.getD t.toNat false = false
    · rw [if_pos hu,
        if_pos (show t ∈ list ∧ used.getD t.toNat false = false from ⟨ht, hu⟩)]
    · rw [if_neg hu,
        if_neg (show ¬ (t ∈ list ∧ used.getD t.toNat false = false) from fun h => hu h.2)]
  rw [hfold]
  have hne : (list.foldl (fun (b : Int × K) t =>
          if t ∈ list ∧ used.getD t.toNat false = false then
            (if enemyDist env u (enemies.getD t.toNat default) < b.2 then
              (t, enemyDist env u (enemies.getD t.toNat default)) else b)
          else b) (-1, SENTINEL)).1 ≠ -1 := by
    obtain ⟨t, ht, hu⟩ := hex
    exact h3 ⟨t, ht, ⟨ht, hu⟩, hsent t ht⟩
  refine ⟨hne, ?_⟩
  rcases h1 with h1 | ⟨h1, h1c⟩
  · exact absurd (congrArg Prod.fst h1) hne
  · exact ⟨h1, h1c.2⟩

/-- The `used` flag of enemy `t` is set exactly when a unit other than `i` that is in
area-attack mode and committed holds `t`, and `t` is alive. -/
theorem claimedByOthers_spec (s : Game K) (i : Nat) (t : Nat) (ht : t < s.enemies.length) :
    (claimedByOthers s i).getD t false = true ↔
      ∃ j, j < s.units.length ∧ j ≠ i ∧ s.unitAreaAttack.getD j false = true ∧
        s.unitAttacking.getD j false = true ∧ s.unitTargetEnemy.getD j (-1) = (t : Int) ∧
        (s.enemies.getD t default).alive = true := by
  unfold claimedByOthers
  refine (foldl_range_invariant
    (fun m (used : List Bool) => used.length = s.enemies.length ∧
      ∀ t, t < s.enemies.length → (used.getD t false = true ↔
        ∃ j, j < m ∧ j ≠ i ∧ s.unitAreaAttack.getD j false = true ∧
          s.unitAttacking.getD j false = true ∧ s.unitTargetEnemy.getD j (-1) = (t : Int) ∧
          (s.enemies.getD t default).alive = true)) _ _ _ ?_ ?_).2 t ht
  · refine ⟨by simp, fun t _ => ?_⟩
    rw [getD_replicate_false]
    constructor
    · intro h
      cases h
    · rintro ⟨j, hj, _⟩
      omega
  · intro m used hm ⟨hlen, hP⟩
    dsimp only
    -- an iteration that leaves `used` as it is, for a unit that claims nothing
    have hsame : (∀ t, t < s.enemies.length →
          ¬ (m ≠ i ∧ s.unitAreaAttack.getD m false = true ∧
            s.unitAttacking.getD m false = true ∧ s.unitTargetEnemy.getD m (-1) = (t : Int) ∧
            (s.enemies.getD t default).alive = true)) →
        used.length = s.enemies.length ∧
        ∀ t, t < s.enemies.length → (used.getD t false = true ↔
          ∃ j, j < m + 1 ∧ j ≠ i ∧ s.unitAreaAttack.getD j false = true ∧
            s.unitAttacking.getD j false = true ∧
            s.unitTargetEnemy.getD j (-1) = (t : Int) ∧
            (s.enemies.getD t default).alive = true) := by
      intro hno
      refine ⟨hlen, fun t ht => ?_⟩
      rw [hP t ht]
      constructor
      · rintro ⟨j, hj, h⟩
        exact ⟨j, by omega, h⟩
      · rintro ⟨j, hj, h⟩
        by_cases hjm : j = m
        · subst hjm
          exact absurd h (hno t ht)
        · exact ⟨j, by omega, h⟩
    by_cases hmi : m = i
    · rw [if_pos hmi]
      exact hsame (fun t _ h => h.1 hmi)
    · rw [if_neg hmi]
      by_cases hfa : (s.unitAreaAttack.getD m false && s.unitAttacking.getD m false) = true
      · rw [if_pos hfa]
        have hfa2 : s.unitAreaAttack.getD m false = true ∧ s.unitAttacking.getD m false = true := by
          simpa using hfa
        by_cases hv : s.unitTargetEnemy.getD m (-1) ≥ 0 ∧
            s.unitTargetEnemy.getD m (-1) < (s.enemies.length : Int) ∧
            (s.enemies.getD (s.unitTargetEnemy.getD m (-1)).toNat default).alive = true
        · rw [if_pos hv]
          obtain ⟨hv1, hv2, hv3⟩ := hv
          refine ⟨by rw [List.length_set]; exact hlen, fun t ht => ?_⟩
          rw [getD_set]
          by_cases htt : (s.unitTargetEnemy.getD m (-1)).toNat = t
          · rw [if_pos ⟨htt, by rw [hlen]; omega⟩]
            constructor
            · intro _
              refine ⟨m, by omega, hmi, hfa2.1, hfa2.2, by omega, ?_⟩
              rw [← htt]
              exact hv3
            · intro _
              rfl
          · rw [if_neg (fun h => htt h.1), hP t ht]
            constructor
            · rintro ⟨j, hj, h⟩
              exact ⟨j, by omega, h⟩
            · rintro ⟨j, hj, h⟩
              by_cases hjm : j = m
              · subst hjm
                exfalso
                apply htt
                have := h.2.2.2.1
                omega
              · exact ⟨j, by omega, h⟩
        · rw [if_neg hv]
          apply hsame
          rintro t ht ⟨_, _, _, h4, h5⟩
          apply hv
          rw [h4]
          exact ⟨by omega, by omega, by simpa using h5⟩
      · rw [if_neg hfa]
        apply hsame
        rintro t ht ⟨_, h2, h3, _⟩
        apply hfa
        rw [h2, h3]
        rfl

theorem countP_range_eq_card (n : Nat) (p : Nat → Bool) :
    (List.range n).countP p = ((Finset.range n).filter (fun j => p j = true)).card := by
  rw [List.countP_eq_length_filter]
  simp [Finset.card, Finset.filter, Finset.range, Multiset.range]

/-- Pigeonhole for the `used` flags: when unit `k` is in area-attack mode and a list of valid
enemy indices holds at least as many different entries as there are units in area-attack
mode, some entry of the list is not flagged, because the units other than `k` can claim one
enemy each. -/
theorem exists_unclaimed (s : Game K) (k : Nat) (list : List Int)
    (hk : k < s.units.length) (hF : s.unitAreaAttack.getD k false = true)
    (hvalid : ∀ t ∈ list, 0 ≤ t ∧ t < (s.enemies.length : Int))
    (hcount : areaUnitCount s ≤ list.dedup.length) :
    ∃ t ∈ list, (claimedByOthers s k).getD t.toNat false = false := by
  by_contra hall
  push_neg at hall
  have hsub : list.toFinset ⊆
      ((Finset.range s.units.length).filter
        (fun j => j ≠ k ∧ s.unitAreaAttack.getD j false = true)).image
        (fun j => s.unitTargetEnemy.getD j (-1)) := by
    intro t ht
    have ht1 : t ∈ list := List.mem_toFinset.1 ht
    obtain ⟨hv1, hv2⟩ := hvalid t ht1
    have hu : (claimedByOthers s k).getD t.toNat false = true := by
      simpa using hall t ht1
    obtain ⟨j, hj, hjk, hjF, _, hjT, _⟩ :=
      (claimedByOthers_spec s k t.toNat (by omega)).1 hu
    rw [Finset.mem_image]
    refine ⟨j, ?_, ?_⟩
    · rw [Finset.mem_filter, Finset.mem_range]
      exact ⟨hj, hjk, hjF⟩
    · rw [hjT]
      omega
  have h1 := Finset.card_le_card hsub
  have h2 : (((Finset.range s.units.length).filter
        (fun j => j ≠ k ∧ s.unitAreaAttack.getD j false = true)).image
        (fun j => s.unitTargetEnemy.getD j (-1))).card
      ≤ ((Finset.range s.units.length).filter
        (fun j => j ≠ k ∧ s.unitAreaAttack.getD j false = true)).card :=
    Finset.card_image_le
  have h3 : ((Finset.range s.units.length).filter
        (fun j => j ≠ k ∧ s.unitAreaAttack.getD j false = true)).card
      < ((Finset.range s.units.length).filter
        (fun j => s.unitAreaAttack.getD j false = true)).card := by
    apply Finset.card_lt_card
    rw [Finset.ssubset_iff_of_subset]
    · refine ⟨k, ?_, ?_⟩
      · rw [Finset.mem_filter, Finset.mem_range]
        exact ⟨hk, hF⟩
      · rw [Finset.mem_filter]
        exact fun h => h.2.1 rfl
    · intro j hj
      rw [Finset.mem_filter] at hj ⊢
      exact ⟨hj.1, hj.2.2⟩
  have h4 : areaUnitCount s
      = ((Finset.range s.units.length).filter
          (fun j => s.unitAreaAttack.getD j false = true)).card := by
    unfold areaUnitCount
    exact countP_range_eq_card _ _
  have h5 : list.toFinset.card = list.dedup.length := List.card_toFinset list
  omega

theorem mem_livingTargets (s : Game K) (k : Nat) (t : Int) (h : t ∈ livingTargets s k) :
    0 ≤ t ∧ t < (s.enemies.length : Int) ∧ (s.enemies.getD t.toNat default).alive = true := by
  unfold livingTargets at h
  rw [List.mem_filter] at h
  have h2 := h.2
  unfold staleTarget at h2
  simp only [Bool.not_eq_true', Bool.or_eq_false_iff, decide_eq_false_iff_not,
    Bool.not_eq_false'] at h2
  obtain ⟨⟨h3, h4⟩, h5⟩ := h2
  exact ⟨by omega, by omega, h5⟩

theorem livingTargets_sent (env : Env K) (s : Game K) (k : Nat) (u : Unit K)
    (hsent : ∀ e ∈ s.enemies, e.alive = true → enemyDist env u e < SENTINEL) :
    ∀ t ∈ livingTargets s k, enemyDist env u (s.enemies.getD t.toNat default) < SENTINEL := by
  intro t ht
  obtain ⟨h1, h2, h3⟩ := mem_livingTargets s k t ht
  have hlt : t.toNat < s.enemies.length := by omega
  apply hsent _ _ h3
  rw [List.getD_eq_getElem _ _ hlt]
  exact List.getElem_mem hlt

/-- Pruning the captured list of unit `k` does not change its living targets. -/
theorem livingTargets_pruned (s s1 : Game K) (k : Nat) (he : s1.enemies = s.enemies)
    (hL : s1.unitAreaTargets = s.unitAreaTargets.set k (livingTargets s k)) :
    livingTargets s1 k = livingTargets s k := by
  have e : livingTargets s k
      = (s.unitAreaTargets.getD k []).filter (fun idx => !staleTarget s.enemies idx) := rfl
  unfold livingTargets
  rw [he, hL, getD_set]
  split_ifs with h
  · rw [e, List.filter_filter]
    congr 1
    funext t
    simp
  · rfl

/-- An enemy whose `used` flag is not set is held by no other committed unit in area-attack
mode. -/
theorem unclaimed_of_flag (s : Game K) (k : Nat) (t : Int)
    (hv : 0 ≤ t ∧ t < (s.enemies.length : Int) ∧ (s.enemies.getD t.toNat default).alive = true)
    (hu : (claimedByOthers s k).getD t.toNat false = false) : UnclaimedFor s k t := by
  intro j hj hjk hc hT
  have : (claimedByOthers s k).getD t.toNat false = true :=
    (claimedByOthers_spec s k t.toNat (by omega)).2
      ⟨j, hj, hjk, hc.1, hc.2, by rw [hT]; omega, hv.2.2⟩
  rw [hu] at this
  cases this

theorem areaAcquire_areaStep (env : Env K) (k : Nat) (s : Game K) (hr : AreaReady env k s)
    (hF : s.unitAreaAttack.getD k false = true) :
    AreaStep k s (areaAcquire env k s) ∧ KeepsCentre k s (areaAcquire env k s) := by
  obtain ⟨hk, hkT, hcount, hsent⟩ := hr
  have hvalid := mem_livingTargets s k
  have hex : ∃ t ∈ livingTargets s k,
      (claimedByOthers { s with unitAreaTargets := s.unitAreaTargets.set k (livingTargets s k) }
        k).getD t.toNat false = false :=
    exists_unclaimed { s with unitAreaTargets := s.unitAreaTargets.set k (livingTargets s k) }
      k (livingTargets s k) hk hF (fun t ht => ⟨(hvalid t ht).1, (hvalid t ht).2.1⟩) hcount
  obtain ⟨p1, p2, p3⟩ := nearestUnclaimed_spec env s.enemies
    (claimedByOthers { s with unitAreaTargets := s.unitAreaTargets.set k (livingTargets s k) } k)
    (s.unit k) (livingTargets s k) (fun t ht => ⟨(hvalid t ht).1, (hvalid t ht).2.1⟩)
    (livingTargets_sent env s k (s.unit k) hsent) hex
  have hfresh : UnclaimedFor s k
      (nearestUnclaimed env s.enemies
        (claimedByOthers
          { s with unitAreaTargets := s.unitAreaTargets.set k (livingTargets s k) } k)
        (s.unit k) (livingTargets s k)).1 :=
    have ho : OnlyUnit k s
        { s with unitAreaTargets := s.unitAreaTargets.set k (livingTargets s k) } :=
      OnlyUnit.of_set_only (Or.inl rfl) (Or.inl rfl) (Or.inl rfl) (Or.inl rfl) (Or.inr ⟨_, rfl⟩)
    UnclaimedFor.of_onlyUnit ho
      (unclaimed_of_flag
        { s with unitAreaTargets := s.unitAreaTargets.set k (livingTargets s k) } k _
        (hvalid _ p2) p3)
  refine ⟨?_, ?_⟩
  · unfold areaAcquire
    dsimp only
    split_ifs with h1 h2 h3
    · exact absurd h2 p1
    · exact absurd h2 p1
    · refine ⟨rfl, OnlyUnit.of_set_only (Or.inl rfl) (Or.inr ⟨_, rfl⟩) (Or.inr ⟨_, rfl⟩) (Or.inl rfl)
        (Or.inr ⟨_, rfl⟩), fun h => h, livingTargets_pruned s _ k rfl rfl, ?_⟩
      intro _
      right
      dsimp only
      rw [getD_set_self _ _ _ _ hkT]
      exact hfresh
    · refine AreaStep.of_uncommitted rfl
        (OnlyUnit.of_set_only (Or.inl rfl) (Or.inl rfl) (Or.inl rfl) (Or.inr ⟨_, rfl⟩)
          (Or.inr ⟨_, rfl⟩)) (fun _ => hF) (livingTargets_pruned s _ k rfl rfl) ?_
      rintro ⟨h, _⟩
      dsimp only at h
      rw [getD_set_false] at h
      cases h
  · unfold areaAcquire
    dsimp only
    split_ifs <;> exact KeepsCentre.of_set_centre (Or.inl rfl)

theorem reacquire_areaStep (env : Env K) (k : Nat) (s : Game K) (hr : AreaReady env k s)
    (hF : s.unitAreaAttack.getD k false = true) :
    AreaStep k s (reacquire env k s) ∧ KeepsCentre k s (reacquire env k s) := by
  obtain ⟨hk, hkT, hcount, hsent⟩ := hr
  have hvalid := mem_livingTargets s k
  have hex : ∃ t ∈ livingTargets s k,
      (claimedByOthers { s with unitAreaTargets := s.unitAreaTargets.set k (livingTargets s k) }
        k).getD t.toNat false = false :=
    exists_unclaimed { s with unitAreaTargets := s.unitAreaTargets.set k (livingTargets s k) }
      k (livingTargets s k) hk hF (fun t ht => ⟨(hvalid t ht).1, (hvalid t ht).2.1⟩) hcount
  obtain ⟨p1, p2, p3⟩ := nearestUnclaimedRe_spec env s.enemies
    (claimedByOthers { s with unitAreaTargets := s.unitAreaTargets.set k (livingTargets s k) } k)
    (s.unit k) (livingTargets s k) (fun t ht => ⟨(hvalid t ht).1, (hvalid t ht).2.1⟩)
    (livingTargets_sent env s k (s.unit k) hsent) hex
  have hfresh : UnclaimedFor s k
      (nearestUnclaimedRe env s.enemies
        (claimedByOthers
          { s with unitAreaTargets := s.unitAreaTargets.set k (livingTargets s k) } k)
        (s.unit k) (livingTargets s k)).1 :=
    have ho : OnlyUnit k s
        { s with unitAreaTargets := s.unitAreaTargets.set k (livingTargets s k) } :=
      OnlyUnit.of_set_only (Or.inl rfl) (Or.inl rfl) (Or.inl rfl) (Or.inl rfl) (Or.inr ⟨_, rfl⟩)
    UnclaimedFor.of_onlyUnit ho
      (unclaimed_of_flag
        { s with unitAreaTargets := s.unitAreaTargets.set k (livingTargets s k) } k _
        (hvalid _ p2) p3)
  have hoff : ∀ s1 : Game K, ¬ AreaCommitted
      { s1 with unitAreaAttack := s1.unitAreaAttack.set k false } k := by
    rintro s1 ⟨h, _⟩
    dsimp only at h
    rw [getD_set_false] at h
    cases h
  refine ⟨?_, ?_⟩
  · unfold reacquire
    dsimp only
    split_ifs with h1 h2 h3
    · exact absurd h2 p1
    · exact absurd h2 p1
    · refine ⟨rfl, OnlyUnit.of_set_only (Or.inl rfl) (Or.inr ⟨_, rfl⟩) (Or.inr ⟨_, rfl⟩) (Or.inl rfl)
        (Or.inr ⟨_, rfl⟩), fun h => h, livingTargets_pruned s _ k rfl rfl, ?_⟩
      intro _
      right
      dsimp only
      rw [getD_set_self _ _ _ _ hkT]
      exact hfresh
    · exact AreaStep.of_uncommitted rfl
        (OnlyUnit.of_set_only (Or.inl rfl) (Or.inl rfl) (Or.inl rfl) (Or.inr ⟨_, rfl⟩)
          (Or.inr ⟨_, rfl⟩)) (fun _ => hF) (livingTargets_pruned s _ k rfl rfl) (hoff _)
  · unfold reacquire
    dsimp only
    split_ifs <;> exact KeepsCentre.of_set_centre (Or.inl rfl)

/-- The premises of an acquisition survive a step of the update of unit `k` that keeps its
centre. -/
theorem AreaReady.of_step {env : Env K} {k : Nat} {s s1 : Game K} (h : AreaStep k s s1)
    (hc : KeepsCentre k s s1) (hr : AreaReady env k s) : AreaReady env k s1 := by
  obtain ⟨he, ⟨ho1, ho2, ho3⟩, hF, hL, _⟩ := h
  obtain ⟨hk, hkT, hcount, hsent⟩ := hr
  refine ⟨by rw [ho1]; exact hk, by rw [ho2]; exact hkT, ?_, ?_⟩
  · have h1 : areaUnitCount s1 ≤ areaUnitCount s := by
      unfold areaUnitCount
      rw [ho1]
      apply List.countP_mono_left
      intro j _ hj
      by_cases hjk : j = k
      · subst hjk
        exact hF hj
      · rw [← (ho3 j hjk).2.2.2.1]
        exact hj
    have h2 : livingCaptured s1 k = livingCaptured s k := by
      unfold livingCaptured
      rw [hL]
    omega
  · intro e hmem halive
    rw [he] at hmem
    have := hsent e hmem halive
    unfold enemyDist at this ⊢
    dsimp only at this ⊢
    rw [hc.1, hc.2]
    exact this

theorem targetLost_areaStep (env : Env K) (k : Nat) (s : Game K) (hr : AreaReady env k s) :
    AreaStep k s (targetLost env k s) ∧ KeepsCentre k s (targetLost env k s) := by
  have h0 : AreaStep k s
      { s with unitAttacking := s.unitAttacking.set k false,
               unitTargetEnemy := s.unitTargetEnemy.set k (-1),
               units := s.units.set k { s.unit k with moving := false } } := by
    refine AreaStep.of_uncommitted rfl
      (OnlyUnit.of_set_only (Or.inr ⟨_, rfl⟩) (Or.inr ⟨_, rfl⟩) (Or.inr ⟨_, rfl⟩) (Or.inl rfl)
        (Or.inl rfl)) (fun h => h) rfl ?_
    rintro ⟨_, h⟩
    dsimp only at h
    rw [getD_set_false] at h
    cases h
  have c0 : KeepsCentre k s
      { s with unitAttacking := s.unitAttacking.set k false,
               unitTargetEnemy := s.unitTargetEnemy.set k (-1),
               units := s.units.set k { s.unit k with moving := false } } :=
    KeepsCentre.of_set_centre (Or.inr ⟨_, rfl, rfl, rfl⟩)
  unfold targetLost
  dsimp only
  split_ifs with hF
  · obtain ⟨a1, a2⟩ := reacquire_areaStep env k _ (AreaReady.of_step h0 c0 hr) hF
    exact ⟨h0.trans_step a1, c0.trans_centre a2⟩
  · exact ⟨h0, c0⟩

theorem AreaStep.frame {k : Nat} {s s1 : Game K} (h : AreaStep k s s1) : AreaFrame k s s1 :=
  ⟨h.1, h.2.1, h.2.2.1, h.2.2.2.1⟩

theorem AreaFrame.refl_frame (k : Nat) (s : Game K) : AreaFrame k s s :=
  (AreaStep.refl_step k s).frame

theorem AreaFrame.trans_frame {k : Nat} {s1 s2 s3 : Game K} (h1 : AreaFrame k s1 s2)
    (h2 : AreaFrame k s2 s3) : AreaFrame k s1 s3 :=
  ⟨h2.1.trans h1.1, h1.2.1.trans_only h2.2.1, fun h => h1.2.2.1 (h2.2.2.1 h),
    h2.2.2.2.trans h1.2.2.2⟩

theorem areaOff_frame (k : Nat) (s s1 : Game K) (he : s1.enemies = s.enemies)
    (ho : OnlyUnit k s s1) (hL : livingTargets s1 k = livingTargets s k)
    (hF : s1.unitAreaAttack.getD k false = false) : AreaFrame k s s1 := by
  refine ⟨he, ho, ?_, hL⟩
  intro h
  rw [hF] at h
  cases h

theorem scanOrMine_areaFrame (env : Env K) (k : Nat) (s : Game K) :
    AreaFrame k s (scanOrMine env k s) := by
  unfold scanOrMine
  dsimp only
  split_ifs
  · exact ⟨rfl, OnlyUnit.of_set_only (Or.inr ⟨_, rfl⟩) (Or.inr ⟨_, rfl⟩) (Or.inr ⟨_, rfl⟩)
      (Or.inl rfl) (Or.inl rfl), fun h => h, rfl⟩
  · exact (mine_areaStep env k s).1.frame

theorem areaAcquire_areaFrame (env : Env K) (k : Nat) (s : Game K) :
    AreaFrame k s (areaAcquire env k s) := by
  unfold areaAcquire
  dsimp only
  split_ifs <;>
  first
  | exact ⟨rfl, OnlyUnit.of_set_only (Or.inl rfl) (Or.inr ⟨_, rfl⟩) (Or.inr ⟨_, rfl⟩) (Or.inl rfl)
      (Or.inr ⟨_, rfl⟩), fun h => h, livingTargets_pruned s _ k rfl rfl⟩
  | exact ⟨rfl, OnlyUnit.of_set_only (Or.inl rfl) (Or.inl rfl) (Or.inl rfl) (Or.inl rfl)
      (Or.inr ⟨_, rfl⟩), fun h => h, livingTargets_pruned s _ k rfl rfl⟩
  | exact areaOff_frame k s _ rfl
      (OnlyUnit.of_set_only (Or.inl rfl) (Or.inl rfl) (Or.inl rfl) (Or.inr ⟨_, rfl⟩)
        (Or.inr ⟨_, rfl⟩)) (livingTargets_pruned s _ k rfl rfl) (getD_set_false _ _)

theorem reacquire_areaFrame (env : Env K) (k : Nat) (s : Game K) :
    AreaFrame k s (reacquire env k s) := by
  unfold reacquire
  dsimp only
  split_ifs <;>
  first
  | exact ⟨rfl, OnlyUnit.of_set_only (Or.inl rfl) (Or.inr ⟨_, rfl⟩) (Or.inr ⟨_, rfl⟩) (Or.inl rfl)
      (Or.inr ⟨_, rfl⟩), fun h => h, livingTargets_pruned s _ k rfl rfl⟩
  | exact areaOff_frame k s _ rfl
      (OnlyUnit.of_set_only (Or.inl rfl) (Or.inl rfl) (Or.inl rfl) (Or.inr ⟨_, rfl⟩)
        (Or.inr ⟨_, rfl⟩)) (livingTargets_pruned s _ k rfl rfl) (getD_set_false _ _)

theorem targetLost_areaFrame (env : Env K) (k : Nat) (s : Game K) :
    AreaFrame k s (targetLost env k s) := by
  have h0 : AreaFrame k s
      { s with unitAttacking := s.unitAttacking.set k false,
               unitTargetEnemy := s.unitTargetEnemy.set k (-1),
               units := s.units.set k { s.unit k with moving := false } } :=
    ⟨rfl, OnlyUnit.of_set_only (Or.inr ⟨_, rfl⟩) (Or.inr ⟨_, rfl⟩) (Or.inr ⟨_, rfl⟩) (Or.inl rfl)
      (Or.inl rfl), fun h => h, rfl⟩
  unfold targetLost
  dsimp only
  split_ifs
  · exact h0.trans_frame (reacquire_areaFrame env k _)
  · exact h0

/-- The acquisition step of unit `k` (lines 886-972). -/
theorem acquire_areaStep (env : Env K) (k : Nat) (s : Game K) :
    AreaFrame k s (acquire env k s) ∧
    (AreaReady env k s → AreaStep k s (acquire env k s) ∧ KeepsCentre k s (acquire env k s)) := by
  unfold acquire
  dsimp only
  have h1 : AreaFrame k s
        (if s.unitAreaAttack.getD k false = true then areaAcquire env k s else s) ∧
      (AreaReady env k s →
        AreaStep k s
          (if s.unitAreaAttack.getD k false = true then areaAcquire env k s else s) ∧
        KeepsCentre k s
          (if s.unitAreaAttack.getD k false = true then areaAcquire env k s else s)) := by
    split_ifs with hF
    · exact ⟨areaAcquire_areaFrame env k s, fun hr => areaAcquire_areaStep env k s hr hF⟩
    · exact ⟨AreaFrame.refl_frame k s, fun _ => ⟨AreaStep.refl_step k s, KeepsCentre.refl_centre k s⟩⟩
  generalize (if s.unitAreaAttack.getD k false = true then areaAcquire env k s else s) = s1
    at h1 ⊢
  obtain ⟨f1, g1⟩ := h1
  split_ifs with h2
  · refine ⟨f1.trans_frame (scanOrMine_areaFrame env k s1), fun hr => ?_⟩
    obtain ⟨a1, a2⟩ := g1 hr
    obtain ⟨b1, b2⟩ := scanOrMine_areaStep env k s1 h2.1
    exact ⟨a1.trans_step b1, a2.trans_centre b2⟩
  · exact ⟨f1, g1⟩

/-- The engagement step of unit `k` (lines 973-1035). -/
theorem engage_areaStep (env : Env K) (k : Nat) (s : Game K) :
    AreaFrame k s (engage env k s) ∧
    (AreaReady env k s → AreaStep k s (engage env k s) ∧ KeepsCentre k s (engage env k s)) := by
  unfold engage
  dsimp only
  split_ifs
  · exact ⟨targetLost_areaFrame env k s, fun hr => targetLost_areaStep env k s hr⟩
  · exact ⟨(approachOrFire_areaStep env k _ s).1.frame, fun _ => approachOrFire_areaStep env k _ s⟩

theorem unitEngageAndMove_areaStep (env : Env K) (dt : K) (k : Nat) (s : Game K) :
    AreaFrame k s (unitEngageAndMove env dt k s) ∧
    (AreaReady env k s → AreaStep k s (unitEngageAndMove env dt k s)) := by
  unfold unitEngageAndMove
  dsimp only
  have h3 : AreaFrame k s (if s.unitAttacking.getD k false = true then engage env k s else s) ∧
      (AreaReady env k s →
        AreaStep k s (if s.unitAttacking.getD k false = true then engage env k s else s)) := by
    split_ifs
    · exact ⟨(engage_areaStep env k s).1, fun hr => ((engage_areaStep env k s).2 hr).1⟩
    · exact ⟨AreaFrame.refl_frame k s, fun _ => AreaStep.refl_step k s⟩
  generalize (if s.unitAttacking.getD k false = true then engage env k s else s) = s3 at h3 ⊢
  obtain ⟨f3, g3⟩ := h3
  have h4 : AreaStep k s3
      (if (s3.unit k).type = UnitType.UNIT_HEALER then healerSeek env k s3 else s3) := by
    split_ifs
    · exact healerSeek_areaStep env k s3
    · exact AreaStep.refl_step k s3
  generalize (if (s3.unit k).type = UnitType.UNIT_HEALER then healerSeek env k s3 else s3) = s4
    at h4 ⊢
  have h5 := steer_areaStep env dt k s4
  exact ⟨(f3.trans_frame h4.frame).trans_frame h5.frame, fun hr => ((g3 hr).trans_step h4).trans_step h5⟩

/-- The update of unit `k` (lines 883-1075): it only writes what belongs to unit `k`, never
switches area-attack mode on, only prunes the captured list, and, given the premises
`AreaReady`, leaves `k` either with the commitment it had or with a target that no other
committed unit in area-attack mode holds. -/
theorem unitUpdate_areaStep (env : Env K) (dt : K) (k : Nat) (s : Game K) :
    AreaFrame k s (unitUpdate env dt k s) ∧
    (AreaReady env k s → AreaStep k s (unitUpdate env dt k s)) := by
  unfold unitUpdate
  dsimp only
  obtain ⟨t1, t2⟩ := tickFireTimer_areaStep env dt k s
  generalize tickFireTimer env dt k s = s1 at t1 t2 ⊢
  have h2 : AreaFrame k s1
        (if s1.unitAttacking.getD k false = false ∧ (s1.unit k).type ≠ UnitType.UNIT_HEALER
          then acquire env k s1 else s1) ∧
      (AreaReady env k s1 →
        AreaStep k s1
          (if s1.unitAttacking.getD k false = false ∧ (s1.unit k).type ≠ UnitType.UNIT_HEALER
            then acquire env k s1 else s1) ∧
        KeepsCentre k s1
          (if s1.unitAttacking.getD k false = false ∧ (s1.unit k).type ≠ UnitType.UNIT_HEALER
            then acquire env k s1 else s1)) := by
    split_ifs
    · exact acquire_areaStep env k s1
    · exact ⟨AreaFrame.refl_frame k s1, fun _ => ⟨AreaStep.refl_step k s1, KeepsCentre.refl_centre k s1⟩⟩
  generalize (if s1.unitAttacking.getD k false = false ∧
      (s1.unit k).type ≠ UnitType.UNIT_HEALER then acquire env k s1 else s1) = s2 at h2 ⊢
  obtain ⟨f2, g2⟩ := h2
  obtain ⟨f3, g3⟩ := unitEngageAndMove_areaStep env dt k s2
  refine ⟨(t1.frame.trans_frame f2).trans_frame f3, fun hr => ?_⟩
  have hr1 := AreaReady.of_step t1 t2 hr
  obtain ⟨a2, c2⟩ := g2 hr1
  have hr2 := AreaReady.of_step a2 c2 hr1
  exact (t1.trans_step a2).trans_step (g3 hr2)

theorem SharedBefore.symm {s s1 : Game K} {i j : Nat} (h : SharedBefore s s1 i j) :
    SharedBefore s s1 j i := by
  intro cj ci hT
  obtain ⟨a, b, c, d⟩ := h ci cj hT.symm
  exact ⟨b, a, c.symm, by rw [hT, d, c]⟩

theorem SharedBefore.step_other {s acc acc1 : Game K} {m a b : Nat}
    (ho : OnlyUnit m acc acc1) (ha : a ≠ m) (hb : b ≠ m) (h : SharedBefore s acc a b) :
    SharedBefore s acc1 a b := by
  obtain ⟨_, _, ho3⟩ := ho
  obtain ⟨_, a2, a3, a4, _⟩ := ho3 a ha
  obtain ⟨_, b2, b3, b4, _⟩ := ho3 b hb
  intro ca cb hT
  unfold AreaCommitted at ca cb
  rw [a4, a2] at ca
  rw [b4, b2] at cb
  rw [a3, b3] at hT
  obtain ⟨h1, h2, h3, h4⟩ := h ca cb hT
  exact ⟨h1, h2, h3, by rw [a3]; exact h4⟩

theorem SharedBefore.step_self {s acc acc1 : Game K} {a b : Nat} (hstep : AreaStep a acc acc1)
    (hab : b ≠ a) (hb : b < acc.units.length) (h : SharedBefore s acc a b) :
    SharedBefore s acc1 a b := by
  obtain ⟨_, ⟨_, _, ho3⟩, _, _, hpick⟩ := hstep
  obtain ⟨_, b2, b3, b4, _⟩ := ho3 b hab
  intro ca cb hT
  have cb0 : AreaCommitted acc b := by
    unfold AreaCommitted at cb ⊢
    rw [b4, b2] at cb
    exact cb
  rcases hpick ca with ⟨ca0, hTa⟩ | hfresh
  · obtain ⟨h1, h2, h3, h4⟩ := h ca0 cb0 (by rw [← hTa, hT, b3])
    exact ⟨h1, h2, h3, by rw [hTa]; exact h4⟩
  · exact absurd (by rw [hT, b3]) (hfresh b hb hab cb0)

/-- The unit loop as a whole: the invariant that carries `SharedBefore` for the units `i` and
`j` through the updates of all units. -/
theorem unitPass_sharedBefore (env : Env K) (dt : K) (s : Game K) (i j : Nat)
    (hT : s.unitTargetEnemy.length = s.units.length)
    (hi : i < s.units.length) (hj : j < s.units.length) (hij : i ≠ j)
    (hci : areaUnitCount s ≤ livingCaptured s i) (hcj : areaUnitCount s ≤ livingCaptured s j)
    (hsi : ∀ e ∈ s.enemies, e.alive = true → enemyDist env (s.unit i) e < SENTINEL)
    (hsj : ∀ e ∈ s.enemies, e.alive = true → enemyDist env (s.unit j) e < SENTINEL) :
    SharedBefore s (unitPass env dt s) i j := by
  unfold unitPass
  refine (foldl_range_invariant
    (fun m (acc : Game K) =>
      acc.enemies = s.enemies ∧ acc.units.length = s.units.length ∧
      acc.unitTargetEnemy.length = s.unitTargetEnemy.length ∧
      (∀ x, acc.unitAreaAttack.getD x false = true → s.unitAreaAttack.getD x false = true) ∧
      (∀ x, livingTargets acc x = livingTargets s x) ∧
      (∀ x, m ≤ x → acc.units.getD x default = s.units.getD x default) ∧
      SharedBefore s acc i j) _ _ s ?_ ?_).2.2.2.2.2.2
  · exact ⟨rfl, rfl, rfl, fun _ h => h, fun _ => rfl, fun _ _ => rfl,
      fun a b c => ⟨a, b, c, rfl⟩⟩
  · intro m acc hm ⟨p1, p2, p3, p4, p5, p6, p7⟩
    obtain ⟨hframe, hstep⟩ := unitUpdate_areaStep env dt m acc
    obtain ⟨f1, f2, f3, f4⟩ := hframe
    have f2' := f2
    obtain ⟨o1, o2, o3⟩ := f2
    -- the premises of an acquisition hold for `i` and `j` when their turn comes
    have hready : ∀ x, x = m → x < s.units.length →
        areaUnitCount s ≤ livingCaptured s x →
        (∀ e ∈ s.enemies, e.alive = true → enemyDist env (s.unit x) e < SENTINEL) →
        AreaReady env x acc := by
      intro x hx hxl hcx hsx
      refine ⟨by rw [p2]; exact hxl, by rw [p3, hT]; exact hxl, ?_, ?_⟩
      · have h1 : areaUnitCount acc ≤ areaUnitCount s := by
          unfold areaUnitCount
          rw [p2]
          exact List.countP_mono_left (fun y _ hy => p4 y hy)
        have h2 : livingCaptured acc x = livingCaptured s x := by
          unfold livingCaptured
          rw [p5 x]
        omega
      · intro e he halive
        rw [p1] at he
        have hu : acc.unit x = s.unit x := p6 x (by omega)
        rw [hu]
        exact hsx e he halive
    refine ⟨f1.trans p1, o1.trans p2, o2.trans p3, ?_, ?_, ?_, ?_⟩
    · intro x hx
      by_cases hxm : x = m
      · subst hxm
        exact p4 x (f3 hx)
      · rw [(o3 x hxm).2.2.2.1] at hx
        exact p4 x hx
    · intro x
      by_cases hxm : x = m
      · subst hxm
        exact f4.trans (p5 x)
      · rw [← p5 x]
        unfold livingTargets
        rw [f1, (o3 x hxm).2.2.2.2]
    · intro x hx
      rw [(o3 x (by omega)).1]
      exact p6 x (by omega)
    · by_cases hmi : m = i
      · subst hmi
        exact SharedBefore.step_self (hstep (hready m rfl hi hci hsi)) (Ne.symm hij)
          (by rw [p2]; exact hj) p7
      · by_cases hmj : m = j
        · subst hmj
          exact (SharedBefore.step_self (hstep (hready m rfl hj hcj hsj)) hij
            (by rw [p2]; exact hi) p7.symm).symm
        · exact SharedBefore.step_other f2' (Ne.symm hmi) (Ne.symm hmj) p7

set_option maxRecDepth 1000000 in
unseal Rat.add Rat.mul Rat.inv Rat.sub in
/-- Counterexample to C3 as stated.  D is ordered onto enemy 1 alone, then A and B are ordered
together onto the enemies 0, 1 and 2 and take 0 and 2.  A kills enemy 0; in the unit loop of
the next frame the enemies 1 and 2 of its list are both flagged as claimed (by D and by B),
so A falls back to the nearest, enemy 2, which B holds: the squad of this order has two
members, two of its captured enemies are alive, and both members hold enemy 2.  After D has
been sent away there are two units in area-attack mode and two living captured enemies, and A
and B still hold enemy 2 after the unit loop. -/
theorem area_squad_shares_target :
    (squadOrdered.unitAreaAttack, squadOrdered.unitAreaTargets, squadOrdered.unitAttacking,
        squadOrdered.unitTargetEnemy)
      = ([true, true, true], [[0, 1, 2], [0, 1, 2], [1]], [true, true, true], [0, 2, 1]) ∧
    (squadSecondPass.unitAreaAttack, squadSecondPass.unitAreaTargets,
        squadSecondPass.unitAttacking, squadSecondPass.unitTargetEnemy,
        squadSecondPass.enemies.map (fun e => e.alive))
      = ([true, true, true], [[1, 2], [0, 1, 2], [1]], [true, true, true], [2, 2, 1],
          [false, true, true]) ∧
    ((unitPass evalEnv (1 / 10) squadWithoutD).unitAreaAttack,
        (unitPass evalEnv (1 / 10) squadWithoutD).unitAreaTargets,
        (unitPass evalEnv (1 / 10) squadWithoutD).unitAttacking,
        (unitPass evalEnv (1 / 10) squadWithoutD).unitTargetEnemy,
        (unitPass evalEnv (1 / 10) squadWithoutD).enemies.map (fun e => e.alive))
      = ([true, true, false], [[1, 2], [0, 1, 2], []], [true, true, true], [2, 2, 1],
          [false, true, true]) :=
  ⟨by decide, by decide, by decide⟩

/-- C3, amended: after the unit loop of a frame, two distinct units that are both in
area-attack mode and committed hold different enemy indices, unless they were both in
area-attack mode and committed to that same enemy before the loop already (the loop never
redistributes), provided that for each of the two the number of different living enemies in
its captured list is at least the number of units in area-attack mode, counted over all area
orders and not only over the unit's own squad.  The target table has one entry per unit, and
every living enemy is nearer to the two units than the sentinel `1e9`. -/
theorem unitPass_area_targets_distinct (env : Env K) (dt : K) (s : Game K) (i j : Nat)
    (hT : s.unitTargetEnemy.length = s.units.length)
    (hi : i < s.units.length) (hj : j < s.units.length) (hij : i ≠ j)
    (hci : areaUnitCount s ≤ livingCaptured s i) (hcj : areaUnitCount s ≤ livingCaptured s j)
    (hsi : ∀ e ∈ s.enemies, e.alive = true → enemyDist env (s.unit i) e < SENTINEL)
    (hsj : ∀ e ∈ s.enemies, e.alive = true → enemyDist env (s.unit j) e < SENTINEL)
    (hai : AreaCommitted (unitPass env dt s) i) (haj : AreaCommitted (unitPass env dt s) j) :
    (unitPass env dt s).unitTargetEnemy.getD i (-1)
        ≠ (unitPass env dt s).unitTargetEnemy.getD j (-1) ∨
      (AreaCommitted s i ∧ AreaCommitted s j ∧
        s.unitTargetEnemy.getD i (-1) = s.unitTargetEnemy.getD j (-1) ∧
        (unitPass env dt s).unitTargetEnemy.getD i (-1) = s.unitTargetEnemy.getD i (-1)) := by
  by_cases h : (unitPass env dt s).unitTargetEnemy.getD i (-1)
      = (unitPass env dt s).unitTargetEnemy.getD j (-1)
  · exact Or.inr (unitPass_sharedBefore env dt s i j hT hi hj hij hci hcj hsi hsj hai haj h)
  · exact Or.inl h

set_option maxRecDepth 1000000 in
unseal Rat.add Rat.mul Rat.inv Rat.sub in
/-- Witness of the amended C3: in `pairAfterShot` A and B are the two units in area-attack
mode, two enemies of their captured list are alive, A's target is dead; the unit loop gives A
enemy 1 and leaves B on enemy 2. -/
theorem unitPass_area_targets_distinct_witness :
    areaUnitCount pairAfterShot = 2 ∧
    livingCaptured pairAfterShot 0 = 2 ∧ livingCaptured pairAfterShot 1 = 2 ∧
    pairAfterShot.unitTargetEnemy = [0, 2, 1] ∧
    (unitPass evalEnv (1 / 10) pairAfterShot).unitTargetEnemy = [1, 2, 1] ∧
    ((unitPass evalEnv (1 / 10) pairAfterShot).unitTargetEnemy.getD 0 (-1)
        ≠ (unitPass evalEnv (1 / 10) pairAfterShot).unitTargetEnemy.getD 1 (-1) ∨
      (AreaCommitted pairAfterShot 0 ∧ AreaCommitted pairAfterShot 1 ∧
        pairAfterShot.unitTargetEnemy.getD 0 (-1) = pairAfterShot.unitTargetEnemy.getD 1 (-1) ∧
        (unitPass evalEnv (1 / 10) pairAfterShot).unitTargetEnemy.getD 0 (-1)
          = pairAfterShot.unitTargetEnemy.getD 0 (-1))) :=
  ⟨by decide, by decide, by decide, by decide, by decide,
    unitPass_area_targets_distinct evalEnv (1 / 10) pairAfterShot 0 1 (by decide) (by decide)
      (by decide) (by decide) (by decide) (by decide) (by decide) (by decide)
      (by unfold AreaCommitted; decide) (by unfold AreaCommitted; decide)⟩

/-! ## The wave-clear transition -/

theorem filter_alive_length_eq_zero (es : List (EnemyNPC K)) :
    (((es.filter (fun e => e.alive)).length : Int) = 0) ↔ ∀ e ∈ es, e.alive = false := by
  rw [Int.natCast_eq_zero, List.length_eq_zero, List.filter_eq_nil_iff]
  constructor
  · intro h e he
    simpa using h e he
  · intro h e he
    simp [h e he]

/-- When the transition is due, lines 831-869 run the wave-clear transition on the state with
the count of living enemies refreshed to 0. -/
theorem waveClearCheck_of_triggers (env : Env K) (s : Game K) (h : WaveClearTriggers s) :
    waveClearCheck env s = waveClear env { s with enemiesAlive := 0 } := by
  obtain ⟨h1, h2, h3, h4, h5⟩ := h
  have h0 := (filter_alive_length_eq_zero s.enemies).2 h4
  unfold waveClearCheck
  rw [if_pos ⟨h1, h2, h3⟩]
  dsimp only
  rw [if_pos ⟨h0, h5⟩, h0]

/-- When the transition is not due, lines 831-869 write nothing but the count of living
enemies. -/
theorem waveClearCheck_of_not_triggers (env : Env K) (s : Game K) (h : ¬ WaveClearTriggers s) :
    waveClearCheck env s = { s with enemiesAlive := (waveClearCheck env s).enemiesAlive } := by
  unfold waveClearCheck
  dsimp only
  split_ifs with h1 h2
  · exfalso
    apply h
    exact ⟨h1.1, h1.2.1, h1.2.2, (filter_alive_length_eq_zero s.enemies).1 h2.1, h2.2⟩
  · rfl
  · rfl

theorem ClampVal_eq_min (v hi : Int) (hv : 0 ≤ v) : ClampVal v 0 hi = min hi v := by
  unfold ClampVal
  rw [if_neg (by omega)]
  split_ifs with h
  · exact (min_eq_left (le_of_lt h)).symm
  · exact (min_eq_right (not_lt.mp h)).symm

theorem truncInt_nonneg_of_mul (a : Int) (c : K) (ha : 0 ≤ a) (hc : 0 ≤ c) :
    0 ≤ truncInt ((a : K) * c) :=
  truncInt_nonneg _ (mul_nonneg (by exact_mod_cast ha) hc)

/-- C17: when wave-clear triggers, every unit's hp becomes
`min(maxHp, hp + trunc(0.4 * maxHp))` and the ship's hp becomes
`min(maxHp, hp + trunc(0.25 * maxHp))`; nothing else of a unit or of the ship is written, so
the `maxHp` values are the same.  The units are taken with `0 ≤ hp` and `0 ≤ maxHp`, the ship
with `0 ≤ maxHp`, as the code keeps them. -/
theorem waveClear_heal_amounts (env : Env K) (s : Game K) (ht : WaveClearTriggers s)
    (hu : ∀ u ∈ s.units, 0 ≤ u.hp ∧ 0 ≤ u.maxHp) (hs : 0 ≤ s.playerShip.maxHp) :
    (waveClearCheck env s).units
      = s.units.map (fun u =>
          { u with hp := min u.maxHp (u.hp + truncInt ((u.maxHp : K) * (2 / 5))) }) ∧
    (waveClearCheck env s).playerShip
      = { s.playerShip with
          hp := min s.playerShip.maxHp
            (s.playerShip.hp + truncInt ((s.playerShip.maxHp : K) * (1 / 4))) } ∧
    (waveClearCheck env s).units.map (fun u => u.maxHp) = s.units.map (fun u => u.maxHp) ∧
    (waveClearCheck env s).playerShip.maxHp = s.playerShip.maxHp := by
  have hunits : (waveClearCheck env s).units
      = s.units.map (fun u =>
          { u with hp := min u.maxHp (u.hp + truncInt ((u.maxHp : K) * (2 / 5))) }) := by
    rw [waveClearCheck_of_triggers env s ht]
    unfold waveClear
    dsimp only
    apply List.map_congr_left
    intro u hmem
    obtain ⟨h1, h2⟩ := hu u hmem
    have h3 := truncInt_nonneg_of_mul (K := K) u.maxHp (2 / 5) h2 (by norm_num)
    rw [ClampVal_eq_min _ _ (by omega)]
  have hship : (waveClearCheck env s).playerShip
      = { s.playerShip with
          hp := min s.playerShip.maxHp
            (s.playerShip.hp + truncInt ((s.playerShip.maxHp : K) * (1 / 4))) } := by
    rw [waveClearCheck_of_triggers env s ht]
    unfold waveClear
    dsimp only
    have h3 := truncInt_nonneg_of_mul (K := K) s.playerShip.maxHp (1 / 4) hs (by norm_num)
    have h4 := ht.2.1
    rw [ClampVal_eq_min _ _ (by omega)]
  refine ⟨hunits, hship, ?_, ?_⟩
  · rw [hunits, List.map_map]
    rfl
  · rw [hship]

set_option maxRecDepth 1000000 in
unseal Rat.add Rat.mul Rat.inv Rat.sub in
/-- Witness of C17: in `clearedGame` the transition is due; the rifleman goes from 100 to
188 = 100 + trunc(0.4 * 220) hit points, the healer stays at 220, and the ship goes from 120
to 170 = 120 + trunc(0.25 * 200). -/
theorem waveClear_heal_amounts_witness :
    WaveClearTriggers clearedGame ∧
    (waveClearCheck evalEnv clearedGame).units.map (fun u => (u.hp, u.maxHp))
      = [(188, 220), (220, 220)] ∧
    ((waveClearCheck evalEnv clearedGame).playerShip.hp,
      (waveClearCheck evalEnv clearedGame).playerShip.maxHp) = (170, 200) ∧
    (waveClearCheck evalEnv clearedGame).units
      = clearedGame.units.map (fun u =>
          { u with hp := min u.maxHp (u.hp + truncInt ((u.maxHp : ℚ) * (2 / 5))) }) :=
  ⟨by unfold WaveClearTriggers; decide, by decide, by decide,
    (waveClear_heal_amounts evalEnv clearedGame (by unfold WaveClearTriggers; decide)
      (by decide) (by decide)).1⟩

theorem rewardScale_values :
    (rewardScale Difficulty.DIFF_CASUAL : K) = 23 / 20 ∧
    (rewardScale Difficulty.DIFF_NORMAL : K) = 1 ∧
    (rewardScale Difficulty.DIFF_HARD : K) = 17 / 20 :=
  ⟨rfl, rfl, rfl⟩

theorem lroundf_intCast (n : Int) : lroundf ((n : K)) = n := by
  unfold lroundf
  split_ifs with h
  · rw [Int.floor_eq_iff]
    constructor <;> linarith
  · rw [Int.ceil_eq_iff]
    constructor <;> linarith

/-- C18: the wave-clear transition runs exactly in a state that is not paused and not
terminal, in which no enemy is alive and no intermission is running (it is the step that
sets the intermission flag); it then adds exactly `round((12 + 2 * wave) * r)` to the scrap
balance, with `r` = 1.15, 1.0 or 0.85 for Casual, Normal or Hard, which is 14 for wave 1 on
Normal, and leaves the intermission flag set.  In a state in which the transition is not due,
and so in every state whose intermission flag is set, lines 831-869 leave the scrap balance
and the intermission flag as they are. -/
theorem waveClear_reward_once (env : Env K) (s : Game K) :
    ((waveClearCheck env s).inIntermission ≠ s.inIntermission ↔ WaveClearTriggers s) ∧
    (WaveClearTriggers s →
      waveClearCheck env s = waveClear env { s with enemiesAlive := 0 } ∧
      (waveClearCheck env s).shop.scrapMetal
        = s.shop.scrapMetal
          + lroundf (((12 + 2 * s.currentWave : Int) : K) * (rewardScale s.difficulty : K)) ∧
      (waveClearCheck env s).inIntermission = true) ∧
    ((rewardScale Difficulty.DIFF_CASUAL : K) = 23 / 20 ∧
      (rewardScale Difficulty.DIFF_NORMAL : K) = 1 ∧
      (rewardScale Difficulty.DIFF_HARD : K) = 17 / 20) ∧
    lroundf (((12 + 2 * 1 : Int) : K) * (rewardScale Difficulty.DIFF_NORMAL : K)) = 14 ∧
    (¬ WaveClearTriggers s →
      (waveClearCheck env s).shop = s.shop ∧
      (waveClearCheck env s).inIntermission = s.inIntermission) ∧
    (s.inIntermission = true →
      (waveClearCheck env s).shop.scrapMetal = s.shop.scrapMetal ∧
      (waveClearCheck env s).inIntermission = true) := by
  have hyes : WaveClearTriggers s →
      waveClearCheck env s = waveClear env { s with enemiesAlive := 0 } ∧
      (waveClearCheck env s).shop.scrapMetal
        = s.shop.scrapMetal
          + lroundf (((12 + 2 * s.currentWave : Int) : K) * (rewardScale s.difficulty : K)) ∧
      (waveClearCheck env s).inIntermission = true := by
    intro ht
    have h := waveClearCheck_of_triggers env s ht
    refine ⟨h, ?_, ?_⟩
    · rw [h]
      unfold waveClear
      dsimp only
      have e : (12 + s.currentWave * 2 : Int) = 12 + 2 * s.currentWave := by ring
      rw [e]
    · rw [h]
      rfl
  have hno : ¬ WaveClearTriggers s →
      (waveClearCheck env s).shop = s.shop ∧
      (waveClearCheck env s).inIntermission = s.inIntermission := by
    intro hn
    rw [waveClearCheck_of_not_triggers env s hn]
    exact ⟨rfl, rfl⟩
  refine ⟨?_, hyes, rewardScale_values, ?_, hno, ?_⟩
  · constructor
    · intro hne
      by_contra hn
      exact hne (hno hn).2
    · intro ht
      rw [(hyes ht).2.2, ht.2.2.2.2]
      decide
  · have e : ((12 + 2 * 1 : Int) : K) * (rewardScale Difficulty.DIFF_NORMAL : K)
        = ((14 : Int) : K) := by
      unfold rewardScale
      norm_num
    rw [e, lroundf_intCast]
  · intro hi
    have hn : ¬ WaveClearTriggers s := by
      intro ht
      rw [ht.2.2.2.2] at hi
      cases hi
    obtain ⟨h1, h2⟩ := hno hn
    exact ⟨by rw [h1], by rw [h2]; exact hi⟩

theorem getD_foldl_set_range {α : Type} (n : Nat) (l : List α) (d : α) (i : Nat) (hi : i < n) :
    ((List.range n).foldl (fun t ui => t.set ui d) l).getD i d = d := by
  refine (foldl_range_invariant (fun m (t : List α) => ∀ i, i < m → t.getD i d = d)
    _ n l ?_ ?_) i hi
  · intro i h
    omega
  · intro m t _ hP i hi
    rw [getD_set]
    split_ifs with h
    · rfl
    · by_cases him : i = m
      · subst him
        exact List.getD_eq_default _ _ (by
          by_contra hc
          exact h ⟨rfl, not_le.mp hc⟩)
      · exact hP i (by omega)

theorem spawnRock_fresh (env : Env K) (ship : Ship K) (p : Nat) :
    (spawnRock env ship p).alive = true ∧ (spawnRock env ship p).hp = (spawnRock env ship p).maxHp ∧
    (spawnRock env ship p).scrapMin = 10 ∧ (spawnRock env ship p).scrapMax = 20 ∧
    160 ≤ (spawnRock env ship p).hp ∧ (spawnRock env ship p).hp ≤ 260 := by
  have hb := GetRandomValue_bounds (env.rand (p + 2)) 160 260
  refine ⟨rfl, rfl, rfl, rfl, ?_, ?_⟩
  · show 160 ≤ GetRandomValue (env.rand (p + 2)) 160 260
    have := hb.1
    simpa using this
  · show GetRandomValue (env.rand (p + 2)) 160 260 ≤ 260
    have := hb.2
    simpa using this

/-- C19: after the wave-clear transition, every unit has its attacking flag false, its
committed target `-1`, its area-attack flag false and its captured list empty; the enemy list
is empty; the rock list is the old one, unchanged, followed by exactly 4 new rocks, each
alive with `hp = maxHp` (between 160 and 260, yield 10 to 20); and the intermission flag is
set with the countdown at 20 seconds. -/
theorem waveClear_resets (env : Env K) (s : Game K) (ht : WaveClearTriggers s) :
    (∀ ui, ui < s.units.length →
      (waveClearCheck env s).unitAttacking.getD ui false = false ∧
      (waveClearCheck env s).unitTargetEnemy.getD ui (-1) = -1 ∧
      (waveClearCheck env s).unitAreaAttack.getD ui false = false ∧
      (waveClearCheck env s).unitAreaTargets.getD ui [] = []) ∧
    (waveClearCheck env s).units.length = s.units.length ∧
    (waveClearCheck env s).enemies = [] ∧
    (∃ new : List Rock,
      (waveClearCheck env s).rocks = s.rocks ++ new ∧ new.length = 4 ∧
      ∀ r ∈ new, r.alive = true ∧ r.hp = r.maxHp ∧ r.scrapMin = 10 ∧ r.scrapMax = 20 ∧
        160 ≤ r.hp ∧ r.hp ≤ 260) ∧
    (waveClearCheck env s).inIntermission = true ∧
    (waveClearCheck env s).intermissionTime = 20 := by
  rw [waveClearCheck_of_triggers env s ht]
  unfold waveClear
  dsimp only
  refine ⟨?_, by rw [List.length_map], rfl, ⟨_, rfl, rfl, ?_⟩, rfl, rfl⟩
  · intro ui hui
    exact ⟨getD_foldl_set_range _ _ _ _ hui, getD_foldl_set_range _ _ _ _ hui,
      getD_foldl_set_range _ _ _ _ hui, getD_foldl_set_range _ _ _ _ hui⟩
  · intro r hr
    simp only [List.mem_cons, List.mem_singleton, List.not_mem_nil, or_false] at hr
    rcases hr with h | h | h | h <;> rw [h] <;> exact spawnRock_fresh env _ _

set_option maxRecDepth 1000000 in
unseal Rat.add Rat.mul Rat.inv Rat.sub in
/-- Witness of C19: in `clearedGame` the transition is due; afterwards the tables of both units
are reset, no enemy is left, the rock list has grown from 1 to 5 with the old rock first, and
the intermission runs with 20 seconds on the clock. -/
theorem waveClear_resets_witness :
    WaveClearTriggers clearedGame ∧
    ((waveClearCheck evalEnv clearedGame).unitAttacking,
      (waveClearCheck evalEnv clearedGame).unitTargetEnemy,
      (waveClearCheck evalEnv clearedGame).unitAreaAttack,
      (waveClearCheck evalEnv clearedGame).unitAreaTargets)
      = ([false, false], [-1, -1], [false, false], [[], []]) ∧
    (waveClearCheck evalEnv clearedGame).rocks.length = 5 ∧
    (waveClearCheck evalEnv clearedGame).enemies = [] ∧
    (waveClearCheck evalEnv clearedGame).inIntermission = true ∧
    (waveClearCheck evalEnv clearedGame).intermissionTime = 20 :=
  have key := waveClear_resets evalEnv clearedGame (by unfold WaveClearTriggers; decide)
  ⟨by unfold WaveClearTriggers; decide, by decide, by decide, key.2.2.1, key.2.2.2.2.1,
    key.2.2.2.2.2⟩

/-! ## Upgrade purchases and the scrap balance -/

theorem lroundf_nonneg (v : K) (h : 0 ≤ v) : 0 ≤ lroundf v := by
  unfold lroundf
  rw [if_pos h]
  exact Int.floor_nonneg.2 (by linarith)

theorem rewardScale_nonneg (d : Difficulty) : (0 : K) ≤ rewardScale d := by
  cases d <;> simp only [rewardScale] <;> norm_num

theorem hitEnemies_scrap_le (env : Env K) (b : Bullet K) (es : List (EnemyNPC K))
    (scrap : Int) (calls : Nat) : scrap ≤ (hitEnemies env b es scrap calls).2.1 := by
  have h := (hitEnemies_spec env b es scrap calls).2.2
  have h1 := (hitEnemies_spec env b es scrap calls).1
  induction es with
  | nil => simp [hitEnemies]
  | cons e es ih =>
    by_cases hd : e.alive = false
    · rw [hitEnemies_cons_dead env b e es scrap calls hd]
      exact ih (hitEnemies_spec env b es scrap calls).2.2 (hitEnemies_spec env b es scrap calls).1
    · by_cases hb : bulletInEnemy b e = true
      · rw [hitEnemies_cons_hit env b e es scrap calls (by simpa using hd) hb]
        dsimp only
        by_cases hk : e.hp - b.damage ≤ 0
        · rw [damageEnemy_kill env b.damage e scrap calls hk]
          have := (GetRandomValue_two_five (env.rand calls)).1
          dsimp only
          omega
        · rw [damageEnemy_survive env b.damage e scrap calls hk]
      · rw [hitEnemies_cons_miss env b e es scrap calls (by simpa using hd) hb]
        exact ih (hitEnemies_spec env b es scrap calls).2.2 (hitEnemies_spec env b es scrap calls).1

theorem hitRocks_scrap_le (env : Env K) (b : Bullet K) (rs : List Rock) (scrap : Int)
    (calls : Nat) (hy : ∀ r ∈ rs, 0 ≤ r.scrapMin ∧ 0 ≤ r.scrapMax) :
    scrap ≤ (hitRocks env b rs scrap calls).2.1 ∧
      ∀ r ∈ (hitRocks env b rs scrap calls).1, 0 ≤ r.scrapMin ∧ 0 ≤ r.scrapMax := by
  induction rs with
  | nil => simp [hitRocks]
  | cons r rs ih =>
    have hr := hy r (List.mem_cons_self r rs)
    have hrs : ∀ q ∈ rs, 0 ≤ q.scrapMin ∧ 0 ≤ q.scrapMax :=
      fun q hq => hy q (List.mem_cons_of_mem r hq)
    obtain ⟨i1, i2⟩ := ih hrs
    by_cases hd : r.alive = false
    · rw [hitRocks_cons_dead env b r rs scrap calls hd]
      refine ⟨i1, ?_⟩
      intro q hq
      rcases List.mem_cons.1 hq with h | h
      · rw [h]; exact hr
      · exact i2 q h
    · by_cases hb : bulletInRock b r = true
      · rw [hitRocks_cons_hit env b r rs scrap calls (by simpa using hd) hb]
        dsimp only
        by_cases hk : r.hp - b.damage ≤ 0
        · rw [damageRock_kill env b.damage r scrap calls hk]
          have hg := (GetRandomValue_bounds (env.rand calls) r.scrapMin r.scrapMax).1
          have hm : 0 ≤ min r.scrapMin r.scrapMax := le_min hr.1 hr.2
          refine ⟨by dsimp only; omega, ?_⟩
          intro q hq
          rcases List.mem_cons.1 hq with h | h
          · rw [h]; exact hr
          · exact hrs q h
        · rw [damageRock_survive env b.damage r scrap calls hk]
          refine ⟨le_refl _, ?_⟩
          intro q hq
          rcases List.mem_cons.1 hq with h | h
          · rw [h]; exact hr
          · exact hrs q h
      · rw [hitRocks_cons_miss env b r rs scrap calls (by simpa using hd) hb]
        refine ⟨i1, ?_⟩
        intro q hq
        rcases List.mem_cons.1 hq with h | h
        · rw [h]; exact hr
        · exact i2 q h

theorem ScrapSafe.of_same_scrap {s s1 : Game K} (a : s1.shop = s.shop) (b : s1.rocks = s.rocks)
    (c : s1.currentWave = s.currentWave) (h : ScrapSafe s) : ScrapSafe s1 := by
  unfold ScrapSafe
  rw [a, b, c]
  exact h

theorem bulletStep_scrapSafe (env : Env K) (dt : K) (bi : Nat) (s : Game K)
    (h : ScrapSafe s) : ScrapSafe (bulletStep env dt bi s) := by
  obtain ⟨h1, h2, h3⟩ := h
  obtain ⟨a, b⟩ := hitRocks_scrap_le env ((s.bullets.getD bi default).advance dt) s.rocks
    s.shop.scrapMetal s.randCalls h2
  unfold bulletStep
  dsimp only
  split_ifs <;>
  first
  | exact ⟨h1, h2, h3⟩
  | exact ⟨le_trans h1 (hitEnemies_scrap_le env _ _ _ _), h2, h3⟩
  | exact ⟨le_trans h1 a, b, h3⟩

theorem bulletPass_scrapSafe (env : Env K) (dt : K) (s : Game K) (h : ScrapSafe s) :
    ScrapSafe (bulletPass env dt s) := by
  have h1 : ScrapSafe (bulletLoop env dt s) := by
    unfold bulletLoop
    exact foldl_preserves (fun acc => ScrapSafe acc) _ _ s h
      (fun acc bi ha => bulletStep_scrapSafe env dt bi acc ha)
  exact h1

theorem UnitLoopFrame.scrapSafe {s s1 : Game K} (hf : UnitLoopFrame s s1) (h : ScrapSafe s) :
    ScrapSafe s1 := by
  have hv := hf.1
  unfold Game.directorView at hv
  simp only [Prod.mk.injEq] at hv
  obtain ⟨_, hw, _, _, hr, _, hs, _⟩ := hv
  exact ScrapSafe.of_same_scrap hs hr hw h

theorem enemyStrike_scrap (eUnit eShip : Bool) (cuIdx : Int) (dmg : K) (s : Game K) :
    (enemyStrike eUnit eShip cuIdx dmg s).shop = s.shop ∧
    (enemyStrike eUnit eShip cuIdx dmg s).rocks = s.rocks ∧
    (enemyStrike eUnit eShip cuIdx dmg s).currentWave = s.currentWave := by
  unfold enemyStrike
  split_ifs <;> exact ⟨rfl, rfl, rfl⟩

theorem enemyUpdate_scrapSafe (env : Env K) (dt : K) (i : Nat) (s : Game K)
    (h : ScrapSafe s) : ScrapSafe (enemyUpdate env dt i s) := by
  unfold enemyUpdate
  dsimp only
  split_ifs <;>
  first
  | exact h
  | exact ScrapSafe.of_same_scrap (enemyStrike_scrap _ _ _ _ s).1 (enemyStrike_scrap _ _ _ _ s).2.1
      (enemyStrike_scrap _ _ _ _ s).2.2 h

theorem enemyPass_scrapSafe (env : Env K) (dt : K) (s : Game K) (h : ScrapSafe s) :
    ScrapSafe (enemyPass env dt s) := by
  unfold enemyPass
  exact foldl_preserves (fun acc => ScrapSafe acc) _ _ s h
    (fun acc i ha => enemyUpdate_scrapSafe env dt i acc ha)

theorem simPasses_scrapSafe (env : Env K) (dt : K) (s : Game K) (h : ScrapSafe s) :
    ScrapSafe (simPasses env dt s) := by
  have h3 : ScrapSafe (unitPass env dt s) := (unitPass_frame env dt s).scrapSafe h
  have h4 : ScrapSafe (healerPass env dt (unitPass env dt s)) :=
    (healerPass_frame env dt _).scrapSafe h3
  have h5 := enemyPass_scrapSafe env dt _ h4
  have h6 : ScrapSafe (medicPass dt (enemyPass env dt (healerPass env dt (unitPass env dt s)))) :=
    (medicPass_frame dt _).scrapSafe h5
  have h7 := bulletPass_scrapSafe env dt _ h6
  unfold ScrapSafe at h7
  unfold simPasses ScrapSafe
  dsimp only
  exact h7

theorem spawnLoop_scrap (env : Env K) (d : Difficulty) (w : Int) (n : Nat) (s : Game K) :
    (spawnLoop env d w n s).shop = s.shop ∧ (spawnLoop env d w n s).rocks = s.rocks ∧
    (spawnLoop env d w n s).currentWave = s.currentWave := by
  induction n generalizing s with
  | zero => exact ⟨rfl, rfl, rfl⟩
  | succ n ih =>
    rw [spawnLoop]
    exact ih _

theorem startNextWave_scrapSafe (env : Env K) (s : Game K) (h : ScrapSafe s) :
    ScrapSafe (startNextWave env s) := by
  obtain ⟨h1, h2, h3⟩ := h
  obtain ⟨a, b, c⟩ := spawnLoop_scrap env s.difficulty (s.currentWave + 1)
    (spawnCount (K := K) s.difficulty (s.currentWave + 1)).toNat
    { s with inIntermission := false, intermissionTime := 0, currentWave := s.currentWave + 1 }
  unfold startNextWave spawnWave ScrapSafe
  dsimp only
  rw [a, b, c]
  exact ⟨h1, h2, by dsimp only; omega⟩

theorem waveClear_scrapSafe (env : Env K) (s : Game K) (h : ScrapSafe s) :
    ScrapSafe (waveClear env s) := by
  obtain ⟨h1, h2, h3⟩ := h
  refine ⟨?_, ?_, h3⟩
  · show 0 ≤ s.shop.scrapMetal
        + lroundf (((12 + s.currentWave * 2 : Int) : K) * rewardScale s.difficulty)
    have hb : (0 : K) ≤ ((12 + s.currentWave * 2 : Int) : K) := by
      exact_mod_cast (by omega : (0 : Int) ≤ 12 + s.currentWave * 2)
    have := lroundf_nonneg _ (mul_nonneg hb (rewardScale_nonneg (K := K) s.difficulty))
    omega
  · intro r hr
    have hr1 : r ∈ s.rocks ++ _ := hr
    rcases List.mem_append.1 hr1 with hq | hq
    · exact h2 r hq
    · simp only [List.mem_cons, List.mem_singleton, List.not_mem_nil, or_false] at hq
      rcases hq with hq | hq | hq | hq <;> rw [hq] <;>
        exact ⟨by show (0 : Int) ≤ 10; norm_num, by show (0 : Int) ≤ 20; norm_num⟩

theorem waveClearCheck_scrapSafe (env : Env K) (s : Game K) (h : ScrapSafe s) :
    ScrapSafe (waveClearCheck env s) := by
  unfold waveClearCheck
  dsimp only
  split_ifs
  · exact waveClear_scrapSafe env _ h
  · exact h
  · exact h

theorem simFrame_scrapSafe (env : Env K) (inp : FrameInput K) (s : Game K)
    (h : ScrapSafe s) : ScrapSafe (simFrame env inp s) := by
  have h1 := waveClearCheck_scrapSafe env s h
  have h2 : ScrapSafe (intermissionTick env inp (waveClearCheck env s)) := by
    unfold intermissionTick
    dsimp only
    split_ifs
    · exact startNextWave_scrapSafe env _ h1
    · exact startNextWave_scrapSafe env _ h1
    · exact h1
    · exact h1
    · exact h1
  have h3 := simPasses_scrapSafe env (effectiveDt inp s) _ h2
  unfold simFrame intermissionButton
  dsimp only
  split_ifs
  · exact startNextWave_scrapSafe env _ h3
  · exact h3
  · exact h3

theorem buyHull_scrapSafe (s : Game K) (h : ScrapSafe s) : ScrapSafe (buyHull s) := by
  unfold buyHull
  split_ifs with hc
  · exact ⟨by show 0 ≤ s.shop.scrapMetal - s.shop.hullUpgradeCost; omega, h.2.1, h.2.2⟩
  · exact h

theorem buyShielding_scrapSafe (s : Game K) (h : ScrapSafe s) :
    ScrapSafe (buyShielding s) := by
  unfold buyShielding
  split_ifs with hc
  · exact ⟨by show 0 ≤ s.shop.scrapMetal - s.shop.shieldingUpgradeCost; omega, h.2.1, h.2.2⟩
  · exact h

theorem buyEngines_scrapSafe (s : Game K) (h : ScrapSafe s) : ScrapSafe (buyEngines s) := by
  unfold buyEngines
  split_ifs with hc
  · exact ⟨by show 0 ≤ s.shop.scrapMetal - s.shop.engineUpgradeCost; omega, h.2.1, h.2.2⟩
  · exact h

theorem buyLifeSupport_scrapSafe (s : Game K) (h : ScrapSafe s) :
    ScrapSafe (buyLifeSupport s) := by
  unfold buyLifeSupport
  split_ifs with hc
  · exact ⟨by show 0 ≤ s.shop.scrapMetal - s.shop.lifeSupportUpgradeCost; omega, h.2.1,
      h.2.2⟩
  · exact h

theorem ite_scrapSafe (c : Bool) (f : Game K → Game K)
    (hf : ∀ s, ScrapSafe s → ScrapSafe (f s)) (s : Game K) (h : ScrapSafe s) :
    ScrapSafe (if c then f s else s) := by
  split_ifs
  · exact hf s h
  · exact h

theorem purchases_scrapSafe (keys : PurchaseKeys) (s : Game K) (h : ScrapSafe s) :
    ScrapSafe (purchases keys s) := by
  have h1 := ite_scrapSafe keys.hull buyHull buyHull_scrapSafe s h
  have h2 := ite_scrapSafe keys.shielding buyShielding buyShielding_scrapSafe _ h1
  have h3 := ite_scrapSafe keys.engines buyEngines buyEngines_scrapSafe _ h2
  have h4 := ite_scrapSafe keys.lifeSupport buyLifeSupport buyLifeSupport_scrapSafe _ h3
  exact h4

theorem playFrames_scrapSafe (env : Env K) (steps : List (PurchaseKeys × FrameInput K))
    (s : Game K) (h : ScrapSafe s) : ScrapSafe (playFrames env steps s) := by
  unfold playFrames
  exact foldl_preserves (fun acc => ScrapSafe acc) _ _ s h
    (fun acc st ha => simFrame_scrapSafe env st.2 _ (purchases_scrapSafe st.1 acc ha))

theorem buyHull_changes (s : Game K)
    (h : s.shop.scrapMetal ≥ s.shop.hullUpgradeCost ∧
      s.playerShip.hullIntegrity < s.playerShip.maxHullIntegrity) : buyHull s ≠ s := by
  intro he
  have h1 : (buyHull s).playerShip.hullIntegrity = s.playerShip.hullIntegrity := by rw [he]
  unfold buyHull at h1
  rw [if_pos h] at h1
  dsimp only at h1
  omega

theorem buyShielding_changes (s : Game K)
    (h : s.shop.scrapMetal ≥ s.shop.shieldingUpgradeCost ∧
      s.playerShip.shielding < s.playerShip.maxShielding) : buyShielding s ≠ s := by
  intro he
  have h1 : (buyShielding s).playerShip.shielding = s.playerShip.shielding := by rw [he]
  unfold buyShielding at h1
  rw [if_pos h] at h1
  dsimp only at h1
  omega

theorem buyEngines_changes (s : Game K)
    (h : s.shop.scrapMetal ≥ s.shop.engineUpgradeCost ∧
      s.playerShip.engines < s.playerShip.maxEngines) : buyEngines s ≠ s := by
  intro he
  have h1 : (buyEngines s).playerShip.engines = s.playerShip.engines := by rw [he]
  unfold buyEngines at h1
  rw [if_pos h] at h1
  dsimp only at h1
  omega

theorem buyLifeSupport_changes (s : Game K)
    (h : s.shop.scrapMetal ≥ s.shop.lifeSupportUpgradeCost ∧
      s.playerShip.lifeSupportSystems < s.playerShip.maxLifeSupportSystems) :
    buyLifeSupport s ≠ s := by
  intro he
  have h1 : (buyLifeSupport s).playerShip.lifeSupportSystems
      = s.playerShip.lifeSupportSystems := by rw [he]
  unfold buyLifeSupport at h1
  rw [if_pos h] at h1
  dsimp only at h1
  omega

/-- C20: for each of the four upgrade tracks a purchase changes the state exactly when the
scrap balance is at least the cost of the track and the level of the track is below its
maximum; an accepted purchase takes exactly the cost from the scrap and raises the level of
that track only (hull by 8, shielding by 5, engines and life support by 3), a rejected one
leaves the whole state as it was.  Consequently, from a state whose scrap balance is not
negative (with no negative yield bound on a rock and no negative wave number), the balance is
not negative after any run of frames, each made of the purchases of its keys and of the
simulation step with its kill, mining and wave rewards. -/
theorem purchase_gated_scrap_nonneg (env : Env K) (s : Game K) :
    ((buyHull s ≠ s ↔
        s.shop.scrapMetal ≥ s.shop.hullUpgradeCost ∧
          s.playerShip.hullIntegrity < s.playerShip.maxHullIntegrity) ∧
      (s.shop.scrapMetal ≥ s.shop.hullUpgradeCost ∧
          s.playerShip.hullIntegrity < s.playerShip.maxHullIntegrity →
        buyHull s =
          { s with
              shop := { s.shop with scrapMetal := s.shop.scrapMetal - s.shop.hullUpgradeCost },
              playerShip :=
                { s.playerShip with hullIntegrity := s.playerShip.hullIntegrity + 8 } }) ∧
      (¬ (s.shop.scrapMetal ≥ s.shop.hullUpgradeCost ∧
          s.playerShip.hullIntegrity < s.playerShip.maxHullIntegrity) → buyHull s = s)) ∧
    ((buyShielding s ≠ s ↔
        s.shop.scrapMetal ≥ s.shop.shieldingUpgradeCost ∧
          s.playerShip.shielding < s.playerShip.maxShielding) ∧
      (s.shop.scrapMetal ≥ s.shop.shieldingUpgradeCost ∧
          s.playerShip.shielding < s.playerShip.maxShielding →
        buyShielding s =
          { s with
              shop :=
                { s.shop with scrapMetal := s.shop.scrapMetal - s.shop.shieldingUpgradeCost },
              playerShip := { s.playerShip with shielding := s.playerShip.shielding + 5 } }) ∧
      (¬ (s.shop.scrapMetal ≥ s.shop.shieldingUpgradeCost ∧
          s.playerShip.shielding < s.playerShip.maxShielding) → buyShielding s = s)) ∧
    ((buyEngines s ≠ s ↔
        s.shop.scrapMetal ≥ s.shop.engineUpgradeCost ∧
          s.playerShip.engines < s.playerShip.maxEngines) ∧
      (s.shop.scrapMetal ≥ s.shop.engineUpgradeCost ∧
          s.playerShip.engines < s.playerShip.maxEngines →
        buyEngines s =
          { s with
              shop := { s.shop with scrapMetal := s.shop.scrapMetal - s.shop.engineUpgradeCost },
              playerShip := { s.playerShip with engines := s.playerShip.engines + 3 } }) ∧
      (¬ (s.shop.scrapMetal ≥ s.shop.engineUpgradeCost ∧
          s.playerShip.engines < s.playerShip.maxEngines) → buyEngines s = s)) ∧
    ((buyLifeSupport s ≠ s ↔
        s.shop.scrapMetal ≥ s.shop.lifeSupportUpgradeCost ∧
          s.playerShip.lifeSupportSystems < s.playerShip.maxLifeSupportSystems) ∧
      (s.shop.scrapMetal ≥ s.shop.lifeSupportUpgradeCost ∧
          s.playerShip.lifeSupportSystems < s.playerShip.maxLifeSupportSystems →
        buyLifeSupport s =
          { s with
              shop :=
                { s.shop with
                    scrapMetal := s.shop.scrapMetal - s.shop.lifeSupportUpgradeCost },
              playerShip :=
                { s.playerShip with
                    lifeSupportSystems := s.playerShip.lifeSupportSystems + 3 } }) ∧
      (¬ (s.shop.scrapMetal ≥ s.shop.lifeSupportUpgradeCost ∧
          s.playerShip.lifeSupportSystems < s.playerShip.maxLifeSupportSystems) →
        buyLifeSupport s = s)) ∧
    (ScrapSafe s →
      ∀ steps : List (PurchaseKeys × FrameInput K),
        0 ≤ (playFrames env steps s).shop.scrapMetal) := by
  have yes1 : s.shop.scrapMetal ≥ s.shop.hullUpgradeCost ∧
      s.playerShip.hullIntegrity < s.playerShip.maxHullIntegrity → buyHull s = _ :=
    fun h => by unfold buyHull; rw [if_pos h]
  have no1 : ¬ (s.shop.scrapMetal ≥ s.shop.hullUpgradeCost ∧
      s.playerShip.hullIntegrity < s.playerShip.maxHullIntegrity) → buyHull s = s :=
    fun h => by unfold buyHull; rw [if_neg h]
  have yes2 : s.shop.scrapMetal ≥ s.shop.shieldingUpgradeCost ∧
      s.playerShip.shielding < s.playerShip.maxShielding → buyShielding s = _ :=
    fun h => by unfold buyShielding; rw [if_pos h]
  have no2 : ¬ (s.shop.scrapMetal ≥ s.shop.shieldingUpgradeCost ∧
      s.playerShip.shielding < s.playerShip.maxShielding) → buyShielding s = s :=
    fun h => by unfold buyShielding; rw [if_neg h]
  have yes3 : s.shop.scrapMetal ≥ s.shop.engineUpgradeCost ∧
      s.playerShip.engines < s.playerShip.maxEngines → buyEngines s = _ :=
    fun h => by unfold buyEngines; rw [if_pos h]
  have no3 : ¬ (s.shop.scrapMetal ≥ s.shop.engineUpgradeCost ∧
      s.playerShip.engines < s.playerShip.maxEngines) → buyEngines s = s :=
    fun h => by unfold buyEngines; rw [if_neg h]
  have yes4 : s.shop.scrapMetal ≥ s.shop.lifeSupportUpgradeCost ∧
      s.playerShip.lifeSupportSystems < s.playerShip.maxLifeSupportSystems →
      buyLifeSupport s = _ :=
    fun h => by unfold buyLifeSupport; rw [if_pos h]
  have no4 : ¬ (s.shop.scrapMetal ≥ s.shop.lifeSupportUpgradeCost ∧
      s.playerShip.lifeSupportSystems < s.playerShip.maxLifeSupportSystems) →
      buyLifeSupport s = s :=
    fun h => by unfold buyLifeSupport; rw [if_neg h]
  refine ⟨⟨⟨?_, buyHull_changes s⟩, yes1, no1⟩, ⟨⟨?_, buyShielding_changes s⟩, yes2, no2⟩,
    ⟨⟨?_, buyEngines_changes s⟩, yes3, no3⟩, ⟨⟨?_, buyLifeSupport_changes s⟩, yes4, no4⟩, ?_⟩
  · intro hne
    by_contra hc
    exact hne (no1 hc)
  · intro hne
    by_contra hc
    exact hne (no2 hc)
  · intro hne
    by_contra hc
    exact hne (no3 hc)
  · intro hne
    by_contra hc
    exact hne (no4 hc)
  · intro hsafe steps
    exact (playFrames_scrapSafe env steps s hsafe).1

set_option maxRecDepth 1000000 in
unseal Rat.add Rat.mul Rat.inv Rat.sub in
/-- The statement of `purchase_gated_scrap_nonneg` at `shopGame`: with 30 scrap the keys H, U
and E buy the hull and the shielding upgrade (10 + 15) and leave 5, which is below the cost
of the engine upgrade; the frame that follows pays the wave reward of 14, and the balance
after it is not negative. -/
theorem purchase_gated_scrap_nonneg_witness :
    ScrapSafe shopGame ∧
    ((purchases shopKeys shopGame).shop.scrapMetal,
      (purchases shopKeys shopGame).playerShip.hullIntegrity,
      (purchases shopKeys shopGame).playerShip.shielding,
      (purchases shopKeys shopGame).playerShip.engines) = (5, 8, 5, 0) ∧
    buyEngines (buyShielding (buyHull shopGame)) = buyShielding (buyHull shopGame) ∧
    (playFrames evalEnv [(shopKeys, duelInput)] shopGame).shop.scrapMetal = 19 ∧
    0 ≤ (playFrames evalEnv [(shopKeys, duelInput)] shopGame).shop.scrapMetal := by
  have hs : ScrapSafe shopGame := by unfold ScrapSafe; decide
  refine ⟨hs, by decide, ?_, by decide,
    (purchase_gated_scrap_nonneg evalEnv shopGame).2.2.2.2 hs [(shopKeys, duelInput)]⟩
  exact (purchase_gated_scrap_nonneg evalEnv (buyShielding (buyHull shopGame))).2.2.1.2.2
    (by decide)

/-! ## One projectile, one hit -/

theorem hitEnemies_first (env : Env K) (b : Bullet K) (es : List (EnemyNPC K)) (scrap : Int)
    (calls : Nat) (k : Nat) (h : FirstEnemyHit b es k) :
    hitEnemies env b es scrap calls
      = (es.set k (damageEnemy env b.damage (es.getD k default) scrap calls).1,
          (damageEnemy env b.damage (es.getD k default) scrap calls).2.1,
          (damageEnemy env b.damage (es.getD k default) scrap calls).2.2, true) := by
  induction es generalizing k with
  | nil => exact absurd h.1 (by simp)
  | cons e es ih =>
    obtain ⟨h1, h2, h3⟩ := h
    cases k with
    | zero =>
      simp only [List.getD_cons_zero] at h2 ⊢
      rw [hitEnemies_cons_hit env b e es scrap calls h2.1 h2.2]
      rfl
    | succ k =>
      have h0 := h3 0 (Nat.succ_pos k)
      simp only [List.getD_cons_zero] at h0
      have ht : FirstEnemyHit b es k := by
        refine ⟨by simpa using h1, by simpa using h2, ?_⟩
        intro j hj
        have := h3 (j + 1) (Nat.succ_lt_succ hj)
        simpa using this
      have hrec := ih k ht
      simp only [List.getD_cons_succ, List.set_cons_succ]
      by_cases hd : e.alive = false
      · rw [hitEnemies_cons_dead env b e es scrap calls hd, hrec]
      · have ha : e.alive = true := by simpa using hd
        have hb : ¬ bulletInEnemy b e = true := fun hb => h0 ⟨ha, hb⟩
        rw [hitEnemies_cons_miss env b e es scrap calls ha hb, hrec]

theorem hitEnemies_none (env : Env K) (b : Bullet K) (es : List (EnemyNPC K)) (scrap : Int)
    (calls : Nat) (h : NoEnemyHit b es) :
    hitEnemies env b es scrap calls = (es, scrap, calls, false) := by
  induction es with
  | nil => rfl
  | cons e es ih =>
    have hrec := ih (fun q hq => h q (List.mem_cons_of_mem e hq))
    have h0 := h e (List.mem_cons_self e es)
    by_cases hd : e.alive = false
    · rw [hitEnemies_cons_dead env b e es scrap calls hd, hrec]
    · have ha : e.alive = true := by simpa using hd
      have hb : ¬ bulletInEnemy b e = true := fun hb => h0 ⟨ha, hb⟩
      rw [hitEnemies_cons_miss env b e es scrap calls ha hb, hrec]

theorem hitRocks_first (env : Env K) (b : Bullet K) (rs : List Rock) (scrap : Int)
    (calls : Nat) (k : Nat) (h : FirstRockHit b rs k) :
    hitRocks env b rs scrap calls
      = (rs.set k (damageRock env b.damage (rs.getD k default) scrap calls).1,
          (damageRock env b.damage (rs.getD k default) scrap calls).2.1,
          (damageRock env b.damage (rs.getD k default) scrap calls).2.2.1,
          (damageRock env b.damage (rs.getD k default) scrap calls).2.2.2, true) := by
  induction rs generalizing k with
  | nil => exact absurd h.1 (by simp)
  | cons r rs ih =>
    obtain ⟨h1, h2, h3⟩ := h
    cases k with
    | zero =>
      simp only [List.getD_cons_zero] at h2 ⊢
      rw [hitRocks_cons_hit env b r rs scrap calls h2.1 h2.2]
      rfl
    | succ k =>
      have h0 := h3 0 (Nat.succ_pos k)
      simp only [List.getD_cons_zero] at h0
      have ht : FirstRockHit b rs k := by
        refine ⟨by simpa using h1, by simpa using h2, ?_⟩
        intro j hj
        have := h3 (j + 1) (Nat.succ_lt_succ hj)
        simpa using this
      have hrec := ih k ht
      simp only [List.getD_cons_succ, List.set_cons_succ]
      by_cases hd : r.alive = false
      · rw [hitRocks_cons_dead env b r rs scrap calls hd, hrec]
      · have ha : r.alive = true := by simpa using hd
        have hb : ¬ bulletInRock b r = true := fun hb => h0 ⟨ha, hb⟩
        rw [hitRocks_cons_miss env b r rs scrap calls ha hb, hrec]

theorem hitRocks_none (env : Env K) (b : Bullet K) (rs : List Rock) (scrap : Int)
    (calls : Nat) (h : NoRockHit b rs) :
    hitRocks env b rs scrap calls = (rs, scrap, calls, false, false) := by
  induction rs with
  | nil => rfl
  | cons r rs ih =>
    have hrec := ih (fun q hq => h q (List.mem_cons_of_mem r hq))
    have h0 := h r (List.mem_cons_self r rs)
    by_cases hd : r.alive = false
    · rw [hitRocks_cons_dead env b r rs scrap calls hd, hrec]
    · have ha : r.alive = true := by simpa using hd
      have hb : ¬ bulletInRock b r = true := fun hb => h0 ⟨ha, hb⟩
      rw [hitRocks_cons_miss env b r rs scrap calls ha hb, hrec]

theorem first_or_none {α : Type} [Inhabited α] (p : α → Prop) (l : List α) :
    (∃ k, k < l.length ∧ p (l.getD k default) ∧ ∀ j, j < k → ¬ p (l.getD j default)) ∨
      ∀ a ∈ l, ¬ p a := by
  classical
  by_cases h : ∃ k, k < l.length ∧ p (l.getD k default)
  · left
    refine ⟨Nat.find h, (Nat.find_spec h).1, (Nat.find_spec h).2, ?_⟩
    intro j hj hp
    exact Nat.find_min h hj ⟨lt_trans hj (Nat.find_spec h).1, hp⟩
  · right
    intro a ha hp
    obtain ⟨n, hn, rfl⟩ := List.getElem_of_mem ha
    exact h ⟨n, hn, by rw [List.getD_eq_getElem _ _ hn]; exact hp⟩

theorem bulletStep_eq (env : Env K) (dt : K) (bi : Nat) (s : Game K)
    (ha : (s.bullets.getD bi default).active = true)
    (hin : BulletInBounds (s.bullets.getD bi default) dt) :
    bulletStep env dt bi s =
      if (hitEnemies env ((s.bullets.getD bi default).advance dt) s.enemies s.shop.scrapMetal
          s.randCalls).2.2.2 then
        { s with
            enemies := (hitEnemies env ((s.bullets.getD bi default).advance dt) s.enemies
              s.shop.scrapMetal s.randCalls).1,
            shop := { s.shop with scrapMetal := (hitEnemies env
              ((s.bullets.getD bi default).advance dt) s.enemies s.shop.scrapMetal
              s.randCalls).2.1 },
            randCalls := (hitEnemies env ((s.bullets.getD bi default).advance dt) s.enemies
              s.shop.scrapMetal s.randCalls).2.2.1,
            bullets := s.bullets.set bi
              { (s.bullets.getD bi default).advance dt with active := false } }
      else
        { s with
            rocks := (hitRocks env ((s.bullets.getD bi default).advance dt) s.rocks
              s.shop.scrapMetal s.randCalls).1,
            shop := { s.shop with scrapMetal := (hitRocks env
              ((s.bullets.getD bi default).advance dt) s.rocks s.shop.scrapMetal
              s.randCalls).2.1 },
            randCalls := (hitRocks env ((s.bullets.getD bi default).advance dt) s.rocks
              s.shop.scrapMetal s.randCalls).2.2.1,
            rockAssignmentDirty :=
              if (hitRocks env ((s.bullets.getD bi default).advance dt) s.rocks
                s.shop.scrapMetal s.randCalls).2.2.2.1 then true else s.rockAssignmentDirty,
            bullets := s.bullets.set bi
              { (s.bullets.getD bi default).advance dt with
                  active := (hitRocks env ((s.bullets.getD bi default).advance dt) s.rocks
                    s.shop.scrapMetal s.randCalls).2.2.2.2 = false } } := by
  unfold bulletStep
  dsimp only
  rw [if_neg (by rw [ha]; decide), if_neg hin]

/-- C15: the step of the projectile loop for an active projectile that is in bounds after
its move (the state is the one the loop has reached when this projectile comes up, the
position is the moved one).  One of three cases holds.  If enemy `k` is the lowest-index
living enemy whose box contains the position, then enemy `k` takes the damage of the
projectile, every other enemy and every rock is left as it was, and the projectile is
switched off.  If no living enemy contains it and rock `k` is the lowest-index living rock
that does, then rock `k` takes the damage, every other rock and every enemy is left as it
was, and the projectile is switched off.  If neither a living enemy nor a living rock
contains it, enemies, rocks and scrap are left as they were and the projectile stays active
with its damage unchanged. -/
theorem bulletStep_single_hit (env : Env K) (dt : K) (bi : Nat) (s : Game K)
    (hbi : bi < s.bullets.length)
    (ha : (s.bullets.getD bi default).active = true)
    (hin : BulletInBounds (s.bullets.getD bi default) dt) :
    ((∃ k, FirstEnemyHit ((s.bullets.getD bi default).advance dt) s.enemies k) ∨
      (NoEnemyHit ((s.bullets.getD bi default).advance dt) s.enemies ∧
        ∃ k, FirstRockHit ((s.bullets.getD bi default).advance dt) s.rocks k) ∨
      (NoEnemyHit ((s.bullets.getD bi default).advance dt) s.enemies ∧
        NoRockHit ((s.bullets.getD bi default).advance dt) s.rocks)) ∧
    (∀ k, FirstEnemyHit ((s.bullets.getD bi default).advance dt) s.enemies k →
      (bulletStep env dt bi s).enemies
          = s.enemies.set k
              (damageEnemy env (s.bullets.getD bi default).damage (s.enemies.getD k default)
                s.shop.scrapMetal s.randCalls).1 ∧
        (damageEnemy env (s.bullets.getD bi default).damage (s.enemies.getD k default)
            s.shop.scrapMetal s.randCalls).1.hp
          = (s.enemies.getD k default).hp - (s.bullets.getD bi default).damage ∧
        (bulletStep env dt bi s).rocks = s.rocks ∧
        (bulletStep env dt bi s).bullets.getD bi default
          = { (s.bullets.getD bi default).advance dt with active := false }) ∧
    (NoEnemyHit ((s.bullets.getD bi default).advance dt) s.enemies →
      ∀ k, FirstRockHit ((s.bullets.getD bi default).advance dt) s.rocks k →
        (bulletStep env dt bi s).rocks
            = s.rocks.set k
                (damageRock env (s.bullets.getD bi default).damage (s.rocks.getD k default)
                  s.shop.scrapMetal s.randCalls).1 ∧
          (damageRock env (s.bullets.getD bi default).damage (s.rocks.getD k default)
              s.shop.scrapMetal s.randCalls).1.hp
            = (s.rocks.getD k default).hp - (s.bullets.getD bi default).damage ∧
          (bulletStep env dt bi s).enemies = s.enemies ∧
          (bulletStep env dt bi s).bullets.getD bi default
            = { (s.bullets.getD bi default).advance dt with active := false }) ∧
    (NoEnemyHit ((s.bullets.getD bi default).advance dt) s.enemies →
      NoRockHit ((s.bullets.getD bi default).advance dt) s.rocks →
        (bulletStep env dt bi s).enemies = s.enemies ∧
          (bulletStep env dt bi s).rocks = s.rocks ∧
          (bulletStep env dt bi s).shop = s.shop ∧
          (bulletStep env dt bi s).bullets.getD bi default
            = (s.bullets.getD bi default).advance dt ∧
          ((bulletStep env dt bi s).bullets.getD bi default).active = true ∧
          ((bulletStep env dt bi s).bullets.getD bi default).damage
            = (s.bullets.getD bi default).damage) := by
  have hstep := bulletStep_eq env dt bi s ha hin
  refine ⟨?_, ?_, ?_, ?_⟩
  · rcases first_or_none
        (fun e : EnemyNPC K =>
          e.alive = true ∧ bulletInEnemy ((s.bullets.getD bi default).advance dt) e = true)
        s.enemies with h | h
    · exact Or.inl h
    · rcases first_or_none
          (fun r : Rock =>
            r.alive = true ∧ bulletInRock ((s.bullets.getD bi default).advance dt) r = true)
          s.rocks with g | g
      · exact Or.inr (Or.inl ⟨h, g⟩)
      · exact Or.inr (Or.inr ⟨h, g⟩)
  · intro k hk
    have he := hitEnemies_first env ((s.bullets.getD bi default).advance dt) s.enemies
      s.shop.scrapMetal s.randCalls k hk
    rw [he] at hstep
    rw [hstep, if_pos rfl]
    refine ⟨rfl, ?_, rfl, ?_⟩
    · by_cases hkill : (s.enemies.getD k default).hp - (s.bullets.getD bi default).damage ≤ 0
      · rw [damageEnemy_kill env _ _ _ _ hkill]
      · rw [damageEnemy_survive env _ _ _ _ hkill]
    · exact getD_set_self _ _ _ _ hbi
  · intro hno k hk
    have he := hitEnemies_none env ((s.bullets.getD bi default).advance dt) s.enemies
      s.shop.scrapMetal s.randCalls hno
    have hr := hitRocks_first env ((s.bullets.getD bi default).advance dt) s.rocks
      s.shop.scrapMetal s.randCalls k hk
    rw [he, hr] at hstep
    rw [hstep, if_neg Bool.false_ne_true]
    refine ⟨rfl, ?_, rfl, ?_⟩
    · by_cases hkill : (s.rocks.getD k default).hp - (s.bullets.getD bi default).damage ≤ 0
      · rw [damageRock_kill env _ _ _ _ hkill]
      · rw [damageRock_survive env _ _ _ _ hkill]
    · dsimp only
      rw [getD_set_self _ _ _ _ hbi]
      simp
  · intro hno hnr
    have he := hitEnemies_none env ((s.bullets.getD bi default).advance dt) s.enemies
      s.shop.scrapMetal s.randCalls hno
    have hr := hitRocks_none env ((s.bullets.getD bi default).advance dt) s.rocks
      s.shop.scrapMetal s.randCalls hnr
    rw [he, hr] at hstep
    rw [hstep, if_neg Bool.false_ne_true]
    dsimp only
    rw [getD_set_self _ _ _ _ hbi]
    have hb : ({ (s.bullets.getD bi default).advance dt with active := decide (false = false) } :
        Bullet K) = (s.bullets.getD bi default).advance dt := by
      have : ((s.bullets.getD bi default).advance dt).active = true := ha
      cases hq : (s.bullets.getD bi default).advance dt
      rw [hq] at this
      simp only [decide_True, Bullet.mk.injEq, true_and]
      exact this.symm
    refine ⟨rfl, rfl, rfl, ?_, ?_, ?_⟩
    · exact hb
    · rfl
    · rfl

set_option maxRecDepth 1000000 in
unseal Rat.add Rat.mul Rat.inv Rat.sub in
/-- The statement of `bulletStep_single_hit` at `volleyGame` with a frame of 0.1 s: the first
projectile arrives at `(100, 0)`, inside the boxes of all three enemies and of the rock; the
living enemy 1 is the one that is hit (70 to 52 hit points), enemy 2 and the rock keep their
200 hit points, and the projectile is switched off. -/
theorem bulletStep_single_hit_witness :
    (0 < volleyGame.bullets.length ∧ (volleyGame.bullets.getD 0 default).active = true ∧
      BulletInBounds (volleyGame.bullets.getD 0 default) (1 / 10)) ∧
    FirstEnemyHit ((volleyGame.bullets.getD 0 default).advance (1 / 10)) volleyGame.enemies 1 ∧
    bulletInEnemy ((volleyGame.bullets.getD 0 default).advance (1 / 10))
      (volleyGame.enemies.getD 2 default) = true ∧
    bulletInRock ((volleyGame.bullets.getD 0 default).advance (1 / 10))
      (volleyGame.rocks.getD 0 default) = true ∧
    (bulletStep evalEnv (1 / 10) 0 volleyGame).enemies.map (fun e => (e.hp, e.alive))
      = [(0, false), (52, true), (70, true)] ∧
    (bulletStep evalEnv (1 / 10) 0 volleyGame).rocks = volleyGame.rocks ∧
    ((bulletStep evalEnv (1 / 10) 0 volleyGame).bullets.getD 0 default).active = false := by
  have h0 : 0 < volleyGame.bullets.length := by decide
  have h1 : (volleyGame.bullets.getD 0 default).active = true := by decide
  have h2 : BulletInBounds (volleyGame.bullets.getD 0 default) (1 / 10) := by
    unfold BulletInBounds
    decide
  have h3 : FirstEnemyHit ((volleyGame.bullets.getD 0 default).advance (1 / 10))
      volleyGame.enemies 1 := by
    refine ⟨by decide, ⟨by decide, by decide⟩, ?_⟩
    intro j hj
    have hj0 : j = 0 := by omega
    rw [hj0]
    decide
  obtain ⟨_, _, hr, hb⟩ := (bulletStep_single_hit evalEnv (1 / 10) 0 volleyGame h0 h1 h2).2.1 1 h3
  refine ⟨⟨h0, h1, h2⟩, h3, by decide, by decide, by decide, hr, ?_⟩
  rw [hb]

/-! ## The steering step -/

theorem steer_unit (env : Env K) (dt : K) (i : Nat) (s : Game K) (hi : i < s.units.length) :
    (steer env dt i s).unit i =
      { (if (s.unit i).moving then
          if steerDist env (s.unit i) ≤ steerStep dt (s.unit i) ∨
              steerDist env (s.unit i) < 1 / 2 then
            { s.unit i with fx := ((s.unit i).targetX : K), fy := ((s.unit i).targetY : K),
                            moving := false }
          else if steerDist env (s.unit i) > 0 then
            { s.unit i with
                fx := (s.unit i).fx + ((((s.unit i).targetX : K) - (s.unit i).fx)
                  / steerDist env (s.unit i)) * steerStep dt (s.unit i),
                fy := (s.unit i).fy + ((((s.unit i).targetY : K) - (s.unit i).fy)
                  / steerDist env (s.unit i)) * steerStep dt (s.unit i) }
          else s.unit i
        else s.unit i) with
        x := lroundf (if (s.unit i).moving then
          if steerDist env (s.unit i) ≤ steerStep dt (s.unit i) ∨
              steerDist env (s.unit i) < 1 / 2 then
            { s.unit i with fx := ((s.unit i).targetX : K), fy := ((s.unit i).targetY : K),
                            moving := false }
          else if steerDist env (s.unit i) > 0 then
            { s.unit i with
                fx := (s.unit i).fx + ((((s.unit i).targetX : K) - (s.unit i).fx)
                  / steerDist env (s.unit i)) * steerStep dt (s.unit i),
                fy := (s.unit i).fy + ((((s.unit i).targetY : K) - (s.unit i).fy)
                  / steerDist env (s.unit i)) * steerStep dt (s.unit i) }
          else s.unit i
        else s.unit i).fx,
        y := lroundf (if (s.unit i).moving then
          if steerDist env (s.unit i) ≤ steerStep dt (s.unit i) ∨
              steerDist env (s.unit i) < 1 / 2 then
            { s.unit i with fx := ((s.unit i).targetX : K), fy := ((s.unit i).targetY : K),
                            moving := false }
          else if steerDist env (s.unit i) > 0 then
            { s.unit i with
                fx := (s.unit i).fx + ((((s.unit i).targetX : K) - (s.unit i).fx)
                  / steerDist env (s.unit i)) * steerStep dt (s.unit i),
                fy := (s.unit i).fy + ((((s.unit i).targetY : K) - (s.unit i).fy)
                  / steerDist env (s.unit i)) * steerStep dt (s.unit i) }
          else s.unit i
        else s.unit i).fy } := by
  unfold steer
  dsimp only
  rw [unit_setUnit_self _ _ _ hi]
  rfl

theorem steer_snap (env : Env K) (dt : K) (i : Nat) (s : Game K) (hi : i < s.units.length)
    (hm : (s.unit i).moving = true)
    (hc : steerDist env (s.unit i) ≤ steerStep dt (s.unit i) ∨
      steerDist env (s.unit i) < 1 / 2) :
    (steer env dt i s).unit i
      = { s.unit i with fx := ((s.unit i).targetX : K), fy := ((s.unit i).targetY : K),
                        moving := false, x := (s.unit i).targetX, y := (s.unit i).targetY } := by
  rw [steer_unit env dt i s hi, if_pos hm, if_pos hc]
  dsimp only
  rw [lroundf_intCast, lroundf_intCast]

theorem steer_advance (env : Env K) (dt : K) (i : Nat) (s : Game K) (hi : i < s.units.length)
    (hm : (s.unit i).moving = true)
    (hc : ¬ (steerDist env (s.unit i) ≤ steerStep dt (s.unit i) ∨
      steerDist env (s.unit i) < 1 / 2)) :
    (steer env dt i s).unit i
      = { s.unit i with
            fx := (s.unit i).fx + ((((s.unit i).targetX : K) - (s.unit i).fx)
              / steerDist env (s.unit i)) * steerStep dt (s.unit i),
            fy := (s.unit i).fy + ((((s.unit i).targetY : K) - (s.unit i).fy)
              / steerDist env (s.unit i)) * steerStep dt (s.unit i),
            x := lroundf ((s.unit i).fx + ((((s.unit i).targetX : K) - (s.unit i).fx)
              / steerDist env (s.unit i)) * steerStep dt (s.unit i)),
            y := lroundf ((s.unit i).fy + ((((s.unit i).targetY : K) - (s.unit i).fy)
              / steerDist env (s.unit i)) * steerStep dt (s.unit i)) } := by
  have hpos : steerDist env (s.unit i) > 0 := by
    have : ¬ steerDist env (s.unit i) < 1 / 2 := fun h => hc (Or.inr h)
    have h2 : (1 : K) / 2 ≤ steerDist env (s.unit i) := not_lt.mp this
    have h3 : (0 : K) < 1 / 2 := by norm_num
    exact lt_of_lt_of_le h3 h2
  rw [steer_unit env dt i s hi, if_pos hm, if_neg hc, if_pos hpos]

theorem advance_sq (d st a b fx fy tx ty : K) (hd : 0 < d) (hsq : d * d = a * a + b * b)
    (ha : a = tx - fx) (hb : b = ty - fy) :
    (tx - (fx + a / d * st)) * (tx - (fx + a / d * st))
        + (ty - (fy + b / d * st)) * (ty - (fy + b / d * st))
      = (d - st) * (d - st) := by
  have hne : d ≠ 0 := ne_of_gt hd
  have e1 : tx - (fx + a / d * st) = a * ((d - st) / d) := by
    rw [ha]; field_simp; ring
  have e2 : ty - (fy + b / d * st) = b * ((d - st) / d) := by
    rw [hb]; field_simp; ring
  rw [e1, e2]
  have : a * ((d - st) / d) * (a * ((d - st) / d)) + b * ((d - st) / d) * (b * ((d - st) / d))
      = (a * a + b * b) * (((d - st) / d) * ((d - st) / d)) := by ring
  rw [this, ← hsq]
  field_simp

/-- C11: the steering step of unit `i` in a frame with `dt ≥ 0` (the unit's speed is not
negative), in exact arithmetic; `dist` is the distance from the continuous position to the
target point and `step = speed * dt`.  A unit whose movement flag is not set keeps its
continuous position.  A moving unit with `dist ≤ step` or `dist < 0.5` lands exactly on the
target point (continuous and integer position) and its flag is cleared.  Any other moving
unit, when the square root is exact at this input (`dist * dist` is the squared distance),
keeps its flag, moves to `p + t * (target - p)` with `t = step / dist` and `0 ≤ t < 1`, a
point of the segment towards the target, and its distance to the target is then exactly
`dist - step > 0`: the squared distance is `(dist - step)²`, so `dist - step` is the only
non-negative number whose square it is.  In every case the target point is kept, the integer
position is the rounding of the continuous one, and no other unit changes. -/
theorem steer_step_exact (env : Env K) (dt : K) (i : Nat) (s : Game K)
    (hi : i < s.units.length) (hdt : 0 ≤ dt) (hsp : 0 ≤ (s.unit i).speed) :
    ((s.unit i).moving = false →
      ((steer env dt i s).unit i).fx = (s.unit i).fx ∧
        ((steer env dt i s).unit i).fy = (s.unit i).fy ∧
        ((steer env dt i s).unit i).moving = false) ∧
    ((s.unit i).moving = true →
      (steerDist env (s.unit i) ≤ steerStep dt (s.unit i) ∨ steerDist env (s.unit i) < 1 / 2) →
      ((steer env dt i s).unit i).fx = ((s.unit i).targetX : K) ∧
        ((steer env dt i s).unit i).fy = ((s.unit i).targetY : K) ∧
        ((steer env dt i s).unit i).x = (s.unit i).targetX ∧
        ((steer env dt i s).unit i).y = (s.unit i).targetY ∧
        ((steer env dt i s).unit i).moving = false) ∧
    ((s.unit i).moving = true →
      ¬ (steerDist env (s.unit i) ≤ steerStep dt (s.unit i) ∨
        steerDist env (s.unit i) < 1 / 2) →
      steerDist env (s.unit i) * steerDist env (s.unit i)
        = sqDistTo (s.unit i) (s.unit i).targetX (s.unit i).targetY →
      ((steer env dt i s).unit i).moving = true ∧
        0 ≤ steerStep dt (s.unit i) / steerDist env (s.unit i) ∧
        steerStep dt (s.unit i) / steerDist env (s.unit i) < 1 ∧
        ((steer env dt i s).unit i).fx
          = (s.unit i).fx + steerStep dt (s.unit i) / steerDist env (s.unit i)
              * (((s.unit i).targetX : K) - (s.unit i).fx) ∧
        ((steer env dt i s).unit i).fy
          = (s.unit i).fy + steerStep dt (s.unit i) / steerDist env (s.unit i)
              * (((s.unit i).targetY : K) - (s.unit i).fy) ∧
        0 < steerDist env (s.unit i) - steerStep dt (s.unit i) ∧
        sqDistTo ((steer env dt i s).unit i) (s.unit i).targetX (s.unit i).targetY
          = (steerDist env (s.unit i) - steerStep dt (s.unit i))
              * (steerDist env (s.unit i) - steerStep dt (s.unit i)) ∧
        ∀ r : K, 0 ≤ r →
          r * r = sqDistTo ((steer env dt i s).unit i) (s.unit i).targetX (s.unit i).targetY →
          r = steerDist env (s.unit i) - steerStep dt (s.unit i)) ∧
    (((steer env dt i s).unit i).targetX = (s.unit i).targetX ∧
      ((steer env dt i s).unit i).targetY = (s.unit i).targetY ∧
      ((steer env dt i s).unit i).x = lroundf ((steer env dt i s).unit i).fx ∧
      ((steer env dt i s).unit i).y = lroundf ((steer env dt i s).unit i).fy) ∧
    (∀ j, j ≠ i → (steer env dt i s).unit j = s.unit j) := by
  refine ⟨?_, ?_, ?_, ?_, ?_⟩
  · intro hm
    rw [steer_unit_still env dt i s hi hm]
    exact ⟨rfl, rfl, hm⟩
  · intro hm hc
    rw [steer_snap env dt i s hi hm hc]
    exact ⟨rfl, rfl, rfl, rfl, rfl⟩
  · intro hm hc hex
    have h1 : ¬ steerDist env (s.unit i) ≤ steerStep dt (s.unit i) := fun h => hc (Or.inl h)
    have h2 : ¬ steerDist env (s.unit i) < 1 / 2 := fun h => hc (Or.inr h)
    have hgt : steerStep dt (s.unit i) < steerDist env (s.unit i) := not_le.mp h1
    have hhalf : (1 : K) / 2 ≤ steerDist env (s.unit i) := not_lt.mp h2
    have hpos : 0 < steerDist env (s.unit i) :=
      lt_of_lt_of_le (by norm_num : (0 : K) < 1 / 2) hhalf
    have hst : 0 ≤ steerStep dt (s.unit i) := by
      unfold steerStep
      exact mul_nonneg (by exact_mod_cast hsp) hdt
    have hrem : 0 < steerDist env (s.unit i) - steerStep dt (s.unit i) := by linarith
    have hsq : sqDistTo ((steer env dt i s).unit i) (s.unit i).targetX (s.unit i).targetY
        = (steerDist env (s.unit i) - steerStep dt (s.unit i))
            * (steerDist env (s.unit i) - steerStep dt (s.unit i)) := by
      rw [steer_advance env dt i s hi hm hc]
      unfold sqDistTo
      dsimp only
      exact advance_sq _ _ _ _ _ _ _ _ hpos (by rw [hex]; rfl) rfl rfl
    refine ⟨?_, div_nonneg hst (le_of_lt hpos), (div_lt_one hpos).2 hgt, ?_, ?_, hrem, hsq, ?_⟩
    · rw [steer_advance env dt i s hi hm hc]
      exact hm
    · rw [steer_advance env dt i s hi hm hc]
      dsimp only
      ring
    · rw [steer_advance env dt i s hi hm hc]
      dsimp only
      ring
    · intro r hr hrr
      rw [hsq] at hrr
      rcases mul_self_eq_mul_self_iff.1 hrr with h | h
      · exact h
      · exfalso
        linarith
  · rw [steer_unit env dt i s hi]
    refine ⟨?_, ?_, rfl, rfl⟩
    · dsimp only
      split_ifs <;> rfl
    · dsimp only
      split_ifs <;> rfl
  · intro j hj
    unfold steer Game.setUnit Game.unit
    dsimp only
    rw [getD_set_ne _ _ _ _ _ hj]

set_option maxRecDepth 1000000 in
unseal Rat.add Rat.mul Rat.inv Rat.sub in
/-- The statement of `steer_step_exact` at `marchGame` with a frame of 0.1 s: the unit is 50
away from its target and covers 20, so it moves from the origin to `(12, 16)`, two fifths of
the way, keeps its flag, and is then 30 away. -/
theorem steer_step_exact_witness :
    (0 < marchGame.units.length ∧ (0 : ℚ) ≤ 1 / 10 ∧ 0 ≤ (marchGame.unit 0).speed) ∧
    ((marchGame.unit 0).moving = true ∧
      ¬ (steerDist evalEnv (marchGame.unit 0) ≤ steerStep (1 / 10) (marchGame.unit 0) ∨
        steerDist evalEnv (marchGame.unit 0) < 1 / 2) ∧
      steerDist evalEnv (marchGame.unit 0) * steerDist evalEnv (marchGame.unit 0)
        = sqDistTo (marchGame.unit 0) (marchGame.unit 0).targetX (marchGame.unit 0).targetY) ∧
    (steerDist evalEnv (marchGame.unit 0), steerStep (1 / 10) (marchGame.unit 0)) = (50, 20) ∧
    (((steer evalEnv (1 / 10) 0 marchGame).unit 0).fx,
      ((steer evalEnv (1 / 10) 0 marchGame).unit 0).fy) = (12, 16) ∧
    ((steer evalEnv (1 / 10) 0 marchGame).unit 0).moving = true ∧
    steerDist evalEnv ((steer evalEnv (1 / 10) 0 marchGame).unit 0)
      = steerDist evalEnv (marchGame.unit 0) - steerStep (1 / 10) (marchGame.unit 0) := by
  have h0 : 0 < marchGame.units.length := by decide
  have h1 : (0 : ℚ) ≤ 1 / 10 := by decide
  have h2 : 0 ≤ (marchGame.unit 0).speed := by decide
  have hm : (marchGame.unit 0).moving = true := by decide
  have hc : ¬ (steerDist evalEnv (marchGame.unit 0) ≤ steerStep (1 / 10) (marchGame.unit 0) ∨
      steerDist evalEnv (marchGame.unit 0) < 1 / 2) := by decide
  have hex : steerDist evalEnv (marchGame.unit 0) * steerDist evalEnv (marchGame.unit 0)
      = sqDistTo (marchGame.unit 0) (marchGame.unit 0).targetX (marchGame.unit 0).targetY := by
    decide
  obtain ⟨hmov, _, _, _, _, _, _, huniq⟩ :=
    (steer_step_exact evalEnv (1 / 10) 0 marchGame h0 h1 h2).2.2.1 hm hc hex
  refine ⟨⟨h0, h1, h2⟩, ⟨hm, hc, hex⟩, by decide, by decide, hmov, ?_⟩
  exact huniq _ (by decide) (by decide)

/-! ## The enemy's decision table -/

theorem closestUnitFrom_spec (env : Env K) (ex ey : K) (l : List (Unit K)) (j : Nat)
    (best : Int × K) :
    (closestUnitFrom env ex ey l j best = best ∧
        ∀ u ∈ l, best.2 ≤ unitDistFrom env ex ey u) ∨
      ∃ k, k < l.length ∧
        closestUnitFrom env ex ey l j best
          = (((j + k : Nat) : Int), unitDistFrom env ex ey (l.getD k default)) ∧
        unitDistFrom env ex ey (l.getD k default) < best.2 ∧
        (∀ u ∈ l, unitDistFrom env ex ey (l.getD k default) ≤ unitDistFrom env ex ey u) ∧
        ∀ m, m < k →
          unitDistFrom env ex ey (l.getD k default) < unitDistFrom env ex ey (l.getD m default) := by
  induction l generalizing j best with
  | nil => exact Or.inl ⟨rfl, fun u hu => absurd hu (List.not_mem_nil u)⟩
  | cons u rest ih =>
    by_cases hlt : unitDistFrom env ex ey u < best.2
    · have hstep : closestUnitFrom env ex ey (u :: rest) j best
          = closestUnitFrom env ex ey rest (j + 1) ((j : Int), unitDistFrom env ex ey u) := by
        rw [closestUnitFrom]
        exact if_pos hlt
      rw [hstep]
      rcases ih (j + 1) ((j : Int), unitDistFrom env ex ey u) with ⟨h1, h2⟩ | ⟨k, hk, h1, h2, h3, h4⟩
      · right
        refine ⟨0, by simp, ?_, ?_, ?_, ?_⟩
        · rw [h1]; simp
        · simpa using hlt
        · intro v hv
          rcases List.mem_cons.1 hv with h | h
          · rw [h]; simp
          · simpa using h2 v h
        · intro m hm
          exact absurd hm (Nat.not_lt_zero m)
      · right
        refine ⟨k + 1, by simpa using hk, ?_, ?_, ?_, ?_⟩
        · rw [h1]
          simp only [List.getD_cons_succ]
          congr 2
          omega
        · simp only [List.getD_cons_succ]
          exact lt_trans h2 hlt
        · intro v hv
          simp only [List.getD_cons_succ]
          rcases List.mem_cons.1 hv with h | h
          · rw [h]; exact le_of_lt h2
          · exact h3 v h
        · intro m hm
          simp only [List.getD_cons_succ]
          cases m with
          | zero => simpa using h2
          | succ m =>
            simp only [List.getD_cons_succ]
            exact h4 m (by omega)
    · have hstep : closestUnitFrom env ex ey (u :: rest) j best
          = closestUnitFrom env ex ey rest (j + 1) best := by
        rw [closestUnitFrom]
        exact if_neg hlt
      rw [hstep]
      rcases ih (j + 1) best with ⟨h1, h2⟩ | ⟨k, hk, h1, h2, h3, h4⟩
      · left
        refine ⟨h1, ?_⟩
        intro v hv
        rcases List.mem_cons.1 hv with h | h
        · rw [h]; exact not_lt.mp hlt
        · exact h2 v h
      · right
        have hu : unitDistFrom env ex ey (rest.getD k default) < unitDistFrom env ex ey u :=
          lt_of_lt_of_le h2 (not_lt.mp hlt)
        refine ⟨k + 1, by simpa using hk, ?_, ?_, ?_, ?_⟩
        · rw [h1]
          simp only [List.getD_cons_succ]
          congr 2
          omega
        · simp only [List.getD_cons_succ]
          exact h2
        · intro v hv
          simp only [List.getD_cons_succ]
          rcases List.mem_cons.1 hv with h | h
          · rw [h]; exact le_of_lt hu
          · exact h3 v h
        · intro m hm
          simp only [List.getD_cons_succ]
          cases m with
          | zero => simpa using hu
          | succ m =>
            simp only [List.getD_cons_succ]
            exact h4 m (by omega)

theorem enemyClosest_spec (env : Env K) (e : EnemyNPC K) (s : Game K) :
    (enemyClosest env e s = (-1, SENTINEL) ∧
        ∀ u ∈ s.units, (SENTINEL : K) ≤ unitDistFrom env e.fx e.fy u) ∨
      ∃ k, NearestUnit env e s k ∧
        enemyClosest env e s = ((k : Int), unitDistFrom env e.fx e.fy (s.unit k)) ∧
        unitDistFrom env e.fx e.fy (s.unit k) < SENTINEL := by
  rcases closestUnitFrom_spec env e.fx e.fy s.units 0 (-1, SENTINEL) with
    ⟨h1, h2⟩ | ⟨k, hk, h1, h2, h3, h4⟩
  · exact Or.inl ⟨h1, h2⟩
  · right
    refine ⟨k, ⟨hk, h3, h4⟩, ?_, h2⟩
    unfold enemyClosest
    rw [h1]
    simp [Game.unit]

theorem unitInDetection_iff (env : Env K) (e : EnemyNPC K) (s : Game K)
    (hdet : e.detectionRange < SENTINEL) :
    ((enemyClosest env e s).1 ≥ 0 ∧ (enemyClosest env e s).2 ≤ e.detectionRange) ↔
      SpecUnitInDetection env e s := by
  rcases enemyClosest_spec env e s with ⟨h1, h2⟩ | ⟨k, ⟨hk, h3, h4⟩, h1, h2⟩
  · rw [h1]
    constructor
    · rintro ⟨h, _⟩
      exact absurd h (show ¬ ((-1 : Int) ≥ 0) by decide)
    · rintro ⟨u, hu, hd⟩
      exact absurd (lt_of_le_of_lt (le_trans (h2 u hu) hd) hdet) (lt_irrefl _)
  · rw [h1]
    constructor
    · rintro ⟨_, h⟩
      refine ⟨s.unit k, ?_, h⟩
      unfold Game.unit
      rw [List.getD_eq_getElem _ _ hk]
      exact List.getElem_mem hk
    · rintro ⟨u, hu, hd⟩
      exact ⟨Int.natCast_nonneg k, le_trans (h3 u hu) hd⟩

theorem enemyEngagesUnit_iff (env : Env K) (e : EnemyNPC K) (s : Game K) :
    enemyEngagesUnit env e s = true ↔
      ¬ enemyShipDist env e s ≤ e.attackRange + 10 ∧ ¬ e.prioritizeShip = true ∧
        ((enemyClosest env e s).1 ≥ 0 ∧ (enemyClosest env e s).2 ≤ e.detectionRange) := by
  unfold enemyEngagesUnit engagingUnit
  simp only [Bool.and_eq_true, Bool.not_eq_true', decide_eq_false_iff_not, decide_eq_true_eq,
    Bool.not_eq_true]
  tauto

theorem enemyEngagesShip_iff (env : Env K) (e : EnemyNPC K) (s : Game K) :
    enemyEngagesShip env e s = true ↔
      enemyShipDist env e s ≤ e.attackRange + 10 ∨ e.prioritizeShip = true ∨
        (¬ enemyEngagesUnit env e s = true ∧ enemyShipDist env e s ≤ e.shipDetectionRange) := by
  unfold enemyEngagesShip engagingShip enemyEngagesUnit
  simp only [Bool.or_eq_true, Bool.and_eq_true, Bool.not_eq_true', decide_eq_true_eq,
    Bool.not_eq_true]
  tauto

theorem enemyUpdate_alive (env : Env K) (dt : K) (i : Nat) (s : Game K)
    (halive : (s.enemies.getD i default).alive = true) :
    enemyUpdate env dt i s =
      if enemyEngagesUnit env (s.enemies.getD i default) s
          || enemyEngagesShip env (s.enemies.getD i default) s then
        if enemyTargetDist env (s.enemies.getD i default) s
              ≤ (s.enemies.getD i default).attackRange ∧
            (s.enemies.getD i default).timeSinceLastAttack + dt
              ≥ (s.enemies.getD i default).attackCooldown then
          { enemyStrike (enemyEngagesUnit env (s.enemies.getD i default) s)
              (enemyEngagesShip env (s.enemies.getD i default) s)
              (enemyClosest env (s.enemies.getD i default) s).1
              (s.enemies.getD i default).attackDamage s with
            enemies :=
              (enemyStrike (enemyEngagesUnit env (s.enemies.getD i default) s)
                (enemyEngagesShip env (s.enemies.getD i default) s)
                (enemyClosest env (s.enemies.getD i default) s).1
                (s.enemies.getD i default).attackDamage s).enemies.set i
                { enemyAdvance env dt
                    { s.enemies.getD i default with
                        timeSinceLastAttack :=
                          (s.enemies.getD i default).timeSinceLastAttack + dt }
                    (enemyClosest env (s.enemies.getD i default) s).1
                    (enemyClosest env (s.enemies.getD i default) s).2
                    (s.unit (enemyClosest env (s.enemies.getD i default) s).1.toNat)
                    (if enemyEngagesUnit env (s.enemies.getD i default) s then
                      (s.unit (enemyClosest env (s.enemies.getD i default) s).1.toNat).cx
                     else s.playerShip.x)
                    (if enemyEngagesUnit env (s.enemies.getD i default) s then
                      (s.unit (enemyClosest env (s.enemies.getD i default) s).1.toNat).cy
                     else s.playerShip.y)
                    (enemyTargetDist env (s.enemies.getD i default) s) with
                  timeSinceLastAttack := 0 } }
        else
          { s with
            enemies := s.enemies.set i
              (enemyAdvance env dt
                { s.enemies.getD i default with
                    timeSinceLastAttack := (s.enemies.getD i default).timeSinceLastAttack + dt }
                (enemyClosest env (s.enemies.getD i default) s).1
                (enemyClosest env (s.enemies.getD i default) s).2
                (s.unit (enemyClosest env (s.enemies.getD i default) s).1.toNat)
                (if enemyEngagesUnit env (s.enemies.getD i default) s then
                  (s.unit (enemyClosest env (s.enemies.getD i default) s).1.toNat).cx
                 else s.playerShip.x)
                (if enemyEngagesUnit env (s.enemies.getD i default) s then
                  (s.unit (enemyClosest env (s.enemies.getD i default) s).1.toNat).cy
                 else s.playerShip.y)
                (enemyTargetDist env (s.enemies.getD i default) s)) }
      else
        { s with
          enemies := s.enemies.set i
            { s.enemies.getD i default with
                timeSinceLastAttack := (s.enemies.getD i default).timeSinceLastAttack + dt } } := by
  have hstats : ∀ (e : EnemyNPC K) (a : Int) (b : K) (cu : Unit K) (tx ty d : K),
      (enemyAdvance env dt e a b cu tx ty d).attackRange = e.attackRange ∧
      (enemyAdvance env dt e a b cu tx ty d).timeSinceLastAttack = e.timeSinceLastAttack ∧
      (enemyAdvance env dt e a b cu tx ty d).attackCooldown = e.attackCooldown ∧
      (enemyAdvance env dt e a b cu tx ty d).attackDamage = e.attackDamage := by
    intro e a b cu tx ty d
    unfold enemyAdvance enemyMove
    dsimp only
    split_ifs <;> exact ⟨rfl, rfl, rfl, rfl⟩
  unfold enemyUpdate
  dsimp only
  rw [if_neg (by rw [halive]; decide)]
  simp only [(hstats _ _ _ _ _ _ _).1, (hstats _ _ _ _ _ _ _).2.1, (hstats _ _ _ _ _ _ _).2.2.1,
    (hstats _ _ _ _ _ _ _).2.2.2]
  rfl

/-- C12: for a living enemy (whose detection range is below the sentinel `1e9` that starts the
scan for the closest unit) the two flags of the code are the decision table of the
specification: `engagingShip` holds exactly when the ship is within `attackRange + 10`, or
the enemy prioritizes the ship, or no unit is within `detectionRange` and the ship is within
`shipDetectionRange`; `engagingUnit` holds exactly when some unit is within `detectionRange`
and neither of the first two conditions holds, and the unit the code then targets is the
nearest one (the first of the list among equally near ones).  The two outcomes exclude each
other, and when neither holds the update only advances the enemy's attack timer: its position
and every hp value (units, ship, enemies) are left as they were. -/
theorem enemy_decision_table (env : Env K) (dt : K) (i : Nat) (s : Game K)
    (hi : i < s.enemies.length)
    (halive : (s.enemies.getD i default).alive = true)
    (hdet : (s.enemies.getD i default).detectionRange < SENTINEL) :
    (enemyEngagesShip env (s.enemies.getD i default) s = true ↔
      SpecTargetsObjective env (s.enemies.getD i default) s) ∧
    (enemyEngagesUnit env (s.enemies.getD i default) s = true ↔
      SpecTargetsUnit env (s.enemies.getD i default) s) ∧
    ¬ (SpecTargetsObjective env (s.enemies.getD i default) s ∧
        SpecTargetsUnit env (s.enemies.getD i default) s) ∧
    (SpecTargetsUnit env (s.enemies.getD i default) s →
      ∃ k, NearestUnit env (s.enemies.getD i default) s k ∧
        (enemyClosest env (s.enemies.getD i default) s).1 = (k : Int) ∧
        (enemyClosest env (s.enemies.getD i default) s).2
          = unitDistFrom env (s.enemies.getD i default).fx (s.enemies.getD i default).fy
              (s.unit k) ∧
        unitDistFrom env (s.enemies.getD i default).fx (s.enemies.getD i default).fy (s.unit k)
          ≤ (s.enemies.getD i default).detectionRange) ∧
    (¬ SpecTargetsObjective env (s.enemies.getD i default) s →
      ¬ SpecTargetsUnit env (s.enemies.getD i default) s →
      enemyUpdate env dt i s
          = { s with
              enemies := s.enemies.set i
                { s.enemies.getD i default with
                    timeSinceLastAttack :=
                      (s.enemies.getD i default).timeSinceLastAttack + dt } } ∧
        ((enemyUpdate env dt i s).enemies.getD i default).fx = (s.enemies.getD i default).fx ∧
        ((enemyUpdate env dt i s).enemies.getD i default).fy = (s.enemies.getD i default).fy ∧
        ((enemyUpdate env dt i s).enemies.getD i default).x = (s.enemies.getD i default).x ∧
        ((enemyUpdate env dt i s).enemies.getD i default).y = (s.enemies.getD i default).y ∧
        (enemyUpdate env dt i s).units = s.units ∧
        (enemyUpdate env dt i s).playerShip = s.playerShip ∧
        ∀ j, ((enemyUpdate env dt i s).enemies.getD j default).hp
          = (s.enemies.getD j default).hp) := by
  have hdetect := unitInDetection_iff env (s.enemies.getD i default) s hdet
  have hU : enemyEngagesUnit env (s.enemies.getD i default) s = true ↔
      SpecTargetsUnit env (s.enemies.getD i default) s := by
    rw [enemyEngagesUnit_iff, hdetect]
    unfold SpecTargetsUnit
    tauto
  have hS : enemyEngagesShip env (s.enemies.getD i default) s = true ↔
      SpecTargetsObjective env (s.enemies.getD i default) s := by
    rw [enemyEngagesShip_iff, hU]
    unfold SpecTargetsObjective SpecTargetsUnit
    tauto
  refine ⟨hS, hU, ?_, ?_, ?_⟩
  · unfold SpecTargetsObjective SpecTargetsUnit
    tauto
  · intro hspec
    have hin : (enemyClosest env (s.enemies.getD i default) s).1 ≥ 0 ∧
        (enemyClosest env (s.enemies.getD i default) s).2
          ≤ (s.enemies.getD i default).detectionRange := hdetect.2 hspec.1
    rcases enemyClosest_spec env (s.enemies.getD i default) s with ⟨h1, _⟩ | ⟨k, hk, h1, _⟩
    · rw [h1] at hin
      exact absurd hin.1 (show ¬ ((-1 : Int) ≥ 0) by decide)
    · rw [h1] at hin
      exact ⟨k, hk, by rw [h1], by rw [h1], hin.2⟩
  · intro hnS hnU
    have hu : enemyEngagesUnit env (s.enemies.getD i default) s = false := by
      cases h : enemyEngagesUnit env (s.enemies.getD i default) s
      · rfl
      · exact absurd (hU.1 h) hnU
    have hs : enemyEngagesShip env (s.enemies.getD i default) s = false := by
      cases h : enemyEngagesShip env (s.enemies.getD i default) s
      · rfl
      · exact absurd (hS.1 h) hnS
    have heq : enemyUpdate env dt i s
        = { s with
            enemies := s.enemies.set i
              { s.enemies.getD i default with
                  timeSinceLastAttack :=
                    (s.enemies.getD i default).timeSinceLastAttack + dt } } := by
      rw [enemyUpdate_alive env dt i s halive, hu, hs]
      rfl
    rw [heq]
    refine ⟨rfl, ?_, ?_, ?_, ?_, rfl, rfl, ?_⟩
    · dsimp only; rw [getD_set_self _ _ _ _ hi]
    · dsimp only; rw [getD_set_self _ _ _ _ hi]
    · dsimp only; rw [getD_set_self _ _ _ _ hi]
    · dsimp only; rw [getD_set_self _ _ _ _ hi]
    · intro j
      dsimp only
      by_cases hj : j = i
      · rw [hj, getD_set_self _ _ _ _ hi]
      · rw [getD_set_ne _ _ _ _ _ hj]

set_option maxRecDepth 1000000 in
unseal Rat.add Rat.mul Rat.inv Rat.sub in
/-- The statement of `enemy_decision_table` at the enemy of `duelGame`: the ship is far away,
the enemy does not prioritize it, and the rifleman is 100 away, within the detection range of
450; the enemy engages the unit, which is unit 0, and not the ship. -/
theorem enemy_decision_table_witness :
    (0 < duelGame.enemies.length ∧ (duelGame.enemies.getD 0 default).alive = true ∧
      (duelGame.enemies.getD 0 default).detectionRange < (SENTINEL : ℚ)) ∧
    (enemyEngagesUnit evalEnv (duelGame.enemies.getD 0 default) duelGame,
      enemyEngagesShip evalEnv (duelGame.enemies.getD 0 default) duelGame) = (true, false) ∧
    SpecTargetsUnit evalEnv (duelGame.enemies.getD 0 default) duelGame ∧
    ¬ SpecTargetsObjective evalEnv (duelGame.enemies.getD 0 default) duelGame ∧
    (enemyClosest evalEnv (duelGame.enemies.getD 0 default) duelGame) = (0, 100) := by
  have h0 : 0 < duelGame.enemies.length := by decide
  have h1 : (duelGame.enemies.getD 0 default).alive = true := by decide
  have h2 : (duelGame.enemies.getD 0 default).detectionRange < (SENTINEL : ℚ) := by decide
  have hu : enemyEngagesUnit evalEnv (duelGame.enemies.getD 0 default) duelGame = true := by
    decide
  have hs : ¬ enemyEngagesShip evalEnv (duelGame.enemies.getD 0 default) duelGame = true := by
    decide
  have ht := enemy_decision_table evalEnv (1 / 5) 0 duelGame h0 h1 h2
  exact ⟨⟨h0, h1, h2⟩, by decide, ht.2.1.1 hu, fun h => hs (ht.1.2 h), by decide⟩

/-! ## The enemy's attack -/

theorem enemyAdvance_stats (env : Env K) (dt : K) (e : EnemyNPC K) (a : Int) (b : K)
    (cu : Unit K) (tx ty d : K) :
    (enemyAdvance env dt e a b cu tx ty d).hp = e.hp ∧
    (enemyAdvance env dt e a b cu tx ty d).attackDamage = e.attackDamage ∧
    (enemyAdvance env dt e a b cu tx ty d).timeSinceLastAttack = e.timeSinceLastAttack := by
  unfold enemyAdvance enemyMove
  dsimp only
  split_ifs <;> exact ⟨rfl, rfl, rfl⟩

theorem getD_set_hp (l : List (EnemyNPC K)) (i : Nat) (e1 : EnemyNPC K)
    (h : e1.hp = (l.getD i default).hp) (j : Nat) :
    ((l.set i e1).getD j default).hp = (l.getD j default).hp := by
  by_cases hj : j = i
  · by_cases hi : i < l.length
    · rw [hj, getD_set_self _ _ _ _ hi, h]
    · rw [List.set_eq_of_length_le (not_lt.mp hi)]
  · rw [getD_set_ne _ _ _ _ _ hj]

theorem enemyUpdate_attack (env : Env K) (dt : K) (i : Nat) (s : Game K)
    (halive : (s.enemies.getD i default).alive = true)
    (h : EnemyAttacks env dt (s.enemies.getD i default) s) :
    enemyUpdate env dt i s =
      { enemyStrike (enemyEngagesUnit env (s.enemies.getD i default) s)
          (enemyEngagesShip env (s.enemies.getD i default) s)
          (enemyClosest env (s.enemies.getD i default) s).1
          (s.enemies.getD i default).attackDamage s with
        enemies :=
          (enemyStrike (enemyEngagesUnit env (s.enemies.getD i default) s)
            (enemyEngagesShip env (s.enemies.getD i default) s)
            (enemyClosest env (s.enemies.getD i default) s).1
            (s.enemies.getD i default).attackDamage s).enemies.set i
            { enemyAdvance env dt
                { s.enemies.getD i default with
                    timeSinceLastAttack :=
                      (s.enemies.getD i default).timeSinceLastAttack + dt }
                (enemyClosest env (s.enemies.getD i default) s).1
                (enemyClosest env (s.enemies.getD i default) s).2
                (s.unit (enemyClosest env (s.enemies.getD i default) s).1.toNat)
                (if enemyEngagesUnit env (s.enemies.getD i default) s then
                  (s.unit (enemyClosest env (s.enemies.getD i default) s).1.toNat).cx
                 else s.playerShip.x)
                (if enemyEngagesUnit env (s.enemies.getD i default) s then
                  (s.unit (enemyClosest env (s.enemies.getD i default) s).1.toNat).cy
                 else s.playerShip.y)
                (enemyTargetDist env (s.enemies.getD i default) s) with
              timeSinceLastAttack := 0 } } := by
  obtain ⟨h1, h2, h3⟩ := h
  have hor : (enemyEngagesUnit env (s.enemies.getD i default) s
      || enemyEngagesShip env (s.enemies.getD i default) s) = true := by
    exact Bool.or_eq_true_iff.2 h1
  rw [enemyUpdate_alive env dt i s halive, if_pos hor, if_pos ⟨h2, h3⟩]

theorem enemyUpdate_no_attack (env : Env K) (dt : K) (i : Nat) (s : Game K)
    (halive : (s.enemies.getD i default).alive = true)
    (h : ¬ EnemyAttacks env dt (s.enemies.getD i default) s) :
    ∃ e1 : EnemyNPC K,
      enemyUpdate env dt i s = { s with enemies := s.enemies.set i e1 } ∧
      e1.hp = (s.enemies.getD i default).hp ∧
      e1.timeSinceLastAttack = (s.enemies.getD i default).timeSinceLastAttack + dt := by
  rw [enemyUpdate_alive env dt i s halive]
  by_cases hor : (enemyEngagesUnit env (s.enemies.getD i default) s
      || enemyEngagesShip env (s.enemies.getD i default) s) = true
  · have hc : ¬ (enemyTargetDist env (s.enemies.getD i default) s
          ≤ (s.enemies.getD i default).attackRange ∧
        (s.enemies.getD i default).timeSinceLastAttack + dt
          ≥ (s.enemies.getD i default).attackCooldown) := by
      intro hc
      apply h
      exact ⟨Bool.or_eq_true_iff.1 hor, hc.1, hc.2⟩
    rw [if_pos hor, if_neg hc]
    exact ⟨_, rfl, (enemyAdvance_stats env dt _ _ _ _ _ _ _).1,
      (enemyAdvance_stats env dt _ _ _ _ _ _ _).2.2⟩
  · rw [if_neg hor]
    exact ⟨_, rfl, rfl, rfl⟩

/-- C13 (amended): the update of a living enemy `i` in a frame of frame time `dt`.  The enemy
attacks exactly under `EnemyAttacks`: it has a target, its distance to that target as
measured at the start of its update (before the step away from a unit of that frame, when it
takes one) is at most `attackRange`, and its attack timer, `dt` added, is at least
`attackCooldown`.  When it attacks while engaging a unit, the target is its nearest
unit `k`, whose hp becomes `max 0 (hp - trunc attackDamage)`, and no other unit and not the
ship changes; when it attacks otherwise, the hp of the ship becomes
`max 0 (hp - trunc attackDamage)` and no unit changes; in both cases no enemy hp changes and
the enemy's timer is reset to 0.  When it does not attack (in particular when the distance
exceeds `attackRange` or the timer is below the cooldown), no unit, not the ship and no enemy
hp changes, and the timer is not reset: it is the old one plus `dt`.  An enemy that attacks
does not move in that frame, except for the step away from a unit inside its avoidance
radius: outside that branch the distance that is tested is also the distance at which the
damage is applied. -/
theorem enemy_attack_gated (env : Env K) (dt : K) (i : Nat) (s : Game K)
    (hi : i < s.enemies.length)
    (halive : (s.enemies.getD i default).alive = true) :
    (EnemyAttacks env dt (s.enemies.getD i default) s →
      enemyEngagesUnit env (s.enemies.getD i default) s = true →
      ∃ k, NearestUnit env (s.enemies.getD i default) s k ∧
        (enemyClosest env (s.enemies.getD i default) s).1 = (k : Int) ∧
        enemyTargetDist env (s.enemies.getD i default) s
          = unitDistFrom env (s.enemies.getD i default).fx (s.enemies.getD i default).fy
              (s.unit k) ∧
        ((enemyUpdate env dt i s).unit k).hp
          = max 0 ((s.unit k).hp - truncInt (s.enemies.getD i default).attackDamage) ∧
        (∀ j, j ≠ k → (enemyUpdate env dt i s).unit j = s.unit j) ∧
        (enemyUpdate env dt i s).units.length = s.units.length ∧
        (enemyUpdate env dt i s).playerShip = s.playerShip ∧
        ((enemyUpdate env dt i s).enemies.getD i default).timeSinceLastAttack = 0 ∧
        ∀ j, ((enemyUpdate env dt i s).enemies.getD j default).hp
          = (s.enemies.getD j default).hp) ∧
    (EnemyAttacks env dt (s.enemies.getD i default) s →
      enemyEngagesUnit env (s.enemies.getD i default) s = false →
      enemyEngagesShip env (s.enemies.getD i default) s = true ∧
        enemyTargetDist env (s.enemies.getD i default) s
          = enemyShipDist env (s.enemies.getD i default) s ∧
        (enemyUpdate env dt i s).playerShip
          = { s.playerShip with
              hp := max 0 (s.playerShip.hp
                - truncInt (s.enemies.getD i default).attackDamage) } ∧
        (enemyUpdate env dt i s).units = s.units ∧
        ((enemyUpdate env dt i s).enemies.getD i default).timeSinceLastAttack = 0 ∧
        ∀ j, ((enemyUpdate env dt i s).enemies.getD j default).hp
          = (s.enemies.getD j default).hp) ∧
    (¬ EnemyAttacks env dt (s.enemies.getD i default) s →
      (enemyUpdate env dt i s).units = s.units ∧
        (enemyUpdate env dt i s).playerShip = s.playerShip ∧
        ((enemyUpdate env dt i s).enemies.getD i default).timeSinceLastAttack
          = (s.enemies.getD i default).timeSinceLastAttack + dt ∧
        ∀ j, ((enemyUpdate env dt i s).enemies.getD j default).hp
          = (s.enemies.getD j default).hp) ∧
    ((enemyTargetDist env (s.enemies.getD i default) s > (s.enemies.getD i default).attackRange ∨
        (s.enemies.getD i default).timeSinceLastAttack + dt
          < (s.enemies.getD i default).attackCooldown) →
      ¬ EnemyAttacks env dt (s.enemies.getD i default) s) ∧
    (EnemyAttacks env dt (s.enemies.getD i default) s →
      ¬ ((s.enemies.getD i default).avoidUnitsRange > 0 ∧
          (enemyClosest env (s.enemies.getD i default) s).1 ≥ 0 ∧
          (enemyClosest env (s.enemies.getD i default) s).2
            < (s.enemies.getD i default).avoidUnitsRange) →
      (enemyUpdate env dt i s).enemies.getD i default
        = { s.enemies.getD i default with timeSinceLastAttack := 0 }) := by
  have hmax : ∀ a : Int, (if a < 0 then 0 else a) = max 0 a := by
    intro a
    split_ifs with h
    · exact (max_eq_left (le_of_lt h)).symm
    · exact (max_eq_right (not_lt.mp h)).symm
  refine ⟨?_, ?_, ?_, ?_, ?_⟩
  · intro hatt hu
    have hge : (enemyClosest env (s.enemies.getD i default) s).1 ≥ 0 :=
      ((enemyEngagesUnit_iff env _ s).1 hu).2.2.1
    rcases enemyClosest_spec env (s.enemies.getD i default) s with ⟨h1, _⟩ | ⟨k, hk, h1, _⟩
    · rw [h1] at hge
      exact absurd hge (show ¬ ((-1 : Int) ≥ 0) by decide)
    · have hidx : (enemyClosest env (s.enemies.getD i default) s).1 = (k : Int) := by rw [h1]
      have hstrike : enemyStrike (enemyEngagesUnit env (s.enemies.getD i default) s)
          (enemyEngagesShip env (s.enemies.getD i default) s)
          (enemyClosest env (s.enemies.getD i default) s).1
          (s.enemies.getD i default).attackDamage s
          = s.setUnit k
              { s.unit k with
                hp := max 0 ((s.unit k).hp - truncInt (s.enemies.getD i default).attackDamage),
                showHp :=
                  if max 0 ((s.unit k).hp - truncInt (s.enemies.getD i default).attackDamage)
                      < (s.unit k).maxHp then true
                  else (s.unit k).showHp } := by
        unfold enemyStrike
        rw [if_pos hu, hidx]
        dsimp only
        rw [Int.toNat_ofNat, hmax]
      refine ⟨k, hk, hidx, ?_, ?_, ?_, ?_, ?_, ?_, ?_⟩
      · unfold enemyTargetDist
        rw [if_pos hu, h1]
      · rw [enemyUpdate_attack env dt i s halive hatt, hstrike]
        unfold Game.setUnit Game.unit
        dsimp only
        rw [getD_set_self _ _ _ _ hk.1]
      · intro j hj
        rw [enemyUpdate_attack env dt i s halive hatt, hstrike]
        unfold Game.setUnit Game.unit
        dsimp only
        rw [getD_set_ne _ _ _ _ _ hj]
      · rw [enemyUpdate_attack env dt i s halive hatt, hstrike]
        unfold Game.setUnit
        dsimp only
        rw [List.length_set]
      · rw [enemyUpdate_attack env dt i s halive hatt, hstrike]
        rfl
      · rw [enemyUpdate_attack env dt i s halive hatt, hstrike]
        unfold Game.setUnit
        dsimp only
        rw [getD_set_self _ _ _ _ hi]
      · intro j
        rw [enemyUpdate_attack env dt i s halive hatt, hstrike]
        unfold Game.setUnit
        dsimp only
        refine getD_set_hp s.enemies i _ ?_ j
        exact (enemyAdvance_stats env dt _ _ _ _ _ _ _).1
  · intro hatt hu
    have hs : enemyEngagesShip env (s.enemies.getD i default) s = true := by
      rcases hatt.1 with h | h
      · rw [hu] at h
        exact absurd h Bool.false_ne_true
      · exact h
    have hstrike : enemyStrike (enemyEngagesUnit env (s.enemies.getD i default) s)
        (enemyEngagesShip env (s.enemies.getD i default) s)
        (enemyClosest env (s.enemies.getD i default) s).1
        (s.enemies.getD i default).attackDamage s
        = { s with
            playerShip :=
              { s.playerShip with
                hp := max 0 (s.playerShip.hp
                  - truncInt (s.enemies.getD i default).attackDamage) } } := by
      unfold enemyStrike
      rw [if_neg (by rw [hu]; exact Bool.false_ne_true), if_pos hs]
      dsimp only
      rw [hmax]
    refine ⟨hs, ?_, ?_, ?_, ?_, ?_⟩
    · unfold enemyTargetDist
      rw [if_neg (by rw [hu]; exact Bool.false_ne_true)]
    · rw [enemyUpdate_attack env dt i s halive hatt, hstrike]
    · rw [enemyUpdate_attack env dt i s halive hatt, hstrike]
    · rw [enemyUpdate_attack env dt i s halive hatt, hstrike]
      dsimp only
      rw [getD_set_self _ _ _ _ hi]
    · intro j
      rw [enemyUpdate_attack env dt i s halive hatt, hstrike]
      dsimp only
      refine getD_set_hp s.enemies i _ ?_ j
      exact (enemyAdvance_stats env dt _ _ _ _ _ _ _).1
  · intro hno
    obtain ⟨e1, heq, hhp, ht⟩ := enemyUpdate_no_attack env dt i s halive hno
    rw [heq]
    refine ⟨rfl, rfl, ?_, ?_⟩
    · dsimp only
      rw [getD_set_self _ _ _ _ hi, ht]
    · intro j
      dsimp only
      exact getD_set_hp _ _ _ hhp j
  · rintro (h | h) ⟨_, h2, h3⟩
    · exact absurd h2 (not_le.mpr h)
    · exact absurd h3 (not_le.mpr h)
  · intro hatt hnav
    have hstay : ∀ (cu : Unit K) (tx ty : K),
        enemyAdvance env dt
            { s.enemies.getD i default with
                timeSinceLastAttack := (s.enemies.getD i default).timeSinceLastAttack + dt }
            (enemyClosest env (s.enemies.getD i default) s).1
            (enemyClosest env (s.enemies.getD i default) s).2 cu tx ty
            (enemyTargetDist env (s.enemies.getD i default) s)
          = { s.enemies.getD i default with
                timeSinceLastAttack := (s.enemies.getD i default).timeSinceLastAttack + dt } := by
      intro cu tx ty
      unfold enemyAdvance
      rw [if_neg hnav, if_neg (not_lt.mpr hatt.2.1)]
    rw [enemyUpdate_attack env dt i s halive hatt]
    dsimp only
    rw [(enemyStrike_frame _ _ _ _ s).2.2.2.2.1, getD_set_self _ _ _ _ hi, hstay]

set_option maxRecDepth 1000000 in
unseal Rat.add Rat.mul Rat.inv Rat.sub in
/-- The statement of `enemy_attack_gated` at `strikeGame` with a frame of 0.2 s: the timer
reaches 2.1 s, the rifleman is at distance 100, and the enemy attacks it: 220 hit points
become 205, the ship keeps its 200, and the timer is reset. -/
theorem enemy_attack_gated_witness :
    (0 < strikeGame.enemies.length ∧ (strikeGame.enemies.getD 0 default).alive = true) ∧
    EnemyAttacks evalEnv (1 / 5) (strikeGame.enemies.getD 0 default) strikeGame ∧
    enemyEngagesUnit evalEnv (strikeGame.enemies.getD 0 default) strikeGame = true ∧
    (((enemyUpdate evalEnv (1 / 5) 0 strikeGame).unit 0).hp,
      (enemyUpdate evalEnv (1 / 5) 0 strikeGame).playerShip.hp) = (205, 200) ∧
    (enemyUpdate evalEnv (1 / 5) 0 strikeGame).playerShip = strikeGame.playerShip ∧
    ((enemyUpdate evalEnv (1 / 5) 0 strikeGame).enemies.getD 0 default).timeSinceLastAttack
      = 0 := by
  have h0 : 0 < strikeGame.enemies.length := by decide
  have h1 : (strikeGame.enemies.getD 0 default).alive = true := by decide
  have hatt : EnemyAttacks evalEnv (1 / 5) (strikeGame.enemies.getD 0 default) strikeGame := by
    unfold EnemyAttacks
    decide
  have hu : enemyEngagesUnit evalEnv (strikeGame.enemies.getD 0 default) strikeGame = true := by
    decide
  obtain ⟨_, _, _, _, _, _, _, hship, ht, _⟩ :=
    (enemy_attack_gated evalEnv (1 / 5) 0 strikeGame h0 h1).1 hatt hu
  exact ⟨⟨h0, h1⟩, hatt, hu, by decide, hship, ht⟩

/-! ## What the unit loop does to statistics, bullets and fire timers -/

theorem KeepsStats.refl_keep (u : Unit K) : KeepsStats u u := ⟨rfl, rfl, rfl, rfl, rfl⟩

theorem KeepsStats.trans_keep (a b c : Unit K) (h1 : KeepsStats a b) (h2 : KeepsStats b c) :
    KeepsStats a c :=
  ⟨h2.1.trans h1.1, h2.2.1.trans h1.2.1, h2.2.2.1.trans h1.2.2.1,
    h2.2.2.2.1.trans h1.2.2.2.1, h2.2.2.2.2.trans h1.2.2.2.2⟩

theorem forall₂_getD {α : Type} (R : α → α → Prop) {l l1 : List α}
    (h : List.Forall₂ R l l1) (d : α) (hd : R d d) (i : Nat) : R (l.getD i d) (l1.getD i d) := by
  induction h generalizing i with
  | nil => simpa using hd
  | cons hab _ ih =>
    cases i with
    | zero => simpa using hab
    | succ i => simpa using ih i

theorem keeps_refl (l : List (Unit K)) : List.Forall₂ KeepsStats l l :=
  forall₂_refl_of _ KeepsStats.refl_keep l

theorem keeps_trans {l1 l2 l3 : List (Unit K)} (h1 : List.Forall₂ KeepsStats l1 l2)
    (h2 : List.Forall₂ KeepsStats l2 l3) : List.Forall₂ KeepsStats l1 l3 :=
  forall₂_trans_of _ KeepsStats.trans_keep h1 h2

theorem keeps_set (s : Game K) (i : Nat) (u1 : Unit K) (h : KeepsStats (s.unit i) u1) :
    List.Forall₂ KeepsStats s.units (s.units.set i u1) :=
  forall₂_set_of _ KeepsStats.refl_keep _ _ _ default h

theorem keeps_unit {s s1 : Game K} (h : List.Forall₂ KeepsStats s.units s1.units) (i : Nat) :
    KeepsStats (s.unit i) (s1.unit i) :=
  forall₂_getD _ h default (KeepsStats.refl_keep _) i

theorem QuietStep.refl_quiet (s : Game K) : QuietStep s s := ⟨keeps_refl _, rfl, rfl⟩

theorem QuietStep.trans_quiet {s1 s2 s3 : Game K} (h1 : QuietStep s1 s2) (h2 : QuietStep s2 s3) :
    QuietStep s1 s3 :=
  ⟨keeps_trans h1.1 h2.1, h2.2.1.trans h1.2.1, h2.2.2.trans h1.2.2⟩

theorem QuietStep.of_set_quiet (s s1 : Game K) (i : Nat) (u1 : Unit K)
    (hu : s1.units = s.units.set i u1) (hk : KeepsStats (s.unit i) u1)
    (hb : s1.bullets = s.bullets) (ht : s1.unitFireTimer = s.unitFireTimer) : QuietStep s s1 :=
  ⟨by rw [hu]; exact keeps_set s i u1 hk, hb, ht⟩

theorem QuietStep.of_same_quiet (s s1 : Game K) (hu : s1.units = s.units)
    (hb : s1.bullets = s.bullets) (ht : s1.unitFireTimer = s.unitFireTimer) : QuietStep s s1 :=
  ⟨by rw [hu]; exact keeps_refl _, hb, ht⟩

theorem FireStep.of_quiet {env : Env K} {i : Nat} {s s1 : Game K} (h : QuietStep s s1) : FireStep env i s s1 :=
  ⟨h.1, Or.inl ⟨h.2.1, h.2.2⟩⟩

theorem FireStep.after_quiet {env : Env K} {i : Nat} {s1 s2 s3 : Game K} (h1 : QuietStep s1 s2)
    (h2 : FireStep env i s2 s3) : FireStep env i s1 s3 := by
  refine ⟨keeps_trans h1.1 h2.1, ?_⟩
  rcases h2.2 with ⟨hb, ht⟩ | ⟨b, hi, hb, hle, ht⟩
  · exact Or.inl ⟨hb.trans h1.2.1, ht.trans h1.2.2⟩
  · right
    refine ⟨b, hi, by rw [hb, h1.2.1], by rw [← h1.2.2]; exact hle, ?_⟩
    rw [ht, h1.2.2, (keeps_unit h1.1 i).2.2.1]

theorem FireStep.then_quiet {env : Env K} {i : Nat} {s1 s2 s3 : Game K} (h1 : FireStep env i s1 s2)
    (h2 : QuietStep s2 s3) : FireStep env i s1 s3 := by
  refine ⟨keeps_trans h1.1 h2.1, ?_⟩
  rcases h1.2 with ⟨hb, ht⟩ | ⟨b, hi, hb, hle, ht⟩
  · exact Or.inl ⟨h2.2.1.trans hb, h2.2.2.trans ht⟩
  · exact Or.inr ⟨b, hi, h2.2.1.trans hb, hle, h2.2.2.trans ht⟩

theorem areaAcquire_quiet (env : Env K) (i : Nat) (s : Game K) :
    QuietStep s (areaAcquire env i s) := by
  unfold areaAcquire
  dsimp only
  split_ifs <;> exact QuietStep.of_same_quiet _ _ rfl rfl rfl

theorem revalidateRock_quiet (env : Env K) (i : Nat) (s : Game K) :
    QuietStep s (revalidateRock env i s) := by
  rw [revalidateRock_eq]
  exact QuietStep.of_same_quiet _ _ rfl rfl rfl

theorem approachGoal_keeps (u : Unit K) (tx ty dx dy dist : K) :
    KeepsStats u (approachGoal u tx ty dx dy dist) := ⟨rfl, rfl, rfl, rfl, rfl⟩

theorem mineStep_fire (env : Env K) (i : Nat) (s : Game K) :
    FireStep env i s (mineStep env i s) ∧ (mineStep env i s).unitAttacking = s.unitAttacking := by
  unfold mineStep
  dsimp only
  split_ifs with h1 h2 h3
  · exact ⟨FireStep.of_quiet (QuietStep.of_set_quiet _ _ i _ rfl (approachGoal_keeps _ _ _ _ _ _)
      rfl rfl), rfl⟩
  · refine ⟨⟨keeps_set s i _ ⟨rfl, rfl, rfl, rfl, rfl⟩, Or.inr ⟨_, ?_, rfl, h3, rfl⟩⟩, rfl⟩
    rfl
  · exact ⟨FireStep.of_quiet (QuietStep.of_set_quiet _ _ i _ rfl ⟨rfl, rfl, rfl, rfl, rfl⟩
      rfl rfl), rfl⟩
  · exact ⟨FireStep.of_quiet (QuietStep.refl_quiet s), rfl⟩

theorem mine_fire (env : Env K) (i : Nat) (s : Game K) :
    FireStep env i s (mine env i s) ∧ (mine env i s).unitAttacking = s.unitAttacking := by
  unfold mine
  obtain ⟨h1, h2⟩ := mineStep_fire env i (revalidateRock env i s)
  refine ⟨FireStep.after_quiet (revalidateRock_quiet env i s) h1, ?_⟩
  rw [h2, revalidateRock_eq]

theorem scanOrMine_fire (env : Env K) (i : Nat) (s : Game K) :
    QuietStep s (scanOrMine env i s) ∨
      (FireStep env i s (scanOrMine env i s) ∧
        (scanOrMine env i s).unitAttacking = s.unitAttacking) := by
  unfold scanOrMine
  dsimp only
  split_ifs
  · exact Or.inl (QuietStep.of_set_quiet _ _ i _ rfl ⟨rfl, rfl, rfl, rfl, rfl⟩ rfl rfl)
  · exact Or.inr (mine_fire env i s)

theorem acquire_fire (env : Env K) (i : Nat) (s : Game K) :
    QuietStep s (acquire env i s) ∨
      (FireStep env i s (acquire env i s) ∧ (acquire env i s).unitAttacking.getD i false = false) := by
  unfold acquire
  dsimp only
  have h1 : QuietStep s
      (if s.unitAreaAttack.getD i false = true then areaAcquire env i s else s) := by
    split_ifs
    · exact areaAcquire_quiet env i s
    · exact QuietStep.refl_quiet s
  generalize (if s.unitAreaAttack.getD i false = true then areaAcquire env i s else s) = s1
    at h1 ⊢
  split_ifs with hc
  · rcases scanOrMine_fire env i s1 with h | ⟨h, ha⟩
    · exact Or.inl (h1.trans_quiet h)
    · exact Or.inr ⟨FireStep.after_quiet h1 h, by rw [ha]; exact hc.2⟩
  · exact Or.inl h1

theorem targetLost_quiet (env : Env K) (i : Nat) (s : Game K) :
    QuietStep s (targetLost env i s) := by
  unfold targetLost reacquire
  dsimp only
  split_ifs <;> exact QuietStep.of_set_quiet _ _ i _ rfl ⟨rfl, rfl, rfl, rfl, rfl⟩ rfl rfl

theorem approachOrFire_fire (env : Env K) (i : Nat) (ti : Int) (s : Game K) :
    FireStep env i s (approachOrFire env i ti s) := by
  unfold approachOrFire
  dsimp only
  split_ifs with h1 h2
  · exact FireStep.of_quiet (QuietStep.of_set_quiet _ _ i _ rfl (approachGoal_keeps _ _ _ _ _ _)
      rfl rfl)
  · refine ⟨keeps_set s i _ ⟨rfl, rfl, rfl, rfl, rfl⟩, Or.inr ⟨_, ?_, rfl, h2, rfl⟩⟩
    rfl
  · exact FireStep.of_quiet (QuietStep.of_set_quiet _ _ i _ rfl ⟨rfl, rfl, rfl, rfl, rfl⟩ rfl rfl)

theorem engage_fire (env : Env K) (i : Nat) (s : Game K) : FireStep env i s (engage env i s) := by
  unfold engage
  dsimp only
  split_ifs
  · exact FireStep.of_quiet (targetLost_quiet env i s)
  · exact approachOrFire_fire env i _ s

theorem healerSeek_quiet (env : Env K) (i : Nat) (s : Game K) :
    QuietStep s (healerSeek env i s) := by
  unfold healerSeek
  dsimp only
  split_ifs <;>
  first
  | exact QuietStep.of_set_quiet _ _ i _ rfl ⟨rfl, rfl, rfl, rfl, rfl⟩ rfl rfl
  | exact QuietStep.of_same_quiet _ _ rfl rfl rfl

theorem steer_quiet (env : Env K) (dt : K) (i : Nat) (s : Game K) :
    QuietStep s (steer env dt i s) := by
  unfold steer
  dsimp only
  refine QuietStep.of_set_quiet _ _ i _ rfl ?_ rfl rfl
  split_ifs <;> exact ⟨rfl, rfl, rfl, rfl, rfl⟩

theorem healerOrNot_quiet (env : Env K) (i : Nat) (s : Game K) :
    QuietStep s (if (s.unit i).type = UnitType.UNIT_HEALER then healerSeek env i s else s) := by
  split_ifs
  · exact healerSeek_quiet env i s
  · exact QuietStep.refl_quiet s

theorem unitEngageAndMove_fire (env : Env K) (dt : K) (i : Nat) (s : Game K) :
    FireStep env i s (unitEngageAndMove env dt i s) ∧
      (s.unitAttacking.getD i false = false → QuietStep s (unitEngageAndMove env dt i s)) := by
  unfold unitEngageAndMove
  dsimp only
  constructor
  · have h3 : FireStep env i s
        (if s.unitAttacking.getD i false = true then engage env i s else s) := by
      split_ifs
      · exact engage_fire env i s
      · exact FireStep.of_quiet (QuietStep.refl_quiet s)
    generalize (if s.unitAttacking.getD i false = true then engage env i s else s) = s3
      at h3 ⊢
    exact (h3.then_quiet (healerOrNot_quiet env i s3)).then_quiet (steer_quiet env dt i _)
  · intro hf
    have he : (if s.unitAttacking.getD i false = true then engage env i s else s) = s :=
      if_neg (by rw [hf]; exact Bool.false_ne_true)
    rw [he]
    exact (healerOrNot_quiet env i s).trans_quiet (steer_quiet env dt i _)

theorem unitUpdate_fire (env : Env K) (dt : K) (i : Nat) (s : Game K) :
    FireStep env i (tickFireTimer env dt i s) (unitUpdate env dt i s) := by
  unfold unitUpdate
  dsimp only
  generalize tickFireTimer env dt i s = s1
  split_ifs with hc
  · rcases acquire_fire env i s1 with h | ⟨h, ha⟩
    · exact FireStep.after_quiet h (unitEngageAndMove_fire env dt i _).1
    · exact h.then_quiet ((unitEngageAndMove_fire env dt i _).2 ha)
  · exact (unitEngageAndMove_fire env dt i s1).1

theorem unitPass_keeps (env : Env K) (dt : K) (s : Game K) :
    List.Forall₂ KeepsStats s.units (unitPass env dt s).units := by
  unfold unitPass
  apply foldl_preserves (fun acc => List.Forall₂ KeepsStats s.units acc.units) _ _ s
    (keeps_refl _)
  intro acc i h
  have h1 := (unitUpdate_fire env dt i acc).1
  have h2 : (tickFireTimer env dt i acc).units = acc.units := by rw [tickFireTimer_eq]
  rw [h2] at h1
  exact keeps_trans h h1

/-! ## Hit points stay within their bounds -/

theorem keeps_bounded {l l1 : List (Unit K)} (h : List.Forall₂ KeepsStats l l1)
    (hb : ∀ u ∈ l, 0 ≤ u.hp ∧ u.hp ≤ u.maxHp) : ∀ u ∈ l1, 0 ≤ u.hp ∧ u.hp ≤ u.maxHp := by
  induction h with
  | nil => intro u hu; cases hu
  | cons hab _ ih =>
    intro u hu
    rcases List.mem_cons.1 hu with hu | hu
    · rw [hu, hab.1, hab.2.1]
      exact hb _ (List.mem_cons_self _ _)
    · exact ih (fun v hv => hb v (List.mem_cons_of_mem _ hv)) u hu

theorem HpBounded.of_keeps {s s1 : Game K} (h : HpBounded s)
    (hk : List.Forall₂ KeepsStats s.units s1.units) (hs : s1.playerShip = s.playerShip) :
    HpBounded s1 := by
  refine ⟨keeps_bounded hk h.1, ?_⟩
  rw [hs]
  exact h.2

theorem HpBounded.of_same_hp {s s1 : Game K} (h : HpBounded s) (hu : s1.units = s.units)
    (hs : s1.playerShip = s.playerShip) : HpBounded s1 := by
  unfold HpBounded
  rw [hu, hs]
  exact h

theorem HpBounded.unit_bounds {s : Game K} (h : HpBounded s) (k : Nat) :
    0 ≤ (s.unit k).hp ∧ (s.unit k).hp ≤ (s.unit k).maxHp := by
  unfold Game.unit
  by_cases hk : k < s.units.length
  · rw [List.getD_eq_getElem _ _ hk]
    exact h.1 _ (List.getElem_mem hk)
  · rw [List.getD_eq_default _ _ (not_lt.mp hk)]
    exact ⟨by show (0 : Int) ≤ 100; norm_num, by show (100 : Int) ≤ 100; norm_num⟩

theorem HpBounded.set_unit {s s1 : Game K} (h : HpBounded s) (j : Nat) (u1 : Unit K)
    (hu : s1.units = s.units.set j u1) (hb : 0 ≤ u1.hp ∧ u1.hp ≤ u1.maxHp)
    (hs : s1.playerShip = s.playerShip) : HpBounded s1 := by
  refine ⟨?_, by rw [hs]; exact h.2⟩
  intro u hu1
  rw [hu] at hu1
  rcases List.mem_or_eq_of_mem_set hu1 with hm | hm
  · exact h.1 u hm
  · rw [hm]; exact hb

theorem healAlly_hp (env : Env K) (dt : K) (i j : Nat) (s : Game K) (h : HpBounded s) :
    HpBounded (healAlly env dt i j s) := by
  have hb := h.unit_bounds j
  unfold healAlly
  dsimp only
  split_ifs <;>
  first
  | exact h
  | exact h.of_same_hp rfl rfl
  | exact h.set_unit j _ rfl ⟨by dsimp only; omega, by dsimp only; omega⟩ rfl

theorem healerPass_hp (env : Env K) (dt : K) (s : Game K) (h : HpBounded s) :
    HpBounded (healerPass env dt s) := by
  unfold healerPass
  apply foldl_preserves (fun acc => HpBounded acc) _ _ s h
  intro acc i ha
  unfold healerUpdate
  dsimp only
  split_ifs
  · exact ha
  · exact foldl_preserves (fun a => HpBounded a) _ _ acc ha
      (fun a j hj => healAlly_hp env dt i j a hj)

theorem medicHeal_hp (dt : K) (i j : Nat) (s : Game K) (h : HpBounded s)
    (hr : 0 ≤ (s.unit i).healRate * dt * 2) :
    HpBounded (medicHeal dt i j s) ∧ (medicHeal dt i j s).unit i = s.unit i := by
  have hb := h.unit_bounds j
  have ht := truncInt_nonneg _ hr
  unfold medicHeal
  dsimp only
  by_cases hij : i = j
  · rw [if_pos hij]
    exact ⟨h, rfl⟩
  · rw [if_neg hij]
    constructor
    · split_ifs <;>
      first
      | exact h
      | exact h.set_unit j _ rfl ⟨by dsimp only; omega, by dsimp only; omega⟩ rfl
    · split_ifs <;>
      first
      | rfl
      | (unfold Game.setUnit Game.unit
         dsimp only
         rw [getD_set_ne _ _ _ _ _ hij])

theorem medicPass_hp (dt : K) (s : Game K) (h : HpBounded s) (hdt : 0 ≤ dt) :
    HpBounded (medicPass dt s) := by
  unfold medicPass
  apply foldl_preserves (fun acc => HpBounded acc) _ _ s h
  intro acc i ha
  unfold medicUpdate
  dsimp only
  split_ifs with hc
  · exact ha
  · have hpos : 0 ≤ (acc.unit i).healRate * dt * 2 := by
      have h1 : 0 < (acc.unit i).healRate := by
        by_contra hn
        exact hc (Or.inr (not_lt.mp hn))
      exact mul_nonneg (mul_nonneg (le_of_lt h1) hdt) (by norm_num)
    have key := foldl_preserves
      (fun a : Game K => HpBounded a ∧ a.unit i = acc.unit i)
      (fun a j => medicHeal dt i j a) (List.range acc.units.length) acc ⟨ha, rfl⟩
      (fun a j hj => by
        obtain ⟨h1, h2⟩ := medicHeal_hp dt i j a hj.1 (by rw [hj.2]; exact hpos)
        exact ⟨h1, h2.trans hj.2⟩)
    exact key.1

theorem enemyStrike_hp (eUnit eShip : Bool) (cuIdx : Int) (dmg : K) (s : Game K)
    (h : HpBounded s) (hd : 0 ≤ dmg) : HpBounded (enemyStrike eUnit eShip cuIdx dmg s) := by
  have hb := h.unit_bounds cuIdx.toNat
  have hs := h.2
  have ht := truncInt_nonneg _ hd
  unfold enemyStrike
  dsimp only
  split_ifs <;>
  first
  | exact h
  | exact h.set_unit cuIdx.toNat _ rfl ⟨by dsimp only; omega, by dsimp only; omega⟩ rfl
  | exact ⟨h.1, by dsimp only; omega, by dsimp only; omega⟩

theorem enemy_damage_nonneg (s : Game K) (i : Nat)
    (hd : ∀ e ∈ s.enemies, (0 : K) ≤ e.attackDamage) :
    (0 : K) ≤ (s.enemies.getD i default).attackDamage := by
  by_cases hi : i < s.enemies.length
  · rw [List.getD_eq_getElem _ _ hi]
    exact hd _ (List.getElem_mem hi)
  · rw [List.getD_eq_default _ _ (not_lt.mp hi)]
    show (0 : K) ≤ (15 : K)
    norm_num

theorem enemyUpdate_hp (env : Env K) (dt : K) (i : Nat) (s : Game K) (h : HpBounded s)
    (hd : ∀ e ∈ s.enemies, (0 : K) ≤ e.attackDamage) : HpBounded (enemyUpdate env dt i s) := by
  have hdi := enemy_damage_nonneg s i hd
  unfold enemyUpdate
  dsimp only
  split_ifs <;>
  first
  | exact h
  | exact h.of_same_hp rfl rfl
  | exact (enemyStrike_hp _ _ _ _ s h
      (by rw [(enemyAdvance_stats env dt _ _ _ _ _ _ _).2.1]; exact hdi)).of_same_hp rfl rfl

theorem enemyPass_hp (env : Env K) (dt : K) (s : Game K) (h : HpBounded s)
    (hd : ∀ e ∈ s.enemies, (0 : K) ≤ e.attackDamage) : HpBounded (enemyPass env dt s) := by
  unfold enemyPass
  have key := foldl_preserves
    (fun a : Game K => HpBounded a ∧ ∀ e ∈ a.enemies, (0 : K) ≤ e.attackDamage)
    (fun a i => enemyUpdate env dt i a) (List.range s.enemies.length) s ⟨h, hd⟩
    (fun a i ha =>
      ⟨enemyUpdate_hp env dt i a ha.1 ha.2,
        forall₂_nonneg_damage dt (enemyUpdate_frame env dt i a).2.2.2.2.1 ha.2⟩)
  exact key.1

theorem ClampVal_bounds (v hi : Int) (h : 0 ≤ hi) :
    0 ≤ ClampVal v 0 hi ∧ ClampVal v 0 hi ≤ hi := by
  unfold ClampVal
  split_ifs <;> constructor <;> omega

theorem waveClear_hp (env : Env K) (s : Game K) (h : HpBounded s) :
    HpBounded (waveClear env s) := by
  refine ⟨?_, ?_⟩
  · intro u hu
    have hu1 : u ∈ s.units.map (fun u =>
        { u with hp := ClampVal (u.hp + truncInt ((u.maxHp : K) * (2 / 5))) 0 u.maxHp }) := hu
    obtain ⟨v, hv, rfl⟩ := List.mem_map.1 hu1
    have hb := h.1 v hv
    exact ClampVal_bounds _ _ (le_trans hb.1 hb.2)
  · exact ClampVal_bounds _ _ (le_trans h.2.1 h.2.2)

theorem waveClearCheck_hp (env : Env K) (s : Game K) (h : HpBounded s) :
    HpBounded (waveClearCheck env s) := by
  unfold waveClearCheck
  dsimp only
  split_ifs
  · exact waveClear_hp env _ (h.of_same_hp rfl rfl)
  · exact h.of_same_hp rfl rfl
  · exact h

theorem spawnLoop_units (env : Env K) (d : Difficulty) (w : Int) (n : Nat) (s : Game K) :
    (spawnLoop env d w n s).units = s.units ∧
    (spawnLoop env d w n s).playerShip = s.playerShip ∧
    (spawnLoop env d w n s).unitFireTimer = s.unitFireTimer ∧
    (spawnLoop env d w n s).bullets = s.bullets := by
  induction n generalizing s with
  | zero => exact ⟨rfl, rfl, rfl, rfl⟩
  | succ n ih =>
    rw [spawnLoop]
    exact ih _

theorem startNextWave_units (env : Env K) (s : Game K) :
    (startNextWave env s).units = s.units ∧
    (startNextWave env s).playerShip = s.playerShip ∧
    (startNextWave env s).unitFireTimer = s.unitFireTimer ∧
    (startNextWave env s).bullets = s.bullets := by
  unfold startNextWave spawnWave
  exact spawnLoop_units env _ _ _ _

theorem intermissionTick_units (env : Env K) (inp : FrameInput K) (s : Game K) :
    (intermissionTick env inp s).units = s.units ∧
    (intermissionTick env inp s).playerShip = s.playerShip ∧
    (intermissionTick env inp s).unitFireTimer = s.unitFireTimer ∧
    (intermissionTick env inp s).bullets = s.bullets := by
  unfold intermissionTick
  dsimp only
  split_ifs <;>
  first
  | exact ⟨rfl, rfl, rfl, rfl⟩
  | exact startNextWave_units env _

theorem intermissionButton_units (env : Env K) (inp : FrameInput K) (s : Game K) :
    (intermissionButton env inp s).units = s.units ∧
    (intermissionButton env inp s).playerShip = s.playerShip ∧
    (intermissionButton env inp s).unitFireTimer = s.unitFireTimer ∧
    (intermissionButton env inp s).bullets = s.bullets := by
  unfold intermissionButton
  split_ifs <;>
  first
  | exact ⟨rfl, rfl, rfl, rfl⟩
  | exact startNextWave_units env _

theorem bulletStep_units (env : Env K) (dt : K) (bi : Nat) (s : Game K) :
    (bulletStep env dt bi s).units = s.units ∧
    (bulletStep env dt bi s).playerShip = s.playerShip ∧
    (bulletStep env dt bi s).unitFireTimer = s.unitFireTimer := by
  unfold bulletStep
  dsimp only
  split_ifs <;> exact ⟨rfl, rfl, rfl⟩

theorem bulletPass_units (env : Env K) (dt : K) (s : Game K) :
    (bulletPass env dt s).units = s.units ∧
    (bulletPass env dt s).playerShip = s.playerShip ∧
    (bulletPass env dt s).unitFireTimer = s.unitFireTimer := by
  have key : (bulletLoop env dt s).units = s.units ∧
      (bulletLoop env dt s).playerShip = s.playerShip ∧
      (bulletLoop env dt s).unitFireTimer = s.unitFireTimer := by
    unfold bulletLoop
    apply foldl_preserves (fun acc : Game K => acc.units = s.units ∧
      acc.playerShip = s.playerShip ∧ acc.unitFireTimer = s.unitFireTimer) _ _ s ⟨rfl, rfl, rfl⟩
    intro acc bi ha
    obtain ⟨b1, b2, b3⟩ := bulletStep_units env dt bi acc
    exact ⟨b1.trans ha.1, b2.trans ha.2.1, b3.trans ha.2.2⟩
  exact key

theorem simPasses_hp (env : Env K) (dt : K) (s : Game K) (h : HpBounded s) (hdt : 0 ≤ dt)
    (hd : ∀ e ∈ s.enemies, (0 : K) ≤ e.attackDamage) : HpBounded (simPasses env dt s) := by
  obtain ⟨_, _, a3, a4⟩ := (unitPass_frame env dt s).fields
  have h3 : HpBounded (unitPass env dt s) := h.of_keeps (unitPass_keeps env dt s) a3
  have hd3 : ∀ e ∈ (unitPass env dt s).enemies, (0 : K) ≤ e.attackDamage := by
    rw [a4]; exact hd
  obtain ⟨_, _, _, b4⟩ := (healerPass_frame env dt (unitPass env dt s)).fields
  have h4 := healerPass_hp env dt _ h3
  have hd4 : ∀ e ∈ (healerPass env dt (unitPass env dt s)).enemies,
      (0 : K) ≤ e.attackDamage := by
    rw [b4]; exact hd3
  have h5 := enemyPass_hp env dt _ h4 hd4
  have h6 := medicPass_hp dt _ h5 hdt
  obtain ⟨c1, c2, _⟩ := bulletPass_units env dt
    (medicPass dt (enemyPass env dt (healerPass env dt (unitPass env dt s))))
  have h7 := h6.of_same_hp c1 c2
  unfold HpBounded at h7
  unfold simPasses HpBounded
  dsimp only
  exact h7

theorem simFrame_hp (env : Env K) (inp : FrameInput K) (s : Game K) (h : HpBounded s)
    (hdt : 0 ≤ effectiveDt inp s)
    (hd : ∀ e ∈ s.enemies, (0 : K) ≤ e.attackDamage) : HpBounded (simFrame env inp s) := by
  have h1 := waveClearCheck_hp env s h
  have hd1 := waveClearCheck_damage_nonneg env s hd
  obtain ⟨t1, t2, _⟩ := intermissionTick_units env inp (waveClearCheck env s)
  have h2 := h1.of_same_hp t1 t2
  have hd2 := intermissionTick_damage_nonneg env inp _ hd1
  have h3 := simPasses_hp env (effectiveDt inp s) _ h2 hdt hd2
  obtain ⟨u1, u2, _⟩ := intermissionButton_units env inp
    (simPasses env (effectiveDt inp s) (intermissionTick env inp (waveClearCheck env s)))
  exact h3.of_same_hp u1 u2

/-- C14: `0 ≤ hp ≤ maxHp` for every unit and for the ship is kept by the frame.  From a state
in which it holds, with `dt ≥ 0` and no enemy of negative attack damage, it holds after the
wave-clear heal (and after the wave-clear check, whether it heals or not), after the healer
loop, after the medic loop, after the update of any enemy and after the whole enemy loop,
after the five loops of the frame together, and after the whole frame whose effective `dt`
is this `dt`. -/
theorem hp_bounds_invariant (env : Env K) (dt : K) (s : Game K) (hb : HpBounded s)
    (hdt : 0 ≤ dt) (hd : ∀ e ∈ s.enemies, (0 : K) ≤ e.attackDamage) :
    HpBounded (waveClear env s) ∧ HpBounded (waveClearCheck env s) ∧
    HpBounded (healerPass env dt s) ∧ HpBounded (medicPass dt s) ∧
    (∀ i, HpBounded (enemyUpdate env dt i s)) ∧ HpBounded (enemyPass env dt s) ∧
    HpBounded (simPasses env dt s) ∧
    (∀ inp : FrameInput K, effectiveDt inp s = dt → HpBounded (simFrame env inp s)) :=
  ⟨waveClear_hp env s hb, waveClearCheck_hp env s hb, healerPass_hp env dt s hb,
    medicPass_hp dt s hb hdt, fun i => enemyUpdate_hp env dt i s hb hd,
    enemyPass_hp env dt s hb hd, simPasses_hp env dt s hb hdt hd,
    fun inp he => simFrame_hp env inp s hb (by rw [he]; exact hdt) hd⟩

set_option maxRecDepth 1000000 in
unseal Rat.add Rat.mul Rat.inv Rat.sub in
/-- The statement of `hp_bounds_invariant` at `clearedGame` and at `strikeGame` with frames of
0.2 s: the wave-clear heal takes the rifleman from 100 to 188 of 220 and the ship from 120 to
170 of 200; the enemy's attack takes the rifleman of `strikeGame` from 220 to 205. -/
theorem hp_bounds_invariant_witness :
    (HpBounded clearedGame ∧ (0 : ℚ) ≤ 1 / 5 ∧
      ∀ e ∈ clearedGame.enemies, (0 : ℚ) ≤ e.attackDamage) ∧
    effectiveDt duelInput clearedGame = 1 / 5 ∧
    HpBounded (simFrame evalEnv duelInput clearedGame) ∧
    ((simFrame evalEnv duelInput clearedGame).units.map (fun u => (u.hp, u.maxHp)),
      (simFrame evalEnv duelInput clearedGame).playerShip.hp,
      (simFrame evalEnv duelInput clearedGame).playerShip.maxHp)
      = ([(188, 220), (220, 220)], 170, 200) ∧
    (enemyPass evalEnv (1 / 5) strikeGame).units.map (fun u => (u.hp, u.maxHp))
      = [(205, 220)] := by
  have h0 : HpBounded clearedGame := by unfold HpBounded; decide
  have h1 : (0 : ℚ) ≤ 1 / 5 := by decide
  have h2 : ∀ e ∈ clearedGame.enemies, (0 : ℚ) ≤ e.attackDamage := by decide
  have h3 : effectiveDt duelInput clearedGame = 1 / 5 := by decide
  exact ⟨⟨h0, h1, h2⟩, h3,
    (hp_bounds_invariant evalEnv (1 / 5) clearedGame h0 h1 h2).2.2.2.2.2.2.2 duelInput h3,
    by decide, by decide⟩

/-! ## Fire events and the fire timer -/

theorem tickFireTimer_timer (env : Env K) (dt : K) (i : Nat) (s : Game K) :
    (tickFireTimer env dt i s).unitFireTimer.getD i 0 = tickValue env dt (s.unitFireTimer.getD i 0) ∧
    (∀ j, j ≠ i → (tickFireTimer env dt i s).unitFireTimer.getD j 0 = s.unitFireTimer.getD j 0) ∧
    (tickFireTimer env dt i s).unitFireTimer.length = s.unitFireTimer.length ∧
    (tickFireTimer env dt i s).units = s.units ∧ (tickFireTimer env dt i s).bullets = s.bullets := by
  unfold tickFireTimer tickValue
  dsimp only
  by_cases h : s.unitFireTimer.getD i 0 > 0
  · have hi : i < s.unitFireTimer.length :=
      lt_length_of_getD_ne _ _ _ (ne_of_gt h)
    rw [if_pos h, if_pos h]
    refine ⟨getD_set_self _ _ _ _ hi, ?_, List.length_set _ _ _, rfl, rfl⟩
    intro j hj
    exact getD_set_ne _ _ _ _ _ hj
  · rw [if_neg h, if_neg h]
    exact ⟨rfl, fun _ _ => rfl, rfl, rfl, rfl⟩

theorem unitUpdate_fires (env : Env K) (dt : K) (j : Nat) (a : Game K) :
    List.Forall₂ KeepsStats a.units (unitUpdate env dt j a).units ∧
    (unitUpdate env dt j a).unitFireTimer.length = a.unitFireTimer.length ∧
    (∀ i, i ≠ j →
      (unitUpdate env dt j a).unitFireTimer.getD i 0 = a.unitFireTimer.getD i 0) ∧
    (((unitUpdate env dt j a).bullets = a.bullets ∧
        (unitUpdate env dt j a).unitFireTimer.getD j 0
          = tickValue env dt (a.unitFireTimer.getD j 0)) ∨
      ∃ b : Bullet K, b.unitIndex = (j : Int) ∧
        (unitUpdate env dt j a).bullets = a.bullets ++ [b] ∧
        tickValue env dt (a.unitFireTimer.getD j 0) ≤ 0 ∧
        (j < a.unitFireTimer.length →
          (unitUpdate env dt j a).unitFireTimer.getD j 0 = env.fl (1 / (a.unit j).fireRate))) := by
  obtain ⟨t1, t2, t3, t4, t5⟩ := tickFireTimer_timer env dt j a
  obtain ⟨hk, hcase⟩ := unitUpdate_fire env dt j a
  rw [t4] at hk
  have hunit : (tickFireTimer env dt j a).unit j = a.unit j := by
    unfold Game.unit
    rw [t4]
  rcases hcase with ⟨hb, ht⟩ | ⟨b, hbi, hb, hle, ht⟩
  · refine ⟨hk, by rw [ht, t3], ?_, Or.inl ⟨by rw [hb, t5], by rw [ht, t1]⟩⟩
    intro i hi
    rw [ht]
    exact t2 i hi
  · refine ⟨hk, by rw [ht, List.length_set, t3], ?_, Or.inr ⟨b, hbi, by rw [hb, t5], ?_, ?_⟩⟩
    · intro i hi
      rw [ht, getD_set_ne _ _ _ _ _ hi]
      exact t2 i hi
    · rw [← t1]
      exact hle
    · intro hj
      rw [ht, getD_set_self _ _ _ _ (by rw [t3]; exact hj), hunit]

theorem unitPass_fires (env : Env K) (dt : K) (s : Game K) (i : Nat)
    (hi : i < s.units.length) (ht : i < s.unitFireTimer.length) :
    ∃ fired : List (Bullet K),
      (unitPass env dt s).bullets = s.bullets ++ fired ∧
      (unitPass env dt s).unitFireTimer.length = s.unitFireTimer.length ∧
      fired.countP (fun b => decide (b.unitIndex = (i : Int))) ≤ 1 ∧
      (fired.countP (fun b => decide (b.unitIndex = (i : Int))) = 0 →
        (unitPass env dt s).unitFireTimer.getD i 0
          = tickValue env dt (s.unitFireTimer.getD i 0)) ∧
      (0 < fired.countP (fun b => decide (b.unitIndex = (i : Int))) →
        tickValue env dt (s.unitFireTimer.getD i 0) ≤ 0 ∧
        (unitPass env dt s).unitFireTimer.getD i 0 = env.fl (1 / (s.unit i).fireRate)) := by
  have key := foldl_range_invariant
    (fun (n : Nat) (acc : Game K) =>
      ∃ fired : List (Bullet K),
        acc.bullets = s.bullets ++ fired ∧
        List.Forall₂ KeepsStats s.units acc.units ∧
        acc.unitFireTimer.length = s.unitFireTimer.length ∧
        (n ≤ i → acc.unitFireTimer.getD i 0 = s.unitFireTimer.getD i 0 ∧
          fired.countP (fun b => decide (b.unitIndex = (i : Int))) = 0) ∧
        (i < n →
          fired.countP (fun b => decide (b.unitIndex = (i : Int))) ≤ 1 ∧
          (fired.countP (fun b => decide (b.unitIndex = (i : Int))) = 0 →
            acc.unitFireTimer.getD i 0 = tickValue env dt (s.unitFireTimer.getD i 0)) ∧
          (0 < fired.countP (fun b => decide (b.unitIndex = (i : Int))) →
            tickValue env dt (s.unitFireTimer.getD i 0) ≤ 0 ∧
            acc.unitFireTimer.getD i 0 = env.fl (1 / (s.unit i).fireRate))))
    (fun acc j => unitUpdate env dt j acc) s.units.length s
    ⟨[], by simp, keeps_refl _, rfl, fun _ => ⟨rfl, rfl⟩, fun h => absurd h (Nat.not_lt_zero i)⟩
    (by
      intro n acc _ hP
      obtain ⟨fired, hb, hk, hl, hlo, hhi⟩ := hP
      obtain ⟨uk, ul, uo, ucase⟩ := unitUpdate_fires env dt n acc
      have hrate : (acc.unit i).fireRate = (s.unit i).fireRate := (keeps_unit hk i).2.2.1
      rcases ucase with ⟨ub, ut⟩ | ⟨b, ubi, ub, ule, ut⟩
      · refine ⟨fired, by rw [ub, hb], keeps_trans hk uk, by rw [ul, hl], ?_, ?_⟩
        · intro hn
          have hne : i ≠ n := by omega
          obtain ⟨h1, h2⟩ := hlo (by omega)
          exact ⟨by rw [uo i hne, h1], h2⟩
        · intro hn
          by_cases hin : i = n
          · obtain ⟨h1, h2⟩ := hlo (by omega)
            refine ⟨by omega, ?_, ?_⟩
            · intro _
              rw [hin, ut, ← hin, h1]
            · intro hpos
              omega
          · obtain ⟨h1, h2, h3⟩ := hhi (by omega)
            refine ⟨h1, ?_, ?_⟩
            · intro h0
              rw [uo i hin]
              exact h2 h0
            · intro hpos
              rw [uo i hin]
              exact h3 hpos
      · have hcount : (fired ++ [b]).countP (fun b => decide (b.unitIndex = (i : Int)))
            = fired.countP (fun b => decide (b.unitIndex = (i : Int)))
              + (if n = i then 1 else 0) := by
          rw [List.countP_append]
          congr 1
          by_cases hni : n = i
          · rw [if_pos hni]
            simp [List.countP_cons, ubi, hni]
          · rw [if_neg hni]
            have : ¬ ((n : Int) = (i : Int)) := by exact_mod_cast hni
            simp [List.countP_cons, ubi, this]
        refine ⟨fired ++ [b], by rw [ub, hb, List.append_assoc], keeps_trans hk uk,
          by rw [ul, hl], ?_, ?_⟩
        · intro hn
          have hne : i ≠ n := by omega
          obtain ⟨h1, h2⟩ := hlo (by omega)
          refine ⟨by rw [uo i hne, h1], ?_⟩
          rw [hcount, h2, if_neg (fun h => hne h.symm)]
        · intro hn
          by_cases hin : i = n
          · obtain ⟨h1, h2⟩ := hlo (by omega)
            rw [hcount, h2, if_pos hin.symm]
            refine ⟨by omega, fun h => absurd h (by omega), ?_⟩
            intro _
            refine ⟨?_, ?_⟩
            · rw [← h1, hin]
              exact ule
            · rw [hin, ut (by rw [← hin, hl]; exact ht), ← hin, hrate]
          · obtain ⟨h1, h2, h3⟩ := hhi (by omega)
            rw [hcount, if_neg (fun h => hin h.symm), Nat.add_zero]
            refine ⟨h1, ?_, ?_⟩
            · intro h0
              rw [uo i hin]
              exact h2 h0
            · intro hpos
              rw [uo i hin]
              exact h3 hpos)
  obtain ⟨fired, hb, _, hl, _, hhi⟩ := key
  obtain ⟨h1, h2, h3⟩ := hhi hi
  exact ⟨fired, hb, hl, h1, h2, h3⟩

theorem RateFrame.refl_rate (s : Game K) : RateFrame s s := ⟨rfl, rfl, fun _ => rfl⟩

theorem RateFrame.trans_rate {s1 s2 s3 : Game K} (h1 : RateFrame s1 s2) (h2 : RateFrame s2 s3) :
    RateFrame s1 s3 :=
  ⟨h2.1.trans h1.1, h2.2.1.trans h1.2.1, fun i => (h2.2.2 i).trans (h1.2.2 i)⟩

theorem RateFrame.of_same_rate {s s1 : Game K} (ht : s1.unitFireTimer = s.unitFireTimer)
    (hu : s1.units = s.units) : RateFrame s s1 :=
  ⟨ht, by rw [hu], fun i => by unfold Game.unit; rw [hu]⟩

theorem RateFrame.of_set_rate {s s1 : Game K} (j : Nat) (u1 : Unit K)
    (ht : s1.unitFireTimer = s.unitFireTimer) (hu : s1.units = s.units.set j u1)
    (hr : u1.fireRate = (s.unit j).fireRate) : RateFrame s s1 := by
  refine ⟨ht, by rw [hu, List.length_set], ?_⟩
  intro i
  unfold Game.unit
  rw [hu, getD_set]
  split_ifs with h
  · rw [hr, h.1]
    rfl
  · rfl

theorem healAlly_rate (env : Env K) (dt : K) (i j : Nat) (s : Game K) :
    RateFrame s (healAlly env dt i j s) := by
  unfold healAlly
  dsimp only
  split_ifs <;>
  first
  | exact RateFrame.refl_rate s
  | exact RateFrame.of_same_rate rfl rfl
  | exact RateFrame.of_set_rate j _ rfl rfl rfl

theorem healerPass_rate (env : Env K) (dt : K) (s : Game K) :
    RateFrame s (healerPass env dt s) := by
  unfold healerPass
  apply foldl_preserves (fun acc => RateFrame s acc) _ _ s (RateFrame.refl_rate s)
  intro acc i ha
  refine ha.trans_rate ?_
  unfold healerUpdate
  dsimp only
  split_ifs
  · exact RateFrame.refl_rate acc
  · exact foldl_preserves (fun a => RateFrame acc a) _ _ acc (RateFrame.refl_rate acc)
      (fun a j hj => hj.trans_rate (healAlly_rate env dt i j a))

theorem medicHeal_rate (dt : K) (i j : Nat) (s : Game K) :
    RateFrame s (medicHeal dt i j s) := by
  unfold medicHeal
  dsimp only
  split_ifs <;>
  first
  | exact RateFrame.refl_rate s
  | exact RateFrame.of_set_rate j _ rfl rfl rfl

theorem medicPass_rate (dt : K) (s : Game K) : RateFrame s (medicPass dt s) := by
  unfold medicPass
  apply foldl_preserves (fun acc => RateFrame s acc) _ _ s (RateFrame.refl_rate s)
  intro acc i ha
  refine ha.trans_rate ?_
  unfold medicUpdate
  dsimp only
  split_ifs
  · exact RateFrame.refl_rate acc
  · exact foldl_preserves (fun a => RateFrame acc a) _ _ acc (RateFrame.refl_rate acc)
      (fun a j hj => hj.trans_rate (medicHeal_rate dt i j a))

theorem enemyStrike_rate (eUnit eShip : Bool) (cuIdx : Int) (dmg : K) (s : Game K) :
    RateFrame s (enemyStrike eUnit eShip cuIdx dmg s) := by
  unfold enemyStrike
  dsimp only
  split_ifs <;>
  first
  | exact RateFrame.refl_rate s
  | exact RateFrame.of_same_rate rfl rfl
  | exact RateFrame.of_set_rate cuIdx.toNat _ rfl rfl rfl

theorem enemyUpdate_rate (env : Env K) (dt : K) (i : Nat) (s : Game K) :
    RateFrame s (enemyUpdate env dt i s) := by
  unfold enemyUpdate
  dsimp only
  split_ifs <;>
  first
  | exact RateFrame.refl_rate s
  | exact RateFrame.of_same_rate rfl rfl
  | exact (enemyStrike_rate _ _ _ _ s).trans_rate (RateFrame.of_same_rate rfl rfl)

theorem enemyPass_rate (env : Env K) (dt : K) (s : Game K) :
    RateFrame s (enemyPass env dt s) := by
  unfold enemyPass
  exact foldl_preserves (fun acc => RateFrame s acc) _ _ s (RateFrame.refl_rate s)
    (fun acc i ha => ha.trans_rate (enemyUpdate_rate env dt i acc))

theorem waveClear_rate (env : Env K) (s : Game K) : RateFrame s (waveClear env s) := by
  refine ⟨rfl, ?_, ?_⟩
  · show (s.units.map _).length = s.units.length
    rw [List.length_map]
  · intro i
    show ((s.units.map (fun u : Unit K =>
      { u with hp := ClampVal (u.hp + truncInt ((u.maxHp : K) * (2 / 5))) 0 u.maxHp })).getD i
        default).fireRate = (s.units.getD i default).fireRate
    by_cases hi : i < s.units.length
    · rw [List.getD_eq_getElem _ _ (by rw [List.length_map]; exact hi),
        List.getD_eq_getElem _ _ hi, List.getElem_map]
    · rw [List.getD_eq_default _ _ (by rw [List.length_map]; exact not_lt.mp hi),
        List.getD_eq_default _ _ (not_lt.mp hi)]

theorem waveClearCheck_rate (env : Env K) (s : Game K) :
    RateFrame s (waveClearCheck env s) := by
  unfold waveClearCheck
  dsimp only
  have h0 : RateFrame s
      { s with enemiesAlive := ((s.enemies.filter (fun e => e.alive)).length : Int) } :=
    ⟨rfl, rfl, fun _ => rfl⟩
  split_ifs
  · exact h0.trans_rate (waveClear_rate env _)
  · exact h0
  · exact RateFrame.refl_rate s

theorem beforeUnits_rate (env : Env K) (inp : FrameInput K) (s : Game K) :
    RateFrame s (beforeUnits env inp s) := by
  unfold beforeUnits
  obtain ⟨t1, _, t3, _⟩ := intermissionTick_units env inp (waveClearCheck env s)
  exact (waveClearCheck_rate env s).trans_rate (RateFrame.of_same_rate t3 t1)

theorem afterUnits_rate (env : Env K) (inp : FrameInput K) (dt : K) (s : Game K) :
    RateFrame s (intermissionButton env inp
      { bulletPass env dt (medicPass dt (enemyPass env dt (healerPass env dt s))) with
          rockAssignmentDirty := true }) := by
  have h4 : RateFrame s (healerPass env dt s) := healerPass_rate env dt s
  have h5 : RateFrame (healerPass env dt s) (enemyPass env dt (healerPass env dt s)) :=
    enemyPass_rate env dt _
  have h6 : RateFrame (enemyPass env dt (healerPass env dt s))
      (medicPass dt (enemyPass env dt (healerPass env dt s))) := medicPass_rate dt _
  generalize medicPass dt (enemyPass env dt (healerPass env dt s)) = s6 at h6 ⊢
  obtain ⟨b1, _, b3⟩ := bulletPass_units env dt s6
  generalize bulletPass env dt s6 = s7 at b1 b3 ⊢
  have h7 : RateFrame s6 { s7 with rockAssignmentDirty := true } :=
    ⟨b3, by rw [← b1], fun i => by unfold Game.unit; rw [← b1]⟩
  generalize ({ s7 with rockAssignmentDirty := true } : Game K) = s8 at h7 ⊢
  obtain ⟨u1, _, u3, _⟩ := intermissionButton_units env inp s8
  have h8 : RateFrame s8 (intermissionButton env inp s8) :=
    ⟨u3, by rw [u1], fun i => by unfold Game.unit; rw [u1]⟩
  exact ((h4.trans_rate h5).trans_rate h6).trans_rate (h7.trans_rate h8)

theorem simFrame_after_units (env : Env K) (inp : FrameInput K) (s : Game K) :
    RateFrame (unitPass env (effectiveDt inp s) (beforeUnits env inp s)) (simFrame env inp s) :=
  afterUnits_rate env inp (effectiveDt inp s) _

theorem simFrame_fires (env : Env K) (inp : FrameInput K) (s : Game K) (i : Nat)
    (hi : i < s.units.length) (ht : i < s.unitFireTimer.length) :
    shotsInFrame env inp s i ≤ 1 ∧
    (shotsInFrame env inp s i = 0 →
      (simFrame env inp s).unitFireTimer.getD i 0
        = tickValue env (effectiveDt inp s) (s.unitFireTimer.getD i 0)) ∧
    (0 < shotsInFrame env inp s i →
      tickValue env (effectiveDt inp s) (s.unitFireTimer.getD i 0) ≤ 0 ∧
      (simFrame env inp s).unitFireTimer.getD i 0 = env.fl (1 / (s.unit i).fireRate)) ∧
    ((simFrame env inp s).unit i).fireRate = (s.unit i).fireRate ∧
    (simFrame env inp s).units.length = s.units.length ∧
    (simFrame env inp s).unitFireTimer.length = s.unitFireTimer.length := by
  obtain ⟨p1, p2, p3⟩ := beforeUnits_rate env inp s
  obtain ⟨fired, hb, hl, h1, h2, h3⟩ := unitPass_fires env (effectiveDt inp s)
    (beforeUnits env inp s) i (by rw [p2]; exact hi) (by rw [p1]; exact ht)
  obtain ⟨q1, q2, q3⟩ := simFrame_after_units env inp s
  have hk := unitPass_keeps env (effectiveDt inp s) (beforeUnits env inp s)
  have hfired : firedInFrame env inp s = fired := by
    unfold firedInFrame
    rw [hb, List.drop_left]
  have hshots : shotsInFrame env inp s i
      = fired.countP (fun b => decide (b.unitIndex = (i : Int))) := by
    unfold shotsInFrame
    rw [hfired]
  rw [hshots, q1]
  rw [p1] at h2 h3
  rw [p3 i] at h3
  refine ⟨h1, h2, h3, ?_, ?_, ?_⟩
  · rw [q3 i, (keeps_unit hk i).2.2.1, p3 i]
  · rw [q2, ← hk.length_eq, p2]
  · rw [hl, p1]

theorem frameState_zero (env : Env K) (inps : List (FrameInput K)) (s : Game K) :
    frameState env inps s 0 = s := by
  unfold frameState runFrames
  simp

theorem frameState_succ (env : Env K) (inps : List (FrameInput K)) (s : Game K) (n : Nat)
    (hn : n < inps.length) :
    frameState env inps s (n + 1)
      = simFrame env (frameInput inps n) (frameState env inps s n) := by
  unfold frameState runFrames frameInput
  rw [List.take_succ, List.foldl_append, List.getElem?_eq_getElem hn,
    List.getD_eq_getElem _ _ hn]
  simp only [Option.toList, List.foldl_cons, List.foldl_nil]

theorem frameState_shape (env : Env K) (inps : List (FrameInput K)) (s : Game K) (i : Nat)
    (hi : i < s.units.length) (ht : i < s.unitFireTimer.length) (n : Nat)
    (hn : n ≤ inps.length) :
    ((frameState env inps s n).unit i).fireRate = (s.unit i).fireRate ∧
    (frameState env inps s n).units.length = s.units.length ∧
    (frameState env inps s n).unitFireTimer.length = s.unitFireTimer.length := by
  induction n with
  | zero =>
    rw [frameState_zero]
    exact ⟨rfl, rfl, rfl⟩
  | succ n ih =>
    obtain ⟨a1, a2, a3⟩ := ih (by omega)
    obtain ⟨_, _, _, b1, b2, b3⟩ := simFrame_fires env (frameInput inps n)
      (frameState env inps s n) i (by rw [a2]; exact hi) (by rw [a3]; exact ht)
    rw [frameState_succ env inps s n (by omega)]
    exact ⟨b1.trans a1, b2.trans a2, b3.trans a3⟩

theorem frame_fires (env : Env K) (inps : List (FrameInput K)) (s : Game K) (i : Nat)
    (hi : i < s.units.length) (ht : i < s.unitFireTimer.length) (n : Nat)
    (hn : n < inps.length) :
    shotsInFrame env (frameInput inps n) (frameState env inps s n) i ≤ 1 ∧
    (FiresAt env inps s i n →
      tickValue env (frameDt env inps s n) ((frameState env inps s n).unitFireTimer.getD i 0) ≤ 0 ∧
      (frameState env inps s (n + 1)).unitFireTimer.getD i 0 = env.fl (1 / (s.unit i).fireRate)) ∧
    (¬ FiresAt env inps s i n →
      (frameState env inps s (n + 1)).unitFireTimer.getD i 0
        = tickValue env (frameDt env inps s n)
            ((frameState env inps s n).unitFireTimer.getD i 0)) := by
  obtain ⟨a1, a2, a3⟩ := frameState_shape env inps s i hi ht n (le_of_lt hn)
  obtain ⟨b1, b2, b3, _⟩ := simFrame_fires env (frameInput inps n)
    (frameState env inps s n) i (by rw [a2]; exact hi) (by rw [a3]; exact ht)
  rw [frameState_succ env inps s n hn]
  unfold FiresAt frameDt
  refine ⟨b1, ?_, ?_⟩
  · intro hf
    obtain ⟨c1, c2⟩ := b3 hf
    exact ⟨c1, by rw [c2, a1]⟩
  · intro hf
    exact b2 (by omega)

theorem dtBetween_self (env : Env K) (inps : List (FrameInput K)) (s : Game K) (k : Nat) :
    dtBetween env inps s k k = 0 := by
  unfold dtBetween
  simp

theorem dtBetween_succ (env : Env K) (inps : List (FrameInput K)) (s : Game K) (k d : Nat) :
    dtBetween env inps s k (k + d + 1)
      = dtBetween env inps s k (k + d) + frameDt env inps s (k + 1 + d) := by
  unfold dtBetween
  have e1 : k + d + 1 - k = d + 1 := by omega
  have e2 : k + d - k = d := by omega
  rw [e1, e2, List.range_succ, List.map_append, List.sum_append]
  simp

theorem dtBetween_nonneg (env : Env K) (inps : List (FrameInput K)) (s : Game K) (k d : Nat)
    (hdt : ∀ n, n < inps.length → 0 ≤ frameDt env inps s n) (hd : k + d < inps.length) :
    0 ≤ dtBetween env inps s k (k + d) := by
  induction d with
  | zero => rw [Nat.add_zero, dtBetween_self]
  | succ d ih =>
    have h1 := ih (by omega)
    have h2 := hdt (k + 1 + d) (by omega)
    have e : k + (d + 1) = k + d + 1 := by omega
    rw [e, dtBetween_succ]
    linarith


/-! ## The upgrade tracks under purchases -/

theorem TracksReached.of_new {s : Game K} (h : NewTracks s) : TracksReached s := by
  unfold NewTracks Ship.tracks at h
  simp only [Prod.mk.injEq] at h
  obtain ⟨h1, h2, h3, h4, h5, h6, h7, h8, h9⟩ := h
  unfold TracksReached LevelsReached FlagIsTest
  rw [h1, h2, h3, h4, h5, h6, h7, h8, h9]
  refine ⟨⟨⟨rfl, rfl, rfl, rfl⟩, ⟨by norm_num, by norm_num, by norm_num⟩,
    ⟨by norm_num, by norm_num, by norm_num⟩, ⟨by norm_num, by norm_num, by norm_num⟩,
    ⟨by norm_num, by norm_num, by norm_num⟩⟩, ?_⟩
  constructor
  · intro hc
    exact absurd hc Bool.false_ne_true
  · rintro ⟨hc, _⟩
    norm_num at hc

theorem TracksReached.of_tracks {s s1 : Game K} (h : TracksReached s)
    (ht : s1.playerShip.tracks = s.playerShip.tracks) : TracksReached s1 := by
  unfold Ship.tracks at ht
  simp only [Prod.mk.injEq] at ht
  obtain ⟨h1, h2, h3, h4, h5, h6, h7, h8, h9⟩ := ht
  unfold TracksReached LevelsReached FlagIsTest
  rw [h1, h2, h3, h4, h5, h6, h7, h8, h9]
  exact h

theorem buyHull_levels (s : Game K) (h : LevelsReached s.playerShip) :
    LevelsReached (buyHull s).playerShip := by
  unfold buyHull
  split_ifs with hc
  · obtain ⟨hm, ⟨⟨k, hk⟩, h0, h1⟩, hs, he, hl⟩ := h
    refine ⟨hm, ⟨?_, ?_, ?_⟩, hs, he, hl⟩
    · exact ⟨k + 1, by show s.playerShip.hullIntegrity + 8 = 8 * (k + 1); omega⟩
    · show 0 ≤ s.playerShip.hullIntegrity + 8
      omega
    · show s.playerShip.hullIntegrity + 8 ≤ 104
      have := hc.2
      rw [hm.1] at this
      omega
  · exact h

theorem buyShielding_levels (s : Game K) (h : LevelsReached s.playerShip) :
    LevelsReached (buyShielding s).playerShip := by
  unfold buyShielding
  split_ifs with hc
  · obtain ⟨hm, hh, ⟨⟨k, hk⟩, h0, h1⟩, he, hl⟩ := h
    refine ⟨hm, hh, ⟨?_, ?_, ?_⟩, he, hl⟩
    · exact ⟨k + 1, by show s.playerShip.shielding + 5 = 5 * (k + 1); omega⟩
    · show 0 ≤ s.playerShip.shielding + 5
      omega
    · show s.playerShip.shielding + 5 ≤ 50
      have := hc.2
      rw [hm.2.1] at this
      omega
  · exact h

theorem buyEngines_levels (s : Game K) (h : LevelsReached s.playerShip) :
    LevelsReached (buyEngines s).playerShip := by
  unfold buyEngines
  split_ifs with hc
  · obtain ⟨hm, hh, hs, ⟨⟨k, hk⟩, h0, h1⟩, hl⟩ := h
    refine ⟨hm, hh, hs, ⟨?_, ?_, ?_⟩, hl⟩
    · exact ⟨k + 1, by show s.playerShip.engines + 3 = 3 * (k + 1); omega⟩
    · show 0 ≤ s.playerShip.engines + 3
      omega
    · show s.playerShip.engines + 3 ≤ 27
      have := hc.2
      rw [hm.2.2.1] at this
      omega
  · exact h

theorem buyLifeSupport_levels (s : Game K) (h : LevelsReached s.playerShip) :
    LevelsReached (buyLifeSupport s).playerShip := by
  unfold buyLifeSupport
  split_ifs with hc
  · obtain ⟨hm, hh, hs, he, ⟨⟨k, hk⟩, h0, h1⟩⟩ := h
    refine ⟨hm, hh, hs, he, ⟨?_, ?_, ?_⟩⟩
    · exact ⟨k + 1, by show s.playerShip.lifeSupportSystems + 3 = 3 * (k + 1); omega⟩
    · show 0 ≤ s.playerShip.lifeSupportSystems + 3
      omega
    · show s.playerShip.lifeSupportSystems + 3 ≤ 27
      have := hc.2
      rw [hm.2.2.2] at this
      omega
  · exact h

theorem ite_levels (c : Bool) (f : Game K → Game K)
    (hf : ∀ s, LevelsReached s.playerShip → LevelsReached (f s).playerShip) (s : Game K)
    (h : LevelsReached s.playerShip) :
    LevelsReached (if c then f s else s).playerShip := by
  split_ifs
  · exact hf s h
  · exact h

theorem refreshComplete_reached (s : Game K) (h : LevelsReached s.playerShip) :
    TracksReached (refreshComplete s) := by
  refine ⟨h, ?_⟩
  unfold FlagIsTest refreshComplete
  dsimp only
  simp only [Bool.and_eq_true, decide_eq_true_eq, and_assoc]

theorem purchases_reached (keys : PurchaseKeys) (s : Game K) (h : TracksReached s) :
    TracksReached (purchases keys s) := by
  have h1 := ite_levels keys.hull buyHull buyHull_levels s h.1
  have h2 := ite_levels keys.shielding buyShielding buyShielding_levels _ h1
  have h3 := ite_levels keys.engines buyEngines buyEngines_levels _ h2
  have h4 := ite_levels keys.lifeSupport buyLifeSupport buyLifeSupport_levels _ h3
  exact refreshComplete_reached _ h4

theorem purchaseRun_reached (ks : List PurchaseKeys) (s : Game K) (h : TracksReached s) :
    TracksReached (purchaseRun ks s) := by
  unfold purchaseRun
  exact foldl_preserves (fun acc => TracksReached acc) _ _ s h
    (fun acc k ha => purchases_reached k acc ha)

theorem enemyStrike_tracks (eUnit eShip : Bool) (cuIdx : Int) (dmg : K) (s : Game K) :
    (enemyStrike eUnit eShip cuIdx dmg s).playerShip.tracks = s.playerShip.tracks := by
  unfold enemyStrike
  dsimp only
  split_ifs <;> rfl

theorem enemyUpdate_tracks (env : Env K) (dt : K) (i : Nat) (s : Game K) :
    (enemyUpdate env dt i s).playerShip.tracks = s.playerShip.tracks := by
  unfold enemyUpdate
  dsimp only
  split_ifs <;>
  first
  | rfl
  | exact enemyStrike_tracks _ _ _ _ s

theorem enemyPass_tracks (env : Env K) (dt : K) (s : Game K) :
    (enemyPass env dt s).playerShip.tracks = s.playerShip.tracks := by
  unfold enemyPass
  exact foldl_preserves (fun acc => acc.playerShip.tracks = s.playerShip.tracks) _ _ s rfl
    (fun acc i ha => (enemyUpdate_tracks env dt i acc).trans ha)

theorem waveClearCheck_tracks (env : Env K) (s : Game K) :
    (waveClearCheck env s).playerShip.tracks = s.playerShip.tracks := by
  unfold waveClearCheck
  dsimp only
  split_ifs <;> rfl

theorem simPasses_tracks (env : Env K) (dt : K) (s : Game K) :
    (simPasses env dt s).playerShip.tracks = s.playerShip.tracks := by
  obtain ⟨_, _, a3, _⟩ := (unitPass_frame env dt s).fields
  obtain ⟨_, _, b3, _⟩ := (healerPass_frame env dt (unitPass env dt s)).fields
  have c3 := enemyPass_tracks env dt (healerPass env dt (unitPass env dt s))
  obtain ⟨_, _, d3, _⟩ :=
    (medicPass_frame dt (enemyPass env dt (healerPass env dt (unitPass env dt s)))).fields
  obtain ⟨_, e3, _⟩ := bulletPass_units env dt
    (medicPass dt (enemyPass env dt (healerPass env dt (unitPass env dt s))))
  unfold simPasses
  dsimp only
  rw [e3, d3, c3, b3, a3]

theorem simFrame_tracks (env : Env K) (inp : FrameInput K) (s : Game K) :
    (simFrame env inp s).playerShip.tracks = s.playerShip.tracks := by
  have h1 := waveClearCheck_tracks env s
  obtain ⟨_, t2, _⟩ := intermissionTick_units env inp (waveClearCheck env s)
  have h3 := simPasses_tracks env (effectiveDt inp s)
    (intermissionTick env inp (waveClearCheck env s))
  obtain ⟨_, u2, _⟩ := intermissionButton_units env inp
    (simPasses env (effectiveDt inp s) (intermissionTick env inp (waveClearCheck env s)))
  unfold simFrame
  dsimp only
  rw [u2, h3, t2, h1]

theorem playFrames_reached (env : Env K) (steps : List (PurchaseKeys × FrameInput K))
    (s : Game K) (h : TracksReached s) : TracksReached (playFrames env steps s) := by
  unfold playFrames
  exact foldl_preserves (fun acc => TracksReached acc) _ _ s h
    (fun acc st ha => (purchases_reached st.1 acc ha).of_tracks (simFrame_tracks env st.2 _))

theorem TracksReached.within {s : Game K} (h : TracksReached s) :
    TracksWithinReach s.playerShip := by
  obtain ⟨⟨⟨m1, m2, m3, m4⟩, ⟨⟨a, ha⟩, a0, a1⟩, ⟨⟨b, hb⟩, b0, b1⟩, ⟨⟨c, hc⟩, c0, c1⟩,
    ⟨⟨d, hd⟩, d0, d1⟩⟩, hf⟩ := h
  unfold FlagIsTest at hf
  rw [m1, m2, m3, m4] at hf
  refine ⟨⟨a1, b1, c1, d1⟩, hf, ?_⟩
  rw [hf]
  constructor
  · rintro ⟨h1, h2, h3, h4⟩
    exact ⟨by omega, by omega, by omega, by omega⟩
  · rintro ⟨h1, h2, h3, h4⟩
    exact ⟨by omega, by omega, by omega, by omega⟩

/-- C27 (amended): after any run of purchase frames from a new game, alone or with the
simulation step of every frame in between, each upgrade level is at most the first multiple
of its increment at or past its maximum (hull ≤ 104, shielding ≤ 50, engines ≤ 27, life
support ≤ 27), and the completion flag is true exactly when all four levels are at or past
their maximum (100, 50, 25, 25), which is exactly when they are 104, 50, 27 and 27. -/
theorem upgrade_tracks_within_reach (env : Env K) (s : Game K) (h : NewTracks s) :
    (∀ ks : List PurchaseKeys, TracksWithinReach (purchaseRun ks s).playerShip) ∧
    (∀ steps : List (PurchaseKeys × FrameInput K),
      TracksWithinReach (playFrames env steps s).playerShip) :=
  ⟨fun ks => (purchaseRun_reached ks s (TracksReached.of_new h)).within,
    fun steps => (playFrames_reached env steps s (TracksReached.of_new h)).within⟩

set_option maxRecDepth 1000000 in
unseal Rat.add Rat.mul Rat.inv Rat.sub in
/-- The statement of `upgrade_tracks_within_reach` at `richGame`: thirteen hull purchases
take the hull level to 104, within reach, and the ship is not complete. -/
theorem upgrade_tracks_within_reach_witness :
    NewTracks richGame ∧
    TracksWithinReach (purchaseRun (List.replicate 13 hullKey) richGame).playerShip ∧
    ((purchaseRun (List.replicate 13 hullKey) richGame).playerShip.hullIntegrity,
      (purchaseRun (List.replicate 13 hullKey) richGame).playerShip.isComplete,
      (purchaseRun (List.replicate 13 hullKey) richGame).shop.scrapMetal) = (104, false, 0) := by
  have h0 : NewTracks richGame := rfl
  exact ⟨h0, (upgrade_tracks_within_reach evalEnv richGame h0).1 _, by decide⟩

set_option maxRecDepth 1000000 in
/-- C27, as stated, fails: in a new game with 130 scrap earned, the thirteenth hull purchase
is accepted at level 96, which is below the maximum 100, and takes the level to 104, above
the maximum. -/
theorem hull_level_passes_max :
    NewTracks richGame ∧
    (purchaseRun (List.replicate 12 hullKey) richGame).playerShip.hullIntegrity = 96 ∧
    (purchaseRun (List.replicate 13 hullKey) richGame).playerShip.hullIntegrity = 104 ∧
    ¬ ((purchaseRun (List.replicate 13 hullKey) richGame).playerShip.hullIntegrity
        ≤ (purchaseRun (List.replicate 13 hullKey) richGame).playerShip.maxHullIntegrity) := by
  exact ⟨rfl, by decide, by decide, by decide⟩

/-! ## An enemy on the map always has a target -/

theorem enemy_flags_of_ship_seen (env : Env K) (e : EnemyNPC K) (s : Game K)
    (h : enemyShipDist env e s ≤ e.shipDetectionRange) :
    (enemyEngagesUnit env e s || enemyEngagesShip env e s) = true := by
  cases hu : enemyEngagesUnit env e s
  · rw [Bool.false_or]
    exact (enemyEngagesShip_iff env e s).2
      (Or.inr (Or.inr ⟨by rw [hu]; exact Bool.false_ne_true, h⟩))
  · rfl

/-- C29: an enemy whose position `(fx, fy)` lies in the map rectangle `[0, 3500] x [0, 3500]`,
with the ship at the centre `(1750, 1750)` and `shipDetectionRange = 12000`, always has a
target: its distance to the ship (with `sqrtf` exact at this input) is below 12000, because
its square is at most `2 * 1750²`; so `engagingUnit` or `engagingShip` holds, the test of
line 1145 succeeds, and the two flags never hold together. -/
theorem enemy_on_map_has_target (env : Env K) (e : EnemyNPC K) (s : Game K)
    (hx : 0 ≤ e.fx ∧ e.fx ≤ 3500) (hy : 0 ≤ e.fy ∧ e.fy ≤ 3500)
    (hship : s.playerShip.x = 1750 ∧ s.playerShip.y = 1750)
    (hdet : e.shipDetectionRange = 12000)
    (hsq : enemyShipDist env e s * enemyShipDist env e s
      = (s.playerShip.x - e.fx) * (s.playerShip.x - e.fx)
        + (s.playerShip.y - e.fy) * (s.playerShip.y - e.fy)) :
    enemyShipDist env e s * enemyShipDist env e s ≤ 2 * (1750 * 1750) ∧
    enemyShipDist env e s < 12000 ∧
    (enemyEngagesUnit env e s || enemyEngagesShip env e s) = true ∧
    ¬ (enemyEngagesUnit env e s = true ∧ enemyEngagesShip env e s = true) := by
  rw [hship.1, hship.2] at hsq
  have hb : enemyShipDist env e s * enemyShipDist env e s ≤ 2 * (1750 * 1750) := by
    rw [hsq]
    nlinarith [mul_nonneg hx.1 (sub_nonneg.2 hx.2), mul_nonneg hy.1 (sub_nonneg.2 hy.2)]
  have hlt : enemyShipDist env e s < 12000 := by
    by_contra hc
    have h1 : (12000 : K) ≤ enemyShipDist env e s := not_lt.mp hc
    nlinarith
  refine ⟨hb, hlt, ?_, ?_⟩
  · exact enemy_flags_of_ship_seen env e s (by rw [hdet]; exact le_of_lt hlt)
  · rintro ⟨hu, hs⟩
    have h1 := (enemyEngagesUnit_iff env e s).1 hu
    rcases (enemyEngagesShip_iff env e s).1 hs with h | h | h
    · exact h1.1 h
    · exact h1.2.1 h
    · exact h.1 hu

set_option maxRecDepth 1000000 in
unseal Rat.add Rat.mul Rat.inv Rat.sub in
/-- The statement of `enemy_on_map_has_target` at the enemy of `farEnemyGame`: it is 1300
away from the ship, sees no unit, and engages the ship. -/
theorem enemy_on_map_has_target_witness :
    ((0 ≤ (farEnemyGame.enemies.getD 0 default).fx ∧
        (farEnemyGame.enemies.getD 0 default).fx ≤ 3500) ∧
      (0 ≤ (farEnemyGame.enemies.getD 0 default).fy ∧
        (farEnemyGame.enemies.getD 0 default).fy ≤ 3500) ∧
      (farEnemyGame.playerShip.x = 1750 ∧ farEnemyGame.playerShip.y = 1750) ∧
      (farEnemyGame.enemies.getD 0 default).shipDetectionRange = 12000) ∧
    enemyShipDist evalEnv (farEnemyGame.enemies.getD 0 default) farEnemyGame = 1300 ∧
    (enemyEngagesUnit evalEnv (farEnemyGame.enemies.getD 0 default) farEnemyGame,
      enemyEngagesShip evalEnv (farEnemyGame.enemies.getD 0 default) farEnemyGame)
      = (false, true) ∧
    (enemyEngagesUnit evalEnv (farEnemyGame.enemies.getD 0 default) farEnemyGame
      || enemyEngagesShip evalEnv (farEnemyGame.enemies.getD 0 default) farEnemyGame) = true :=
  ⟨⟨by decide, by decide, by decide, by decide⟩, by decide, by decide,
    (enemy_on_map_has_target evalEnv (farEnemyGame.enemies.getD 0 default) farEnemyGame
      (by decide) (by decide) (by decide) (by decide) (by decide)).2.2.1⟩

/-! ## The enemy's move: away from a unit, or towards the target -/

theorem enemyMove_far (env : Env K) (dt : K) (e : EnemyNPC K) (dx dy : K)
    (h : moveLen env dx dy > 1 / 1000) :
    enemyMove env dt e dx dy
      = { e with
          fx := e.fx + dx / moveLen env dx dy * (e.moveSpeed * dt),
          fy := e.fy + dy / moveLen env dx dy * (e.moveSpeed * dt),
          x := lroundf (e.fx + dx / moveLen env dx dy * (e.moveSpeed * dt)),
          y := lroundf (e.fy + dy / moveLen env dx dy * (e.moveSpeed * dt)) } := by
  unfold enemyMove
  unfold moveLen at h
  dsimp only
  rw [if_pos h]
  rfl

theorem enemyMove_near (env : Env K) (dt : K) (e : EnemyNPC K) (dx dy : K)
    (h : ¬ moveLen env dx dy > 1 / 1000) : enemyMove env dt e dx dy = e := by
  unfold enemyMove
  unfold moveLen at h
  dsimp only
  rw [if_neg h]

theorem enemyUpdate_enemy (env : Env K) (dt : K) (i : Nat) (s : Game K)
    (hi : i < s.enemies.length) (halive : (s.enemies.getD i default).alive = true)
    (heng : (enemyEngagesUnit env (s.enemies.getD i default) s
      || enemyEngagesShip env (s.enemies.getD i default) s) = true) :
    (EnemyAttacks env dt (s.enemies.getD i default) s →
      (enemyUpdate env dt i s).enemies.getD i default
        = { enemyAdvance env dt
              { s.enemies.getD i default with
                  timeSinceLastAttack := (s.enemies.getD i default).timeSinceLastAttack + dt }
              (enemyClosest env (s.enemies.getD i default) s).1
              (enemyClosest env (s.enemies.getD i default) s).2
              (s.unit (enemyClosest env (s.enemies.getD i default) s).1.toNat)
              (enemyTargetPoint env (s.enemies.getD i default) s).1
              (enemyTargetPoint env (s.enemies.getD i default) s).2
              (enemyTargetDist env (s.enemies.getD i default) s) with
            timeSinceLastAttack := 0 } ∧
      (enemyUpdate env dt i s).units
        = (enemyStrike (enemyEngagesUnit env (s.enemies.getD i default) s)
            (enemyEngagesShip env (s.enemies.getD i default) s)
            (enemyClosest env (s.enemies.getD i default) s).1
            (s.enemies.getD i default).attackDamage s).units ∧
      (enemyUpdate env dt i s).playerShip
        = (enemyStrike (enemyEngagesUnit env (s.enemies.getD i default) s)
            (enemyEngagesShip env (s.enemies.getD i default) s)
            (enemyClosest env (s.enemies.getD i default) s).1
            (s.enemies.getD i default).attackDamage s).playerShip) ∧
    (¬ EnemyAttacks env dt (s.enemies.getD i default) s →
      (enemyUpdate env dt i s).enemies.getD i default
        = enemyAdvance env dt
            { s.enemies.getD i default with
                timeSinceLastAttack := (s.enemies.getD i default).timeSinceLastAttack + dt }
            (enemyClosest env (s.enemies.getD i default) s).1
            (enemyClosest env (s.enemies.getD i default) s).2
            (s.unit (enemyClosest env (s.enemies.getD i default) s).1.toNat)
            (enemyTargetPoint env (s.enemies.getD i default) s).1
            (enemyTargetPoint env (s.enemies.getD i default) s).2
            (enemyTargetDist env (s.enemies.getD i default) s) ∧
      (enemyUpdate env dt i s).units = s.units ∧
      (enemyUpdate env dt i s).playerShip = s.playerShip) := by
  have htx : (enemyTargetPoint env (s.enemies.getD i default) s).1
      = (if enemyEngagesUnit env (s.enemies.getD i default) s then
          (s.unit (enemyClosest env (s.enemies.getD i default) s).1.toNat).cx
         else s.playerShip.x) := by
    unfold enemyTargetPoint
    split_ifs <;> rfl
  have hty : (enemyTargetPoint env (s.enemies.getD i default) s).2
      = (if enemyEngagesUnit env (s.enemies.getD i default) s then
          (s.unit (enemyClosest env (s.enemies.getD i default) s).1.toNat).cy
         else s.playerShip.y) := by
    unfold enemyTargetPoint
    split_ifs <;> rfl
  rw [htx, hty]
  constructor
  · intro hatt
    rw [enemyUpdate_attack env dt i s halive hatt]
    dsimp only
    rw [(enemyStrike_frame _ _ _ _ s).2.2.2.2.1, getD_set_self _ _ _ _ hi]
    exact ⟨rfl, rfl, rfl⟩
  · intro hno
    have hc : ¬ (enemyTargetDist env (s.enemies.getD i default) s
          ≤ (s.enemies.getD i default).attackRange ∧
        (s.enemies.getD i default).timeSinceLastAttack + dt
          ≥ (s.enemies.getD i default).attackCooldown) := by
      intro hc
      exact hno ⟨Bool.or_eq_true_iff.1 heng, hc.1, hc.2⟩
    rw [enemyUpdate_alive env dt i s halive, if_pos heng, if_neg hc]
    dsimp only
    rw [getD_set_self _ _ _ _ hi]
    exact ⟨rfl, rfl, rfl⟩

theorem enemyAdvance_avoid (env : Env K) (dt : K) (e : EnemyNPC K) (a : Int) (b : K)
    (cu : Unit K) (tx ty d : K) (h : e.avoidUnitsRange > 0 ∧ a ≥ 0 ∧ b < e.avoidUnitsRange) :
    enemyAdvance env dt e a b cu tx ty d = enemyMove env dt e (e.fx - cu.cx) (e.fy - cu.cy) := by
  unfold enemyAdvance
  rw [if_pos h]

theorem enemyAdvance_approach (env : Env K) (dt : K) (e : EnemyNPC K) (a : Int) (b : K)
    (cu : Unit K) (tx ty d : K)
    (h : ¬ (e.avoidUnitsRange > 0 ∧ a ≥ 0 ∧ b < e.avoidUnitsRange)) (hd : d > e.attackRange) :
    enemyAdvance env dt e a b cu tx ty d = enemyMove env dt e (tx - e.fx) (ty - e.fy) := by
  unfold enemyAdvance
  rw [if_neg h, if_pos hd]

theorem enemyStrike_unit (eShip : Bool) (c : Int) (dmg : K) (s : Game K) :
    enemyStrike true eShip c dmg s
      = s.setUnit c.toNat
          { s.unit c.toNat with
            hp := max 0 ((s.unit c.toNat).hp - truncInt dmg),
            showHp :=
              if max 0 ((s.unit c.toNat).hp - truncInt dmg) < (s.unit c.toNat).maxHp then true
              else (s.unit c.toNat).showHp } := by
  have hmax : ∀ a : Int, (if a < 0 then 0 else a) = max 0 a := by
    intro a
    split_ifs with h
    · exact (max_eq_left (le_of_lt h)).symm
    · exact (max_eq_right (not_lt.mp h)).symm
  unfold enemyStrike
  rw [if_pos rfl]
  dsimp only
  rw [hmax]

theorem enemyStrike_ship (c : Int) (dmg : K) (s : Game K) :
    enemyStrike false true c dmg s
      = { s with
          playerShip :=
            { s.playerShip with hp := max 0 (s.playerShip.hp - truncInt dmg) } } := by
  have hmax : ∀ a : Int, (if a < 0 then 0 else a) = max 0 a := by
    intro a
    split_ifs with h
    · exact (max_eq_left (le_of_lt h)).symm
    · exact (max_eq_right (not_lt.mp h)).symm
  unfold enemyStrike
  rw [if_neg Bool.false_ne_true, if_pos rfl]
  dsimp only
  rw [hmax]

/-- C24 (amended): avoidance takes priority over the approach, not over the attack.  A living
enemy with a target that takes the avoidance branch (`avoidUnitsRange > 0` and its nearest
unit closer than that radius) moves by `moveSpeed * dt` straight away from that unit, along
`(enemy - unit) / len`, when `len > 0.001`, and stays where it is otherwise; it never takes
the approach step.  The attack of that frame is decided as for any enemy: under
`EnemyAttacks` (target within `attackRange` by the distance measured before the move, and
cooldown elapsed) the damage of lines 1177-1184 is applied and the timer is reset, and
otherwise no unit and not the ship changes. -/
theorem avoidance_preempts_approach (env : Env K) (dt : K) (i : Nat) (s : Game K)
    (hi : i < s.enemies.length) (halive : (s.enemies.getD i default).alive = true)
    (heng : (enemyEngagesUnit env (s.enemies.getD i default) s
      || enemyEngagesShip env (s.enemies.getD i default) s) = true)
    (hav : EnemyAvoids env (s.enemies.getD i default) s) :
    (∃ k, NearestUnit env (s.enemies.getD i default) s k ∧
      (enemyClosest env (s.enemies.getD i default) s).1 = (k : Int)) ∧
    (moveLen env
        ((s.enemies.getD i default).fx
          - (s.unit (enemyClosest env (s.enemies.getD i default) s).1.toNat).cx)
        ((s.enemies.getD i default).fy
          - (s.unit (enemyClosest env (s.enemies.getD i default) s).1.toNat).cy) > 1 / 1000 →
      ((enemyUpdate env dt i s).enemies.getD i default).fx
          - (s.unit (enemyClosest env (s.enemies.getD i default) s).1.toNat).cx
        = (1 + (s.enemies.getD i default).moveSpeed * dt
            / moveLen env
                ((s.enemies.getD i default).fx
                  - (s.unit (enemyClosest env (s.enemies.getD i default) s).1.toNat).cx)
                ((s.enemies.getD i default).fy
                  - (s.unit (enemyClosest env (s.enemies.getD i default) s).1.toNat).cy))
          * ((s.enemies.getD i default).fx
              - (s.unit (enemyClosest env (s.enemies.getD i default) s).1.toNat).cx) ∧
      ((enemyUpdate env dt i s).enemies.getD i default).fy
          - (s.unit (enemyClosest env (s.enemies.getD i default) s).1.toNat).cy
        = (1 + (s.enemies.getD i default).moveSpeed * dt
            / moveLen env
                ((s.enemies.getD i default).fx
                  - (s.unit (enemyClosest env (s.enemies.getD i default) s).1.toNat).cx)
                ((s.enemies.getD i default).fy
                  - (s.unit (enemyClosest env (s.enemies.getD i default) s).1.toNat).cy))
          * ((s.enemies.getD i default).fy
              - (s.unit (enemyClosest env (s.enemies.getD i default) s).1.toNat).cy) ∧
      ((enemyUpdate env dt i s).enemies.getD i default).x
        = lroundf ((enemyUpdate env dt i s).enemies.getD i default).fx ∧
      ((enemyUpdate env dt i s).enemies.getD i default).y
        = lroundf ((enemyUpdate env dt i s).enemies.getD i default).fy) ∧
    (¬ moveLen env
        ((s.enemies.getD i default).fx
          - (s.unit (enemyClosest env (s.enemies.getD i default) s).1.toNat).cx)
        ((s.enemies.getD i default).fy
          - (s.unit (enemyClosest env (s.enemies.getD i default) s).1.toNat).cy) > 1 / 1000 →
      ((enemyUpdate env dt i s).enemies.getD i default).fx = (s.enemies.getD i default).fx ∧
      ((enemyUpdate env dt i s).enemies.getD i default).fy = (s.enemies.getD i default).fy ∧
      ((enemyUpdate env dt i s).enemies.getD i default).x = (s.enemies.getD i default).x ∧
      ((enemyUpdate env dt i s).enemies.getD i default).y = (s.enemies.getD i default).y) ∧
    (EnemyAttacks env dt (s.enemies.getD i default) s →
      ((enemyUpdate env dt i s).enemies.getD i default).timeSinceLastAttack = 0 ∧
      (enemyEngagesUnit env (s.enemies.getD i default) s = true →
        (enemyUpdate env dt i s).playerShip = s.playerShip ∧
        (enemyUpdate env dt i s).units
          = s.units.set (enemyClosest env (s.enemies.getD i default) s).1.toNat
              { s.unit (enemyClosest env (s.enemies.getD i default) s).1.toNat with
                hp := max 0 ((s.unit (enemyClosest env (s.enemies.getD i default) s).1.toNat).hp
                  - truncInt (s.enemies.getD i default).attackDamage),
                showHp :=
                  if max 0
                      ((s.unit (enemyClosest env (s.enemies.getD i default) s).1.toNat).hp
                        - truncInt (s.enemies.getD i default).attackDamage)
                      < (s.unit (enemyClosest env (s.enemies.getD i default) s).1.toNat).maxHp
                  then true
                  else (s.unit (enemyClosest env (s.enemies.getD i default) s).1.toNat).showHp }) ∧
      (enemyEngagesUnit env (s.enemies.getD i default) s = false →
        (enemyUpdate env dt i s).units = s.units ∧
        (enemyUpdate env dt i s).playerShip
          = { s.playerShip with
              hp := max 0 (s.playerShip.hp
                - truncInt (s.enemies.getD i default).attackDamage) })) ∧
    (¬ EnemyAttacks env dt (s.enemies.getD i default) s →
      (enemyUpdate env dt i s).units = s.units ∧
      (enemyUpdate env dt i s).playerShip = s.playerShip ∧
      ((enemyUpdate env dt i s).enemies.getD i default).timeSinceLastAttack
        = (s.enemies.getD i default).timeSinceLastAttack + dt) := by
  obtain ⟨hyes, hno⟩ := enemyUpdate_enemy env dt i s hi halive heng
  have hmove := enemyAdvance_avoid env dt
    { s.enemies.getD i default with
        timeSinceLastAttack := (s.enemies.getD i default).timeSinceLastAttack + dt }
    (enemyClosest env (s.enemies.getD i default) s).1
    (enemyClosest env (s.enemies.getD i default) s).2
    (s.unit (enemyClosest env (s.enemies.getD i default) s).1.toNat)
    (enemyTargetPoint env (s.enemies.getD i default) s).1
    (enemyTargetPoint env (s.enemies.getD i default) s).2
    (enemyTargetDist env (s.enemies.getD i default) s) hav
  rw [hmove] at hyes hno
  refine ⟨?_, ?_, ?_, ?_, ?_⟩
  · rcases enemyClosest_spec env (s.enemies.getD i default) s with ⟨h1, _⟩ | ⟨k, hk, h1, _⟩
    · have := hav.2.1
      rw [h1] at this
      exact absurd this (show ¬ ((-1 : Int) ≥ 0) by decide)
    · exact ⟨k, hk, by rw [h1]⟩
  · intro hlen
    have hpos : (0 : K) < moveLen env
        ((s.enemies.getD i default).fx
          - (s.unit (enemyClosest env (s.enemies.getD i default) s).1.toNat).cx)
        ((s.enemies.getD i default).fy
          - (s.unit (enemyClosest env (s.enemies.getD i default) s).1.toNat).cy) :=
      lt_trans (by norm_num) hlen
    have hne := ne_of_gt hpos
    by_cases hatt : EnemyAttacks env dt (s.enemies.getD i default) s
    · rw [(hyes hatt).1, enemyMove_far env dt _ _ _ hlen]
      dsimp only
      refine ⟨?_, ?_, rfl, rfl⟩
      · field_simp
        ring
      · field_simp
        ring
    · rw [(hno hatt).1, enemyMove_far env dt _ _ _ hlen]
      dsimp only
      refine ⟨?_, ?_, rfl, rfl⟩
      · field_simp
        ring
      · field_simp
        ring
  · intro hlen
    by_cases hatt : EnemyAttacks env dt (s.enemies.getD i default) s
    · rw [(hyes hatt).1, enemyMove_near env dt _ _ _ hlen]
      exact ⟨rfl, rfl, rfl, rfl⟩
    · rw [(hno hatt).1, enemyMove_near env dt _ _ _ hlen]
      exact ⟨rfl, rfl, rfl, rfl⟩
  · intro hatt
    obtain ⟨h1, h2, h3⟩ := hyes hatt
    refine ⟨by rw [h1], ?_, ?_⟩
    · intro hu
      rw [h2, h3, hu, enemyStrike_unit]
      exact ⟨rfl, rfl⟩
    · intro hu
      have hs : enemyEngagesShip env (s.enemies.getD i default) s = true := by
        rcases Bool.or_eq_true_iff.1 heng with h | h
        · rw [hu] at h
          exact absurd h Bool.false_ne_true
        · exact h
      rw [h2, h3, hu, hs, enemyStrike_ship]
      exact ⟨rfl, rfl⟩
  · intro hatt
    obtain ⟨h1, h2, h3⟩ := hno hatt
    refine ⟨h2, h3, ?_⟩
    rw [h1]
    by_cases hlen : moveLen env
        ((s.enemies.getD i default).fx
          - (s.unit (enemyClosest env (s.enemies.getD i default) s).1.toNat).cx)
        ((s.enemies.getD i default).fy
          - (s.unit (enemyClosest env (s.enemies.getD i default) s).1.toNat).cy) > 1 / 1000
    · rw [enemyMove_far env dt _ _ _ hlen]
    · rw [enemyMove_near env dt _ _ _ hlen]

set_option maxRecDepth 1000000 in
unseal Rat.add Rat.mul Rat.inv Rat.sub in
/-- The statement of `avoidance_preempts_approach` at the siege enemy of `kiteGame` with a
frame of 0.2 s: it engages the ship, avoids the rifleman, attacks, and its timer is reset. -/
theorem avoidance_preempts_approach_witness :
    (0 < kiteGame.enemies.length ∧ (kiteGame.enemies.getD 0 default).alive = true ∧
      (enemyEngagesUnit evalEnv (kiteGame.enemies.getD 0 default) kiteGame
        || enemyEngagesShip evalEnv (kiteGame.enemies.getD 0 default) kiteGame) = true ∧
      EnemyAvoids evalEnv (kiteGame.enemies.getD 0 default) kiteGame) ∧
    EnemyAttacks evalEnv (1 / 5) (kiteGame.enemies.getD 0 default) kiteGame ∧
    ((enemyUpdate evalEnv (1 / 5) 0 kiteGame).enemies.getD 0 default).timeSinceLastAttack
      = 0 := by
  have h0 : 0 < kiteGame.enemies.length := by decide
  have h1 : (kiteGame.enemies.getD 0 default).alive = true := by decide
  have h2 : (enemyEngagesUnit evalEnv (kiteGame.enemies.getD 0 default) kiteGame
      || enemyEngagesShip evalEnv (kiteGame.enemies.getD 0 default) kiteGame) = true := by
    decide
  have h3 : EnemyAvoids evalEnv (kiteGame.enemies.getD 0 default) kiteGame := by
    unfold EnemyAvoids
    decide
  have h4 : EnemyAttacks evalEnv (1 / 5) (kiteGame.enemies.getD 0 default) kiteGame := by
    unfold EnemyAttacks
    decide
  exact ⟨⟨h0, h1, h2, h3⟩, h4,
    ((avoidance_preempts_approach evalEnv (1 / 5) 0 kiteGame h0 h1 h2 h3).2.2.2.1 h4).1⟩

set_option maxRecDepth 1000000 in
unseal Rat.add Rat.mul Rat.inv Rat.sub in
/-- C24, as stated, fails: the siege enemy of `kiteGame` has an avoidance radius of 200 and
its nearest unit is 100 away; in a frame of 0.2 s its update moves it 13 away from that unit,
from `(1450, 1750)` to `(1463, 1750)`, and in the same update it damages the ship, which is
300 away and within its attack range of 380: the ship goes from 200 to 190 hit points. -/
theorem avoiding_enemy_attacks :
    ((kiteGame.enemies.getD 0 default).avoidUnitsRange,
      enemyClosest evalEnv (kiteGame.enemies.getD 0 default) kiteGame) = (200, 0, 100) ∧
    (((kiteGame.enemies.getD 0 default).fx, (kiteGame.enemies.getD 0 default).fy),
      (((enemyUpdate evalEnv (1 / 5) 0 kiteGame).enemies.getD 0 default).fx,
        ((enemyUpdate evalEnv (1 / 5) 0 kiteGame).enemies.getD 0 default).fy))
      = ((1450, 1750), (1463, 1750)) ∧
    (kiteGame.playerShip.hp, (enemyUpdate evalEnv (1 / 5) 0 kiteGame).playerShip.hp)
      = (200, 190) ∧
    (enemyPass evalEnv (1 / 5) kiteGame).playerShip.hp = 190 :=
  ⟨by decide, by decide, by decide, by decide⟩

theorem enemyTargetDist_eq_len (env : Env K) (e : EnemyNPC K) (s : Game K) :
    moveLen env ((enemyTargetPoint env e s).1 - e.fx) ((enemyTargetPoint env e s).2 - e.fy)
      = enemyTargetDist env e s := by
  unfold enemyTargetPoint enemyTargetDist
  cases hu : enemyEngagesUnit env e s
  · rfl
  · have hge : (enemyClosest env e s).1 ≥ 0 := ((enemyEngagesUnit_iff env e s).1 hu).2.2.1
    rcases enemyClosest_spec env e s with ⟨h1, _⟩ | ⟨k, _, h1, _⟩
    · rw [h1] at hge
      exact absurd hge (show ¬ ((-1 : Int) ≥ 0) by decide)
    · rw [h1]
      simp only [if_true, Int.toNat_ofNat]
      rfl

theorem approach_sq (len st dx dy : K) (hl : 0 < len) (hsq : len * len = dx * dx + dy * dy) :
    ((1 - st / len) * dx) * ((1 - st / len) * dx) + ((1 - st / len) * dy) * ((1 - st / len) * dy)
      = (len - st) * (len - st) := by
  have hne : len ≠ 0 := ne_of_gt hl
  have e1 : (1 - st / len) = (len - st) / len := by
    field_simp
  rw [e1]
  have : (len - st) / len * dx * ((len - st) / len * dx)
      + (len - st) / len * dy * ((len - st) / len * dy)
      = (dx * dx + dy * dy) * (((len - st) / len) * ((len - st) / len)) := by ring
  rw [this, ← hsq]
  field_simp

/-- C26 (amended): the approach step of an enemy has no arrival snap.  A living enemy with a
target that does not avoid and whose distance to the target point, `distToTarget`, exceeds
its attack range does not attack in that frame and, when that distance is above 0.001, moves
by exactly `moveSpeed * dt` along the direction to the target point: the vector from its new
position to the target point is `(1 - step / dist)` times the old one.  With `sqrtf` exact at
this input the squared distance to the target point is then `(dist - step)²`: the distance
decreases by exactly `step` when `step ≤ dist`, the enemy lands on the target point only when
`step = dist`, and when `step > dist` it passes the target point and ends `step - dist`
beyond it. -/
theorem enemy_approach_step (env : Env K) (dt : K) (i : Nat) (s : Game K)
    (hi : i < s.enemies.length) (halive : (s.enemies.getD i default).alive = true)
    (heng : (enemyEngagesUnit env (s.enemies.getD i default) s
      || enemyEngagesShip env (s.enemies.getD i default) s) = true)
    (hnav : ¬ EnemyAvoids env (s.enemies.getD i default) s)
    (hfar : enemyTargetDist env (s.enemies.getD i default) s
      > (s.enemies.getD i default).attackRange) :
    ((enemyUpdate env dt i s).units = s.units ∧
      (enemyUpdate env dt i s).playerShip = s.playerShip) ∧
    (enemyTargetDist env (s.enemies.getD i default) s > 1 / 1000 →
      ((enemyTargetPoint env (s.enemies.getD i default) s).1
          - ((enemyUpdate env dt i s).enemies.getD i default).fx
        = (1 - (s.enemies.getD i default).moveSpeed * dt
              / enemyTargetDist env (s.enemies.getD i default) s)
            * ((enemyTargetPoint env (s.enemies.getD i default) s).1
                - (s.enemies.getD i default).fx) ∧
        (enemyTargetPoint env (s.enemies.getD i default) s).2
          - ((enemyUpdate env dt i s).enemies.getD i default).fy
        = (1 - (s.enemies.getD i default).moveSpeed * dt
              / enemyTargetDist env (s.enemies.getD i default) s)
            * ((enemyTargetPoint env (s.enemies.getD i default) s).2
                - (s.enemies.getD i default).fy)) ∧
      (enemyTargetDist env (s.enemies.getD i default) s
          * enemyTargetDist env (s.enemies.getD i default) s
        = ((enemyTargetPoint env (s.enemies.getD i default) s).1
              - (s.enemies.getD i default).fx)
            * ((enemyTargetPoint env (s.enemies.getD i default) s).1
              - (s.enemies.getD i default).fx)
          + ((enemyTargetPoint env (s.enemies.getD i default) s).2
              - (s.enemies.getD i default).fy)
            * ((enemyTargetPoint env (s.enemies.getD i default) s).2
              - (s.enemies.getD i default).fy) →
        ((enemyTargetPoint env (s.enemies.getD i default) s).1
              - ((enemyUpdate env dt i s).enemies.getD i default).fx)
            * ((enemyTargetPoint env (s.enemies.getD i default) s).1
              - ((enemyUpdate env dt i s).enemies.getD i default).fx)
          + ((enemyTargetPoint env (s.enemies.getD i default) s).2
              - ((enemyUpdate env dt i s).enemies.getD i default).fy)
            * ((enemyTargetPoint env (s.enemies.getD i default) s).2
              - ((enemyUpdate env dt i s).enemies.getD i default).fy)
          = (enemyTargetDist env (s.enemies.getD i default) s
                - (s.enemies.getD i default).moveSpeed * dt)
              * (enemyTargetDist env (s.enemies.getD i default) s
                - (s.enemies.getD i default).moveSpeed * dt) ∧
        ((((enemyUpdate env dt i s).enemies.getD i default).fx
              = (enemyTargetPoint env (s.enemies.getD i default) s).1 ∧
            ((enemyUpdate env dt i s).enemies.getD i default).fy
              = (enemyTargetPoint env (s.enemies.getD i default) s).2) ↔
          (s.enemies.getD i default).moveSpeed * dt
            = enemyTargetDist env (s.enemies.getD i default) s))) ∧
    (¬ enemyTargetDist env (s.enemies.getD i default) s > 1 / 1000 →
      ((enemyUpdate env dt i s).enemies.getD i default).fx = (s.enemies.getD i default).fx ∧
      ((enemyUpdate env dt i s).enemies.getD i default).fy = (s.enemies.getD i default).fy) := by
  have hlen := enemyTargetDist_eq_len env (s.enemies.getD i default) s
  have hnatt : ¬ EnemyAttacks env dt (s.enemies.getD i default) s := by
    rintro ⟨_, h2, _⟩
    exact absurd h2 (not_le.mpr hfar)
  obtain ⟨h1, h2, h3⟩ := (enemyUpdate_enemy env dt i s hi halive heng).2 hnatt
  have hmove := enemyAdvance_approach env dt
    { s.enemies.getD i default with
        timeSinceLastAttack := (s.enemies.getD i default).timeSinceLastAttack + dt }
    (enemyClosest env (s.enemies.getD i default) s).1
    (enemyClosest env (s.enemies.getD i default) s).2
    (s.unit (enemyClosest env (s.enemies.getD i default) s).1.toNat)
    (enemyTargetPoint env (s.enemies.getD i default) s).1
    (enemyTargetPoint env (s.enemies.getD i default) s).2
    (enemyTargetDist env (s.enemies.getD i default) s) hnav hfar
  rw [hmove] at h1
  refine ⟨⟨h2, h3⟩, ?_, ?_⟩
  · intro hbig
    have hbig1 : moveLen env
        ((enemyTargetPoint env (s.enemies.getD i default) s).1 - (s.enemies.getD i default).fx)
        ((enemyTargetPoint env (s.enemies.getD i default) s).2 - (s.enemies.getD i default).fy)
        > 1 / 1000 := by rw [hlen]; exact hbig
    have hpos : (0 : K) < enemyTargetDist env (s.enemies.getD i default) s :=
      lt_trans (by norm_num) hbig
    have hne := ne_of_gt hpos
    have e1 := enemyMove_far env dt
      { s.enemies.getD i default with
          timeSinceLastAttack := (s.enemies.getD i default).timeSinceLastAttack + dt }
      _ _ hbig1
    rw [hlen] at e1
    dsimp only at e1
    rw [e1] at h1
    have hx : (enemyTargetPoint env (s.enemies.getD i default) s).1
        - ((enemyUpdate env dt i s).enemies.getD i default).fx
        = (1 - (s.enemies.getD i default).moveSpeed * dt
              / enemyTargetDist env (s.enemies.getD i default) s)
            * ((enemyTargetPoint env (s.enemies.getD i default) s).1
                - (s.enemies.getD i default).fx) := by
      rw [h1]
      dsimp only
      field_simp
      ring
    have hy : (enemyTargetPoint env (s.enemies.getD i default) s).2
        - ((enemyUpdate env dt i s).enemies.getD i default).fy
        = (1 - (s.enemies.getD i default).moveSpeed * dt
              / enemyTargetDist env (s.enemies.getD i default) s)
            * ((enemyTargetPoint env (s.enemies.getD i default) s).2
                - (s.enemies.getD i default).fy) := by
      rw [h1]
      dsimp only
      field_simp
      ring
    refine ⟨⟨hx, hy⟩, ?_⟩
    intro hsq
    refine ⟨?_, ?_⟩
    · rw [hx, hy]
      exact approach_sq _ _ _ _ hpos hsq
    · constructor
      · rintro ⟨ex, ey⟩
        have hx0 : (1 - (s.enemies.getD i default).moveSpeed * dt
              / enemyTargetDist env (s.enemies.getD i default) s)
            * ((enemyTargetPoint env (s.enemies.getD i default) s).1
                - (s.enemies.getD i default).fx) = 0 := by rw [← hx, ex, sub_self]
        have hy0 : (1 - (s.enemies.getD i default).moveSpeed * dt
              / enemyTargetDist env (s.enemies.getD i default) s)
            * ((enemyTargetPoint env (s.enemies.getD i default) s).2
                - (s.enemies.getD i default).fy) = 0 := by rw [← hy, ey, sub_self]
        by_contra hne1
        have hfac : (1 - (s.enemies.getD i default).moveSpeed * dt
              / enemyTargetDist env (s.enemies.getD i default) s) ≠ 0 := by
          intro h0
          apply hne1
          exact (div_eq_one_iff_eq hne).1 (sub_eq_zero.1 h0).symm
        have dx0 := (mul_eq_zero.1 hx0).resolve_left hfac
        have dy0 := (mul_eq_zero.1 hy0).resolve_left hfac
        rw [dx0, dy0] at hsq
        have : enemyTargetDist env (s.enemies.getD i default) s = 0 := by
          have h00 : enemyTargetDist env (s.enemies.getD i default) s
              * enemyTargetDist env (s.enemies.getD i default) s = 0 := by
            rw [hsq]; ring
          exact mul_self_eq_zero.1 h00
        exact hne this
      · intro hst
        have hfac : (1 - (s.enemies.getD i default).moveSpeed * dt
              / enemyTargetDist env (s.enemies.getD i default) s) = 0 := by
          rw [hst, div_self hne, sub_self]
        rw [hfac, zero_mul] at hx hy
        exact ⟨(sub_eq_zero.1 hx).symm, (sub_eq_zero.1 hy).symm⟩
  · intro hsmall
    have hsmall1 : ¬ moveLen env
        ((enemyTargetPoint env (s.enemies.getD i default) s).1 - (s.enemies.getD i default).fx)
        ((enemyTargetPoint env (s.enemies.getD i default) s).2 - (s.enemies.getD i default).fy)
        > 1 / 1000 := by rw [hlen]; exact hsmall
    rw [enemyMove_near env dt _ _ _ hsmall1] at h1
    rw [h1]
    exact ⟨rfl, rfl⟩

set_option maxRecDepth 1000000 in
unseal Rat.add Rat.mul Rat.inv Rat.sub in
/-- The statement of `enemy_approach_step` at the enemy of `rushGame` with a frame of 0.5 s:
it is 60 from the rifleman, above its attack range of 45, and covers 90; it does not land on
the rifleman's centre. -/
theorem enemy_approach_step_witness :
    (0 < rushGame.enemies.length ∧ (rushGame.enemies.getD 0 default).alive = true ∧
      (enemyEngagesUnit evalEnv (rushGame.enemies.getD 0 default) rushGame
        || enemyEngagesShip evalEnv (rushGame.enemies.getD 0 default) rushGame) = true ∧
      ¬ EnemyAvoids evalEnv (rushGame.enemies.getD 0 default) rushGame ∧
      enemyTargetDist evalEnv (rushGame.enemies.getD 0 default) rushGame
        > (rushGame.enemies.getD 0 default).attackRange) ∧
    (enemyUpdate evalEnv (1 / 2) 0 rushGame).units = rushGame.units ∧
    (rushGame.enemies.getD 0 default).moveSpeed * (1 / 2)
      ≠ enemyTargetDist evalEnv (rushGame.enemies.getD 0 default) rushGame := by
  have h0 : 0 < rushGame.enemies.length := by decide
  have h1 : (rushGame.enemies.getD 0 default).alive = true := by decide
  have h2 : (enemyEngagesUnit evalEnv (rushGame.enemies.getD 0 default) rushGame
      || enemyEngagesShip evalEnv (rushGame.enemies.getD 0 default) rushGame) = true := by
    decide
  have h3 : ¬ EnemyAvoids evalEnv (rushGame.enemies.getD 0 default) rushGame := by
    unfold EnemyAvoids
    decide
  have h4 : enemyTargetDist evalEnv (rushGame.enemies.getD 0 default) rushGame
      > (rushGame.enemies.getD 0 default).attackRange := by decide
  exact ⟨⟨h0, h1, h2, h3, h4⟩,
    (enemy_approach_step evalEnv (1 / 2) 0 rushGame h0 h1 h2 h3 h4).1.1, by decide⟩

set_option maxRecDepth 1000000 in
unseal Rat.add Rat.mul Rat.inv Rat.sub in
/-- C26, as stated, fails: the enemy of `rushGame` approaches the rifleman, whose centre, the
target point, is at the origin; its remaining distance 60 is at most `moveSpeed * dt = 90`
in a frame of 0.5 s, and after the step it is at `(-30, 0)`, 30 past the target point, not on
it. -/
theorem approaching_enemy_overshoots :
    (enemyEngagesUnit evalEnv (rushGame.enemies.getD 0 default) rushGame = true ∧
      ¬ EnemyAvoids evalEnv (rushGame.enemies.getD 0 default) rushGame) ∧
    (enemyTargetPoint evalEnv (rushGame.enemies.getD 0 default) rushGame,
      enemyTargetDist evalEnv (rushGame.enemies.getD 0 default) rushGame,
      (rushGame.enemies.getD 0 default).moveSpeed * (1 / 2)) = ((0, 0), 60, 90) ∧
    (((rushGame.enemies.getD 0 default).fx, (rushGame.enemies.getD 0 default).fy),
      (((enemyUpdate evalEnv (1 / 2) 0 rushGame).enemies.getD 0 default).fx,
        ((enemyUpdate evalEnv (1 / 2) 0 rushGame).enemies.getD 0 default).fy))
      = ((60, 0), (-30, 0)) := by
  refine ⟨⟨by decide, ?_⟩, by decide, by decide⟩
  unfold EnemyAvoids
  decide

/-! ## C28: the goal of an approach lies in the hysteresis band -/

theorem lroundf_near (v : K) :
    (lroundf v : K) - v ≤ 1 / 2 ∧ v - (lroundf v : K) ≤ 1 / 2 := by
  unfold lroundf
  split_ifs with h
  · have h1 := Int.floor_le (v + 1 / 2)
    have h2 := Int.lt_floor_add_one (v + 1 / 2)
    constructor <;> linarith
  · have h1 := Int.le_ceil (v - 1 / 2)
    have h2 := Int.ceil_lt_add_one (v - 1 / 2)
    constructor <;> linarith

theorem goal_geometry (r ax ay ex ey d : K) (hr : 0 ≤ r) (ha : ax * ax + ay * ay = r * r)
    (hex1 : ex ≤ 1 / 2) (hex2 : -ex ≤ 1 / 2) (hey1 : ey ≤ 1 / 2) (hey2 : -ey ≤ 1 / 2)
    (hd : 0 ≤ d) (hdd : d * d = (ax - ex) * (ax - ex) + (ay - ey) * (ay - ey)) :
    (d - r) * (d - r) ≤ 1 / 2 := by
  have hrd : 0 ≤ r * d := mul_nonneg hr hd
  have hcs : (ax * (ax - ex) + ay * (ay - ey)) * (ax * (ax - ex) + ay * (ay - ey))
      ≤ (r * d) * (r * d) := by
    have e1 : (r * d) * (r * d) = (r * r) * (d * d) := by ring
    have e2 : (ax * ax + ay * ay) * ((ax - ex) * (ax - ex) + (ay - ey) * (ay - ey))
        - (ax * (ax - ex) + ay * (ay - ey)) * (ax * (ax - ex) + ay * (ay - ey))
        = (ax * (ay - ey) - ay * (ax - ex)) * (ax * (ay - ey) - ay * (ax - ex)) := by ring
    have e3 := mul_self_nonneg (ax * (ay - ey) - ay * (ax - ex))
    rw [e1, ← ha, hdd]
    linarith
  have hp : ax * (ax - ex) + ay * (ay - ey) ≤ r * d := by
    by_contra hc
    have hc1 := lt_of_not_le hc
    have := mul_self_lt_mul_self hrd hc1
    linarith
  have hex : ex * ex ≤ 1 / 4 := by
    have := mul_nonneg (show (0 : K) ≤ 1 / 2 - ex by linarith)
      (show (0 : K) ≤ 1 / 2 + ex by linarith)
    linarith [show (1 / 2 - ex) * (1 / 2 + ex) = 1 / 4 - ex * ex by ring]
  have hey : ey * ey ≤ 1 / 4 := by
    have := mul_nonneg (show (0 : K) ≤ 1 / 2 - ey by linarith)
      (show (0 : K) ≤ 1 / 2 + ey by linarith)
    linarith [show (1 / 2 - ey) * (1 / 2 + ey) = 1 / 4 - ey * ey by ring]
  have e4 : (d - r) * (d - r) = d * d - 2 * (r * d) + r * r := by ring
  have e5 : (ax - ex) * (ax - ex) + (ay - ey) * (ay - ey)
      - 2 * (ax * (ax - ex) + ay * (ay - ey)) + (ax * ax + ay * ay) = ex * ex + ey * ey := by
    ring
  rw [e4, hdd, ← ha]
  linarith

theorem approachGoal_band (u : Unit K) (tx ty dist : K) (hr : 0 ≤ u.range)
    (hfar : dist > u.range + ATTACK_RANGE_HYST) (hex : dist * dist = sqDistCentre u tx ty)
    (d : K) (hd : 0 ≤ d)
    (hdd : d * d
      = sqDistCentre (arrived (approachGoal u tx ty (tx - u.cx) (ty - u.cy) dist)) tx ty) :
    (d - u.range) * (d - u.range) ≤ 1 / 2 := by
  have h12 : dist > u.range + 12 := hfar
  have hpos : (0 : K) < dist := by linarith
  have hbig : dist > 1 / 10000 := by linarith
  have hne : dist ≠ 0 := ne_of_gt hpos
  unfold sqDistCentre at hex hdd
  unfold arrived approachGoal Unit.cx Unit.cy at hdd
  dsimp only at hdd
  rw [if_pos hbig] at hdd
  obtain ⟨hx1, hx2⟩ := lroundf_near (tx - (tx - u.cx) * (1 / dist) * u.range - (u.width : K) / 2)
  obtain ⟨hy1, hy2⟩ := lroundf_near (ty - (ty - u.cy) * (1 / dist) * u.range - (u.height : K) / 2)
  refine goal_geometry u.range ((tx - u.cx) * (1 / dist) * u.range)
    ((ty - u.cy) * (1 / dist) * u.range)
    ((lroundf (tx - (tx - u.cx) * (1 / dist) * u.range - (u.width : K) / 2) : K)
      - (tx - (tx - u.cx) * (1 / dist) * u.range - (u.width : K) / 2))
    ((lroundf (ty - (ty - u.cy) * (1 / dist) * u.range - (u.height : K) / 2) : K)
      - (ty - (ty - u.cy) * (1 / dist) * u.range - (u.height : K) / 2))
    d hr ?_ hx1 (by linarith) hy1 (by linarith) hd ?_
  · have : (tx - u.cx) * (1 / dist) * u.range * ((tx - u.cx) * (1 / dist) * u.range)
        + (ty - u.cy) * (1 / dist) * u.range * ((ty - u.cy) * (1 / dist) * u.range)
        = ((tx - u.cx) * (tx - u.cx) + (ty - u.cy) * (ty - u.cy)) * (u.range * u.range)
            / (dist * dist) := by
      field_simp
      ring
    rw [this, ← hex]
    field_simp
  · rw [hdd]
    unfold Unit.cx Unit.cy
    ring

theorem approachGoal_not_far (env : Env K) (u : Unit K) (tx ty dist : K) (hr : 0 ≤ u.range)
    (hfar : dist > u.range + ATTACK_RANGE_HYST) (hex : dist * dist = sqDistCentre u tx ty)
    (hnew : env.sqrtf
        (sqDistCentre (arrived (approachGoal u tx ty (tx - u.cx) (ty - u.cy) dist)) tx ty)
      * env.sqrtf
        (sqDistCentre (arrived (approachGoal u tx ty (tx - u.cx) (ty - u.cy) dist)) tx ty)
      = sqDistCentre (arrived (approachGoal u tx ty (tx - u.cx) (ty - u.cy) dist)) tx ty) :
    ¬ env.sqrtf
        (sqDistCentre (arrived (approachGoal u tx ty (tx - u.cx) (ty - u.cy) dist)) tx ty)
      > u.range + ATTACK_RANGE_HYST := by
  intro hc
  have h12 : env.sqrtf
        (sqDistCentre (arrived (approachGoal u tx ty (tx - u.cx) (ty - u.cy) dist)) tx ty)
      > u.range + 12 := hc
  have hd : 0 ≤ env.sqrtf
      (sqDistCentre (arrived (approachGoal u tx ty (tx - u.cx) (ty - u.cy) dist)) tx ty) := by
    linarith
  have := approachGoal_band u tx ty dist hr hfar hex _ hd hnew
  nlinarith

theorem approachOrFire_stops (env : Env K) (i : Nat) (ti : Int) (s : Game K)
    (h : ¬ enemyDist env (s.unit i) (s.enemies.getD ti.toNat default)
        > (s.unit i).range + ATTACK_RANGE_HYST) :
    approachOrFire env i ti s = stopAndFire env i ti s := by
  unfold approachOrFire stopAndFire
  unfold enemyDist at h
  dsimp only at h ⊢
  rw [if_neg h]

theorem mineStep_approach (env : Env K) (i : Nat) (s : Game K)
    (ha : assignedRockOf i s ≠ -1)
    (h : rockDist env (s.unit i) (s.rocks.getD (assignedRockOf i s).toNat default)
        > (s.unit i).range + ATTACK_RANGE_HYST) :
    mineStep env i s
      = s.setUnit i (approachGoal (s.unit i)
          ((s.rocks.getD (assignedRockOf i s).toNat default).x : K)
          ((s.rocks.getD (assignedRockOf i s).toNat default).y : K)
          (((s.rocks.getD (assignedRockOf i s).toNat default).x : K) - (s.unit i).cx)
          (((s.rocks.getD (assignedRockOf i s).toNat default).y : K) - (s.unit i).cy)
          (rockDist env (s.unit i) (s.rocks.getD (assignedRockOf i s).toNat default))) := by
  unfold mineStep
  unfold rockDist at h ⊢
  dsimp only at h ⊢
  rw [if_pos ha, if_pos h]

theorem mineStep_stops (env : Env K) (i : Nat) (s : Game K)
    (ha : assignedRockOf i s ≠ -1)
    (h : ¬ rockDist env (s.unit i) (s.rocks.getD (assignedRockOf i s).toNat default)
        > (s.unit i).range + ATTACK_RANGE_HYST) :
    mineStep env i s = stopAndMine env i s := by
  unfold mineStep stopAndMine
  unfold rockDist at h
  dsimp only at h ⊢
  rw [if_pos ha, if_neg h]

/-- C28: a unit with a range that is not negative whose distance to its target, a committed
enemy or its assigned rock, exceeds `range + 12` (with `sqrtf` exact at this input) is given
the goal `approachGoal`; once the steering step has snapped the unit onto that goal, every
`d ≥ 0` whose square is the squared distance from the unit's centre to the target satisfies
`(d - range)² ≤ 1/2`, that is `|d - range| ≤ √2/2`; and in every state in which the unit
stands on that goal and the target is where it was (with `sqrtf` exact there), the engagement
step, respectively the mining step, takes its stop-and-fire branch. -/
theorem approach_goal_in_band (env : Env K) (i : Nat) (s : Game K)
    (hi : i < s.units.length) (hr : 0 ≤ (s.unit i).range) :
    (∀ ti : Int,
      enemyDist env (s.unit i) (s.enemies.getD ti.toNat default)
        > (s.unit i).range + ATTACK_RANGE_HYST →
      enemyDist env (s.unit i) (s.enemies.getD ti.toNat default)
          * enemyDist env (s.unit i) (s.enemies.getD ti.toNat default)
        = sqDistCentre (s.unit i) ((s.enemies.getD ti.toNat default).x : K)
            ((s.enemies.getD ti.toNat default).y : K) →
      ((approachOrFire env i ti s).unit i).moving = true ∧
      (∀ d : K, 0 ≤ d →
        d * d = sqDistCentre (arrived ((approachOrFire env i ti s).unit i))
            ((s.enemies.getD ti.toNat default).x : K)
            ((s.enemies.getD ti.toNat default).y : K) →
        (d - (s.unit i).range) * (d - (s.unit i).range) ≤ 1 / 2) ∧
      (∀ s1 : Game K,
        s1.unit i = arrived ((approachOrFire env i ti s).unit i) →
        (s1.enemies.getD ti.toNat default).x = (s.enemies.getD ti.toNat default).x →
        (s1.enemies.getD ti.toNat default).y = (s.enemies.getD ti.toNat default).y →
        enemyDist env (s1.unit i) (s1.enemies.getD ti.toNat default)
            * enemyDist env (s1.unit i) (s1.enemies.getD ti.toNat default)
          = sqDistCentre (s1.unit i) ((s1.enemies.getD ti.toNat default).x : K)
              ((s1.enemies.getD ti.toNat default).y : K) →
        approachOrFire env i ti s1 = stopAndFire env i ti s1)) ∧
    (assignedRockOf i s ≠ -1 →
      rockDist env (s.unit i) (s.rocks.getD (assignedRockOf i s).toNat default)
        > (s.unit i).range + ATTACK_RANGE_HYST →
      rockDist env (s.unit i) (s.rocks.getD (assignedRockOf i s).toNat default)
          * rockDist env (s.unit i) (s.rocks.getD (assignedRockOf i s).toNat default)
        = sqDistCentre (s.unit i) ((s.rocks.getD (assignedRockOf i s).toNat default).x : K)
            ((s.rocks.getD (assignedRockOf i s).toNat default).y : K) →
      ((mineStep env i s).unit i).moving = true ∧
      (∀ d : K, 0 ≤ d →
        d * d = sqDistCentre (arrived ((mineStep env i s).unit i))
            ((s.rocks.getD (assignedRockOf i s).toNat default).x : K)
            ((s.rocks.getD (assignedRockOf i s).toNat default).y : K) →
        (d - (s.unit i).range) * (d - (s.unit i).range) ≤ 1 / 2) ∧
      (∀ s1 : Game K,
        s1.unit i = arrived ((mineStep env i s).unit i) →
        assignedRockOf i s1 = assignedRockOf i s →
        (s1.rocks.getD (assignedRockOf i s).toNat default).x
          = (s.rocks.getD (assignedRockOf i s).toNat default).x →
        (s1.rocks.getD (assignedRockOf i s).toNat default).y
          = (s.rocks.getD (assignedRockOf i s).toNat default).y →
        rockDist env (s1.unit i) (s1.rocks.getD (assignedRockOf i s1).toNat default)
            * rockDist env (s1.unit i) (s1.rocks.getD (assignedRockOf i s1).toNat default)
          = sqDistCentre (s1.unit i)
              ((s1.rocks.getD (assignedRockOf i s1).toNat default).x : K)
              ((s1.rocks.getD (assignedRockOf i s1).toNat default).y : K) →
        mineStep env i s1 = stopAndMine env i s1)) := by
  constructor
  · intro ti hfar hex
    have hg : (approachOrFire env i ti s).unit i
        = approachGoal (s.unit i) ((s.enemies.getD ti.toNat default).x : K)
          ((s.enemies.getD ti.toNat default).y : K)
          (((s.enemies.getD ti.toNat default).x : K) - (s.unit i).cx)
          (((s.enemies.getD ti.toNat default).y : K) - (s.unit i).cy)
          (enemyDist env (s.unit i) (s.enemies.getD ti.toNat default)) := by
      rw [approachOrFire_approach env i ti s hfar, unit_setUnit_self _ _ _ hi]
    rw [hg]
    refine ⟨rfl, ?_, ?_⟩
    · intro d hd hdd
      exact approachGoal_band (s.unit i) _ _ _ hr hfar hex d hd hdd
    · intro s1 hu1 hx hy hex1
      apply approachOrFire_stops
      have hd1 : enemyDist env (s1.unit i) (s1.enemies.getD ti.toNat default)
          = env.sqrtf (sqDistCentre (s1.unit i)
              ((s1.enemies.getD ti.toNat default).x : K)
              ((s1.enemies.getD ti.toNat default).y : K)) := rfl
      rw [hd1] at hex1 ⊢
      rw [hu1, hx, hy] at hex1 ⊢
      exact approachGoal_not_far env (s.unit i) _ _ _ hr hfar hex hex1
  · intro ha hfar hex
    have hg : (mineStep env i s).unit i
        = approachGoal (s.unit i) ((s.rocks.getD (assignedRockOf i s).toNat default).x : K)
          ((s.rocks.getD (assignedRockOf i s).toNat default).y : K)
          (((s.rocks.getD (assignedRockOf i s).toNat default).x : K) - (s.unit i).cx)
          (((s.rocks.getD (assignedRockOf i s).toNat default).y : K) - (s.unit i).cy)
          (rockDist env (s.unit i) (s.rocks.getD (assignedRockOf i s).toNat default)) := by
      rw [mineStep_approach env i s ha hfar, unit_setUnit_self _ _ _ hi]
    rw [hg]
    refine ⟨rfl, ?_, ?_⟩
    · intro d hd hdd
      exact approachGoal_band (s.unit i) _ _ _ hr hfar hex d hd hdd
    · intro s1 hu1 has hx hy hex1
      have ha1 : assignedRockOf i s1 ≠ -1 := by rw [has]; exact ha
      apply mineStep_stops env i s1 ha1
      have hd1 : rockDist env (s1.unit i) (s1.rocks.getD (assignedRockOf i s1).toNat default)
          = env.sqrtf (sqDistCentre (s1.unit i)
              ((s1.rocks.getD (assignedRockOf i s1).toNat default).x : K)
              ((s1.rocks.getD (assignedRockOf i s1).toNat default).y : K)) := rfl
      rw [hd1] at hex1 ⊢
      rw [has, hu1, hx, hy] at hex1 ⊢
      exact approachGoal_not_far env (s.unit i) _ _ _ hr hfar hex hex1

set_option maxRecDepth 1000000 in
unseal Rat.add Rat.mul Rat.inv Rat.sub in
/-- The statement of `approach_goal_in_band` at the unit of `goalGame`, 200 from its enemy
and 300 from its rock with a range of 140: its goals put its centre at `(60, 0)` and at
`(0, 160)`, at distance 140 from the enemy and from the rock, and on them the engagement step
and the mining step stop and fire. -/
theorem approach_goal_in_band_witness :
    (0 < goalGame.units.length ∧ 0 ≤ (goalGame.unit 0).range) ∧
    ((arrived ((approachOrFire evalEnv 0 0 goalGame).unit 0)).cx,
      (arrived ((approachOrFire evalEnv 0 0 goalGame).unit 0)).cy) = (60, 0) ∧
    ((arrived ((mineStep evalEnv 0 goalGame).unit 0)).cx,
      (arrived ((mineStep evalEnv 0 goalGame).unit 0)).cy) = (0, 160) ∧
    ((140 : ℚ) - (goalGame.unit 0).range) * (140 - (goalGame.unit 0).range) ≤ 1 / 2 ∧
    approachOrFire evalEnv 0 0 goalReached = stopAndFire evalEnv 0 0 goalReached ∧
    mineStep evalEnv 0 goalMined = stopAndMine evalEnv 0 goalMined := by
  have h0 : 0 < goalGame.units.length := by decide
  have hr : 0 ≤ (goalGame.unit 0).range := by decide
  have T := approach_goal_in_band evalEnv 0 goalGame h0 hr
  have T1 := T.1 0 (by decide) (by decide)
  have T2 := T.2 (by decide) (by decide) (by decide)
  refine ⟨⟨h0, hr⟩, by decide, by decide, ?_, ?_, ?_⟩
  · exact T1.2.1 140 (by decide) (by decide)
  · exact T1.2.2 goalReached rfl (by decide) (by decide) (by decide)
  · exact T2.2.2 goalMined rfl (by decide) (by decide) (by decide) (by decide)

/-! ## C25: no division by a near-zero distance -/

theorem checkedDiv_pos (eps a d : K) (h : d > eps) : checkedDiv eps a d = some (a / d) := by
  unfold checkedDiv
  rw [if_pos h]

theorem fireBulletChecked_eq (u : Unit K) (i : Nat) (dx dy dist : K) :
    fireBulletChecked u i dx dy dist = some (fireBullet u i dx dy dist) := by
  unfold fireBulletChecked fireBullet
  by_cases h : dist > 1 / 10000
  · simp only [if_pos h, checkedDiv_pos _ _ _ h]
    rfl
  · simp only [if_neg h]
    rfl

theorem approachGoalChecked_eq (u : Unit K) (tx ty dx dy dist : K) :
    approachGoalChecked u tx ty dx dy dist = some (approachGoal u tx ty dx dy dist) := by
  unfold approachGoalChecked approachGoal
  by_cases h : dist > 1 / 10000
  · simp only [if_pos h, checkedDiv_pos _ _ _ h]
    rfl
  · simp only [if_neg h]
    rfl

theorem healerSeekChecked_eq (env : Env K) (i : Nat) (s : Game K) :
    healerSeekChecked env i s = some (healerSeek env i s) := by
  unfold healerSeekChecked healerSeek
  dsimp only
  by_cases h1 : (woundedAllyFrom env i (s.unit i) s.units 0 (-1, SENTINEL)).1 ≠ -1 ∧
      (woundedAllyFrom env i (s.unit i) s.units 0 (-1, SENTINEL)).2 ≤ 1000
  · simp only [if_pos h1]
    split_ifs with h2 h3
    · simp only [checkedDiv_pos _ _ _ h3]
      rfl
    · rfl
    · rfl
  · simp only [if_neg h1]
    rfl

theorem steerChecked_eq (env : Env K) (dt : K) (i : Nat) (s : Game K) :
    steerChecked env dt i s = some (steer env dt i s) := by
  unfold steerChecked steer
  dsimp only
  split_ifs with h1 h2 h3
  · rfl
  · simp only [checkedDiv_pos _ _ _ h3]
    rfl
  · rfl
  · rfl

theorem enemyMoveChecked_eq (env : Env K) (dt : K) (enemy : EnemyNPC K) (dx dy : K) :
    enemyMoveChecked env dt enemy dx dy = some (enemyMove env dt enemy dx dy) := by
  unfold enemyMoveChecked enemyMove
  dsimp only
  split_ifs with h
  · simp only [checkedDiv_pos _ _ _ h]
    rfl
  · rfl

/-- C25: no division by a near-zero distance.  With each division by a distance checked
against the bound of its site (`0.0001` for `1/dist` of a shot and of an approach goal, of a
unit and of a healer; `0` for the unit steering step; `0.001` for the enemy steering steps),
the checked functions always have a result, and it is the result of the function of the
model: no division has a divisor at or below its bound.  At a distance `≤ 0.0001` the
direction is the zero vector: the bullet has velocity `(0, 0)` and the approach goal is the
target point itself. -/
theorem no_division_by_small_distance (env : Env K) (dt : K) :
    (∀ (u : Unit K) (i : Nat) (dx dy dist : K),
      fireBulletChecked u i dx dy dist = some (fireBullet u i dx dy dist) ∧
      (dist ≤ 1 / 10000 →
        (fireBullet u i dx dy dist).vx = 0 ∧ (fireBullet u i dx dy dist).vy = 0)) ∧
    (∀ (u : Unit K) (tx ty dx dy dist : K),
      approachGoalChecked u tx ty dx dy dist = some (approachGoal u tx ty dx dy dist) ∧
      (dist ≤ 1 / 10000 →
        (approachGoal u tx ty dx dy dist).targetX = lroundf (tx - (u.width : K) / 2) ∧
        (approachGoal u tx ty dx dy dist).targetY = lroundf (ty - (u.height : K) / 2))) ∧
    (∀ (i : Nat) (s : Game K),
      healerSeekChecked env i s = some (healerSeek env i s) ∧
      steerChecked env dt i s = some (steer env dt i s)) ∧
    (∀ (enemy : EnemyNPC K) (dx dy : K),
      enemyMoveChecked env dt enemy dx dy = some (enemyMove env dt enemy dx dy) ∧
      (¬ moveLen env dx dy > 1 / 1000 → enemyMove env dt enemy dx dy = enemy)) := by
  refine ⟨?_, ?_, ?_, ?_⟩
  · intro u i dx dy dist
    refine ⟨fireBulletChecked_eq u i dx dy dist, ?_⟩
    intro h
    unfold fireBullet
    dsimp only
    rw [if_neg (not_lt.mpr h)]
    simp
  · intro u tx ty dx dy dist
    refine ⟨approachGoalChecked_eq u tx ty dx dy dist, ?_⟩
    intro h
    unfold approachGoal
    dsimp only
    rw [if_neg (not_lt.mpr h)]
    simp
  · intro i s
    exact ⟨healerSeekChecked_eq env i s, steerChecked_eq env dt i s⟩
  · intro enemy dx dy
    refine ⟨enemyMoveChecked_eq env dt enemy dx dy, ?_⟩
    intro h
    exact enemyMove_near env dt enemy dx dy h

/-! ## C21: flag and target of a unit agree at the end of its update -/

theorem pick_fold_mem (f : Int × K → Int → Int × K)
    (hf : ∀ b t, f b t = b ∨ (f b t).1 = t) (list : List Int) (best : Int × K) :
    (list.foldl f best).1 = best.1 ∨ (list.foldl f best).1 ∈ list := by
  induction list generalizing best with
  | nil => exact Or.inl rfl
  | cons t rest ih =>
    rw [List.foldl_cons]
    rcases ih (f best t) with h | h
    · rcases hf best t with h1 | h1
      · left
        rw [h, h1]
      · right
        rw [h, h1]
        exact List.mem_cons_self _ _
    · right
      exact List.mem_cons_of_mem _ h

theorem nearestUnclaimed_mem (env : Env K) (enemies : List (EnemyNPC K)) (used : List Bool)
    (u : Unit K) (list : List Int) :
    (nearestUnclaimed env enemies used u list).1 = -1 ∨
      (nearestUnclaimed env enemies used u list).1 ∈ list := by
  unfold nearestUnclaimed
  apply pick_fold_mem
  intro b t
  dsimp only
  split_ifs
  · exact Or.inr rfl
  · exact Or.inl rfl
  · exact Or.inl rfl

theorem nearestUnclaimedRe_mem (env : Env K) (enemies : List (EnemyNPC K)) (used : List Bool)
    (u : Unit K) (list : List Int) :
    (nearestUnclaimedRe env enemies used u list).1 = -1 ∨
      (nearestUnclaimedRe env enemies used u list).1 ∈ list := by
  unfold nearestUnclaimedRe
  apply pick_fold_mem
  intro b t
  dsimp only
  split_ifs
  · exact Or.inr rfl
  · exact Or.inl rfl
  · exact Or.inl rfl

theorem nearestCaptured_mem (env : Env K) (enemies : List (EnemyNPC K))
    (u : Unit K) (list : List Int) :
    (nearestCaptured env enemies u list).1 = -1 ∨
      (nearestCaptured env enemies u list).1 ∈ list := by
  unfold nearestCaptured
  apply pick_fold_mem
  intro b t
  dsimp only
  split_ifs
  · exact Or.inr rfl
  · exact Or.inl rfl

theorem CommitFrame.refl_commit (s : Game K) : CommitFrame s s := ⟨rfl, rfl, rfl⟩

theorem CommitFrame.trans_commit {s s1 s2 : Game K} (h1 : CommitFrame s s1)
    (h2 : CommitFrame s1 s2) : CommitFrame s s2 :=
  ⟨h2.1.trans h1.1, h2.2.1.trans h1.2.1, h2.2.2.trans h1.2.2⟩

theorem SameCommit.refl_same (i : Nat) (s : Game K) : SameCommit i s s := ⟨rfl, rfl⟩

theorem Committed.of_same_commit {i : Nat} {s s1 : Game K} (hf : CommitFrame s s1)
    (hs : SameCommit i s s1) (h : Committed s i) : Committed s1 i := by
  unfold Committed TargetValid at *
  rw [hs.1, hs.2, hf.1]
  exact h

theorem Uncommitted.of_same_clear {i : Nat} {s s1 : Game K}
    (hs : SameCommit i s s1) (h : Uncommitted s i) : Uncommitted s1 i := by
  unfold Uncommitted at *
  rw [hs.1, hs.2]
  exact h

theorem commit_set (s : Game K) (i : Nat) (t : Int) (hA : i < s.unitAttacking.length)
    (hT : i < s.unitTargetEnemy.length)
    (ht : 0 ≤ t ∧ t < (s.enemies.length : Int) ∧ (s.enemies.getD t.toNat default).alive = true)
    (s1 : Game K) (he : s1.enemies = s.enemies)
    (h1 : s1.unitAttacking = s.unitAttacking.set i true)
    (h2 : s1.unitTargetEnemy = s.unitTargetEnemy.set i t) :
    CommitFrame s s1 ∧ Committed s1 i := by
  refine ⟨⟨he, by rw [h1, List.length_set], by rw [h2, List.length_set]⟩, ?_⟩
  unfold Committed TargetValid
  rw [h1, h2, he, getD_set_self _ _ _ _ hA, getD_set_self _ _ _ _ hT]
  exact ⟨rfl, ht⟩

theorem tickFireTimer_commit (env : Env K) (dt : K) (i : Nat) (s : Game K) :
    CommitFrame s (tickFireTimer env dt i s) ∧ SameCommit i s (tickFireTimer env dt i s) := by
  rw [tickFireTimer_eq]
  exact ⟨⟨rfl, rfl, rfl⟩, rfl, rfl⟩

theorem mine_commit (env : Env K) (i : Nat) (s : Game K) :
    CommitFrame s (mine env i s) ∧ SameCommit i s (mine env i s) := by
  obtain ⟨h1, h2, _, h4, _, _⟩ := mine_frame env i s
  exact ⟨⟨h4, by rw [h1], by rw [h2]⟩, by rw [h1], by rw [h2]⟩

theorem scanOrMine_commit (env : Env K) (i : Nat) (s : Game K)
    (hA : i < s.unitAttacking.length) (hT : i < s.unitTargetEnemy.length) :
    CommitFrame s (scanOrMine env i s) ∧
      (Committed (scanOrMine env i s) i ∨ SameCommit i s (scanOrMine env i s)) := by
  unfold scanOrMine
  dsimp only
  split_ifs with h
  · have hv : 0 ≤ (nearestEnemyScan env (s.unit i) s.enemies).1 ∧
        (nearestEnemyScan env (s.unit i) s.enemies).1 < (s.enemies.length : Int) ∧
        (s.enemies.getD (nearestEnemyScan env (s.unit i) s.enemies).1.toNat default).alive
          = true := by
      rcases nearestEnemyScan_spec env (s.unit i) s.enemies with ⟨h1, _⟩ | ⟨k, e, hk, hfn, h1, _⟩
      · rw [h1] at h
        exact absurd h.1 (show ¬ ((-1 : Int) ≥ 0) by decide)
      · rw [h1]
        obtain ⟨e1, he1, halive, _⟩ := hfn
        have hlt : k < s.enemies.length := by
          by_contra hc
          rw [List.getElem?_eq_none (not_lt.mp hc)] at hk
          cases hk
        refine ⟨by simp, by simp [hlt], ?_⟩
        simp only [Int.toNat_ofNat]
        rw [getD_of_getElem? _ _ _ _ he1]
        exact halive
    obtain ⟨f, c⟩ := commit_set s i _ hA hT hv
      { s with unitAttacking := s.unitAttacking.set i true,
               unitTargetEnemy := s.unitTargetEnemy.set i
                 (nearestEnemyScan env (s.unit i) s.enemies).1,
               units := s.units.set i { s.unit i with moving := false } } rfl rfl rfl
    exact ⟨f, Or.inl c⟩
  · obtain ⟨f, c⟩ := mine_commit env i s
    exact ⟨f, Or.inr c⟩

theorem bestI_valid (env : Env K) (s : Game K) (i : Nat) (a : Int)
    (ha : a = -1 ∨ a ∈ livingTargets s i)
    (hb : (if a = -1 then (nearestCaptured env s.enemies (s.unit i) (livingTargets s i)).1
      else a) ≠ -1) :
    0 ≤ (if a = -1 then (nearestCaptured env s.enemies (s.unit i) (livingTargets s i)).1
      else a) ∧
    (if a = -1 then (nearestCaptured env s.enemies (s.unit i) (livingTargets s i)).1 else a)
      < (s.enemies.length : Int) ∧
    (s.enemies.getD (if a = -1 then
      (nearestCaptured env s.enemies (s.unit i) (livingTargets s i)).1 else a).toNat
        default).alive = true := by
  by_cases h : a = -1
  · rw [if_pos h] at hb ⊢
    rcases nearestCaptured_mem env s.enemies (s.unit i) (livingTargets s i) with h1 | h1
    · exact absurd h1 hb
    · exact mem_livingTargets s i _ h1
  · rw [if_neg h]
    rcases ha with h1 | h1
    · exact absurd h1 h
    · exact mem_livingTargets s i _ h1

theorem areaAcquire_commit (env : Env K) (i : Nat) (s : Game K)
    (hA : i < s.unitAttacking.length) (hT : i < s.unitTargetEnemy.length) :
    CommitFrame s (areaAcquire env i s) ∧
      (Committed (areaAcquire env i s) i ∨ SameCommit i s (areaAcquire env i s)) := by
  have key : areaAcquire env i s
      = if livingTargets s i ≠ [] then
          (if (if (nearestUnclaimed env s.enemies
                (claimedByOthers (pruneCaptured i s) i)
                (s.unit i) (livingTargets s i)).1 = -1
              then (nearestCaptured env s.enemies (s.unit i) (livingTargets s i)).1
              else (nearestUnclaimed env s.enemies
                (claimedByOthers (pruneCaptured i s) i)
                (s.unit i) (livingTargets s i)).1) ≠ -1
          then { s with
            unitAreaTargets := s.unitAreaTargets.set i (livingTargets s i),
            unitAttacking := s.unitAttacking.set i true,
            unitTargetEnemy := s.unitTargetEnemy.set i
              (if (nearestUnclaimed env s.enemies
                (claimedByOthers (pruneCaptured i s) i)
                (s.unit i) (livingTargets s i)).1 = -1
              then (nearestCaptured env s.enemies (s.unit i) (livingTargets s i)).1
              else (nearestUnclaimed env s.enemies
                (claimedByOthers (pruneCaptured i s) i)
                (s.unit i) (livingTargets s i)).1) }
          else { s with unitAreaTargets := s.unitAreaTargets.set i (livingTargets s i) })
        else { s with unitAreaTargets := s.unitAreaTargets.set i (livingTargets s i),
                      unitAreaAttack := s.unitAreaAttack.set i false } := rfl
  rw [key]
  have hm := nearestUnclaimed_mem env s.enemies
    (claimedByOthers (pruneCaptured i s) i) (s.unit i) (livingTargets s i)
  generalize (nearestUnclaimed env s.enemies
    (claimedByOthers (pruneCaptured i s) i) (s.unit i) (livingTargets s i)).1 = a
    at hm ⊢
  have hv := bestI_valid env s i a hm
  generalize (if a = -1 then (nearestCaptured env s.enemies (s.unit i) (livingTargets s i)).1
    else a) = b at hv ⊢
  by_cases h1 : livingTargets s i ≠ []
  · rw [if_pos h1]
    by_cases h2 : b ≠ -1
    · rw [if_pos h2]
      obtain ⟨f, c⟩ := commit_set s i b hA hT (hv h2)
        { s with
          unitAreaTargets := s.unitAreaTargets.set i (livingTargets s i),
          unitAttacking := s.unitAttacking.set i true,
          unitTargetEnemy := s.unitTargetEnemy.set i b } rfl rfl rfl
      exact ⟨f, Or.inl c⟩
    · rw [if_neg h2]
      exact ⟨⟨rfl, rfl, rfl⟩, Or.inr ⟨rfl, rfl⟩⟩
  · rw [if_neg h1]
    exact ⟨⟨rfl, rfl, rfl⟩, Or.inr ⟨rfl, rfl⟩⟩

theorem reacquire_commit (env : Env K) (i : Nat) (s : Game K)
    (hA : i < s.unitAttacking.length) (hT : i < s.unitTargetEnemy.length) :
    CommitFrame s (reacquire env i s) ∧
      (Committed (reacquire env i s) i ∨ SameCommit i s (reacquire env i s)) := by
  have key : reacquire env i s
      = if livingTargets s i ≠ [] then
          (if (if (nearestUnclaimedRe env s.enemies
                (claimedByOthers (pruneCaptured i s) i)
                (s.unit i) (livingTargets s i)).1 = -1
              then (nearestCaptured env s.enemies (s.unit i) (livingTargets s i)).1
              else (nearestUnclaimedRe env s.enemies
                (claimedByOthers (pruneCaptured i s) i)
                (s.unit i) (livingTargets s i)).1) ≠ -1
          then { s with
            unitAreaTargets := s.unitAreaTargets.set i (livingTargets s i),
            unitAttacking := s.unitAttacking.set i true,
            unitTargetEnemy := s.unitTargetEnemy.set i
              (if (nearestUnclaimedRe env s.enemies
                (claimedByOthers (pruneCaptured i s) i)
                (s.unit i) (livingTargets s i)).1 = -1
              then (nearestCaptured env s.enemies (s.unit i) (livingTargets s i)).1
              else (nearestUnclaimedRe env s.enemies
                (claimedByOthers (pruneCaptured i s) i)
                (s.unit i) (livingTargets s i)).1) }
          else { s with unitAreaTargets := s.unitAreaTargets.set i (livingTargets s i),
                        unitAreaAttack := s.unitAreaAttack.set i false })
        else { s with unitAreaTargets := s.unitAreaTargets.set i (livingTargets s i),
                      unitAreaAttack := s.unitAreaAttack.set i false } := rfl
  rw [key]
  have hm := nearestUnclaimedRe_mem env s.enemies
    (claimedByOthers (pruneCaptured i s) i) (s.unit i) (livingTargets s i)
  generalize (nearestUnclaimedRe env s.enemies
    (claimedByOthers (pruneCaptured i s) i) (s.unit i) (livingTargets s i)).1 = a
    at hm ⊢
  have hv := bestI_valid env s i a hm
  generalize (if a = -1 then (nearestCaptured env s.enemies (s.unit i) (livingTargets s i)).1
    else a) = b at hv ⊢
  by_cases h1 : livingTargets s i ≠ []
  · rw [if_pos h1]
    by_cases h2 : b ≠ -1
    · rw [if_pos h2]
      obtain ⟨f, c⟩ := commit_set s i b hA hT (hv h2)
        { s with
          unitAreaTargets := s.unitAreaTargets.set i (livingTargets s i),
          unitAttacking := s.unitAttacking.set i true,
          unitTargetEnemy := s.unitTargetEnemy.set i b } rfl rfl rfl
      exact ⟨f, Or.inl c⟩
    · rw [if_neg h2]
      exact ⟨⟨rfl, rfl, rfl⟩, Or.inr ⟨rfl, rfl⟩⟩
  · rw [if_neg h1]
    exact ⟨⟨rfl, rfl, rfl⟩, Or.inr ⟨rfl, rfl⟩⟩

theorem acquire_commit (env : Env K) (i : Nat) (s : Game K)
    (hA : i < s.unitAttacking.length) (hT : i < s.unitTargetEnemy.length) :
    CommitFrame s (acquire env i s) ∧
      (Committed (acquire env i s) i ∨ SameCommit i s (acquire env i s)) := by
  unfold acquire
  dsimp only
  have h1 : CommitFrame s
        (if s.unitAreaAttack.getD i false = true then areaAcquire env i s else s) ∧
      (Committed (if s.unitAreaAttack.getD i false = true then areaAcquire env i s else s) i ∨
        SameCommit i s
          (if s.unitAreaAttack.getD i false = true then areaAcquire env i s else s)) := by
    split_ifs
    · exact areaAcquire_commit env i s hA hT
    · exact ⟨CommitFrame.refl_commit s, Or.inr (SameCommit.refl_same i s)⟩
  generalize (if s.unitAreaAttack.getD i false = true then areaAcquire env i s else s) = s1
    at h1 ⊢
  obtain ⟨f1, c1⟩ := h1
  split_ifs with h
  · obtain ⟨f2, c2⟩ := scanOrMine_commit env i s1 (by rw [f1.2.1]; exact hA)
      (by rw [f1.2.2]; exact hT)
    refine ⟨f1.trans_commit f2, ?_⟩
    rcases c2 with c2 | c2
    · exact Or.inl c2
    · rcases c1 with c1 | c1
      · exact Or.inl (c1.of_same_commit f2 c2)
      · exact Or.inr ⟨c2.1.trans c1.1, c2.2.trans c1.2⟩
  · exact ⟨f1, c1⟩

theorem clearCommit_cleared (i : Nat) (s : Game K) :
    CommitFrame s (clearCommit i s) ∧ Uncommitted (clearCommit i s) i ∧
      ((clearCommit i s).unit i).moving = false := by
  unfold clearCommit CommitFrame Uncommitted Game.unit
  dsimp only
  refine ⟨⟨rfl, by rw [List.length_set], by rw [List.length_set]⟩,
    ⟨getD_set_false _ _, ?_⟩, ?_⟩
  · rw [getD_set]
    split_ifs with h
    · rfl
    · exact List.getD_eq_default _ _ (by
        by_contra hc
        exact h ⟨rfl, not_le.mp hc⟩)
  · rw [getD_set]
    split_ifs with h
    · rfl
    · rw [List.getD_eq_default _ _ (by
        by_contra hc
        exact h ⟨rfl, not_le.mp hc⟩)]
      rfl

theorem targetLost_eq_clear (env : Env K) (i : Nat) (s : Game K) :
    targetLost env i s
      = if s.unitAreaAttack.getD i false then reacquire env i (clearCommit i s)
        else clearCommit i s := rfl

theorem targetLost_commit (env : Env K) (i : Nat) (s : Game K)
    (hA : i < s.unitAttacking.length) (hT : i < s.unitTargetEnemy.length) :
    CommitFrame s (targetLost env i s) ∧
      (Committed (targetLost env i s) i ∨ Uncommitted (targetLost env i s) i) := by
  rw [targetLost_eq_clear]
  obtain ⟨f, c, _⟩ := clearCommit_cleared i s
  split_ifs
  · obtain ⟨f2, c2⟩ := reacquire_commit env i (clearCommit i s) (by rw [f.2.1]; exact hA)
      (by rw [f.2.2]; exact hT)
    refine ⟨f.trans_commit f2, ?_⟩
    rcases c2 with c2 | c2
    · exact Or.inl c2
    · exact Or.inr (c.of_same_clear c2)
  · exact ⟨f, Or.inr c⟩

theorem approachOrFire_commit (env : Env K) (i : Nat) (ti : Int) (s : Game K) :
    CommitFrame s (approachOrFire env i ti s) ∧ SameCommit i s (approachOrFire env i ti s) := by
  unfold approachOrFire
  dsimp only
  split_ifs <;> exact ⟨⟨rfl, rfl, rfl⟩, rfl, rfl⟩

theorem engage_stale (env : Env K) (i : Nat) (s : Game K)
    (h : staleTarget s.enemies (s.unitTargetEnemy.getD i (-1)) = true) :
    engage env i s = targetLost env i s := by
  unfold engage
  dsimp only
  rw [if_pos]
  unfold staleTarget at h
  simp only [Bool.or_eq_true, decide_eq_true_eq, Bool.not_eq_true'] at h
  rcases h with (h | h) | h
  · exact Or.inl h
  · exact Or.inr (Or.inl h)
  · exact Or.inr (Or.inr h)

theorem engage_commit (env : Env K) (i : Nat) (s : Game K)
    (hA : i < s.unitAttacking.length) (hT : i < s.unitTargetEnemy.length)
    (hflag : s.unitAttacking.getD i false = true) :
    CommitFrame s (engage env i s) ∧
      (Committed (engage env i s) i ∨ Uncommitted (engage env i s) i) := by
  unfold engage
  dsimp only
  split_ifs with h
  · exact targetLost_commit env i s hA hT
  · obtain ⟨f, c⟩ := approachOrFire_commit env i (s.unitTargetEnemy.getD i (-1)) s
    refine ⟨f, Or.inl ?_⟩
    have hc : Committed s i := by
      refine ⟨hflag, ?_, ?_, ?_⟩
      · by_contra hc
        exact h (Or.inl (not_le.mp hc))
      · by_contra hc
        exact h (Or.inr (Or.inl (not_lt.mp hc)))
      · by_contra hc
        exact h (Or.inr (Or.inr (by simpa using hc)))
    exact hc.of_same_commit f c

theorem healerSeek_commit (env : Env K) (i : Nat) (s : Game K) :
    CommitFrame s (healerSeek env i s) ∧ Uncommitted (healerSeek env i s) i := by
  have hset : ∀ s1 : Game K, s1.enemies = s.enemies →
      s1.unitAttacking = s.unitAttacking → s1.unitTargetEnemy = s.unitTargetEnemy →
      CommitFrame s { s1 with unitAttacking := s1.unitAttacking.set i false,
                              unitTargetEnemy := s1.unitTargetEnemy.set i (-1) } ∧
      Uncommitted { s1 with unitAttacking := s1.unitAttacking.set i false,
                            unitTargetEnemy := s1.unitTargetEnemy.set i (-1) } i := by
    intro s1 he h1 h2
    unfold CommitFrame Uncommitted
    dsimp only
    refine ⟨⟨he, by rw [List.length_set, h1], by rw [List.length_set, h2]⟩,
      getD_set_false _ _, ?_⟩
    rw [getD_set]
    split_ifs with h
    · rfl
    · exact List.getD_eq_default _ _ (by
        by_contra hc
        exact h ⟨rfl, not_le.mp hc⟩)
  unfold healerSeek
  dsimp only
  split_ifs <;> exact hset _ rfl rfl rfl

theorem steer_commit (env : Env K) (dt : K) (i : Nat) (s : Game K) :
    CommitFrame s (steer env dt i s) ∧ SameCommit i s (steer env dt i s) := by
  rw [steer_eq]
  exact ⟨⟨rfl, rfl, rfl⟩, rfl, rfl⟩

theorem unitEngageAndMove_commit (env : Env K) (dt : K) (i : Nat) (s : Game K)
    (hA : i < s.unitAttacking.length) (hT : i < s.unitTargetEnemy.length)
    (hinv : Committed s i ∨ Uncommitted s i ∨ s.unitAttacking.getD i false = true) :
    CommitFrame s (unitEngageAndMove env dt i s) ∧
      (Committed (unitEngageAndMove env dt i s) i ∨
        Uncommitted (unitEngageAndMove env dt i s) i) := by
  unfold unitEngageAndMove
  dsimp only
  have h3 : CommitFrame s (if s.unitAttacking.getD i false = true then engage env i s else s) ∧
      (Committed (if s.unitAttacking.getD i false = true then engage env i s else s) i ∨
        Uncommitted (if s.unitAttacking.getD i false = true then engage env i s else s) i) := by
    split_ifs with hf
    · exact engage_commit env i s hA hT hf
    · refine ⟨CommitFrame.refl_commit s, ?_⟩
      rcases hinv with h | h | h
      · exact Or.inl h
      · exact Or.inr h
      · exact absurd h hf
  generalize (if s.unitAttacking.getD i false = true then engage env i s else s) = s3 at h3 ⊢
  obtain ⟨f3, c3⟩ := h3
  have h4 : CommitFrame s3
        (if (s3.unit i).type = UnitType.UNIT_HEALER then healerSeek env i s3 else s3) ∧
      (Committed (if (s3.unit i).type = UnitType.UNIT_HEALER then healerSeek env i s3
          else s3) i ∨
        Uncommitted (if (s3.unit i).type = UnitType.UNIT_HEALER then healerSeek env i s3
          else s3) i) := by
    split_ifs
    · obtain ⟨f, c⟩ := healerSeek_commit env i s3
      exact ⟨f, Or.inr c⟩
    · exact ⟨CommitFrame.refl_commit s3, c3⟩
  generalize (if (s3.unit i).type = UnitType.UNIT_HEALER then healerSeek env i s3 else s3)
    = s4 at h4 ⊢
  obtain ⟨f4, c4⟩ := h4
  obtain ⟨f5, c5⟩ := steer_commit env dt i s4
  refine ⟨(f3.trans_commit f4).trans_commit f5, ?_⟩
  rcases c4 with c | c
  · exact Or.inl (c.of_same_commit f5 c5)
  · exact Or.inr (c.of_same_clear c5)

theorem unitUpdate_commit (env : Env K) (dt : K) (i : Nat) (s : Game K)
    (hA : i < s.unitAttacking.length) (hT : i < s.unitTargetEnemy.length)
    (hinv : s.unitAttacking.getD i false = false → s.unitTargetEnemy.getD i (-1) = -1) :
    CommitFrame s (unitUpdate env dt i s) ∧
      (Committed (unitUpdate env dt i s) i ∨ Uncommitted (unitUpdate env dt i s) i) := by
  unfold unitUpdate
  dsimp only
  obtain ⟨f1, c1⟩ := tickFireTimer_commit env dt i s
  have hA1 : i < (tickFireTimer env dt i s).unitAttacking.length := by rw [f1.2.1]; exact hA
  have hT1 : i < (tickFireTimer env dt i s).unitTargetEnemy.length := by rw [f1.2.2]; exact hT
  have hinv1 : (tickFireTimer env dt i s).unitAttacking.getD i false = false →
      (tickFireTimer env dt i s).unitTargetEnemy.getD i (-1) = -1 := by
    rw [c1.1, c1.2]
    exact hinv
  generalize tickFireTimer env dt i s = s1 at f1 hA1 hT1 hinv1 ⊢
  have h2 : CommitFrame s1
        (if s1.unitAttacking.getD i false = false ∧ (s1.unit i).type ≠ UnitType.UNIT_HEALER
          then acquire env i s1 else s1) ∧
      (Committed (if s1.unitAttacking.getD i false = false ∧
          (s1.unit i).type ≠ UnitType.UNIT_HEALER then acquire env i s1 else s1) i ∨
        Uncommitted (if s1.unitAttacking.getD i false = false ∧
          (s1.unit i).type ≠ UnitType.UNIT_HEALER then acquire env i s1 else s1) i ∨
        (if s1.unitAttacking.getD i false = false ∧
          (s1.unit i).type ≠ UnitType.UNIT_HEALER then acquire env i s1 else s1
          ).unitAttacking.getD i false = true) := by
    split_ifs with h
    · obtain ⟨f, c⟩ := acquire_commit env i s1 hA1 hT1
      refine ⟨f, ?_⟩
      rcases c with c | c
      · exact Or.inl c
      · exact Or.inr (Or.inl (Uncommitted.of_same_clear c ⟨h.1, hinv1 h.1⟩))
    · refine ⟨CommitFrame.refl_commit s1, ?_⟩
      cases hf : s1.unitAttacking.getD i false
      · exact Or.inr (Or.inl ⟨hf, hinv1 hf⟩)
      · exact Or.inr (Or.inr rfl)
  generalize (if s1.unitAttacking.getD i false = false ∧
    (s1.unit i).type ≠ UnitType.UNIT_HEALER then acquire env i s1 else s1) = s2 at h2 ⊢
  obtain ⟨f2, c2⟩ := h2
  obtain ⟨f3, c3⟩ := unitEngageAndMove_commit env dt i s2 (by rw [f2.2.1]; exact hA1)
    (by rw [f2.2.2]; exact hT1) c2
  exact ⟨(f1.trans_commit f2).trans_commit f3, c3⟩

/-- C21: at the end of the update of unit `i`, whose entries in the tables `unitAttacking`
and `unitTargetEnemy` exist and whose target entry was `-1` if it was not attacking at the
start: if the attacking flag is true the committed target is an index into the enemy list,
of a living enemy, and if the flag is false the committed target is `-1`.  An engagement step
that finds its committed target out of the index range or dead first drops the commitment
(`attacking = false`, `target = -1`, `moving = false`, the state `clearCommit`) and only then,
for a unit in area-attack mode, looks for another captured target, in that same step. -/
theorem commitment_consistent (env : Env K) (dt : K) (i : Nat) (s : Game K)
    (hA : i < s.unitAttacking.length) (hT : i < s.unitTargetEnemy.length)
    (hinv : s.unitAttacking.getD i false = false → s.unitTargetEnemy.getD i (-1) = -1) :
    ((unitUpdate env dt i s).unitAttacking.getD i false = true →
      0 ≤ (unitUpdate env dt i s).unitTargetEnemy.getD i (-1) ∧
      (unitUpdate env dt i s).unitTargetEnemy.getD i (-1)
        < ((unitUpdate env dt i s).enemies.length : Int) ∧
      ((unitUpdate env dt i s).enemies.getD
        ((unitUpdate env dt i s).unitTargetEnemy.getD i (-1)).toNat default).alive = true) ∧
    ((unitUpdate env dt i s).unitAttacking.getD i false = false →
      (unitUpdate env dt i s).unitTargetEnemy.getD i (-1) = -1) ∧
    (∀ s2 : Game K, staleTarget s2.enemies (s2.unitTargetEnemy.getD i (-1)) = true →
      engage env i s2
        = (if s2.unitAreaAttack.getD i false then reacquire env i (clearCommit i s2)
            else clearCommit i s2) ∧
      (clearCommit i s2).unitAttacking.getD i false = false ∧
      (clearCommit i s2).unitTargetEnemy.getD i (-1) = -1 ∧
      ((clearCommit i s2).unit i).moving = false ∧
      (clearCommit i s2).enemies = s2.enemies) := by
  obtain ⟨_, c⟩ := unitUpdate_commit env dt i s hA hT hinv
  refine ⟨?_, ?_, ?_⟩
  · intro hf
    rcases c with c | c
    · exact c.2
    · rw [c.1] at hf
      cases hf
  · intro hf
    rcases c with c | c
    · rw [c.1] at hf
      cases hf
    · exact c.2
  · intro s2 hstale
    obtain ⟨f, c2, m⟩ := clearCommit_cleared i s2
    exact ⟨by rw [engage_stale env i s2 hstale, targetLost_eq_clear], c2.1, c2.2, m, f.1⟩

set_option maxRecDepth 1000000 in
unseal Rat.add Rat.mul Rat.inv Rat.sub in
/-- The statement of `commitment_consistent` at the rifleman of `staleGame`, committed to a
dead enemy: after its update in a frame of 0.2 s it is not attacking and its target is `-1`,
and the engagement step is the dropped commitment. -/
theorem commitment_consistent_witness :
    (0 < staleGame.unitAttacking.length ∧ 0 < staleGame.unitTargetEnemy.length ∧
      (staleGame.unitAttacking.getD 0 false = false →
        staleGame.unitTargetEnemy.getD 0 (-1) = -1)) ∧
    staleTarget staleGame.enemies (staleGame.unitTargetEnemy.getD 0 (-1)) = true ∧
    (unitUpdate evalEnv (1 / 5) 0 staleGame).unitAttacking.getD 0 false = false ∧
    (unitUpdate evalEnv (1 / 5) 0 staleGame).unitTargetEnemy.getD 0 (-1) = -1 ∧
    engage evalEnv 0 staleGame = clearCommit 0 staleGame := by
  have hA : 0 < staleGame.unitAttacking.length := by decide
  have hT : 0 < staleGame.unitTargetEnemy.length := by decide
  have hinv : staleGame.unitAttacking.getD 0 false = false →
      staleGame.unitTargetEnemy.getD 0 (-1) = -1 := by decide
  have hs : staleTarget staleGame.enemies (staleGame.unitTargetEnemy.getD 0 (-1)) = true := by
    decide
  have hf : (unitUpdate evalEnv (1 / 5) 0 staleGame).unitAttacking.getD 0 false = false := by
    decide
  have T := commitment_consistent evalEnv (1 / 5) 0 staleGame hA hT hinv
  refine ⟨⟨hA, hT, hinv⟩, hs, hf, T.2.1 hf, ?_⟩
  rw [(T.2.2 staleGame hs).1]
  rfl

/-! ## C23: acquisition of a unit in area-attack mode -/

theorem nearest_fold_min (c : Int → Prop) [DecidablePred c] (d : Int → K) (list : List Int)
    (best : Int × K) :
    (list.foldl (fun (b : Int × K) t => if c t then (if d t < b.2 then (t, d t) else b) else b)
        best).2 ≤ best.2 ∧
    (∀ t ∈ list, c t →
      (list.foldl (fun (b : Int × K) t => if c t then (if d t < b.2 then (t, d t) else b)
        else b) best).2 ≤ d t) ∧
    (list.foldl (fun (b : Int × K) t => if c t then (if d t < b.2 then (t, d t) else b) else b)
        best = best ∨
      ((list.foldl (fun (b : Int × K) t => if c t then (if d t < b.2 then (t, d t) else b)
          else b) best).1 ∈ list ∧
        c (list.foldl (fun (b : Int × K) t => if c t then (if d t < b.2 then (t, d t) else b)
          else b) best).1 ∧
        (list.foldl (fun (b : Int × K) t => if c t then (if d t < b.2 then (t, d t) else b)
          else b) best).2
          = d (list.foldl (fun (b : Int × K) t => if c t then (if d t < b.2 then (t, d t)
            else b) else b) best).1)) := by
  induction list generalizing best with
  | nil =>
    refine ⟨le_refl _, ?_, Or.inl rfl⟩
    intro t ht
    cases ht
  | cons t list ih =>
    rw [List.foldl_cons]
    by_cases hc : c t
    · by_cases hd : d t < best.2
      · rw [if_pos hc, if_pos hd]
        obtain ⟨i1, i2, i3⟩ := ih (t, d t)
        refine ⟨le_trans i1 (le_of_lt hd), ?_, Or.inr ?_⟩
        · intro t1 ht1 hc1
          rcases List.mem_cons.1 ht1 with h | h
          · rw [h]
            exact i1
          · exact i2 t1 h hc1
        · rcases i3 with i3 | ⟨m, cc, e⟩
          · rw [i3]
            exact ⟨List.mem_cons_self _ _, hc, rfl⟩
          · exact ⟨List.mem_cons_of_mem _ m, cc, e⟩
      · rw [if_pos hc, if_neg hd]
        obtain ⟨i1, i2, i3⟩ := ih best
        refine ⟨i1, ?_, ?_⟩
        · intro t1 ht1 hc1
          rcases List.mem_cons.1 ht1 with h | h
          · rw [h]
            exact le_trans i1 (not_lt.mp hd)
          · exact i2 t1 h hc1
        · rcases i3 with i3 | ⟨m, cc, e⟩
          · exact Or.inl i3
          · exact Or.inr ⟨List.mem_cons_of_mem _ m, cc, e⟩
    · rw [if_neg hc]
      obtain ⟨i1, i2, i3⟩ := ih best
      refine ⟨i1, ?_, ?_⟩
      · intro t1 ht1 hc1
        rcases List.mem_cons.1 ht1 with h | h
        · rw [h] at hc1
          exact absurd hc1 hc
        · exact i2 t1 h hc1
      · rcases i3 with i3 | ⟨m, cc, e⟩
        · exact Or.inl i3
        · exact Or.inr ⟨List.mem_cons_of_mem _ m, cc, e⟩

theorem nearestUnclaimed_min (env : Env K) (enemies : List (EnemyNPC K)) (used : List Bool)
    (u : Unit K) (list : List Int)
    (hvalid : ∀ t ∈ list, 0 ≤ t ∧ t < (enemies.length : Int)) :
    ((∀ t ∈ list, used.getD t.toNat false = true) →
      nearestUnclaimed env enemies used u list = (-1, SENTINEL)) ∧
    ((nearestUnclaimed env enemies used u list).1 ≠ -1 →
      ∀ t ∈ list, used.getD t.toNat false = false →
        enemyDist env u (enemies.getD (nearestUnclaimed env enemies used u list).1.toNat default)
          ≤ enemyDist env u (enemies.getD t.toNat default)) := by
  obtain ⟨_, h2, h3⟩ := nearest_fold_min
    (fun t => t ≥ 0 ∧ t < (enemies.length : Int) ∧ used.getD t.toNat false = false)
    (fun t => enemyDist env u (enemies.getD t.toNat default)) list (-1, SENTINEL)
  constructor
  · intro hall
    rcases h3 with h3 | ⟨m, cc, _⟩
    · exact h3
    · have := hall _ m
      rw [cc.2.2] at this
      cases this
  · intro hne t ht hu
    rcases h3 with h3 | ⟨_, _, e⟩
    · exact absurd (congrArg Prod.fst h3) hne
    · have := h2 t ht ⟨(hvalid t ht).1, (hvalid t ht).2, hu⟩
      rw [e] at this
      exact this

theorem nearestCaptured_min (env : Env K) (enemies : List (EnemyNPC K))
    (u : Unit K) (list : List Int) (hne : list ≠ [])
    (hsent : ∀ t ∈ list, enemyDist env u (enemies.getD t.toNat default) < SENTINEL) :
    (nearestCaptured env enemies u list).1 ∈ list ∧
    ∀ t ∈ list,
      enemyDist env u (enemies.getD (nearestCaptured env enemies u list).1.toNat default)
        ≤ enemyDist env u (enemies.getD t.toNat default) := by
  have hform : nearestCaptured env enemies u list
      = list.foldl (fun (b : Int × K) t =>
          if (fun _ : Int => True) t then
            (if (fun t : Int => enemyDist env u (enemies.getD t.toNat default)) t < b.2
              then (t, (fun t : Int => enemyDist env u (enemies.getD t.toNat default)) t)
              else b)
          else b) (-1, SENTINEL) := by
    unfold nearestCaptured
    simp only [if_true]
  obtain ⟨_, h2, h3⟩ := nearest_fold_min (fun _ : Int => True)
    (fun t => enemyDist env u (enemies.getD t.toNat default)) list (-1, SENTINEL)
  rw [← hform] at h2 h3
  rcases h3 with h3 | ⟨m, _, e⟩
  · obtain ⟨t, ht⟩ := List.exists_mem_of_ne_nil list hne
    have := h2 t ht trivial
    rw [h3] at this
    exact absurd (hsent t ht) (not_lt.mpr this)
  · refine ⟨m, fun t ht => ?_⟩
    have := h2 t ht trivial
    rw [e] at this
    exact this

theorem flag_of_unclaimed (s : Game K) (k : Nat) (t : Int)
    (hv : 0 ≤ t ∧ t < (s.enemies.length : Int) ∧ (s.enemies.getD t.toNat default).alive = true)
    (hu : UnclaimedFor s k t) : (claimedByOthers s k).getD t.toNat false = false := by
  cases hf : (claimedByOthers s k).getD t.toNat false
  · rfl
  · obtain ⟨j, hj, hjk, a1, a2, a3, _⟩ := (claimedByOthers_spec s k t.toNat (by omega)).1 hf
    exact absurd (by rw [a3]; omega) (hu j hj hjk ⟨a1, a2⟩)

theorem areaAcquire_eq (env : Env K) (i : Nat) (s : Game K) :
    areaAcquire env i s
      = if livingTargets s i ≠ [] then
        if (if (nearestUnclaimed env s.enemies (claimedByOthers s i)
                (s.unit i) (livingTargets s i)).1 = -1
              then (nearestCaptured env s.enemies (s.unit i) (livingTargets s i)).1
              else (nearestUnclaimed env s.enemies (claimedByOthers s i)
                (s.unit i) (livingTargets s i)).1) ≠ -1
          then { pruneCaptured i s with
            unitAttacking := s.unitAttacking.set i true,
            unitTargetEnemy := s.unitTargetEnemy.set i
              (if (nearestUnclaimed env s.enemies (claimedByOthers s i)
                (s.unit i) (livingTargets s i)).1 = -1
              then (nearestCaptured env s.enemies (s.unit i) (livingTargets s i)).1
              else (nearestUnclaimed env s.enemies (claimedByOthers s i)
                (s.unit i) (livingTargets s i)).1) }
          else pruneCaptured i s
        else leaveArea i s := rfl

theorem areaAcquire_nearest (env : Env K) (i : Nat) (s : Game K)
    (hA : i < s.unitAttacking.length) (hT : i < s.unitTargetEnemy.length)
    (hsent : ∀ e ∈ s.enemies, e.alive = true → enemyDist env (s.unit i) e < SENTINEL)
    (hne : livingTargets s i ≠ []) :
    (areaAcquire env i s).unitAttacking.getD i false = true ∧
    (areaAcquire env i s).unitAreaAttack = s.unitAreaAttack ∧
    (areaAcquire env i s).unitTargetEnemy.getD i (-1) ∈ livingTargets s i ∧
    ((∃ t ∈ livingTargets s i, UnclaimedFor s i t) →
      UnclaimedFor s i ((areaAcquire env i s).unitTargetEnemy.getD i (-1)) ∧
      ∀ t ∈ livingTargets s i, UnclaimedFor s i t →
        NoFarther env s i ((areaAcquire env i s).unitTargetEnemy.getD i (-1)) t) ∧
    ((∀ t ∈ livingTargets s i, ¬ UnclaimedFor s i t) →
      ∀ t ∈ livingTargets s i,
        NoFarther env s i ((areaAcquire env i s).unitTargetEnemy.getD i (-1)) t) := by
  have hvalid := mem_livingTargets s i
  have hvalid2 : ∀ t ∈ livingTargets s i, 0 ≤ t ∧ t < (s.enemies.length : Int) :=
    fun t ht => ⟨(hvalid t ht).1, (hvalid t ht).2.1⟩
  have hs := livingTargets_sent env s i (s.unit i) hsent
  obtain ⟨c1, c2⟩ := nearestCaptured_min env s.enemies (s.unit i) (livingTargets s i) hne hs
  obtain ⟨m1, m2⟩ := nearestUnclaimed_min env s.enemies (claimedByOthers s i) (s.unit i)
    (livingTargets s i) hvalid2
  have hm := nearestUnclaimed_mem env s.enemies (claimedByOthers s i) (s.unit i)
    (livingTargets s i)
  have key := areaAcquire_eq env i s
  have hB : (if (nearestUnclaimed env s.enemies (claimedByOthers s i)
                (s.unit i) (livingTargets s i)).1 = -1
              then (nearestCaptured env s.enemies (s.unit i) (livingTargets s i)).1
              else (nearestUnclaimed env s.enemies (claimedByOthers s i)
                (s.unit i) (livingTargets s i)).1) ∈ livingTargets s i := by
    split_ifs with h
    · exact c1
    · rcases hm with h1 | h1
      · exact absurd h1 h
      · exact h1
  have hBne : (if (nearestUnclaimed env s.enemies (claimedByOthers s i)
                (s.unit i) (livingTargets s i)).1 = -1
              then (nearestCaptured env s.enemies (s.unit i) (livingTargets s i)).1
              else (nearestUnclaimed env s.enemies (claimedByOthers s i)
                (s.unit i) (livingTargets s i)).1) ≠ -1 := by
    intro h
    rw [h] at hB
    have := (hvalid _ hB).1
    omega
  rw [key, if_pos hne, if_pos hBne]
  dsimp only
  rw [getD_set_self _ _ _ _ hA, getD_set_self _ _ _ _ hT]
  refine ⟨rfl, rfl, hB, ?_, ?_⟩
  · rintro ⟨t0, ht0, hu0⟩
    have hex : ∃ t ∈ livingTargets s i, (claimedByOthers s i).getD t.toNat false = false :=
      ⟨t0, ht0, flag_of_unclaimed s i t0 (hvalid t0 ht0) hu0⟩
    obtain ⟨p1, p2, p3⟩ := nearestUnclaimed_spec env s.enemies (claimedByOthers s i)
      (s.unit i) (livingTargets s i) hvalid2 hs hex
    rw [if_neg p1]
    refine ⟨unclaimed_of_flag s i _ (hvalid _ p2) p3, fun t ht hu => ?_⟩
    exact m2 p1 t ht (flag_of_unclaimed s i t (hvalid t ht) hu)
  · intro hall
    have hall2 : ∀ t ∈ livingTargets s i, (claimedByOthers s i).getD t.toNat false = true := by
      intro t ht
      cases hf : (claimedByOthers s i).getD t.toNat false
      · exact absurd (unclaimed_of_flag s i t (hvalid t ht) hf) (hall t ht)
      · rfl
    have h0 := m1 hall2
    rw [if_pos (by rw [h0])]
    exact c2

theorem acquire_area (env : Env K) (i : Nat) (s : Game K)
    (hA : i < s.unitAttacking.length) (hT : i < s.unitTargetEnemy.length)
    (harea : s.unitAreaAttack.getD i false = true)
    (hna : s.unitAttacking.getD i false = false)
    (hsent : ∀ e ∈ s.enemies, e.alive = true → enemyDist env (s.unit i) e < SENTINEL) :
    (livingTargets s i ≠ [] →
      (acquire env i s).unitAttacking.getD i false = true ∧
      (acquire env i s).unitAreaAttack.getD i false = true ∧
      (acquire env i s).unitTargetEnemy.getD i (-1) ∈ livingTargets s i ∧
      ((∃ t ∈ livingTargets s i, UnclaimedFor s i t) →
        UnclaimedFor s i ((acquire env i s).unitTargetEnemy.getD i (-1)) ∧
        ∀ t ∈ livingTargets s i, UnclaimedFor s i t →
          NoFarther env s i ((acquire env i s).unitTargetEnemy.getD i (-1)) t) ∧
      ((∀ t ∈ livingTargets s i, ¬ UnclaimedFor s i t) →
        ∀ t ∈ livingTargets s i,
          NoFarther env s i ((acquire env i s).unitTargetEnemy.getD i (-1)) t)) ∧
    (livingTargets s i = [] →
      acquire env i s = scanOrMine env i (leaveArea i s) ∧
      (leaveArea i s).unitAreaAttack.getD i false = false ∧
      (leaveArea i s).unitAttacking.getD i false = false) := by
  have hacq : acquire env i s
      = if (areaAcquire env i s).unitAreaAttack.getD i false = false ∧
          (areaAcquire env i s).unitAttacking.getD i false = false
        then scanOrMine env i (areaAcquire env i s) else areaAcquire env i s := by
    unfold acquire
    dsimp only
    rw [if_pos harea]
  constructor
  · intro hne
    obtain ⟨a1, a2, a3⟩ := areaAcquire_nearest env i s hA hT hsent hne
    have hsame : acquire env i s = areaAcquire env i s := by
      rw [hacq, if_neg]
      rintro ⟨_, h⟩
      rw [a1] at h
      cases h
    rw [hsame]
    exact ⟨a1, by rw [a2]; exact harea, a3⟩
  · intro hemp
    have hleave : areaAcquire env i s = leaveArea i s := by
      rw [areaAcquire_eq, if_neg (by rw [hemp]; exact fun h => h rfl)]
    have f1 : (leaveArea i s).unitAreaAttack.getD i false = false := getD_set_false _ _
    have f2 : (leaveArea i s).unitAttacking.getD i false = false := hna
    rw [hacq, hleave, if_pos ⟨f1, f2⟩]
    exact ⟨rfl, f1, f2⟩

/-- C23: a non-healer unit `i` in area-attack mode that holds no target at the start of its
update (with its entries in the tables present and every living enemy nearer than the
sentinel `1e9`).  If its captured list, pruned of dead and invalid entries, is not empty,
then at the end of the acquisition step the unit is attacking, still in area-attack mode, and
its target is an entry of the pruned list: when some entry is claimed by no other committed
unit in area-attack mode, the target is such an entry and no unclaimed entry is nearer; when
every entry is claimed, no entry at all is nearer.  If the pruned list is empty, the unit
leaves area-attack mode and the acquisition step is the nearest-enemy scan `scanOrMine` of
that same frame. -/
theorem area_unit_acquires (env : Env K) (dt : K) (i : Nat) (s : Game K)
    (hA : i < s.unitAttacking.length) (hT : i < s.unitTargetEnemy.length)
    (harea : s.unitAreaAttack.getD i false = true)
    (hna : s.unitAttacking.getD i false = false)
    (hnh : (s.unit i).type ≠ UnitType.UNIT_HEALER)
    (hsent : ∀ e ∈ s.enemies, e.alive = true → enemyDist env (s.unit i) e < SENTINEL) :
    unitUpdate env dt i s = unitEngageAndMove env dt i (acquired env dt i s) ∧
    (livingTargets s i ≠ [] →
      (acquired env dt i s).unitAttacking.getD i false = true ∧
      (acquired env dt i s).unitAreaAttack.getD i false = true ∧
      (acquired env dt i s).unitTargetEnemy.getD i (-1) ∈ livingTargets s i ∧
      ((∃ t ∈ livingTargets s i, UnclaimedFor s i t) →
        UnclaimedFor s i ((acquired env dt i s).unitTargetEnemy.getD i (-1)) ∧
        ∀ t ∈ livingTargets s i, UnclaimedFor s i t →
          NoFarther env s i ((acquired env dt i s).unitTargetEnemy.getD i (-1)) t) ∧
      ((∀ t ∈ livingTargets s i, ¬ UnclaimedFor s i t) →
        ∀ t ∈ livingTargets s i,
          NoFarther env s i ((acquired env dt i s).unitTargetEnemy.getD i (-1)) t)) ∧
    (livingTargets s i = [] →
      acquired env dt i s = scanOrMine env i (leaveArea i (tickFireTimer env dt i s)) ∧
      (leaveArea i (tickFireTimer env dt i s)).unitAreaAttack.getD i false = false ∧
      (leaveArea i (tickFireTimer env dt i s)).unitAttacking.getD i false = false) := by
  have htick := tickFireTimer_eq env dt i s
  have hupd : unitUpdate env dt i s = unitEngageAndMove env dt i (acquired env dt i s) := by
    unfold unitUpdate acquired
    dsimp only
    rw [if_pos]
    rw [htick]
    exact ⟨hna, hnh⟩
  refine ⟨hupd, ?_⟩
  unfold acquired
  generalize (tickFireTimer env dt i s).unitFireTimer = tm at htick
  rw [htick]
  exact acquire_area env i { s with unitFireTimer := tm } hA hT harea hna hsent

set_option maxRecDepth 1000000 in
unseal Rat.add Rat.mul Rat.inv Rat.sub in
/-- The statement of `area_unit_acquires` at the first rifleman of `claimGame`: its captured
list holds the enemies 0 and 1, the other rifleman holds enemy 1, and the acquisition step of
a frame of 0.2 s commits it to enemy 0, the unclaimed one, although enemy 1 is nearer. -/
theorem area_unit_acquires_witness :
    (0 < claimGame.unitAttacking.length ∧ 0 < claimGame.unitTargetEnemy.length ∧
      claimGame.unitAreaAttack.getD 0 false = true ∧
      claimGame.unitAttacking.getD 0 false = false ∧
      (claimGame.unit 0).type ≠ UnitType.UNIT_HEALER ∧
      (∀ e ∈ claimGame.enemies, e.alive = true →
        enemyDist evalEnv (claimGame.unit 0) e < SENTINEL)) ∧
    livingTargets claimGame 0 = [0, 1] ∧
    (acquired evalEnv (1 / 5) 0 claimGame).unitAttacking.getD 0 false = true ∧
    (acquired evalEnv (1 / 5) 0 claimGame).unitTargetEnemy.getD 0 (-1) = 0 ∧
    (enemyDist evalEnv (claimGame.unit 0) (claimGame.enemies.getD 0 default),
      enemyDist evalEnv (claimGame.unit 0) (claimGame.enemies.getD 1 default)) = (100, 60) := by
  have hA : 0 < claimGame.unitAttacking.length := by decide
  have hT : 0 < claimGame.unitTargetEnemy.length := by decide
  have harea : claimGame.unitAreaAttack.getD 0 false = true := by decide
  have hna : claimGame.unitAttacking.getD 0 false = false := by decide
  have hnh : (claimGame.unit 0).type ≠ UnitType.UNIT_HEALER := by decide
  have hsent : ∀ e ∈ claimGame.enemies, e.alive = true →
      enemyDist evalEnv (claimGame.unit 0) e < SENTINEL := by
    intro e he
    have hl : claimGame.enemies = [demoEnemy 100 0 70, demoEnemy 60 0 70] := rfl
    rw [hl] at he
    simp only [List.mem_cons, List.mem_singleton, List.not_mem_nil, or_false] at he
    rcases he with h | h
    · rw [h]
      intro _
      decide
    · rw [h]
      intro _
      decide
  have T := area_unit_acquires evalEnv (1 / 5) 0 claimGame hA hT harea hna hnh hsent
  exact ⟨⟨hA, hT, harea, hna, hnh, hsent⟩, by decide, (T.2.1 (by decide)).1, by decide,
    by decide⟩

/-! ## C30: the mining decision replaces the movement intent -/

theorem nearestRock_fold_found (env : Env K) (rocks : List Rock) (u : Unit K)
    (alive : List Nat) (best : Int × K) (hP : best.1 = -1 → best.2 = SENTINEL)
    (hs : ∀ ri ∈ alive, rockDist env u (rocks.getD ri default) < SENTINEL)
    (hne : best.1 ≠ -1 ∨ alive ≠ []) :
    (alive.foldl
      (fun (best : Int × K) ri =>
        let d := rockDist env u (rocks.getD ri default)
        if d < best.2 then ((ri : Int), d) else best) best).1 ≠ -1 := by
  induction alive generalizing best with
  | nil =>
    rcases hne with h | h
    · exact h
    · exact absurd rfl h
  | cons ri rest ih =>
    rw [List.foldl_cons]
    apply ih
    · dsimp only
      split_ifs
      · intro h
        exact h.elim
      · exact hP
    · exact fun r hr => hs r (List.mem_cons_of_mem _ hr)
    · left
      dsimp only
      split_ifs with hd
      · intro h
        exact absurd (show (ri : Int) = -1 from h) (by omega)
      · intro h
        apply hd
        rw [hP h]
        exact hs ri (List.mem_cons_self _ _)

theorem nearestRock_found (env : Env K) (rocks : List Rock) (u : Unit K) (alive : List Nat)
    (hs : ∀ ri ∈ alive, rockDist env u (rocks.getD ri default) < SENTINEL)
    (hne : alive ≠ []) : (nearestRock env rocks u alive).1 ≠ -1 := by
  unfold nearestRock
  exact nearestRock_fold_found env rocks u alive (-1, SENTINEL) (fun _ => rfl) hs (Or.inr hne)

theorem assignRound1_length (env : Env K) (s : Game K) :
    (assignRound1 env s).2.length = s.unitAssignedRock.length := by
  unfold assignRound1
  apply foldl_preserves (fun acc : List Bool × List Int =>
    acc.2.length = s.unitAssignedRock.length)
  · rfl
  · intro acc ui h
    obtain ⟨v, hv, _⟩ := assignRound1Step_valid env s acc ui
    rw [hv, List.length_set]
    exact h

theorem recompute_assigns (env : Env K) (s : Game K) (ui : Nat)
    (hui : ui < s.units.length) (hlen : ui < s.unitAssignedRock.length)
    (hnh : (s.unit ui).type ≠ UnitType.UNIT_HEALER)
    (hs : ∀ ri ∈ aliveRocks s.rocks,
      rockDist env (s.unit ui) (s.rocks.getD ri default) < SENTINEL)
    (hne : aliveRocks s.rocks ≠ []) :
    (recomputeRockAssignments env s).unitAssignedRock.getD ui (-1) ≠ -1 := by
  have key := foldl_range_invariant
    (fun m (t : List Int) => t.length = s.unitAssignedRock.length ∧
      (ui < m → t.getD ui (-1) ≠ -1))
    (assignRound2Step env s (aliveRocks s.rocks)) s.units.length (assignRound1 env s).2
    ⟨assignRound1_length env s, fun h => absurd h (Nat.not_lt_zero _)⟩
    (by
      intro m t _ ⟨hl, hv⟩
      unfold assignRound2Step
      dsimp only
      by_cases hm : m = ui
      · subst hm
        rw [if_neg hnh]
        split_ifs with h1
        · exact ⟨hl, fun _ => h1⟩
        · refine ⟨by rw [List.length_set]; exact hl, fun _ => ?_⟩
          rw [getD_set_self _ _ _ _ (by rw [hl]; exact hlen)]
          exact nearestRock_found env s.rocks (s.unit m) (aliveRocks s.rocks) hs hne
      · have hstep : ∀ t1 : List Int, (t1 = t ∨ ∃ v, t1 = t.set m v) →
            t1.length = s.unitAssignedRock.length ∧ (ui < m + 1 → t1.getD ui (-1) ≠ -1) := by
          rintro t1 (h | ⟨v, h⟩)
          · rw [h]
            exact ⟨hl, fun hlt => hv (by omega)⟩
          · rw [h]
            refine ⟨by rw [List.length_set]; exact hl, fun hlt => ?_⟩
            rw [getD_set_ne _ _ _ _ _ (fun h => hm h.symm)]
            exact hv (by omega)
        apply hstep
        split_ifs
        · exact Or.inl rfl
        · exact Or.inl rfl
        · exact Or.inr ⟨_, rfl⟩)
  exact key.2 hui

theorem validRock_living (rocks : List Rock) (v : Int) (hv : ValidRock rocks v)
    (hne : v ≠ -1) :
    0 ≤ v ∧ v < (rocks.length : Int) ∧ (rocks.getD v.toNat default).alive = true := by
  rcases hv with h | ⟨ri, h1, h2, h3⟩
  · exact absurd h hne
  · rw [h1]
    simp only [Int.toNat_ofNat]
    exact ⟨by omega, by omega, h3⟩

theorem assignedRockOf_getD (i : Nat) (s : Game K) :
    assignedRockOf i s = s.unitAssignedRock.getD i (-1) := by
  unfold assignedRockOf
  split_ifs with h
  · rfl
  · rw [List.getD_eq_default _ _ (not_lt.mp h)]

theorem revalidateRock_living (env : Env K) (i : Nat) (s : Game K)
    (hi : i < s.units.length) (hR : i < s.unitAssignedRock.length)
    (hnh : (s.unit i).type ≠ UnitType.UNIT_HEALER)
    (hs : ∀ ri ∈ aliveRocks s.rocks,
      rockDist env (s.unit i) (s.rocks.getD ri default) < SENTINEL)
    (hne : aliveRocks s.rocks ≠ []) :
    0 ≤ assignedRockOf i (revalidateRock env i s) ∧
    assignedRockOf i (revalidateRock env i s) < (s.rocks.length : Int) ∧
    (s.rocks.getD (assignedRockOf i (revalidateRock env i s)).toNat default).alive = true := by
  have hrec : ∀ s0 : Game K, s0.units = s.units → s0.rocks = s.rocks →
      s0.unitAssignedRock.length = s.unitAssignedRock.length →
      0 ≤ assignedRockOf i (recomputeRockAssignments env s0) ∧
      assignedRockOf i (recomputeRockAssignments env s0) < (s.rocks.length : Int) ∧
      (s.rocks.getD (assignedRockOf i (recomputeRockAssignments env s0)).toNat
        default).alive = true := by
    intro s0 hu hr hl
    have hi0 : i < s0.units.length := by rw [hu]; exact hi
    have hu0 : s0.unit i = s.unit i := by unfold Game.unit; rw [hu]
    have h1 := recompute_assigns env s0 i hi0 (by rw [hl]; exact hR) (by rw [hu0]; exact hnh)
      (by rw [hu0, hr]; exact hs) (by rw [hr]; exact hne)
    have h2 := recomputeRockAssignments_valid env s0 i hi0
    rw [assignedRockOf_getD, ← hr]
    exact validRock_living _ _ h2 h1
  unfold revalidateRock
  dsimp only
  have h0 : (if s.rockAssignmentDirty = true then recomputeRockAssignments env s else s).units
        = s.units ∧
      (if s.rockAssignmentDirty = true then recomputeRockAssignments env s else s).rocks
        = s.rocks ∧
      (if s.rockAssignmentDirty = true then recomputeRockAssignments env s
        else s).unitAssignedRock.length = s.unitAssignedRock.length := by
    split_ifs
    · exact ⟨rfl, rfl, (recomputeRockAssignments_outside env s).1⟩
    · exact ⟨rfl, rfl, rfl⟩
  generalize (if s.rockAssignmentDirty = true then recomputeRockAssignments env s else s) = s0
    at h0 ⊢
  obtain ⟨hu, hr, hl⟩ := h0
  split_ifs with h
  · exact hrec { s0 with rockAssignmentDirty := true } hu hr hl
  · rw [← hr]
    refine ⟨?_, ?_, ?_⟩
    · by_contra hc
      exact h (Or.inl (not_le.mp hc))
    · by_contra hc
      exact h (Or.inr (Or.inl (not_lt.mp hc)))
    · by_contra hc
      exact h (Or.inr (Or.inr (by simpa using hc)))

theorem scan_none_in_range (env : Env K) (u : Unit K) (enemies : List (EnemyNPC K))
    (hfar : ∀ e ∈ enemies, e.alive = true → enemyDist env u e > u.range) :
    ¬ ((nearestEnemyScan env u enemies).1 ≥ 0 ∧ (nearestEnemyScan env u enemies).2 ≤ u.range) := by
  rintro ⟨h1, h2⟩
  rcases nearestEnemyScan_spec env u enemies with ⟨h, _⟩ | ⟨k, e, hk, hfn, h, _⟩
  · rw [h] at h1
    exact absurd h1 (show ¬ ((-1 : Int) ≥ 0) by decide)
  · rw [h] at h2
    obtain ⟨e1, he1, halive, _⟩ := hfn
    have heq : e1 = e := by
      rw [hk] at he1
      exact (Option.some.inj he1).symm
    have hmem : e ∈ enemies := List.getElem?_mem hk
    exact absurd h2 (not_le.mpr (hfar e hmem (by rw [← heq]; exact halive)))

theorem stopAndMine_unit (env : Env K) (i : Nat) (s : Game K) (hi : i < s.units.length) :
    (stopAndMine env i s).unit i = { s.unit i with moving := false } ∧
    (stopAndMine env i s).unitAssignedRock = s.unitAssignedRock ∧
    (stopAndMine env i s).rocks = s.rocks := by
  unfold stopAndMine
  dsimp only
  split_ifs
  · exact ⟨unit_setUnit_self _ _ _ hi, rfl, rfl⟩
  · exact ⟨unit_setUnit_self _ _ _ hi, rfl, rfl⟩

theorem mine_decision (env : Env K) (i : Nat) (s : Game K)
    (hi : i < s.units.length) (hR : i < s.unitAssignedRock.length)
    (hnh : (s.unit i).type ≠ UnitType.UNIT_HEALER)
    (hs : ∀ ri ∈ aliveRocks s.rocks,
      rockDist env (s.unit i) (s.rocks.getD ri default) < SENTINEL)
    (hne : aliveRocks s.rocks ≠ []) :
    (0 ≤ assignedRockOf i (mine env i s) ∧
      assignedRockOf i (mine env i s) < (s.rocks.length : Int) ∧
      (s.rocks.getD (assignedRockOf i (mine env i s)).toNat default).alive = true) ∧
    (rockDist env (s.unit i) (s.rocks.getD (assignedRockOf i (mine env i s)).toNat default)
        > (s.unit i).range + ATTACK_RANGE_HYST →
      (mine env i s).unit i
        = approachGoal (s.unit i)
          ((s.rocks.getD (assignedRockOf i (mine env i s)).toNat default).x : K)
          ((s.rocks.getD (assignedRockOf i (mine env i s)).toNat default).y : K)
          (((s.rocks.getD (assignedRockOf i (mine env i s)).toNat default).x : K)
            - (s.unit i).cx)
          (((s.rocks.getD (assignedRockOf i (mine env i s)).toNat default).y : K)
            - (s.unit i).cy)
          (rockDist env (s.unit i)
            (s.rocks.getD (assignedRockOf i (mine env i s)).toNat default))) ∧
    (¬ rockDist env (s.unit i) (s.rocks.getD (assignedRockOf i (mine env i s)).toNat default)
        > (s.unit i).range + ATTACK_RANGE_HYST →
      (mine env i s).unit i = { s.unit i with moving := false }) := by
  have hv := revalidateRock_living env i s hi hR hnh hs hne
  have h2 := revalidateRock_eq env i s
  have hu : (revalidateRock env i s).units = s.units := by rw [h2]
  have hr : (revalidateRock env i s).rocks = s.rocks := by rw [h2]
  have hun : (revalidateRock env i s).unit i = s.unit i := by unfold Game.unit; rw [hu]
  have hi2 : i < (revalidateRock env i s).units.length := by rw [hu]; exact hi
  have ha : assignedRockOf i (revalidateRock env i s) ≠ -1 := by
    intro h
    rw [h] at hv
    exact absurd hv.1 (by decide)
  unfold mine
  generalize revalidateRock env i s = s2 at hv hu hr hun hi2 ha ⊢
  by_cases hfar : rockDist env (s2.unit i) (s2.rocks.getD (assignedRockOf i s2).toNat default)
      > (s2.unit i).range + ATTACK_RANGE_HYST
  · have hm := mineStep_approach env i s2 ha hfar
    have hA : assignedRockOf i (mineStep env i s2) = assignedRockOf i s2 := by rw [hm]; rfl
    rw [hA]
    refine ⟨hv, fun _ => ?_, fun hn => ?_⟩
    · rw [hm, unit_setUnit_self _ _ _ hi2, hun, hr]
    · rw [hun, hr] at hfar
      exact absurd hfar hn
  · have hm := mineStep_stops env i s2 ha hfar
    obtain ⟨e1, e2, _⟩ := stopAndMine_unit env i s2 hi2
    have hA : assignedRockOf i (mineStep env i s2) = assignedRockOf i s2 := by
      unfold assignedRockOf
      rw [hm, e2]
    rw [hA]
    refine ⟨hv, fun hf => ?_, fun _ => ?_⟩
    · rw [← hun, ← hr] at hf
      exact absurd hf hfar
    · rw [hm, e1, hun]

/-- C30: a non-healer unit `i` that is not attacking and not in area-attack mode, with every
living enemy farther from it than its range, while a living rock exists (entries of the unit
in `units` and `unitAssignedRock` present, every living rock nearer than the sentinel `1e9`).
Its update runs the acquisition step, after which the unit's assigned rock `r` is a living
rock and the unit is `approachGoal` towards `r` (so `moving = true`, with the goal that
`approachGoal` computes from the rock at distance `range` on the line to the unit's centre)
when `r` is farther than `range + 12`, and otherwise the unit it was with `moving = false`.
Neither result reads the moving flag or the target point that the unit held before. -/
theorem mining_replaces_intent (env : Env K) (dt : K) (i : Nat) (s : Game K)
    (hi : i < s.units.length) (hR : i < s.unitAssignedRock.length)
    (hnh : (s.unit i).type ≠ UnitType.UNIT_HEALER)
    (hna : s.unitAttacking.getD i false = false)
    (harea : s.unitAreaAttack.getD i false = false)
    (hfar : ∀ e ∈ s.enemies, e.alive = true → enemyDist env (s.unit i) e > (s.unit i).range)
    (hrock : ∃ r ∈ s.rocks, r.alive = true)
    (hsent : ∀ r ∈ s.rocks, r.alive = true → rockDist env (s.unit i) r < SENTINEL) :
    unitUpdate env dt i s = unitEngageAndMove env dt i (acquired env dt i s) ∧
    (0 ≤ assignedRockOf i (acquired env dt i s) ∧
      assignedRockOf i (acquired env dt i s) < (s.rocks.length : Int) ∧
      (s.rocks.getD (assignedRockOf i (acquired env dt i s)).toNat default).alive = true) ∧
    (rockDist env (s.unit i)
          (s.rocks.getD (assignedRockOf i (acquired env dt i s)).toNat default)
        > (s.unit i).range + ATTACK_RANGE_HYST →
      ((acquired env dt i s).unit i).moving = true ∧
      (acquired env dt i s).unit i
        = approachGoal (s.unit i)
          ((s.rocks.getD (assignedRockOf i (acquired env dt i s)).toNat default).x : K)
          ((s.rocks.getD (assignedRockOf i (acquired env dt i s)).toNat default).y : K)
          (((s.rocks.getD (assignedRockOf i (acquired env dt i s)).toNat default).x : K)
            - (s.unit i).cx)
          (((s.rocks.getD (assignedRockOf i (acquired env dt i s)).toNat default).y : K)
            - (s.unit i).cy)
          (rockDist env (s.unit i)
            (s.rocks.getD (assignedRockOf i (acquired env dt i s)).toNat default))) ∧
    (¬ rockDist env (s.unit i)
          (s.rocks.getD (assignedRockOf i (acquired env dt i s)).toNat default)
        > (s.unit i).range + ATTACK_RANGE_HYST →
      ((acquired env dt i s).unit i).moving = false ∧
      (acquired env dt i s).unit i = { s.unit i with moving := false }) := by
  have htick := tickFireTimer_eq env dt i s
  have hupd : unitUpdate env dt i s = unitEngageAndMove env dt i (acquired env dt i s) := by
    unfold unitUpdate acquired
    dsimp only
    rw [if_pos]
    rw [htick]
    exact ⟨hna, hnh⟩
  refine ⟨hupd, ?_⟩
  have hne : aliveRocks s.rocks ≠ [] := by
    obtain ⟨r, hr, halive⟩ := hrock
    obtain ⟨ri, hri, hget⟩ := List.getElem_of_mem hr
    intro hemp
    have hmem : ri ∈ aliveRocks s.rocks :=
      (mem_aliveRocks s.rocks ri).2 ⟨hri, by rw [List.getD_eq_getElem _ _ hri, hget]; exact halive⟩
    rw [hemp] at hmem
    cases hmem
  have hs : ∀ ri ∈ aliveRocks s.rocks,
      rockDist env (s.unit i) (s.rocks.getD ri default) < SENTINEL := by
    intro ri hri
    obtain ⟨h1, h2⟩ := (mem_aliveRocks s.rocks ri).1 hri
    apply hsent _ _ h2
    rw [List.getD_eq_getElem _ _ h1]
    exact List.getElem_mem h1
  have hacq : ∀ s1 : Game K, s1.unitAreaAttack = s.unitAreaAttack →
      s1.unitAttacking = s.unitAttacking → s1.units = s.units → s1.enemies = s.enemies →
      acquire env i s1 = mine env i s1 := by
    intro s1 e1 e2 e3 e4
    rw [acquire_plain env i s1 (by rw [e1]; exact harea) (by rw [e2]; exact hna)]
    unfold scanOrMine
    dsimp only
    rw [if_neg]
    have hu : s1.unit i = s.unit i := by unfold Game.unit; rw [e3]
    rw [hu, e4]
    exact scan_none_in_range env (s.unit i) s.enemies hfar
  unfold acquired
  generalize (tickFireTimer env dt i s).unitFireTimer = tm at htick
  rw [htick, hacq { s with unitFireTimer := tm } rfl rfl rfl rfl]
  obtain ⟨m1, m2, m3⟩ := mine_decision env i { s with unitFireTimer := tm } hi hR hnh hs hne
  refine ⟨m1, fun hf => ?_, fun hn => ?_⟩
  · have := m2 hf
    refine ⟨?_, this⟩
    rw [this]
    rfl
  · have := m3 hn
    refine ⟨?_, this⟩
    rw [this]

set_option maxRecDepth 1000000 in
unseal Rat.add Rat.mul Rat.inv Rat.sub in
/-- The statement of `mining_replaces_intent` at the rifleman of `orderedGame`, which holds a
move order to `(-500, -500)`: the acquisition step of a frame of 0.2 s assigns it the rock at
`(300, 400)`, 500 away, and replaces its goal by `(194, 251)`, the corner that puts its
centre 140 from the rock. -/
theorem mining_replaces_intent_witness :
    (0 < orderedGame.units.length ∧ 0 < orderedGame.unitAssignedRock.length ∧
      (orderedGame.unit 0).type ≠ UnitType.UNIT_HEALER ∧
      orderedGame.unitAttacking.getD 0 false = false ∧
      orderedGame.unitAreaAttack.getD 0 false = false ∧
      (∃ r ∈ orderedGame.rocks, r.alive = true)) ∧
    ((orderedGame.unit 0).moving, (orderedGame.unit 0).targetX,
      (orderedGame.unit 0).targetY) = (true, -500, -500) ∧
    assignedRockOf 0 (acquired evalEnv (1 / 5) 0 orderedGame) = 0 ∧
    rockDist evalEnv (orderedGame.unit 0) (orderedGame.rocks.getD 0 default) = 500 ∧
    ((acquired evalEnv (1 / 5) 0 orderedGame).unit 0).moving = true ∧
    (((acquired evalEnv (1 / 5) 0 orderedGame).unit 0).targetX,
      ((acquired evalEnv (1 / 5) 0 orderedGame).unit 0).targetY) = (194, 251) := by
  have hi : 0 < orderedGame.units.length := by decide
  have hR : 0 < orderedGame.unitAssignedRock.length := by decide
  have hnh : (orderedGame.unit 0).type ≠ UnitType.UNIT_HEALER := by decide
  have hna : orderedGame.unitAttacking.getD 0 false = false := by decide
  have harea : orderedGame.unitAreaAttack.getD 0 false = false := by decide
  have hfar : ∀ e ∈ orderedGame.enemies, e.alive = true →
      enemyDist evalEnv (orderedGame.unit 0) e > (orderedGame.unit 0).range := by
    intro e he
    cases he
  have hrock : ∃ r ∈ orderedGame.rocks, r.alive = true :=
    ⟨demoRock 300 400 true, List.mem_singleton.2 rfl, rfl⟩
  have hsent : ∀ r ∈ orderedGame.rocks, r.alive = true →
      rockDist evalEnv (orderedGame.unit 0) r < SENTINEL := by
    intro r hr _
    have hl : orderedGame.rocks = [demoRock 300 400 true] := rfl
    rw [hl, List.mem_singleton] at hr
    rw [hr]
    decide
  have T := mining_replaces_intent evalEnv (1 / 5) 0 orderedGame hi hR hnh hna harea hfar
    hrock hsent
  exact ⟨⟨hi, hR, hnh, hna, harea, hrock⟩, by decide, by decide, by decide,
    (T.2.2.1 (by decide)).1, by decide⟩

/-! ## C22: no index is out of bounds -/

theorem vecAt_of_valid {α : Type} (l : List α) (t : Int) (d : α) (h0 : 0 ≤ t)
    (h1 : t < (l.length : Int)) : vecAt l t = some (l.getD t.toNat d) := by
  unfold vecAt
  rw [if_neg (not_lt.mpr h0)]
  have hlt : t.toNat < l.length := by omega
  rw [List.getElem?_eq_getElem hlt, List.getD_eq_getElem _ _ hlt]

theorem claimedByOthers_length (s : Game K) (i : Nat) :
    (claimedByOthers s i).length = s.enemies.length := by
  unfold claimedByOthers
  apply foldl_preserves (fun used : List Bool => used.length = s.enemies.length)
  · simp
  · intro used j h
    dsimp only
    split_ifs
    · exact h
    · rw [List.length_set]
      exact h
    · exact h
    · exact h

theorem revalidateRock_valid (env : Env K) (i : Nat) (s : Game K) (hi : i < s.units.length) :
    (revalidateRock env i s).rocks = s.rocks ∧
    ValidRock s.rocks (assignedRockOf i (revalidateRock env i s)) := by
  refine ⟨by rw [revalidateRock_eq], ?_⟩
  unfold revalidateRock
  dsimp only
  have h0 : (if s.rockAssignmentDirty = true then recomputeRockAssignments env s else s).units
        = s.units ∧
      (if s.rockAssignmentDirty = true then recomputeRockAssignments env s else s).rocks
        = s.rocks := by
    split_ifs
    · exact ⟨rfl, rfl⟩
    · exact ⟨rfl, rfl⟩
  generalize (if s.rockAssignmentDirty = true then recomputeRockAssignments env s else s) = s0
    at h0 ⊢
  obtain ⟨hu, hr⟩ := h0
  split_ifs with h
  · have := recomputeRockAssignments_valid env { s0 with rockAssignmentDirty := true } i
      (by rw [← hu] at hi; exact hi)
    rw [assignedRockOf_getD, ← hr]
    exact this
  · right
    rw [← hr]
    have h1 : 0 ≤ assignedRockOf i s0 := by
      by_contra hc
      exact h (Or.inl (not_le.mp hc))
    have h2 : assignedRockOf i s0 < (s0.rocks.length : Int) := by
      by_contra hc
      exact h (Or.inr (Or.inl (not_lt.mp hc)))
    have h3 : (s0.rocks.getD (assignedRockOf i s0).toNat default).alive = true := by
      by_contra hc
      exact h (Or.inr (Or.inr (by simpa using hc)))
    exact ⟨(assignedRockOf i s0).toNat, by omega, by omega, h3⟩

theorem validRock_vecAt (rocks : List Rock) (v : Int) (h : ValidRock rocks v) :
    v = -1 ∨ ∃ r, vecAt rocks v = some r ∧ r.alive = true := by
  rcases h with h | ⟨ri, h1, h2, h3⟩
  · exact Or.inl h
  · right
    refine ⟨rocks.getD ri default, ?_, h3⟩
    rw [h1, vecAt_of_valid rocks (ri : Int) default (by omega) (by omega)]
    simp

theorem areaAcquire_list (env : Env K) (i : Nat) (s : Game K) :
    (areaAcquire env i s).enemies = s.enemies ∧
    (areaAcquire env i s).unitAreaTargets = s.unitAreaTargets.set i (livingTargets s i) := by
  rw [areaAcquire_eq]
  split_ifs <;> exact ⟨rfl, rfl⟩

theorem reacquire_list (env : Env K) (i : Nat) (s : Game K) :
    (reacquire env i s).enemies = s.enemies ∧
    (reacquire env i s).unitAreaTargets = s.unitAreaTargets.set i (livingTargets s i) := by
  unfold reacquire
  dsimp only
  split_ifs <;> exact ⟨rfl, rfl⟩

theorem pruned_entries (s : Game K) (i : Nat) (t : Int)
    (ht : t ∈ (s.unitAreaTargets.set i (livingTargets s i)).getD i []) :
    (∃ e, vecAt s.enemies t = some e ∧ e.alive = true) ∧
    ∃ b, vecAt (claimedByOthers s i) t = some b := by
  rw [getD_set] at ht
  split_ifs at ht with h
  · obtain ⟨h1, h2, h3⟩ := mem_livingTargets s i t ht
    exact ⟨⟨_, vecAt_of_valid s.enemies t default h1 h2, h3⟩,
      ⟨_, vecAt_of_valid (claimedByOthers s i) t false h1
        (by rw [claimedByOthers_length]; exact h2)⟩⟩
  · rw [List.getD_eq_default _ _ (by
      by_contra hc
      exact h ⟨rfl, not_le.mp hc⟩)] at ht
    cases ht

theorem closest_valid (env : Env K) (e : EnemyNPC K) (s : Game K)
    (h : (enemyClosest env e s).1 ≥ 0) :
    ∃ u, vecAt s.units (enemyClosest env e s).1 = some u := by
  rcases enemyClosest_spec env e s with ⟨h1, _⟩ | ⟨k, hk, h1, _⟩
  · rw [h1] at h
    exact absurd h (show ¬ ((-1 : Int) ≥ 0) by decide)
  · rw [h1]
    exact ⟨_, vecAt_of_valid s.units (k : Int) default (by omega) (by have := hk.1; omega)⟩

theorem length_foldl_set {α : Type} (a : α) (l : List Nat) (t : List α) :
    (l.foldl (fun t ui => t.set ui a) t).length = t.length := by
  apply foldl_preserves (fun t1 : List α => t1.length = t.length)
  · rfl
  · intro t1 ui h
    rw [List.length_set]
    exact h

theorem tableSizes_fold {α : Type} (f : Game K → α → Game K) (l : List α) (s : Game K)
    (h : ∀ acc a, tableSizes (f acc a) = tableSizes acc) :
    tableSizes (l.foldl f s) = tableSizes s := by
  apply foldl_preserves (fun acc : Game K => tableSizes acc = tableSizes s)
  · rfl
  · intro acc a hacc
    rw [h, hacc]

theorem tickFireTimer_sizes (env : Env K) (dt : K) (i : Nat) (s : Game K) :
    tableSizes (tickFireTimer env dt i s) = tableSizes s := by
  unfold tickFireTimer
  dsimp only
  split_ifs <;> simp [tableSizes]

theorem recomputeRockAssignments_sizes (env : Env K) (s : Game K) :
    tableSizes (recomputeRockAssignments env s) = tableSizes s := by
  unfold tableSizes
  rw [(recomputeRockAssignments_outside env s).1]
  rfl

theorem revalidateRock_sizes (env : Env K) (i : Nat) (s : Game K) :
    tableSizes (revalidateRock env i s) = tableSizes s := by
  unfold revalidateRock
  dsimp only
  have h0 : tableSizes (if s.rockAssignmentDirty = true then recomputeRockAssignments env s
      else s) = tableSizes s := by
    split_ifs
    · exact recomputeRockAssignments_sizes env s
    · rfl
  generalize (if s.rockAssignmentDirty = true then recomputeRockAssignments env s else s) = s0
    at h0 ⊢
  split_ifs
  · rw [recomputeRockAssignments_sizes, ← h0]
    rfl
  · exact h0

theorem mineStep_sizes (env : Env K) (i : Nat) (s : Game K) :
    tableSizes (mineStep env i s) = tableSizes s := by
  unfold mineStep
  dsimp only
  split_ifs <;> simp [tableSizes, Game.setUnit]

theorem mine_sizes (env : Env K) (i : Nat) (s : Game K) :
    tableSizes (mine env i s) = tableSizes s := by
  unfold mine
  rw [mineStep_sizes, revalidateRock_sizes]

theorem scanOrMine_sizes (env : Env K) (i : Nat) (s : Game K) :
    tableSizes (scanOrMine env i s) = tableSizes s := by
  unfold scanOrMine
  dsimp only
  split_ifs
  · simp [tableSizes]
  · exact mine_sizes env i s

theorem areaAcquire_sizes (env : Env K) (i : Nat) (s : Game K) :
    tableSizes (areaAcquire env i s) = tableSizes s := by
  rw [areaAcquire_eq]
  split_ifs <;> simp [tableSizes, pruneCaptured, leaveArea]

theorem acquire_sizes (env : Env K) (i : Nat) (s : Game K) :
    tableSizes (acquire env i s) = tableSizes s := by
  unfold acquire
  dsimp only
  have h1 : tableSizes (if s.unitAreaAttack.getD i false = true then areaAcquire env i s
      else s) = tableSizes s := by
    split_ifs
    · exact areaAcquire_sizes env i s
    · rfl
  generalize (if s.unitAreaAttack.getD i false = true then areaAcquire env i s else s) = s1
    at h1 ⊢
  split_ifs
  · rw [scanOrMine_sizes, h1]
  · exact h1

theorem reacquire_sizes (env : Env K) (i : Nat) (s : Game K) :
    tableSizes (reacquire env i s) = tableSizes s := by
  unfold reacquire
  dsimp only
  split_ifs <;> simp [tableSizes]

theorem targetLost_sizes (env : Env K) (i : Nat) (s : Game K) :
    tableSizes (targetLost env i s) = tableSizes s := by
  rw [targetLost_eq_clear]
  have hc : tableSizes (clearCommit i s) = tableSizes s := by
    simp [tableSizes, clearCommit]
  split_ifs
  · rw [reacquire_sizes, hc]
  · exact hc

theorem approachOrFire_sizes (env : Env K) (i : Nat) (ti : Int) (s : Game K) :
    tableSizes (approachOrFire env i ti s) = tableSizes s := by
  unfold approachOrFire
  dsimp only
  split_ifs <;> simp [tableSizes, Game.setUnit]

theorem engage_sizes (env : Env K) (i : Nat) (s : Game K) :
    tableSizes (engage env i s) = tableSizes s := by
  unfold engage
  dsimp only
  split_ifs
  · exact targetLost_sizes env i s
  · exact approachOrFire_sizes env i _ s

theorem healerSeek_sizes (env : Env K) (i : Nat) (s : Game K) :
    tableSizes (healerSeek env i s) = tableSizes s := by
  unfold healerSeek
  dsimp only
  split_ifs <;> simp [tableSizes, Game.setUnit]

theorem steer_sizes (env : Env K) (dt : K) (i : Nat) (s : Game K) :
    tableSizes (steer env dt i s) = tableSizes s := by
  unfold steer
  simp [tableSizes, Game.setUnit]

theorem unitEngageAndMove_sizes (env : Env K) (dt : K) (i : Nat) (s : Game K) :
    tableSizes (unitEngageAndMove env dt i s) = tableSizes s := by
  unfold unitEngageAndMove
  dsimp only
  have h3 : tableSizes (if s.unitAttacking.getD i false = true then engage env i s else s)
      = tableSizes s := by
    split_ifs
    · exact engage_sizes env i s
    · rfl
  generalize (if s.unitAttacking.getD i false = true then engage env i s else s) = s3 at h3 ⊢
  have h4 : tableSizes (if (s3.unit i).type = UnitType.UNIT_HEALER then healerSeek env i s3
      else s3) = tableSizes s3 := by
    split_ifs
    · exact healerSeek_sizes env i s3
    · rfl
  rw [steer_sizes, h4, h3]

theorem unitUpdate_sizes (env : Env K) (dt : K) (i : Nat) (s : Game K) :
    tableSizes (unitUpdate env dt i s) = tableSizes s := by
  unfold unitUpdate
  dsimp only
  have h1 := tickFireTimer_sizes env dt i s
  generalize tickFireTimer env dt i s = s1 at h1 ⊢
  have h2 : tableSizes (if s1.unitAttacking.getD i false = false ∧
      (s1.unit i).type ≠ UnitType.UNIT_HEALER then acquire env i s1 else s1)
      = tableSizes s1 := by
    split_ifs
    · exact acquire_sizes env i s1
    · rfl
  rw [unitEngageAndMove_sizes, h2, h1]

theorem unitPass_sizes (env : Env K) (dt : K) (s : Game K) :
    tableSizes (unitPass env dt s) = tableSizes s := by
  unfold unitPass
  exact tableSizes_fold _ _ _ (fun acc i => unitUpdate_sizes env dt i acc)

theorem healAlly_sizes (env : Env K) (dt : K) (i j : Nat) (s : Game K) :
    tableSizes (healAlly env dt i j s) = tableSizes s := by
  unfold healAlly
  dsimp only
  split_ifs <;> simp [tableSizes]

theorem healerUpdate_sizes (env : Env K) (dt : K) (i : Nat) (s : Game K) :
    tableSizes (healerUpdate env dt i s) = tableSizes s := by
  unfold healerUpdate
  dsimp only
  split_ifs
  · rfl
  · exact tableSizes_fold _ _ _ (fun acc j => healAlly_sizes env dt i j acc)

theorem healerPass_sizes (env : Env K) (dt : K) (s : Game K) :
    tableSizes (healerPass env dt s) = tableSizes s := by
  unfold healerPass
  exact tableSizes_fold _ _ _ (fun acc i => healerUpdate_sizes env dt i acc)

theorem enemyStrike_sizes (eUnit eShip : Bool) (closestUnit : Int) (attackDamage : K)
    (s : Game K) :
    tableSizes (enemyStrike eUnit eShip closestUnit attackDamage s) = tableSizes s := by
  unfold enemyStrike
  dsimp only
  split_ifs <;> simp [tableSizes, Game.setUnit]

theorem enemyUpdate_sizes (env : Env K) (dt : K) (i : Nat) (s : Game K) :
    tableSizes (enemyUpdate env dt i s) = tableSizes s := by
  unfold enemyUpdate
  dsimp only
  split_ifs <;> first
    | rfl
    | exact (enemyStrike_sizes _ _ _ _ s :
        tableSizes (enemyStrike _ _ _ _ s) = tableSizes s)

theorem enemyPass_sizes (env : Env K) (dt : K) (s : Game K) :
    tableSizes (enemyPass env dt s) = tableSizes s := by
  unfold enemyPass
  exact tableSizes_fold _ _ _ (fun acc i => enemyUpdate_sizes env dt i acc)

theorem medicHeal_sizes (dt : K) (i j : Nat) (s : Game K) :
    tableSizes (medicHeal dt i j s) = tableSizes s := by
  unfold medicHeal
  dsimp only
  split_ifs <;> simp [tableSizes, Game.setUnit]

theorem medicUpdate_sizes (dt : K) (i : Nat) (s : Game K) :
    tableSizes (medicUpdate dt i s) = tableSizes s := by
  unfold medicUpdate
  dsimp only
  split_ifs
  · rfl
  · exact tableSizes_fold _ _ _ (fun acc j => medicHeal_sizes dt i j acc)

theorem medicPass_sizes (dt : K) (s : Game K) :
    tableSizes (medicPass dt s) = tableSizes s := by
  unfold medicPass
  exact tableSizes_fold _ _ _ (fun acc i => medicUpdate_sizes dt i acc)

theorem bulletStep_sizes (env : Env K) (dt : K) (bi : Nat) (s : Game K) :
    tableSizes (bulletStep env dt bi s) = tableSizes s := by
  unfold bulletStep
  dsimp only
  split_ifs <;> rfl

theorem bulletPass_sizes (env : Env K) (dt : K) (s : Game K) :
    tableSizes (bulletPass env dt s) = tableSizes s := by
  have h : tableSizes (bulletLoop env dt s) = tableSizes s := by
    unfold bulletLoop
    exact tableSizes_fold _ _ _ (fun acc bi => bulletStep_sizes env dt bi acc)
  unfold bulletPass
  dsimp only
  generalize bulletLoop env dt s = s1 at h ⊢
  exact h

theorem simPasses_sizes (env : Env K) (dt : K) (s : Game K) :
    tableSizes (simPasses env dt s) = tableSizes s := by
  have h : tableSizes (bulletPass env dt (medicPass dt (enemyPass env dt
      (healerPass env dt (unitPass env dt s))))) = tableSizes s := by
    rw [bulletPass_sizes, medicPass_sizes, enemyPass_sizes, healerPass_sizes, unitPass_sizes]
  unfold simPasses
  dsimp only
  generalize bulletPass env dt (medicPass dt (enemyPass env dt
    (healerPass env dt (unitPass env dt s)))) = s7 at h ⊢
  exact h

theorem spawnLoop_sizes (env : Env K) (d : Difficulty) (wave : Int) (n : Nat) (s : Game K) :
    tableSizes (spawnLoop env d wave n s) = tableSizes s := by
  induction n generalizing s with
  | zero => rfl
  | succ n ih =>
    unfold spawnLoop
    rw [ih]
    rfl

theorem startNextWave_sizes (env : Env K) (s : Game K) :
    tableSizes (startNextWave env s) = tableSizes s := by
  unfold startNextWave spawnWave
  dsimp only
  have h := spawnLoop_sizes env s.difficulty (s.currentWave + 1)
    (spawnCount (K := K) s.difficulty (s.currentWave + 1)).toNat
    { s with inIntermission := false, intermissionTime := 0, currentWave := s.currentWave + 1 }
  generalize spawnLoop env s.difficulty (s.currentWave + 1)
    (spawnCount (K := K) s.difficulty (s.currentWave + 1)).toNat
    { s with inIntermission := false, intermissionTime := 0, currentWave := s.currentWave + 1 }
    = s2 at h ⊢
  exact h

theorem waveClear_sizes (env : Env K) (s : Game K) :
    tableSizes (waveClear env s) = tableSizes s := by
  unfold waveClear tableSizes
  dsimp only
  rw [List.length_map, length_foldl_set, length_foldl_set, length_foldl_set, length_foldl_set]

theorem waveClearCheck_sizes (env : Env K) (s : Game K) :
    tableSizes (waveClearCheck env s) = tableSizes s := by
  unfold waveClearCheck
  dsimp only
  split_ifs
  · rw [waveClear_sizes]
    rfl
  · rfl
  · rfl

theorem intermissionTick_sizes (env : Env K) (inp : FrameInput K) (s : Game K) :
    tableSizes (intermissionTick env inp s) = tableSizes s := by
  unfold intermissionTick
  dsimp only
  split_ifs
  · exact startNextWave_sizes env s
  · rw [startNextWave_sizes]
    rfl
  · rfl
  · rfl
  · rfl

theorem intermissionButton_sizes (env : Env K) (inp : FrameInput K) (s : Game K) :
    tableSizes (intermissionButton env inp s) = tableSizes s := by
  unfold intermissionButton
  split_ifs
  · exact startNextWave_sizes env s
  · rfl
  · rfl

theorem simFrame_sizes (env : Env K) (inp : FrameInput K) (s : Game K) :
    tableSizes (simFrame env inp s) = tableSizes s := by
  unfold simFrame
  dsimp only
  rw [intermissionButton_sizes, simPasses_sizes, intermissionTick_sizes, waveClearCheck_sizes]

theorem runFrames_sizes (env : Env K) (inps : List (FrameInput K)) (s : Game K) :
    tableSizes (runFrames env inps s) = tableSizes s := by
  unfold runFrames
  exact tableSizes_fold _ _ _ (fun acc inp => simFrame_sizes env inp acc)

theorem Sized.of_sizes {s s1 : Game K} (h : tableSizes s1 = tableSizes s) (hs : Sized s) :
    Sized s1 := by
  unfold Sized at *
  have hu : s1.units.length = s.units.length := by
    have := congrArg (fun l : List Nat => l.getD 0 0) h
    exact this
  rw [h, hs, hu]

theorem Sized.reads {s : Game K} (hs : Sized s) (i : Nat) (hi : i < s.units.length) :
    (∃ u, s.units[i]? = some u) ∧ (∃ a, s.unitAttacking[i]? = some a) ∧
    (∃ t, s.unitTargetEnemy[i]? = some t) ∧ (∃ f, s.unitFireTimer[i]? = some f) ∧
    (∃ a, s.unitAreaAttack[i]? = some a) ∧ (∃ l, s.unitAreaTargets[i]? = some l) ∧
    (∃ h, s.unitHealFraction[i]? = some h) ∧ (∃ r, s.unitAssignedRock[i]? = some r) := by
  unfold Sized tableSizes at hs
  simp only [List.replicate, List.cons.injEq, and_true, true_and] at hs
  obtain ⟨h1, h2, h3, h4, h5, h6, h7⟩ := hs
  exact ⟨⟨_, List.getElem?_eq_getElem hi⟩,
    ⟨_, List.getElem?_eq_getElem (by rw [h1]; exact hi)⟩,
    ⟨_, List.getElem?_eq_getElem (by rw [h2]; exact hi)⟩,
    ⟨_, List.getElem?_eq_getElem (by rw [h3]; exact hi)⟩,
    ⟨_, List.getElem?_eq_getElem (by rw [h4]; exact hi)⟩,
    ⟨_, List.getElem?_eq_getElem (by rw [h5]; exact hi)⟩,
    ⟨_, List.getElem?_eq_getElem (by rw [h6]; exact hi)⟩,
    ⟨_, List.getElem?_eq_getElem (by rw [h7]; exact hi)⟩⟩

theorem purchases_sizes (keys : PurchaseKeys) (s : Game K) :
    tableSizes (purchases keys s) = tableSizes s := by
  have hb : ∀ (b : Bool) (f : Game K → Game K) (s1 : Game K),
      (∀ s2, tableSizes (f s2) = tableSizes s2) →
      tableSizes (if b = true then f s1 else s1) = tableSizes s1 := by
    intro b f s1 hf
    split_ifs
    · exact hf s1
    · rfl
  have h1 : ∀ s2 : Game K, tableSizes (buyHull s2) = tableSizes s2 := by
    intro s2
    unfold buyHull
    split_ifs <;> rfl
  have h2 : ∀ s2 : Game K, tableSizes (buyShielding s2) = tableSizes s2 := by
    intro s2
    unfold buyShielding
    split_ifs <;> rfl
  have h3 : ∀ s2 : Game K, tableSizes (buyEngines s2) = tableSizes s2 := by
    intro s2
    unfold buyEngines
    split_ifs <;> rfl
  have h4 : ∀ s2 : Game K, tableSizes (buyLifeSupport s2) = tableSizes s2 := by
    intro s2
    unfold buyLifeSupport
    split_ifs <;> rfl
  have h5 : ∀ s2 : Game K, tableSizes (refreshComplete s2) = tableSizes s2 := by
    intro s2
    unfold refreshComplete
    rfl
  unfold purchases
  dsimp only
  rw [h5, hb _ _ _ h4, hb _ _ _ h3, hb _ _ _ h2, hb _ _ _ h1]

theorem selectKey_sizes (i : Nat) (ctrl : Bool) (s : Game K) :
    tableSizes (selectKey i ctrl s) = tableSizes s := by
  unfold selectKey
  dsimp only
  split_ifs <;> simp [tableSizes, Game.setUnit]

theorem formationMove_length (selIdx : List Nat) (cx cy : K) (centre : K × K)
    (units : List (Unit K)) :
    (formationMove selIdx cx cy centre units).length = units.length := by
  unfold formationMove
  apply foldl_preserves (fun us : List (Unit K) => us.length = units.length)
  · rfl
  · intro us idx h
    dsimp only
    rw [List.length_set]
    exact h

theorem rightClick_sizes (mx my : K) (s : Game K) :
    tableSizes (rightClick mx my s) = tableSizes s := by
  have hfold : ∀ (a : Bool) (t : Int) (l : List Nat) (s0 : Game K),
      tableSizes (l.foldl
        (fun (acc : Game K) idx =>
          { acc with unitAreaAttack := acc.unitAreaAttack.set idx false,
                     unitAreaTargets := acc.unitAreaTargets.set idx [],
                     unitAttacking := acc.unitAttacking.set idx a,
                     unitTargetEnemy := acc.unitTargetEnemy.set idx t }) s0)
        = tableSizes s0 := by
    intro a t l s0
    apply tableSizes_fold
    intro acc idx
    simp [tableSizes]
  unfold rightClick
  dsimp only
  split_ifs
  · simp [tableSizes]
  · rfl
  · exact hfold true _ _ s
  · have h := hfold false (-1) ((selectedUnits s.units).filter
      (fun i => decide ((s.unit i).type ≠ UnitType.UNIT_HEALER))) s
    generalize (List.foldl
        (fun (acc : Game K) idx =>
          { acc with unitAreaAttack := acc.unitAreaAttack.set idx false,
                     unitAreaTargets := acc.unitAreaTargets.set idx [],
                     unitAttacking := acc.unitAttacking.set idx false,
                     unitTargetEnemy := acc.unitTargetEnemy.set idx (-1) }) s
        ((selectedUnits s.units).filter
          (fun i => decide ((s.unit i).type ≠ UnitType.UNIT_HEALER)))) = s1 at h ⊢
    rw [← h]
    unfold tableSizes
    dsimp only
    rw [formationMove_length]

theorem distributeFirst_sizes (env : Env K) (captured : List Int) (selIdx : List Nat)
    (s : Game K) :
    tableSizes (distributeFirst env captured selIdx s).1 = tableSizes s := by
  unfold distributeFirst
  apply foldl_preserves (fun acc : Game K × List Int => tableSizes acc.1 = tableSizes s)
  · rfl
  · intro acc idx h
    dsimp only
    split_ifs
    · exact h
    · rw [← h]
      simp [tableSizes]
    · exact h

theorem distributeRest_sizes (env : Env K) (captured : List Int) (selIdx : List Nat)
    (s : Game K) :
    tableSizes (distributeRest env captured selIdx s) = tableSizes s := by
  unfold distributeRest
  apply tableSizes_fold
  intro acc idx
  dsimp only
  split_ifs <;> simp [tableSizes]

theorem areaOrder_sizes (env : Env K) (wsx wsy wex wey : K) (s : Game K) :
    tableSizes (areaOrder env wsx wsy wex wey s) = tableSizes s := by
  have hfold : ∀ (c : List Int) (l : List Nat) (s0 : Game K),
      tableSizes (l.foldl
        (fun (acc : Game K) idx =>
          { acc with unitAreaAttack := acc.unitAreaAttack.set idx true,
                     unitAreaTargets := acc.unitAreaTargets.set idx c,
                     unitAttacking := acc.unitAttacking.set idx false,
                     unitTargetEnemy := acc.unitTargetEnemy.set idx (-1) }) s0)
        = tableSizes s0 := by
    intro c l s0
    apply tableSizes_fold
    intro acc idx
    simp [tableSizes]
  unfold areaOrder
  dsimp only
  split_ifs with h1 h2
  · rfl
  · have h := hfold (capturedEnemies (min wsx wex) (min wsy wey) (max wsx wex - min wsx wex)
      (max wsy wey - min wsy wey) s.enemies) (selectedUnits s.units) s
    generalize (List.foldl _ s (selectedUnits s.units)) = s1 at h ⊢
    have h2 := distributeRest_sizes env (capturedEnemies (min wsx wex) (min wsy wey)
      (max wsx wex - min wsx wex) (max wsy wey - min wsy wey) s.enemies) (selectedUnits s.units)
      (distributeFirst env (capturedEnemies (min wsx wex) (min wsy wey)
        (max wsx wex - min wsx wex) (max wsy wey - min wsy wey) s.enemies)
        (selectedUnits s.units) s1).1
    rw [distributeFirst_sizes, h] at h2
    generalize distributeRest env _ _ _ = s2 at h2 ⊢
    rw [← h2]
    unfold tableSizes
    dsimp only
    rw [formationMove_length]
  · have h := hfold (capturedEnemies (min wsx wex) (min wsy wey) (max wsx wex - min wsx wex)
      (max wsy wey - min wsy wey) s.enemies) (selectedUnits s.units) s
    generalize (List.foldl _ s (selectedUnits s.units)) = s1 at h ⊢
    rw [← h]
    unfold tableSizes
    dsimp only
    rw [formationMove_length]

theorem PlayStep.sizes_step {env : Env K} {s s1 : Game K} (h : PlayStep env s s1) :
    tableSizes s1 = tableSizes s := by
  rcases h with ⟨inp, h⟩ | ⟨keys, h⟩ | ⟨i, ctrl, h⟩ | ⟨mx, my, h⟩ | ⟨a, b, c, d, h⟩
  · rw [h]
    exact simFrame_sizes env inp s
  · rw [h]
    exact purchases_sizes keys s
  · rw [h]
    exact selectKey_sizes i ctrl s
  · rw [h]
    exact rightClick_sizes mx my s
  · rw [h]
    exact areaOrder_sizes env a b c d s

theorem reachable_sized (env : Env K) (s0 s : Game K) (h0 : Sized s0)
    (h : Relation.ReflTransGen (PlayStep env) s0 s) : Sized s := by
  induction h with
  | refl => exact h0
  | tail _ hstep ih => exact Sized.of_sizes hstep.sizes_step ih

theorem tickValue_nonneg (env : Env K) (dt t : K) (ht : 0 ≤ t) : 0 ≤ tickValue env dt t := by
  unfold tickValue
  split_ifs with h1 h2
  · exact le_refl _
  · exact le_of_not_lt h2
  · exact ht

theorem tickValue_lower (env : Env K) (dt t u η : K) (hu0 : 0 ≤ u)
    (hfl : ∀ x, 0 ≤ x → x * (1 - u) ≤ env.fl x + η) (ht : 0 ≤ t) (hdt : 0 ≤ dt)
    (hη : 0 ≤ η) :
    t * (1 - u) ≤ tickValue env dt t + dt + η := by
  unfold tickValue
  have htu : 0 ≤ t * u := mul_nonneg ht hu0
  have hd : 0 ≤ dt * u := mul_nonneg hdt hu0
  by_cases hx : 0 ≤ t - dt
  · have h := hfl (t - dt) hx
    split_ifs with h1 h2
    · nlinarith
    · nlinarith
    · nlinarith
  · push_neg at hx
    split_ifs with h1 h2
    · nlinarith
    · have h3 := le_of_not_lt h2
      nlinarith
    · nlinarith

theorem timer_after_fire (env : Env K) (inps : List (FrameInput K)) (s : Game K) (i : Nat)
    (u η : K) (hi : i < s.units.length) (ht : i < s.unitFireTimer.length)
    (hdt : ∀ n, n < inps.length → 0 ≤ frameDt env inps s n)
    (hu0 : 0 ≤ u) (hu1 : u ≤ 1) (hη : 0 ≤ η)
    (hfl : ∀ x, 0 ≤ x → x * (1 - u) ≤ env.fl x + η)
    (hT : 0 ≤ env.fl (1 / (s.unit i).fireRate)) (k : Nat)
    (hk : k < inps.length) (hf : FiresAt env inps s i k) (d : Nat)
    (hd : k + d < inps.length) :
    0 ≤ (frameState env inps s (k + 1 + d)).unitFireTimer.getD i 0 ∧
    env.fl (1 / (s.unit i).fireRate) * (1 - u) ^ d
      ≤ (frameState env inps s (k + 1 + d)).unitFireTimer.getD i 0
        + dtBetween env inps s k (k + d) + (d : K) * η := by
  induction d with
  | zero =>
    simp only [Nat.add_zero]
    rw [dtBetween_self, ((frame_fires env inps s i hi ht k hk).2.1 hf).2]
    refine ⟨hT, ?_⟩
    simp
  | succ d ih =>
    obtain ⟨h0, h1⟩ := ih (by omega)
    have hn : k + 1 + d < inps.length := by omega
    have hsum := dtBetween_succ env inps s k d
    have hnn := dtBetween_nonneg env inps s k d hdt (by omega)
    have hnn1 := dtBetween_nonneg env inps s k (d + 1) hdt hd
    have e : k + (d + 1) = k + d + 1 := by omega
    have e2 : k + 1 + (d + 1) = k + 1 + d + 1 := by omega
    have hv : (0 : K) ≤ 1 - u := by linarith
    have hv1 : (1 : K) - u ≤ 1 := by linarith
    have hp0 : (0 : K) ≤ (1 - u) ^ d := pow_nonneg hv d
    have hp1 : (1 - u) ^ (d + 1) ≤ (1 : K) := pow_le_one₀ hv hv1
    have hdn : (0 : K) ≤ (d : K) := Nat.cast_nonneg d
    have hdη : (0 : K) ≤ (d : K) * η := mul_nonneg hdn hη
    rw [e] at hnn1 ⊢
    rw [e2]
    obtain ⟨_, f1, f2⟩ := frame_fires env inps s i hi ht (k + 1 + d) hn
    push_cast
    by_cases hfire : FiresAt env inps s i (k + 1 + d)
    · rw [(f1 hfire).2]
      refine ⟨hT, ?_⟩
      have := mul_le_mul_of_nonneg_left hp1 hT
      nlinarith
    · rw [f2 hfire]
      have hge := tickValue_lower env (frameDt env inps s (k + 1 + d))
        ((frameState env inps s (k + 1 + d)).unitFireTimer.getD i 0) u η hu0 hfl h0
        (hdt _ hn) hη
      refine ⟨tickValue_nonneg env _ _ h0, ?_⟩
      rw [hsum]
      have hm := mul_le_mul_of_nonneg_right h1 hv
      have hdu : 0 ≤ (dtBetween env inps s k (k + d) + (d : K) * η) * u :=
        mul_nonneg (by linarith) hu0
      rw [pow_succ]
      nlinarith

theorem fire_gap (env : Env K) (inps : List (FrameInput K)) (s : Game K) (i : Nat)
    (u η : K) (hi : i < s.units.length) (ht : i < s.unitFireTimer.length)
    (hdt : ∀ n, n < inps.length → 0 ≤ frameDt env inps s n)
    (hu0 : 0 ≤ u) (hu1 : u ≤ 1) (hη : 0 ≤ η)
    (hfl : ∀ x, 0 ≤ x → x * (1 - u) ≤ env.fl x + η)
    (k m : Nat) (hkm : k < m)
    (hm : m < inps.length) (hfk : FiresAt env inps s i k) (hfm : FiresAt env inps s i m) :
    env.fl (1 / (s.unit i).fireRate) * (1 - u) ^ (m - k)
      ≤ dtBetween env inps s k m + ((m - k : Nat) : K) * η := by
  obtain ⟨d, rfl⟩ : ∃ d, m = k + 1 + d := ⟨m - k - 1, by omega⟩
  have e : k + 1 + d = k + d + 1 := by omega
  have e3 : k + 1 + d - k = d + 1 := by omega
  have hv : (0 : K) ≤ 1 - u := by linarith
  have hnn1 := dtBetween_nonneg env inps s k (d + 1) hdt (by omega)
  have e4 : k + (d + 1) = k + 1 + d := by omega
  rw [e4] at hnn1
  have hdn : (0 : K) ≤ ((d + 1 : Nat) : K) := Nat.cast_nonneg _
  rw [e3]
  by_cases hT : 0 ≤ env.fl (1 / (s.unit i).fireRate)
  · obtain ⟨h0, h1⟩ := timer_after_fire env inps s i u η hi ht hdt hu0 hu1 hη hfl hT k
      (by omega) hfk d (by omega)
    have h2 := ((frame_fires env inps s i hi ht (k + 1 + d) hm).2.1 hfm).1
    have h3 := tickValue_lower env (frameDt env inps s (k + 1 + d))
      ((frameState env inps s (k + 1 + d)).unitFireTimer.getD i 0) u η hu0 hfl h0
      (hdt _ hm) hη
    have h4 := dtBetween_succ env inps s k d
    rw [← e] at h4
    have hnn := dtBetween_nonneg env inps s k d hdt (by omega)
    have hdη : (0 : K) ≤ (d : K) * η := mul_nonneg (Nat.cast_nonneg d) hη
    rw [h4]
    have hm1 := mul_le_mul_of_nonneg_right h1 hv
    have hdu : 0 ≤ (dtBetween env inps s k (k + d) + (d : K) * η) * u :=
      mul_nonneg (by linarith) hu0
    rw [pow_succ]
    push_cast
    nlinarith
  · push_neg at hT
    have hp0 : (0 : K) ≤ (1 - u) ^ (d + 1) := pow_nonneg hv _
    have h5 : env.fl (1 / (s.unit i).fireRate) * (1 - u) ^ (d + 1) ≤ 0 :=
      mul_nonpos_of_nonpos_of_nonneg (le_of_lt hT) hp0
    have h6 : (0 : K) ≤ ((d + 1 : Nat) : K) * η := mul_nonneg hdn hη
    linarith

theorem f32Quantum_pos (fuel : Nat) (x q : ℚ) (hq : 0 < q) : 0 < f32Quantum fuel x q := by
  induction fuel generalizing q with
  | zero => exact hq
  | succ n ih =>
    unfold f32Quantum
    split_ifs
    · exact ih _ (by linarith)
    · exact ih _ (by linarith)
    · exact hq

theorem roundHalfEven_ge (y : ℚ) : y - 1 / 2 ≤ (roundHalfEven y : ℚ) := by
  unfold roundHalfEven
  have h1 : ((⌊y⌋ : Int) : ℚ) ≤ y := Int.floor_le y
  have h2 : y < ((⌊y⌋ : Int) : ℚ) + 1 := Int.lt_floor_add_one y
  split_ifs with a b c
  · linarith
  · push_cast
    linarith
  · linarith
  · push_cast
    linarith

theorem f32Abs_rounds (x : ℚ) (hx : 0 ≤ x) :
    x * (1 - 1 / 2 ^ 24) ≤ f32Abs x + 1 / 2 ^ 150 := by
  unfold f32Abs
  dsimp only
  have hq := f32Quantum_pos 400 x 1 one_pos
  generalize f32Quantum 400 x 1 = q at hq
  have hr := roundHalfEven_ge (x / q)
  have hmul : (x / q - 1 / 2) * q ≤ (roundHalfEven (x / q) : ℚ) * q :=
    mul_le_mul_of_nonneg_right hr (le_of_lt hq)
  have hxq : x / q * q = x := div_mul_cancel₀ x (ne_of_gt hq)
  have hexp : (x / q - 1 / 2) * q = x - q / 2 := by rw [sub_mul, hxq]; ring
  rw [hexp] at hmul
  split_ifs with h
  · rcases h with h | h
    · norm_num at h ⊢
      linarith
    · norm_num at h ⊢
      linarith
  · norm_num
    linarith

theorem f32_rounds (x : ℚ) (hx : 0 ≤ x) : x * (1 - 1 / 2 ^ 24) ≤ f32 x + 1 / 2 ^ 150 := by
  unfold f32
  rw [if_neg (not_lt.2 hx)]
  exact f32Abs_rounds x hx

/-- C16 (amended): a run of frames from the state `s` over the inputs `inps`, all with an
effective `dt ≥ 0`, and a unit `i` (with its entry in the fire-timer table); every `float`
result `x ≥ 0` of the timer arithmetic is rounded to a value `≥ x * (1 - u) - η`, with
`0 ≤ u ≤ 1` and `η ≥ 0` (`u = 2^-24` and `η = 2^-150` for binary32).  In every frame the unit
loop appends at most one bullet of unit `i`; when it appends one, the fire timer of the unit,
after the countdown of that frame, was `≤ 0`, and the timer is the rounded `1 / fireRate` at
the end of the frame; when it appends none, the timer at the end of the frame is the
counted-down one.  Consequently, when unit `i` fires in the frames `k < m`, the effective `dt`
of the frames `k + 1, ..., m` sum to `S` with
`fl (1 / fireRate) * (1 - u)^(m - k) ≤ S + (m - k) * η`, and, for a positive fire rate,
`(1 / fireRate) * (1 - u)^(m - k + 1) ≤ S + (m - k + 1) * η`.  When the timer arithmetic is
exact, `S ≥ 1 / fireRate`, which is `0.4` for a fire rate of `2.5`. -/
theorem fire_events_spaced (env : Env K) (inps : List (FrameInput K)) (s : Game K) (i : Nat)
    (u η : K) (hi : i < s.units.length) (ht : i < s.unitFireTimer.length)
    (hdt : ∀ n, n < inps.length → 0 ≤ frameDt env inps s n)
    (hu : 0 ≤ u ∧ u ≤ 1) (hη : 0 ≤ η)
    (hfl : ∀ x, 0 ≤ x → x * (1 - u) ≤ env.fl x + η) :
    (∀ n, n < inps.length →
      shotsInFrame env (frameInput inps n) (frameState env inps s n) i ≤ 1 ∧
      (FiresAt env inps s i n →
        tickValue env (frameDt env inps s n)
            ((frameState env inps s n).unitFireTimer.getD i 0) ≤ 0 ∧
          (frameState env inps s (n + 1)).unitFireTimer.getD i 0
            = env.fl (1 / (s.unit i).fireRate)) ∧
      (¬ FiresAt env inps s i n →
        (frameState env inps s (n + 1)).unitFireTimer.getD i 0
          = tickValue env (frameDt env inps s n)
              ((frameState env inps s n).unitFireTimer.getD i 0))) ∧
    (∀ k m, k < m → m < inps.length → FiresAt env inps s i k → FiresAt env inps s i m →
      env.fl (1 / (s.unit i).fireRate) * (1 - u) ^ (m - k)
        ≤ dtBetween env inps s k m + ((m - k : Nat) : K) * η ∧
      (0 < (s.unit i).fireRate →
        1 / (s.unit i).fireRate * (1 - u) ^ (m - k + 1)
          ≤ dtBetween env inps s k m + ((m - k + 1 : Nat) : K) * η)) ∧
    ((∀ x, env.fl x = x) →
      ∀ k m, k < m → m < inps.length → FiresAt env inps s i k → FiresAt env inps s i m →
        1 / (s.unit i).fireRate ≤ dtBetween env inps s k m ∧
        ((s.unit i).fireRate = 5 / 2 → (2 / 5 : K) ≤ dtBetween env inps s k m)) := by
  refine ⟨fun n hn => frame_fires env inps s i hi ht n hn, ?_, ?_⟩
  · intro k m hkm hm hfk hfm
    have h := fire_gap env inps s i u η hi ht hdt hu.1 hu.2 hη hfl k m hkm hm hfk hfm
    refine ⟨h, ?_⟩
    intro hrate
    have hpos : (0 : K) ≤ 1 / (s.unit i).fireRate := le_of_lt (one_div_pos.2 hrate)
    have hr := hfl _ hpos
    have hv : (0 : K) ≤ 1 - u := by linarith [hu.2]
    have hv1 : (1 : K) - u ≤ 1 := by linarith [hu.1]
    have hp0 : (0 : K) ≤ (1 - u) ^ (m - k) := pow_nonneg hv _
    have hp1 : (1 - u) ^ (m - k) ≤ (1 : K) := pow_le_one₀ hv hv1
    have hm1 := mul_le_mul_of_nonneg_right hr hp0
    have hη1 : η * (1 - u) ^ (m - k) ≤ η := by
      have := mul_le_mul_of_nonneg_left hp1 hη
      linarith
    rw [pow_succ]
    push_cast
    push_cast at h
    nlinarith
  · intro hex k m hkm hm hfk hfm
    have h := fire_gap env inps s i 0 0 hi ht hdt (le_refl _) zero_le_one (le_refl _)
      (fun x _ => by rw [hex x]; simp) k m hkm hm hfk hfm
    rw [hex] at h
    simp only [sub_zero, one_pow, mul_one, mul_zero, add_zero] at h
    refine ⟨h, ?_⟩
    intro hrate
    rw [hrate] at h
    have e : (1 : K) / (5 / 2) = 2 / 5 := by norm_num
    rw [e] at h
    exact h

set_option maxRecDepth 1000000 in
unseal Rat.add Rat.mul Rat.inv Rat.sub in
/-- The rifleman of the duel (fire rate 2.5) at 12.5 frames per second, the fire timer in
binary32: the timer is set to `0.4f = 13421773 / 2^25` in frame 0, counts down by
`0.08f = 5368709 / 2^26` per frame, the first difference `21474837 / 2^26` rounded to
`21474836 / 2^26`, stands at `0.08f` when frame 5 starts and is `0` after the countdown of
frame 5, where the unit fires again; it fires in no frame between.  The `dt` of the frames 1 to 5 sum to
`26843545 / 2^26 = 0.39999999...`, which is below `1 / fireRate = 0.4`. -/
theorem fire_gap_below_period :
    (∀ n, n < slowInputs.length → 0 ≤ frameDt f32Env slowInputs duelGame n) ∧
    (∀ n, n < 6 → (FiresAt f32Env slowInputs duelGame 0 n ↔ n = 0 ∨ n = 5)) ∧
    (frameState f32Env slowInputs duelGame 1).unitFireTimer = [13421773 / 33554432] ∧
    (frameState f32Env slowInputs duelGame 5).unitFireTimer = [5368709 / 67108864] ∧
    dtBetween f32Env slowInputs duelGame 0 5 = 26843545 / 67108864 ∧
    (duelGame.unit 0).fireRate = 5 / 2 ∧
    dtBetween f32Env slowInputs duelGame 0 5 < 1 / (duelGame.unit 0).fireRate := by
  refine ⟨by decide, ?_, by decide, by decide, by decide, by decide, by decide⟩
  unfold FiresAt
  decide

set_option maxRecDepth 1000000 in
unseal Rat.add Rat.mul Rat.inv Rat.sub in
/-- The statement of `fire_events_spaced` at the duel over six frames of `0.08f` s with the
timer in binary32 (`u = 2^-24`, `η = 2^-150`): the rifleman fires in frame 0 and in frame 5,
and the `dt` of the frames 1 to 5 obey the bound of the theorem. -/
theorem fire_events_spaced_witness :
    (0 < duelGame.units.length ∧ 0 < duelGame.unitFireTimer.length ∧
      (∀ n, n < slowInputs.length → 0 ≤ frameDt f32Env slowInputs duelGame n) ∧
      ((0 : ℚ) ≤ 1 / 2 ^ 24 ∧ (1 / 2 ^ 24 : ℚ) ≤ 1) ∧ (0 : ℚ) ≤ 1 / 2 ^ 150 ∧
      ∀ x : ℚ, 0 ≤ x → x * (1 - 1 / 2 ^ 24) ≤ f32Env.fl x + 1 / 2 ^ 150) ∧
    (FiresAt f32Env slowInputs duelGame 0 0 ∧ FiresAt f32Env slowInputs duelGame 0 5) ∧
    f32Env.fl (1 / (duelGame.unit 0).fireRate) * (1 - 1 / 2 ^ 24) ^ (5 - 0)
      ≤ dtBetween f32Env slowInputs duelGame 0 5 + ((5 - 0 : Nat) : ℚ) * (1 / 2 ^ 150) := by
  have h0 : 0 < duelGame.units.length := by decide
  have h1 : 0 < duelGame.unitFireTimer.length := by decide
  have h2 : ∀ n, n < slowInputs.length → 0 ≤ frameDt f32Env slowInputs duelGame n := by
    decide
  have h3 : (0 : ℚ) ≤ 1 / 2 ^ 24 ∧ (1 / 2 ^ 24 : ℚ) ≤ 1 := by norm_num
  have h4 : (0 : ℚ) ≤ 1 / 2 ^ 150 := by norm_num
  have h5 : ∀ x : ℚ, 0 ≤ x → x * (1 - 1 / 2 ^ 24) ≤ f32Env.fl x + 1 / 2 ^ 150 := f32_rounds
  have f0 : FiresAt f32Env slowInputs duelGame 0 0 := by unfold FiresAt; decide
  have f5 : FiresAt f32Env slowInputs duelGame 0 5 := by unfold FiresAt; decide
  exact ⟨⟨h0, h1, h2, h3, h4, h5⟩, ⟨f0, f5⟩,
    ((fire_events_spaced f32Env slowInputs duelGame 0 (1 / 2 ^ 24) (1 / 2 ^ 150) h0 h1 h2
      h3 h4 h5).2.1 0 5 (by decide) (by decide) f0 f5).1⟩

set_option maxRecDepth 1000000 in
unseal Rat.add Rat.mul Rat.inv Rat.sub in
/-- C13, as stated, fails: the siege enemy of `retreatGame` targets the ship, 379 away and
within its attack range of 380, and its nearest unit is 100 away, inside its avoidance
radius of 200.  In a frame of 0.2 s its update first moves it 13 away from that unit, from
`(1371, 1750)` to `(1358, 1750)`, and then tests the distance measured before the step: it
damages the ship (200 to 190 hit points) and resets its timer while it stands 392 from the
ship, beyond its attack range. -/
theorem retreating_enemy_hits_out_of_range :
    (enemyEngagesShip evalEnv (retreatGame.enemies.getD 0 default) retreatGame,
      enemyEngagesUnit evalEnv (retreatGame.enemies.getD 0 default) retreatGame)
      = (true, false) ∧
    ((retreatGame.enemies.getD 0 default).avoidUnitsRange,
      enemyClosest evalEnv (retreatGame.enemies.getD 0 default) retreatGame)
      = (200, 0, 100) ∧
    (enemyTargetDist evalEnv (retreatGame.enemies.getD 0 default) retreatGame,
      (retreatGame.enemies.getD 0 default).attackRange) = (379, 380) ∧
    (((enemyUpdate evalEnv (1 / 5) 0 retreatGame).enemies.getD 0 default).fx,
      ((enemyUpdate evalEnv (1 / 5) 0 retreatGame).enemies.getD 0 default).fy)
      = (1358, 1750) ∧
    (retreatGame.playerShip.hp, (enemyUpdate evalEnv (1 / 5) 0 retreatGame).playerShip.hp)
      = (200, 190) ∧
    ((enemyUpdate evalEnv (1 / 5) 0 retreatGame).enemies.getD 0 default).timeSinceLastAttack
      = 0 ∧
    enemyShipDist evalEnv ((enemyUpdate evalEnv (1 / 5) 0 retreatGame).enemies.getD 0 default)
      (enemyUpdate evalEnv (1 / 5) 0 retreatGame) = 392 ∧
    ((enemyUpdate evalEnv (1 / 5) 0 retreatGame).enemies.getD 0 default).attackRange
      < enemyShipDist evalEnv
          ((enemyUpdate evalEnv (1 / 5) 0 retreatGame).enemies.getD 0 default)
          (enemyUpdate evalEnv (1 / 5) 0 retreatGame) :=
  ⟨by decide, by decide, by decide, by decide, by decide, by decide, by decide, by decide⟩

theorem vecAt_nat {α : Type} (l : List α) (i : Nat) (d : α) (h : i < l.length) :
    vecAt l (i : Int) = some (l.getD i d) := by
  have := vecAt_of_valid l (i : Int) d (by omega) (by omega)
  simpa using this

theorem vecSet_of_valid {α : Type} (l : List α) (t : Int) (x : α) (h0 : 0 ≤ t)
    (h1 : t < (l.length : Int)) : vecSet l t x = some (l.set t.toNat x) := by
  unfold vecSet
  rw [if_neg (by omega)]

theorem vecSet_nat {α : Type} (l : List α) (i : Nat) (x : α) (h : i < l.length) :
    vecSet l (i : Int) x = some (l.set i x) := by
  have := vecSet_of_valid l (i : Int) x (by omega) (by omega)
  simpa using this

theorem foldlM_eq_some {α β : Type} (f : β → α → Option β) (g : β → α → β) (P : β → Prop)
    (l : List α) (b : β) (hb : P b)
    (hstep : ∀ b a, a ∈ l → P b → f b a = some (g b a) ∧ P (g b a)) :
    l.foldlM f b = some (l.foldl g b) ∧ P (l.foldl g b) := by
  induction l generalizing b with
  | nil => exact ⟨rfl, hb⟩
  | cons a l ih =>
    obtain ⟨h1, h2⟩ := hstep b a (List.mem_cons_self a l) hb
    rw [List.foldlM_cons, h1, List.foldl_cons]
    exact ih (g b a) h2 (fun b1 a1 ha1 hP => hstep b1 a1 (List.mem_cons_of_mem a ha1) hP)

theorem nearestFreeRockOpt_eq (env : Env K) (rocks : List Rock) (used : List Bool) (u : Unit K)
    (alive : List Nat) (hu : used.length = rocks.length) (ha : ∀ ri ∈ alive, ri < rocks.length) :
    nearestFreeRockOpt env rocks used u alive = some (nearestFreeRock env rocks used u alive) := by
  unfold nearestFreeRockOpt nearestFreeRock
  refine (foldlM_eq_some _ _ (fun _ => True) alive _ trivial ?_).1
  intro best ri hri _
  refine ⟨?_, trivial⟩
  dsimp only
  rw [vecAt_nat used ri false (by rw [hu]; exact ha ri hri),
    vecAt_nat rocks ri default (ha ri hri)]
  cases used.getD ri false <;> rfl

theorem nearestRockOpt_eq (env : Env K) (rocks : List Rock) (u : Unit K)
    (alive : List Nat) (ha : ∀ ri ∈ alive, ri < rocks.length) :
    nearestRockOpt env rocks u alive = some (nearestRock env rocks u alive) := by
  unfold nearestRockOpt nearestRock
  refine (foldlM_eq_some _ _ (fun _ => True) alive _ trivial ?_).1
  intro best ri hri _
  refine ⟨?_, trivial⟩
  dsimp only
  rw [vecAt_nat rocks ri default (ha ri hri)]
  rfl

theorem Sized.lengths {s : Game K} (hs : Sized s) :
    s.unitAttacking.length = s.units.length ∧ s.unitTargetEnemy.length = s.units.length ∧
    s.unitFireTimer.length = s.units.length ∧ s.unitAreaAttack.length = s.units.length ∧
    s.unitAreaTargets.length = s.units.length ∧ s.unitHealFraction.length = s.units.length ∧
    s.unitAssignedRock.length = s.units.length := by
  unfold Sized tableSizes at hs
  simp only [List.replicate, List.cons.injEq, and_true, true_and] at hs
  exact hs

theorem units_length_of_sizes {s s1 : Game K} (h : tableSizes s1 = tableSizes s) :
    s1.units.length = s.units.length :=
  congrArg (fun l : List Nat => l.getD 0 0) h

theorem assignRound1StepOpt_eq (env : Env K) (s : Game K) (acc : List Bool × List Int)
    (ui : Nat) (hui : ui < s.units.length) (h1 : acc.1.length = s.rocks.length)
    (h2 : acc.2.length = s.units.length) :
    assignRound1StepOpt env s (aliveRocks s.rocks) acc ui
        = some (assignRound1Step env s (aliveRocks s.rocks) acc ui) ∧
      (assignRound1Step env s (aliveRocks s.rocks) acc ui).1.length = s.rocks.length ∧
      (assignRound1Step env s (aliveRocks s.rocks) acc ui).2.length = s.units.length := by
  have halive : ∀ ri ∈ aliveRocks s.rocks, ri < s.rocks.length :=
    fun ri hri => ((mem_aliveRocks s.rocks ri).1 hri).1
  unfold assignRound1StepOpt assignRound1Step
  dsimp only
  rw [vecAt_nat s.units ui default hui]
  have hunit : s.units.getD ui default = s.unit ui := rfl
  simp only [Option.bind_eq_bind, Option.some_bind, hunit]
  by_cases hh : (s.unit ui).type = UnitType.UNIT_HEALER
  · rw [if_pos hh, if_pos hh, vecSet_nat acc.2 ui (-1) (by rw [h2]; exact hui)]
    exact ⟨rfl, h1, by rw [List.length_set]; exact h2⟩
  · rw [if_neg hh, if_neg hh, nearestFreeRockOpt_eq env s.rocks acc.1 (s.unit ui) _ h1 halive]
    simp only [Option.some_bind]
    by_cases hb : (nearestFreeRock env s.rocks acc.1 (s.unit ui) (aliveRocks s.rocks)).1 ≠ -1
    · rw [if_pos hb, if_pos hb]
      rcases nearestFreeRock_result env s.rocks acc.1 (s.unit ui) (aliveRocks s.rocks) with
        h | ⟨ri, hri, hmem, _⟩
      · exact absurd h hb
      · have hlt := halive ri hmem
        rw [vecSet_nat acc.2 ui _ (by rw [h2]; exact hui),
          vecSet_of_valid acc.1 _ true (by rw [hri]; omega) (by rw [hri, h1]; omega)]
        exact ⟨rfl, by rw [List.length_set]; exact h1, by rw [List.length_set]; exact h2⟩
    · rw [if_neg hb, if_neg hb, vecSet_nat acc.2 ui (-1) (by rw [h2]; exact hui)]
      exact ⟨rfl, h1, by rw [List.length_set]; exact h2⟩

theorem assignRound2StepOpt_eq (env : Env K) (s : Game K) (table : List Int)
    (ui : Nat) (hui : ui < s.units.length) (h2 : table.length = s.units.length) :
    assignRound2StepOpt env s (aliveRocks s.rocks) table ui
        = some (assignRound2Step env s (aliveRocks s.rocks) table ui) ∧
      (assignRound2Step env s (aliveRocks s.rocks) table ui).length = s.units.length := by
  have halive : ∀ ri ∈ aliveRocks s.rocks, ri < s.rocks.length :=
    fun ri hri => ((mem_aliveRocks s.rocks ri).1 hri).1
  unfold assignRound2StepOpt assignRound2Step
  dsimp only
  rw [vecAt_nat s.units ui default hui]
  have hunit : s.units.getD ui default = s.unit ui := rfl
  simp only [Option.bind_eq_bind, Option.some_bind, hunit]
  by_cases hh : (s.unit ui).type = UnitType.UNIT_HEALER
  · rw [if_pos hh, if_pos hh]
    exact ⟨rfl, h2⟩
  · rw [if_neg hh, if_neg hh, vecAt_nat table ui (-1) (by rw [h2]; exact hui)]
    simp only [Option.some_bind]
    by_cases hc : table.getD ui (-1) ≠ -1
    · rw [if_pos hc, if_pos hc]
      exact ⟨rfl, h2⟩
    · rw [if_neg hc, if_neg hc, nearestRockOpt_eq env s.rocks (s.unit ui) _ halive]
      simp only [Option.some_bind]
      rw [vecSet_nat table ui _ (by rw [h2]; exact hui)]
      exact ⟨rfl, by rw [List.length_set]; exact h2⟩

theorem recomputeRockAssignmentsOpt_eq (env : Env K) (s : Game K)
    (hlen : s.unitAssignedRock.length = s.units.length) :
    recomputeRockAssignmentsOpt env s = some (recomputeRockAssignments env s) := by
  unfold recomputeRockAssignmentsOpt recomputeRockAssignments assignRound1
  dsimp only
  obtain ⟨e1, p1, p2⟩ := foldlM_eq_some (assignRound1StepOpt env s (aliveRocks s.rocks))
    (assignRound1Step env s (aliveRocks s.rocks))
    (fun acc => acc.1.length = s.rocks.length ∧ acc.2.length = s.units.length)
    (List.range s.units.length) (List.replicate s.rocks.length false, s.unitAssignedRock)
    ⟨by simp, hlen⟩
    (fun acc ui hui hP =>
      ⟨(assignRound1StepOpt_eq env s acc ui (List.mem_range.1 hui) hP.1 hP.2).1,
        (assignRound1StepOpt_eq env s acc ui (List.mem_range.1 hui) hP.1 hP.2).2⟩)
  obtain ⟨e2, _⟩ := foldlM_eq_some (assignRound2StepOpt env s (aliveRocks s.rocks))
    (assignRound2Step env s (aliveRocks s.rocks))
    (fun t => t.length = s.units.length)
    (List.range s.units.length) _ p2
    (fun t ui hui hP => assignRound2StepOpt_eq env s t ui (List.mem_range.1 hui) hP)
  rw [e1]
  simp only [Option.bind_eq_bind, Option.some_bind]
  rw [e2]
  rfl

theorem tickFireTimerOpt_eq (env : Env K) (dt : K) (i : Nat) (s : Game K)
    (hi : i < s.unitFireTimer.length) :
    tickFireTimerOpt env dt i s = some (tickFireTimer env dt i s) := by
  unfold tickFireTimerOpt tickFireTimer
  dsimp only
  rw [vecAt_nat s.unitFireTimer i 0 hi]
  simp only [Option.bind_eq_bind, Option.some_bind, vecSet_nat s.unitFireTimer i _ hi]
  split_ifs <;> rfl

theorem staleTargetOpt_eq (enemies : List (EnemyNPC K)) (idx : Int) :
    staleTargetOpt enemies idx = some (staleTarget enemies idx) := by
  unfold staleTargetOpt staleTarget
  by_cases h : idx < 0 ∨ idx ≥ (enemies.length : Int)
  · rw [if_pos h]
    rcases h with h | h
    · simp [h]
    · simp [h]
  · rw [if_neg h]
    push_neg at h
    rw [vecAt_of_valid enemies idx default h.1 h.2]
    have h1 : ¬ idx < 0 := not_lt.2 h.1
    have h2 : ¬ idx ≥ (enemies.length : Int) := not_le.2 h.2
    simp [h1, h2]

theorem pruneTargetsOpt_eq (enemies : List (EnemyNPC K)) (list : List Int) :
    pruneTargetsOpt enemies list
      = some (list.filter (fun idx => !staleTarget enemies idx)) := by
  induction list with
  | nil => rfl
  | cons idx rest ih =>
    unfold pruneTargetsOpt
    rw [staleTargetOpt_eq, ih]
    simp only [Option.bind_eq_bind, Option.some_bind, List.filter_cons]
    cases staleTarget enemies idx <;> rfl

theorem claimedByOthersOpt_eq (s : Game K) (i : Nat) (hs : Sized s) :
    claimedByOthersOpt s i = some (claimedByOthers s i) := by
  obtain ⟨l1, l2, _, l4, _, _, _⟩ := hs.lengths
  unfold claimedByOthersOpt claimedByOthers
  refine (foldlM_eq_some _ _ (fun used : List Bool => used.length = s.enemies.length)
    (List.range s.units.length) _ (by simp) ?_).1
  intro used j hj hused
  have hj1 := List.mem_range.1 hj
  dsimp only
  by_cases hji : j = i
  · rw [if_pos hji, if_pos hji]
    exact ⟨rfl, hused⟩
  · rw [if_neg hji, if_neg hji, vecAt_nat s.unitAreaAttack j false (by rw [l4]; exact hj1)]
    simp only [Option.bind_eq_bind, Option.some_bind]
    cases ha : s.unitAreaAttack.getD j false
    · exact ⟨rfl, hused⟩
    · rw [if_pos rfl, vecAt_nat s.unitAttacking j false (by rw [l1]; exact hj1)]
      simp only [Option.some_bind]
      cases hb : s.unitAttacking.getD j false
      · exact ⟨rfl, hused⟩
      · rw [if_pos rfl, vecAt_nat s.unitTargetEnemy j (-1) (by rw [l2]; exact hj1)]
        simp only [Option.some_bind, Bool.and_self, if_true]
        by_cases hg : s.unitTargetEnemy.getD j (-1) ≥ 0 ∧
            s.unitTargetEnemy.getD j (-1) < (s.enemies.length : Int)
        · rw [if_pos hg, vecAt_of_valid s.enemies _ default hg.1 hg.2]
          simp only [Option.some_bind]
          by_cases hal : (s.enemies.getD (s.unitTargetEnemy.getD j (-1)).toNat default).alive
              = true
          · rw [if_pos hal, if_pos ⟨hg.1, hg.2, hal⟩,
              vecSet_of_valid used _ true hg.1 (by rw [hused]; exact hg.2)]
            exact ⟨rfl, by rw [List.length_set]; exact hused⟩
          · rw [if_neg hal, if_neg (fun h => hal h.2.2)]
            exact ⟨rfl, hused⟩
        · rw [if_neg hg, if_neg (fun h => hg ⟨h.1, h.2.1⟩)]
          exact ⟨rfl, hused⟩

theorem nearestUnclaimedOpt_eq (env : Env K) (enemies : List (EnemyNPC K)) (used : List Bool)
    (u : Unit K) (list : List Int) (hused : used.length = enemies.length) :
    nearestUnclaimedOpt env enemies used u list
      = some (nearestUnclaimed env enemies used u list) := by
  unfold nearestUnclaimedOpt nearestUnclaimed
  refine (foldlM_eq_some _ _ (fun _ => True) list _ trivial ?_).1
  intro best t _ _
  refine ⟨?_, trivial⟩
  dsimp only
  by_cases hg : t ≥ 0 ∧ t < (enemies.length : Int)
  · rw [if_pos hg, vecAt_of_valid used t false hg.1 (by rw [hused]; exact hg.2),
      vecAt_of_valid enemies t default hg.1 hg.2]
    simp only [Option.bind_eq_bind, Option.some_bind]
    by_cases hu : used.getD t.toNat false = false
    · have hc : t ≥ 0 ∧ t < (enemies.length : Int) ∧ used.getD t.toNat false = false :=
        ⟨hg.1, hg.2, hu⟩
      rw [if_pos hu, if_pos hc]
      rfl
    · have hc : ¬ (t ≥ 0 ∧ t < (enemies.length : Int) ∧ used.getD t.toNat false = false) :=
        fun h => hu h.2.2
      rw [if_neg hu, if_neg hc]
      rfl
  · have hc : ¬ (t ≥ 0 ∧ t < (enemies.length : Int) ∧ used.getD t.toNat false = false) :=
      fun h => hg ⟨h.1, h.2.1⟩
    rw [if_neg hg, if_neg hc]
    rfl

theorem nearestUnclaimedReOpt_eq (env : Env K) (enemies : List (EnemyNPC K))
    (used : List Bool) (u : Unit K) (list : List Int) (hused : used.length = enemies.length)
    (hl : ∀ t ∈ list, 0 ≤ t ∧ t < (enemies.length : Int)) :
    nearestUnclaimedReOpt env enemies used u list
      = some (nearestUnclaimedRe env enemies used u list) := by
  unfold nearestUnclaimedReOpt nearestUnclaimedRe
  refine (foldlM_eq_some _ _ (fun _ => True) list _ trivial ?_).1
  intro best t ht _
  refine ⟨?_, trivial⟩
  dsimp only
  obtain ⟨h0, h1⟩ := hl t ht
  rw [vecAt_of_valid used t false h0 (by rw [hused]; exact h1),
    vecAt_of_valid enemies t default h0 h1]
  simp only [Option.bind_eq_bind, Option.some_bind]
  split_ifs <;> rfl

theorem nearestCapturedOpt_eq (env : Env K) (enemies : List (EnemyNPC K))
    (u : Unit K) (list : List Int)
    (hl : ∀ t ∈ list, 0 ≤ t ∧ t < (enemies.length : Int)) :
    nearestCapturedOpt env enemies u list = some (nearestCaptured env enemies u list) := by
  unfold nearestCapturedOpt nearestCaptured
  refine (foldlM_eq_some _ _ (fun _ => True) list _ trivial ?_).1
  intro best t ht _
  refine ⟨?_, trivial⟩
  dsimp only
  obtain ⟨h0, h1⟩ := hl t ht
  rw [vecAt_of_valid enemies t default h0 h1]
  rfl

theorem Sized.of_targets {s : Game K} (hs : Sized s) (i : Nat) (list : List Int) :
    Sized { s with unitAreaTargets := s.unitAreaTargets.set i list } := by
  unfold Sized tableSizes at *
  simp only [List.length_set]
  exact hs

theorem areaAcquireOpt_eq (env : Env K) (i : Nat) (s : Game K) (hs : Sized s)
    (hi : i < s.units.length) :
    areaAcquireOpt env i s = some (areaAcquire env i s) := by
  obtain ⟨l1, l2, l3, l4, l5, l6, l7⟩ := hs.lengths
  have hmem : ∀ t ∈ livingTargets s i, 0 ≤ t ∧ t < (s.enemies.length : Int) :=
    fun t ht => ⟨(mem_livingTargets s i t ht).1, (mem_livingTargets s i t ht).2.1⟩
  have hs1 := hs.of_targets i (livingTargets s i)
  have hc := claimedByOthersOpt_eq _ i hs1
  have hn := nearestUnclaimedOpt_eq env s.enemies
    (claimedByOthers { s with unitAreaTargets := s.unitAreaTargets.set i (livingTargets s i) } i)
    (s.unit i) (livingTargets s i) (claimedByOthers_length _ i)
  have hf := nearestCapturedOpt_eq env s.enemies (s.unit i) (livingTargets s i) hmem
  unfold livingTargets at hmem hs1 hc hn hf
  unfold areaAcquireOpt areaAcquire
  dsimp only
  rw [vecAt_nat s.unitAreaTargets i [] (by omega)]
  simp only [Option.bind_eq_bind, Option.some_bind, pruneTargetsOpt_eq,
    vecSet_nat s.unitAreaTargets i _ (show i < s.unitAreaTargets.length by omega),
    vecSet_nat s.unitAttacking i _ (show i < s.unitAttacking.length by omega),
    vecSet_nat s.unitTargetEnemy i _ (show i < s.unitTargetEnemy.length by omega),
    vecSet_nat s.unitAreaAttack i _ (show i < s.unitAreaAttack.length by omega),
    hc, hn, hf, Option.map_some']
  split_ifs <;> simp only [Option.pure_def, Option.some_bind] <;> split_ifs <;> rfl

theorem reacquireOpt_eq (env : Env K) (i : Nat) (s : Game K) (hs : Sized s)
    (hi : i < s.units.length) :
    reacquireOpt env i s = some (reacquire env i s) := by
  obtain ⟨l1, l2, l3, l4, l5, l6, l7⟩ := hs.lengths
  have hmem : ∀ t ∈ livingTargets s i, 0 ≤ t ∧ t < (s.enemies.length : Int) :=
    fun t ht => ⟨(mem_livingTargets s i t ht).1, (mem_livingTargets s i t ht).2.1⟩
  have hs1 := hs.of_targets i (livingTargets s i)
  have hc := claimedByOthersOpt_eq _ i hs1
  have hn := nearestUnclaimedReOpt_eq env s.enemies
    (claimedByOthers { s with unitAreaTargets := s.unitAreaTargets.set i (livingTargets s i) } i)
    (s.unit i) (livingTargets s i) (claimedByOthers_length _ i) hmem
  have hf := nearestCapturedOpt_eq env s.enemies (s.unit i) (livingTargets s i) hmem
  unfold livingTargets at hmem hs1 hc hn hf
  unfold reacquireOpt reacquire
  dsimp only
  rw [vecAt_nat s.unitAreaTargets i [] (by omega)]
  simp only [Option.bind_eq_bind, Option.some_bind, pruneTargetsOpt_eq,
    vecSet_nat s.unitAreaTargets i _ (show i < s.unitAreaTargets.length by omega),
    vecSet_nat s.unitAttacking i _ (show i < s.unitAttacking.length by omega),
    vecSet_nat s.unitTargetEnemy i _ (show i < s.unitTargetEnemy.length by omega),
    vecSet_nat s.unitAreaAttack i _ (show i < s.unitAreaAttack.length by omega),
    hc, hn, hf, Option.map_some']
  split_ifs <;> simp only [Option.pure_def, Option.some_bind] <;> split_ifs <;> rfl

theorem assignedRockOfOpt_eq (i : Nat) (s : Game K) :
    assignedRockOfOpt i s = some (assignedRockOf i s) := by
  unfold assignedRockOfOpt assignedRockOf
  split_ifs with h
  · exact vecAt_nat s.unitAssignedRock i (-1) h
  · rfl

theorem revalidateRockOpt_eq (env : Env K) (i : Nat) (s : Game K) (hs : Sized s) :
    revalidateRockOpt env i s = some (revalidateRock env i s) := by
  have h0 : (if s.rockAssignmentDirty = true then recomputeRockAssignmentsOpt env s
      else pure s)
      = some (if s.rockAssignmentDirty = true then recomputeRockAssignments env s else s) := by
    split_ifs
    · exact recomputeRockAssignmentsOpt_eq env s hs.lengths.2.2.2.2.2.2
    · rfl
  have hs0 : Sized (if s.rockAssignmentDirty = true then recomputeRockAssignments env s
      else s) := by
    split_ifs
    · exact Sized.of_sizes (recomputeRockAssignments_sizes env s) hs
    · exact hs
  unfold revalidateRockOpt revalidateRock
  dsimp only
  rw [h0]
  generalize (if s.rockAssignmentDirty = true then recomputeRockAssignments env s else s) = s0
    at hs0
  simp only [Option.bind_eq_bind, Option.some_bind, assignedRockOfOpt_eq]
  have hre : recomputeRockAssignmentsOpt env { s0 with rockAssignmentDirty := true }
      = some (recomputeRockAssignments env { s0 with rockAssignmentDirty := true }) :=
    recomputeRockAssignmentsOpt_eq env _ hs0.lengths.2.2.2.2.2.2
  by_cases hg : assignedRockOf i s0 < 0 ∨ assignedRockOf i s0 ≥ (s0.rocks.length : Int)
  · have hc : assignedRockOf i s0 < 0 ∨ assignedRockOf i s0 ≥ (s0.rocks.length : Int) ∨
        (s0.rocks.getD (assignedRockOf i s0).toNat default).alive = false := by tauto
    rw [if_pos hg, if_pos hc]
    simp only [Option.pure_def, Option.some_bind, if_true]
    exact hre
  · rw [if_neg hg]
    push_neg at hg
    rw [vecAt_of_valid s0.rocks _ default hg.1 hg.2]
    simp only [Option.map_some', Option.some_bind]
    cases hal : (s0.rocks.getD (assignedRockOf i s0).toNat default).alive
    · have hc : assignedRockOf i s0 < 0 ∨ assignedRockOf i s0 ≥ (s0.rocks.length : Int) ∨
          false = false := Or.inr (Or.inr rfl)
      rw [if_pos hc]
      exact hre
    · have hc : ¬ (assignedRockOf i s0 < 0 ∨ assignedRockOf i s0 ≥ (s0.rocks.length : Int) ∨
          true = false) := by
        rintro (h | h | h)
        · omega
        · omega
        · exact absurd h (by decide)
      rw [if_neg hc]
      rfl

theorem mineStepOpt_eq (env : Env K) (i : Nat) (s1 : Game K)
    (hi : i < s1.unitFireTimer.length)
    (hv : ValidRock s1.rocks (assignedRockOf i s1)) :
    mineStepOpt env i s1 = some (mineStep env i s1) := by
  unfold mineStepOpt mineStep
  dsimp only
  simp only [Option.bind_eq_bind, Option.some_bind, assignedRockOfOpt_eq]
  by_cases h : assignedRockOf i s1 ≠ -1
  · rw [if_pos h, if_pos h]
    rcases hv with hv | ⟨ri, h1, h2, _⟩
    · exact absurd hv h
    · rw [vecAt_of_valid s1.rocks _ default (by omega) (by omega)]
      simp only [Option.some_bind, vecAt_nat s1.unitFireTimer i 0 hi,
        vecSet_nat s1.unitFireTimer i _ hi]
      split_ifs <;> rfl
  · rw [if_neg h, if_neg h]
    rfl

theorem mineOpt_eq (env : Env K) (i : Nat) (s : Game K) (hs : Sized s)
    (hi : i < s.units.length) :
    mineOpt env i s = some (mine env i s) := by
  unfold mineOpt mine
  rw [revalidateRockOpt_eq env i s hs]
  simp only [Option.bind_eq_bind, Option.some_bind]
  obtain ⟨hr, hv⟩ := revalidateRock_valid env i s hi
  have hsz := revalidateRock_sizes env i s
  have hs1 : Sized (revalidateRock env i s) := Sized.of_sizes hsz hs
  apply mineStepOpt_eq
  · rw [hs1.lengths.2.2.1, units_length_of_sizes hsz]
    exact hi
  · rw [hr]
    exact hv

theorem scanOrMineOpt_eq (env : Env K) (i : Nat) (s : Game K) (hs : Sized s)
    (hi : i < s.units.length) :
    scanOrMineOpt env i s = some (scanOrMine env i s) := by
  obtain ⟨l1, l2, l3, l4, l5, l6, l7⟩ := hs.lengths
  unfold scanOrMineOpt scanOrMine
  dsimp only
  simp only [Option.bind_eq_bind, mineOpt_eq env i s hs hi,
    vecSet_nat s.unitAttacking i _ (show i < s.unitAttacking.length by omega),
    vecSet_nat s.unitTargetEnemy i _ (show i < s.unitTargetEnemy.length by omega),
    Option.some_bind]
  split_ifs <;> rfl

theorem acquireOpt_eq (env : Env K) (i : Nat) (s : Game K) (hs : Sized s)
    (hi : i < s.units.length) :
    acquireOpt env i s = some (acquire env i s) := by
  obtain ⟨l1, l2, l3, l4, l5, l6, l7⟩ := hs.lengths
  have h0 : (if s.unitAreaAttack.getD i false = true then areaAcquireOpt env i s else pure s)
      = some (if s.unitAreaAttack.getD i false = true then areaAcquire env i s else s) := by
    split_ifs
    · exact areaAcquireOpt_eq env i s hs hi
    · rfl
  have hsz : tableSizes (if s.unitAreaAttack.getD i false = true then areaAcquire env i s
      else s) = tableSizes s := by
    split_ifs
    · exact areaAcquire_sizes env i s
    · rfl
  unfold acquireOpt acquire
  dsimp only
  rw [vecAt_nat s.unitAreaAttack i false (by omega)]
  simp only [Option.bind_eq_bind, Option.some_bind]
  rw [h0]
  generalize (if s.unitAreaAttack.getD i false = true then areaAcquire env i s else s) = s1
    at hsz
  have hs1 : Sized s1 := Sized.of_sizes hsz hs
  have hi1 : i < s1.units.length := by rw [units_length_of_sizes hsz]; exact hi
  obtain ⟨m1, m2, m3, m4, m5, m6, m7⟩ := hs1.lengths
  simp only [Option.some_bind, vecAt_nat s1.unitAreaAttack i false (by omega),
    vecAt_nat s1.unitAttacking i false (by omega)]
  by_cases ha : s1.unitAreaAttack.getD i false = false
  · rw [if_pos ha]
    by_cases hb : s1.unitAttacking.getD i false = false
    · rw [if_pos hb, if_pos ⟨ha, hb⟩]
      exact scanOrMineOpt_eq env i s1 hs1 hi1
    · rw [if_neg hb, if_neg (fun h => hb h.2)]
      rfl
  · rw [if_neg ha, if_neg (fun h => ha h.1)]
    rfl

theorem targetLostOpt_eq (env : Env K) (i : Nat) (s : Game K) (hs : Sized s)
    (hi : i < s.units.length) :
    targetLostOpt env i s = some (targetLost env i s) := by
  obtain ⟨l1, l2, l3, l4, l5, l6, l7⟩ := hs.lengths
  have hsz : tableSizes (clearCommit i s) = tableSizes s := by
    unfold tableSizes clearCommit
    simp only [List.length_set]
  have hs1 := Sized.of_sizes hsz hs
  have hr := reacquireOpt_eq env i _ hs1 (by rw [units_length_of_sizes hsz]; exact hi)
  rw [targetLost_eq_clear]
  unfold targetLostOpt
  dsimp only
  simp only [Option.bind_eq_bind, Option.some_bind,
    vecSet_nat s.unitAttacking i _ (show i < s.unitAttacking.length by omega),
    vecSet_nat s.unitTargetEnemy i _ (show i < s.unitTargetEnemy.length by omega),
    vecAt_nat s.unitAreaAttack i false (show i < s.unitAreaAttack.length by omega)]
  split_ifs
  · exact hr
  · rfl

theorem approachOrFireOpt_eq (env : Env K) (i : Nat) (ti : Int) (s : Game K)
    (hi : i < s.unitFireTimer.length) (h0 : 0 ≤ ti) (h1 : ti < (s.enemies.length : Int)) :
    approachOrFireOpt env i ti s = some (approachOrFire env i ti s) := by
  unfold approachOrFireOpt approachOrFire Game.setUnit
  dsimp only
  rw [vecAt_of_valid s.enemies ti default h0 h1]
  simp only [Option.bind_eq_bind, Option.some_bind, vecAt_nat s.unitFireTimer i 0 hi,
    vecSet_nat s.unitFireTimer i _ hi]
  split_ifs <;> rfl

theorem engageOpt_eq (env : Env K) (i : Nat) (s : Game K) (hs : Sized s)
    (hi : i < s.units.length) :
    engageOpt env i s = some (engage env i s) := by
  obtain ⟨l1, l2, l3, l4, l5, l6, l7⟩ := hs.lengths
  unfold engageOpt engage
  dsimp only
  rw [vecAt_nat s.unitTargetEnemy i (-1) (by omega)]
  simp only [Option.bind_eq_bind, Option.some_bind]
  by_cases hg : s.unitTargetEnemy.getD i (-1) < 0 ∨
      s.unitTargetEnemy.getD i (-1) ≥ (s.enemies.length : Int)
  · have hc : s.unitTargetEnemy.getD i (-1) < 0 ∨
        s.unitTargetEnemy.getD i (-1) ≥ (s.enemies.length : Int) ∨
        (s.enemies.getD (s.unitTargetEnemy.getD i (-1)).toNat default).alive = false := by
      tauto
    rw [if_pos hg, if_pos hc]
    exact targetLostOpt_eq env i s hs hi
  · rw [if_neg hg]
    push_neg at hg
    rw [vecAt_of_valid s.enemies _ default hg.1 hg.2]
    simp only [Option.some_bind]
    by_cases hal : (s.enemies.getD (s.unitTargetEnemy.getD i (-1)).toNat default).alive = false
    · have hc : s.unitTargetEnemy.getD i (-1) < 0 ∨
          s.unitTargetEnemy.getD i (-1) ≥ (s.enemies.length : Int) ∨
          (s.enemies.getD (s.unitTargetEnemy.getD i (-1)).toNat default).alive = false :=
        Or.inr (Or.inr hal)
      rw [if_pos hal, if_pos hc]
      exact targetLostOpt_eq env i s hs hi
    · have hc : ¬ (s.unitTargetEnemy.getD i (-1) < 0 ∨
          s.unitTargetEnemy.getD i (-1) ≥ (s.enemies.length : Int) ∨
          (s.enemies.getD (s.unitTargetEnemy.getD i (-1)).toNat default).alive = false) := by
        rintro (h | h | h)
        · omega
        · omega
        · exact hal h
      rw [if_neg hal, if_neg hc]
      exact approachOrFireOpt_eq env i _ s (by omega) hg.1 hg.2

theorem woundedAllyFrom_index (env : Env K) (i : Nat) (u : Unit K) (l : List (Unit K))
    (j : Nat) (best : Int × K) :
    (woundedAllyFrom env i u l j best).1 = best.1 ∨
      ((j : Int) ≤ (woundedAllyFrom env i u l j best).1 ∧
        (woundedAllyFrom env i u l j best).1 < ((j + l.length : Nat) : Int)) := by
  induction l generalizing j best with
  | nil => exact Or.inl rfl
  | cons ally rest ih =>
    have hstep : ∀ b : Int × K, (b.1 = best.1 ∨ b.1 = (j : Int)) →
        (woundedAllyFrom env i u rest (j + 1) b).1 = best.1 ∨
        ((j : Int) ≤ (woundedAllyFrom env i u rest (j + 1) b).1 ∧
          (woundedAllyFrom env i u rest (j + 1) b).1
            < ((j + (ally :: rest).length : Nat) : Int)) := by
      intro b hb
      have e : j + (ally :: rest).length = j + 1 + rest.length := by
        rw [List.length_cons]
        omega
      rw [e]
      rcases ih (j + 1) b with h | ⟨h1, h2⟩
      · rcases hb with hb | hb
        · exact Or.inl (h.trans hb)
        · right
          rw [h, hb]
          push_cast
          omega
      · right
        push_cast at h1 h2 ⊢
        omega
    unfold woundedAllyFrom
    dsimp only
    split_ifs
    · exact hstep best (Or.inl rfl)
    · exact hstep best (Or.inl rfl)
    · exact hstep best (Or.inl rfl)
    · exact hstep _ (Or.inr rfl)
    · exact hstep best (Or.inl rfl)

theorem healerSeekOpt_eq (env : Env K) (i : Nat) (s : Game K) (hs : Sized s)
    (hi : i < s.units.length) :
    healerSeekOpt env i s = some (healerSeek env i s) := by
  obtain ⟨l1, l2, l3, l4, l5, l6, l7⟩ := hs.lengths
  unfold healerSeekOpt healerSeek Game.setUnit
  dsimp only
  by_cases hg : (woundedAllyFrom env i (s.unit i) s.units 0 (-1, SENTINEL)).1 ≠ -1 ∧
      (woundedAllyFrom env i (s.unit i) s.units 0 (-1, SENTINEL)).2 ≤ 1000
  · have hidx := woundedAllyFrom_index env i (s.unit i) s.units 0 (-1, SENTINEL)
    rcases hidx with h | ⟨h1, h2⟩
    · exact absurd h hg.1
    · rw [if_pos hg, if_pos hg, vecAt_of_valid s.units _ default (by simpa using h1)
        (by simpa using h2)]
      simp only [Option.bind_eq_bind, Option.some_bind]
      have hunit : ∀ k, s.units.getD k default = s.unit k := fun _ => rfl
      simp only [hunit]
      split_ifs <;>
        simp only [Option.pure_def, Option.some_bind,
          vecSet_nat s.unitAttacking i _ (show i < s.unitAttacking.length by omega),
          vecSet_nat s.unitTargetEnemy i _ (show i < s.unitTargetEnemy.length by omega)]
  · rw [if_neg hg, if_neg hg]
    simp only [Option.bind_eq_bind, Option.pure_def, Option.some_bind,
      vecSet_nat s.unitAttacking i _ (show i < s.unitAttacking.length by omega),
      vecSet_nat s.unitTargetEnemy i _ (show i < s.unitTargetEnemy.length by omega)]

theorem unitUpdateOpt_eq (env : Env K) (dt : K) (i : Nat) (s : Game K) (hs : Sized s)
    (hi : i < s.units.length) :
    unitUpdateOpt env dt i s = some (unitUpdate env dt i s) := by
  unfold unitUpdateOpt unitUpdate unitEngageAndMove
  dsimp only
  rw [vecAt_nat s.units i default hi, tickFireTimerOpt_eq env dt i s
    (by rw [hs.lengths.2.2.1]; exact hi)]
  simp only [Option.bind_eq_bind, Option.some_bind]
  have hz1 := tickFireTimer_sizes env dt i s
  generalize tickFireTimer env dt i s = s1 at hz1
  have hs1 : Sized s1 := Sized.of_sizes hz1 hs
  have hi1 : i < s1.units.length := by rw [units_length_of_sizes hz1]; exact hi
  rw [vecAt_nat s1.unitAttacking i false (by rw [hs1.lengths.1]; exact hi1)]
  simp only [Option.some_bind]
  have h2 : (if s1.unitAttacking.getD i false = false ∧
        (s1.unit i).type ≠ UnitType.UNIT_HEALER then acquireOpt env i s1 else pure s1)
      = some (if s1.unitAttacking.getD i false = false ∧
        (s1.unit i).type ≠ UnitType.UNIT_HEALER then acquire env i s1 else s1) := by
    split_ifs
    · exact acquireOpt_eq env i s1 hs1 hi1
    · rfl
  have hz2 : tableSizes (if s1.unitAttacking.getD i false = false ∧
        (s1.unit i).type ≠ UnitType.UNIT_HEALER then acquire env i s1 else s1)
      = tableSizes s1 := by
    split_ifs
    · exact acquire_sizes env i s1
    · rfl
  rw [h2]
  generalize (if s1.unitAttacking.getD i false = false ∧
    (s1.unit i).type ≠ UnitType.UNIT_HEALER then acquire env i s1 else s1) = s2 at hz2
  have hs2 : Sized s2 := Sized.of_sizes hz2 hs1
  have hi2 : i < s2.units.length := by rw [units_length_of_sizes hz2]; exact hi1
  simp only [Option.some_bind]
  rw [vecAt_nat s2.unitAttacking i false (by rw [hs2.lengths.1]; exact hi2)]
  simp only [Option.some_bind]
  have h3 : (if s2.unitAttacking.getD i false = true then engageOpt env i s2 else pure s2)
      = some (if s2.unitAttacking.getD i false = true then engage env i s2 else s2) := by
    split_ifs
    · exact engageOpt_eq env i s2 hs2 hi2
    · rfl
  have hz3 : tableSizes (if s2.unitAttacking.getD i false = true then engage env i s2 else s2)
      = tableSizes s2 := by
    split_ifs
    · exact engage_sizes env i s2
    · rfl
  rw [h3]
  generalize (if s2.unitAttacking.getD i false = true then engage env i s2 else s2) = s3
    at hz3
  have hs3 : Sized s3 := Sized.of_sizes hz3 hs2
  have hi3 : i < s3.units.length := by rw [units_length_of_sizes hz3]; exact hi2
  simp only [Option.some_bind]
  have h4 : (if (s3.unit i).type = UnitType.UNIT_HEALER then healerSeekOpt env i s3
        else pure s3)
      = some (if (s3.unit i).type = UnitType.UNIT_HEALER then healerSeek env i s3
        else s3) := by
    split_ifs
    · exact healerSeekOpt_eq env i s3 hs3 hi3
    · rfl
  rw [h4]
  rfl

theorem unitPassOpt_eq (env : Env K) (dt : K) (s : Game K) (hs : Sized s) :
    unitPassOpt env dt s = some (unitPass env dt s) := by
  unfold unitPassOpt unitPass
  refine (foldlM_eq_some _ _ (fun acc : Game K => tableSizes acc = tableSizes s)
    (List.range s.units.length) s rfl ?_).1
  intro acc i hi hacc
  have hsa : Sized acc := Sized.of_sizes hacc hs
  have hia : i < acc.units.length := by
    rw [units_length_of_sizes hacc]
    exact List.mem_range.1 hi
  exact ⟨unitUpdateOpt_eq env dt i acc hsa hia, (unitUpdate_sizes env dt i acc).trans hacc⟩

theorem closestUnitFrom_index (env : Env K) (ex ey : K) (l : List (Unit K))
    (h : (closestUnitFrom env ex ey l 0 (-1, SENTINEL)).1 ≥ 0) :
    (closestUnitFrom env ex ey l 0 (-1, SENTINEL)).1 < (l.length : Int) := by
  rcases closestUnitFrom_spec env ex ey l 0 (-1, SENTINEL) with ⟨h1, _⟩ | ⟨k, hk, h1, _⟩
  · rw [h1] at h
    exact absurd h (show ¬ ((-1 : Int) ≥ 0) by decide)
  · rw [h1]
    push_cast
    omega

theorem engagingUnit_index (enemy : EnemyNPC K) (closestUnit : Int) (closestDist distToShip : K)
    (h : engagingUnit enemy closestUnit closestDist distToShip = true) : closestUnit ≥ 0 := by
  unfold engagingUnit at h
  simp only [Bool.and_eq_true, decide_eq_true_eq] at h
  exact h.2.1

theorem enemyAdvanceOpt_eq (env : Env K) (dt : K) (enemy : EnemyNPC K) (closestUnit : Int)
    (closestDist : K) (units : List (Unit K)) (tx ty distToTarget : K)
    (hc : closestUnit ≥ 0 → closestUnit < (units.length : Int)) :
    enemyAdvanceOpt env dt enemy closestUnit closestDist units tx ty distToTarget
      = some (enemyAdvance env dt enemy closestUnit closestDist
          (units.getD closestUnit.toNat default) tx ty distToTarget) := by
  unfold enemyAdvanceOpt enemyAdvance
  split_ifs with h1 h2
  · rw [vecAt_of_valid units closestUnit default h1.2.1 (hc h1.2.1)]
    rfl
  · rfl
  · rfl

theorem enemyStrikeOpt_eq (eUnit eShip : Bool) (closestUnit : Int) (attackDamage : K)
    (s : Game K) (hc : eUnit = true → 0 ≤ closestUnit ∧ closestUnit < (s.units.length : Int)) :
    enemyStrikeOpt eUnit eShip closestUnit attackDamage s
      = some (enemyStrike eUnit eShip closestUnit attackDamage s) := by
  unfold enemyStrikeOpt enemyStrike Game.setUnit
  dsimp only
  by_cases h : eUnit = true
  · obtain ⟨h0, h1⟩ := hc h
    rw [if_pos h, if_pos h, vecAt_of_valid s.units closestUnit default h0 h1]
    simp only [Option.bind_eq_bind, Option.some_bind, vecSet_of_valid s.units closestUnit _ h0 h1]
    rfl
  · rw [if_neg h, if_neg h]
    split_ifs <;> rfl

theorem enemyUpdateOpt_eq (env : Env K) (dt : K) (i : Nat) (s : Game K)
    (hi : i < s.enemies.length) :
    enemyUpdateOpt env dt i s = some (enemyUpdate env dt i s) := by
  unfold enemyUpdateOpt enemyUpdate
  dsimp only
  rw [vecAt_nat s.enemies i default hi]
  simp only [Option.bind_eq_bind, Option.some_bind]
  by_cases hal : (s.enemies.getD i default).alive = false
  · rw [if_pos hal, if_pos hal]
    rfl
  · rw [if_neg hal, if_neg hal]
    have hidx := closestUnitFrom_index env (s.enemies.getD i default).fx
      (s.enemies.getD i default).fy s.units
    generalize closestUnitFrom env (s.enemies.getD i default).fx
      (s.enemies.getD i default).fy s.units 0 (-1, SENTINEL) = c at hidx
    have hu := engagingUnit_index
      { s.enemies.getD i default with
        timeSinceLastAttack := (s.enemies.getD i default).timeSinceLastAttack + dt } c.1 c.2
      (env.sqrtf ((s.playerShip.x - (s.enemies.getD i default).fx)
          * (s.playerShip.x - (s.enemies.getD i default).fx)
        + (s.playerShip.y - (s.enemies.getD i default).fy)
          * (s.playerShip.y - (s.enemies.getD i default).fy)))
    generalize engagingUnit _ c.1 c.2 _ = eUnit at hu
    generalize engagingShip _ c.1 c.2 _ = eShip
    have hunit : s.units.getD c.1.toNat default = s.unit c.1.toNat := rfl
    have htx : ∀ (f : Unit K → K) (d : K),
        (if eUnit = true then (vecAt s.units c.1).map f else pure d)
          = some (if eUnit = true then f (s.unit c.1.toNat) else d) := by
      intro f d
      split_ifs with h
      · rw [vecAt_of_valid s.units c.1 default (hu h) (hidx (hu h))]
        rfl
      · rfl
    by_cases he : (eUnit || eShip) = true
    · rw [if_pos he, if_pos he, htx, htx]
      simp only [Option.some_bind, enemyAdvanceOpt_eq env dt _ c.1 c.2 s.units _ _ _ hidx,
        hunit]
      have hst : ∀ a : K, enemyStrikeOpt eUnit eShip c.1 a s
          = some (enemyStrike eUnit eShip c.1 a s) :=
        fun a => enemyStrikeOpt_eq eUnit eShip c.1 a s (fun h => ⟨hu h, hidx (hu h)⟩)
      have hlen : ∀ a : K, i < (enemyStrike eUnit eShip c.1 a s).enemies.length := by
        intro a
        unfold enemyStrike
        split_ifs <;> exact hi
      split_ifs <;>
        simp only [hst, Option.some_bind, Option.pure_def, vecSet_nat _ i _ (hlen _),
          vecSet_nat s.enemies i _ hi]
    · rw [if_neg he, if_neg he, vecSet_nat s.enemies i _ hi]
      rfl

theorem enemyUpdate_enemies_length (env : Env K) (dt : K) (i : Nat) (s : Game K) :
    (enemyUpdate env dt i s).enemies.length = s.enemies.length := by
  unfold enemyUpdate enemyStrike
  dsimp only
  split_ifs <;> simp only [List.length_set, Game.setUnit]

theorem enemyPassOpt_eq (env : Env K) (dt : K) (s : Game K) :
    enemyPassOpt env dt s = some (enemyPass env dt s) := by
  unfold enemyPassOpt enemyPass
  refine (foldlM_eq_some _ _ (fun acc : Game K => acc.enemies.length = s.enemies.length)
    (List.range s.enemies.length) s rfl ?_).1
  intro acc i hi hacc
  exact ⟨enemyUpdateOpt_eq env dt i acc (by rw [hacc]; exact List.mem_range.1 hi),
    (enemyUpdate_enemies_length env dt i acc).trans hacc⟩

theorem vecAt_none_iff {α : Type} (l : List α) (idx : Int) :
    vecAt l idx = none ↔ idx < 0 ∨ idx ≥ (l.length : Int) := by
  unfold vecAt
  by_cases h : idx < 0
  · simp [h]
  · rw [if_neg h, List.getElem?_eq_none_iff]
    constructor
    · intro h1
      right
      omega
    · rintro (h1 | h1)
      · exact absurd h1 h
      · omega

theorem vecSet_none_iff {α : Type} (l : List α) (idx : Int) (x : α) :
    vecSet l idx x = none ↔ idx < 0 ∨ idx ≥ (l.length : Int) := by
  unfold vecSet
  split_ifs with h
  · exact ⟨fun _ => h, fun _ => rfl⟩
  · exact ⟨fun h1 => h1.elim, fun h1 => absurd h1 h⟩

theorem mineStepOpt_skip (env : Env K) (i : Nat) (s : Game K)
    (h : assignedRockOf i s = -1) : mineStepOpt env i s = some s := by
  unfold mineStepOpt
  simp only [Option.bind_eq_bind, assignedRockOfOpt_eq, Option.some_bind, h]
  rfl

/-- C22: with every index checked, no index is out of bounds.  A checked read `vecAt` or write
`vecSet` has no result exactly when its index is negative or not below the size.  In every
state `s` reached from a state whose per-unit tables have one entry per unit by frames,
purchases, number keys, right clicks and area orders, the tables still have one entry per
unit, and the unit loop, the enemy loop and the rock reassignment with every index checked
have a result, which is the result of the model: no dereference of these passes is out of
bounds.  The same holds for the body of the unit loop in every state with such tables, and
for the body of the enemy loop in every state.  The rock index of a unit after revalidation
is `-1`, and mining is then skipped (the checked mining step returns the state as it is), or
it is the index of a living rock; every index of `aliveRocks` is one; every entry of the
captured list that the acquisition or the re-acquisition leaves is an index of a living
enemy, and an index into `used`; and the `closestUnit` of an enemy that engages a unit, or
avoids one, is an index of a unit. -/
theorem indices_in_bounds (env : Env K) (s0 s : Game K) (h0 : Sized s0)
    (hreach : Relation.ReflTransGen (PlayStep env) s0 s) :
    (∀ (α : Type) (l : List α) (idx : Int) (x : α),
      (vecAt l idx = none ↔ idx < 0 ∨ idx ≥ (l.length : Int)) ∧
      (vecSet l idx x = none ↔ idx < 0 ∨ idx ≥ (l.length : Int))) ∧
    (Sized s ∧
      (∀ dt : K, unitPassOpt env dt s = some (unitPass env dt s) ∧
        enemyPassOpt env dt s = some (enemyPass env dt s)) ∧
      recomputeRockAssignmentsOpt env s = some (recomputeRockAssignments env s)) ∧
    (∀ (s1 : Game K) (dt : K) (i : Nat),
      (Sized s1 → i < s1.units.length →
        unitUpdateOpt env dt i s1 = some (unitUpdate env dt i s1) ∧
        Sized (unitUpdate env dt i s1)) ∧
      (i < s1.enemies.length →
        enemyUpdateOpt env dt i s1 = some (enemyUpdate env dt i s1) ∧
        (enemyUpdate env dt i s1).enemies.length = s1.enemies.length ∧
        tableSizes (enemyUpdate env dt i s1) = tableSizes s1)) ∧
    (∀ (s1 : Game K) (i : Nat), Sized s1 → i < s1.units.length →
      revalidateRockOpt env i s1 = some (revalidateRock env i s1) ∧
      mineStepOpt env i (revalidateRock env i s1)
        = some (mineStep env i (revalidateRock env i s1)) ∧
      ((assignedRockOf i (revalidateRock env i s1) = -1 ∧
          mineStepOpt env i (revalidateRock env i s1) = some (revalidateRock env i s1)) ∨
        ∃ r, vecAt (revalidateRock env i s1).rocks
            (assignedRockOf i (revalidateRock env i s1)) = some r ∧ r.alive = true)) ∧
    (∀ (s1 : Game K) (ri : Nat), ri ∈ aliveRocks s1.rocks →
      ∃ r, vecAt s1.rocks (ri : Int) = some r ∧ r.alive = true) ∧
    (∀ (s1 : Game K) (i : Nat) (t : Int),
      (t ∈ (areaAcquire env i s1).unitAreaTargets.getD i [] ∨
        t ∈ (reacquire env i s1).unitAreaTargets.getD i []) →
      (∃ e, vecAt s1.enemies t = some e ∧ e.alive = true) ∧
      ∃ b, vecAt (claimedByOthers s1 i) t = some b) ∧
    (∀ (s1 : Game K) (e : EnemyNPC K),
      (enemyEngagesUnit env e s1 = true ∨ EnemyAvoids env e s1) →
      ∃ u, vecAt s1.units (enemyClosest env e s1).1 = some u) := by
  have hs := reachable_sized env s0 s h0 hreach
  refine ⟨fun α l idx x => ⟨vecAt_none_iff l idx, vecSet_none_iff l idx x⟩,
    ⟨hs, fun dt => ⟨unitPassOpt_eq env dt s hs, enemyPassOpt_eq env dt s⟩,
      recomputeRockAssignmentsOpt_eq env s hs.lengths.2.2.2.2.2.2⟩,
    fun s1 dt i => ⟨fun h1 hi => ⟨unitUpdateOpt_eq env dt i s1 h1 hi,
        Sized.of_sizes (unitUpdate_sizes env dt i s1) h1⟩,
      fun hi => ⟨enemyUpdateOpt_eq env dt i s1 hi, enemyUpdate_enemies_length env dt i s1,
        enemyUpdate_sizes env dt i s1⟩⟩, ?_, ?_, ?_, ?_⟩
  · intro s1 i h1 hi
    obtain ⟨hr, hv⟩ := revalidateRock_valid env i s1 hi
    have hsz := revalidateRock_sizes env i s1
    have hs1 : Sized (revalidateRock env i s1) := Sized.of_sizes hsz h1
    have hv1 : ValidRock (revalidateRock env i s1).rocks
        (assignedRockOf i (revalidateRock env i s1)) := by
      rw [hr]
      exact hv
    refine ⟨revalidateRockOpt_eq env i s1 h1, mineStepOpt_eq env i _ ?_ hv1, ?_⟩
    · rw [hs1.lengths.2.2.1, units_length_of_sizes hsz]
      exact hi
    · rcases validRock_vecAt _ _ hv1 with h | h
      · exact Or.inl ⟨h, mineStepOpt_skip env i _ h⟩
      · exact Or.inr h
  · intro s1 ri hri
    obtain ⟨h1, h2⟩ := (mem_aliveRocks s1.rocks ri).1 hri
    exact ⟨s1.rocks.getD ri default, vecAt_nat s1.rocks ri default h1, h2⟩
  · intro s1 i t ht
    apply pruned_entries s1 i t
    rcases ht with ht | ht
    · rw [(areaAcquire_list env i s1).2] at ht
      exact ht
    · rw [(reacquire_list env i s1).2] at ht
      exact ht
  · intro s1 e he
    apply closest_valid
    rcases he with he | he
    · exact ((enemyEngagesUnit_iff env e s1).1 he).2.2.1
    · exact he.2.1

set_option maxRecDepth 1000000 in
unseal Rat.add Rat.mul Rat.inv Rat.sub in
/-- The statement of `indices_in_bounds` at the state that one frame of 0.2 s makes of
`duelGame`: the unit loop with every index checked has a result there.  The checks are real:
without the entry of the rifleman in the fire-timer table the checked unit loop has no
result, and with a rock index 7 in a game of three rocks the checked mining step has
none. -/
theorem indices_in_bounds_witness :
    Sized duelGame ∧
    Relation.ReflTransGen (PlayStep evalEnv) duelGame (simFrame evalEnv duelInput duelGame) ∧
    unitPassOpt evalEnv (1 / 5) (simFrame evalEnv duelInput duelGame)
      = some (unitPass evalEnv (1 / 5) (simFrame evalEnv duelInput duelGame)) ∧
    (unitPassOpt evalEnv (1 / 5) (simFrame evalEnv duelInput duelGame)).isSome = true ∧
    (unitPassOpt evalEnv (1 / 5) { duelGame with unitFireTimer := [] }).isSome = false ∧
    (mineStepOpt evalEnv 0 { miningGame with unitAssignedRock := [7, -1, -1] }).isSome
      = false := by
  have h0 : Sized duelGame := by
    unfold Sized
    decide
  have hr : Relation.ReflTransGen (PlayStep evalEnv) duelGame
      (simFrame evalEnv duelInput duelGame) :=
    Relation.ReflTransGen.single (Or.inl ⟨duelInput, rfl⟩)
  have T := indices_in_bounds evalEnv duelGame (simFrame evalEnv duelInput duelGame) h0 hr
  exact ⟨h0, hr, (T.2.1.2.1 (1 / 5)).1, by decide, by decide, by decide⟩

end Theorems

end Starfall
